import Mathlib

/-!
# softhddevice: audio frame detectors, PES and transport-stream demultiplexer

A shallow embedding of the stream-parsing core of `softhddev.c`.

* A byte is a `Fin 256`; a C pointer `const uint8_t *` is the view of memory
  from that address, a function from offsets to bytes, so that `data + k`
  and reads past a caller-supplied `size` keep the meaning they have in C.
* C `int` values that are returned to a caller and may be negative are `Int`;
  indices and counters that the code keeps non-negative are `Nat`.
* `abort()`, an out-of-range table index and a division by zero end a
  function without a result: the function returns `none`.
-/

namespace SoftHdDevice

/-- One octet of stream data. -/
abbrev Byte := Fin 256

/-- Memory seen from a `const uint8_t *`: offset to byte. -/
abbrev Ptr := Nat → Byte

/-- Pointer arithmetic `p + k`. -/
def Ptr.add (p : Ptr) (k : Nat) : Ptr := fun i => p (k + i)

/-- Pointer to the bytes of a list; offsets past its end read as zero. -/
def Ptr.ofList (l : List Byte) : Ptr := fun i => l.getD i 0

/-- The `n` bytes `p[0 .. n)`. -/
def Ptr.bytes (p : Ptr) (n : Nat) : List Byte := (List.range n).map p

/-! ## Audio codec parser (softhddev.c, lines 92-425) -/

/-- Mpeg bitrate table, `BitRateTable[Version][Layer][Index]`. -/
def BitRateTable : List (List (List Nat)) :=
  [ -- MPEG Version 1
    [ [0, 0, 0, 0, 0, 0, 0, 0, 0, 0, 0, 0, 0, 0, 0, 0],
      [0, 32, 64, 96, 128, 160, 192, 224, 256, 288, 320, 352, 384, 416, 448, 0],
      [0, 32, 48, 56, 64, 80, 96, 112, 128, 160, 192, 224, 256, 320, 384, 0],
      [0, 32, 40, 48, 56, 64, 80, 96, 112, 128, 160, 192, 224, 256, 320, 0] ],
    -- MPEG Version 2 & 2.5
    [ [0, 0, 0, 0, 0, 0, 0, 0, 0, 0, 0, 0, 0, 0, 0, 0],
      [0, 32, 48, 56, 64, 80, 96, 112, 128, 144, 160, 176, 192, 224, 256, 0],
      [0, 8, 16, 24, 32, 40, 48, 56, 64, 80, 96, 112, 128, 144, 160, 0],
      [0, 8, 16, 24, 32, 40, 48, 56, 64, 80, 96, 112, 128, 144, 160, 0] ] ]

/-- Mpeg samplerate table. -/
def SampleRateTable : List Nat := [44100, 48000, 32000, 0]

/-- Fast check for Mpeg audio: 4 bytes 0xFFExxxxx. -/
def FastMpegCheck (p : Ptr) : Bool :=
  if (p 0).val ≠ 0xFF then false                  -- 11bit frame sync
  else if (p 1).val &&& 0xE0 ≠ 0xE0 then false
  else if (p 1).val &&& 0x18 = 0x08 then false    -- version ID - 01 reserved
  else if (p 1).val &&& 0x06 = 0 then false       -- layer description - 00 reserved
  else if (p 2).val &&& 0xF0 = 0xF0 then false    -- bitrate index - 1111 reserved
  else if (p 2).val &&& 0x0C = 0x0C then false    -- sampling rate index - 11 reserved
  else true

/-- The header fields `MpegCheck` extracts from bytes 1 and 2. -/
structure MpegHeader where
  mpeg2 : Nat
  mpeg25 : Nat
  layer : Nat
  bit_rate_index : Nat
  sample_rate_index : Nat
  padding : Nat

/-- Field extraction at the top of `MpegCheck` (softhddev.c, lines 189-194). -/
def MpegFields (data : Ptr) : MpegHeader :=
  { mpeg2 := if (data 1).val &&& 0x08 = 0 ∧ (data 1).val &&& 0x10 ≠ 0 then 1 else 0
    mpeg25 := if (data 1).val &&& 0x08 = 0 ∧ (data 1).val &&& 0x10 = 0 then 1 else 0
    layer := 4 - (((data 1).val >>> 1) &&& 0x03)
    bit_rate_index := ((data 2).val >>> 4) &&& 0x0F
    sample_rate_index := ((data 2).val >>> 2) &&& 0x03
    padding := ((data 2).val >>> 1) &&& 0x01 }

/-- The `switch (layer)` of `MpegCheck` (softhddev.c, lines 211-222): frame
length in bytes, layer I or layers II and III. -/
def MpegFrameLen (layer padding bit_rate sample_rate : Nat) : Nat :=
  if layer = 1 then ((12 * bit_rate) / sample_rate + padding) * 4
  else (144 * bit_rate) / sample_rate + padding

/-- Check for Mpeg audio.  `some r` with `r < 0`: possible mpeg audio, but
need more data; `some 0`: no valid mpeg audio; `some r` with `r > 0`: valid
mpeg audio.  `none`: the function does not return (`abort()`, table index out
of range, division by zero). -/
def MpegCheck (data : Ptr) (size : Int) : Option Int :=
  let h := MpegFields data
  match SampleRateTable[h.sample_rate_index]? with
  | none => none
  | some sr0 =>
    if sr0 = 0 then none                          -- abort()
    else
      let sample_rate := (sr0 >>> h.mpeg2) >>> h.mpeg25
      match (BitRateTable[h.mpeg2 ||| h.mpeg25]?).bind
          (fun t => (t[h.layer]?).bind (fun row => row[h.bit_rate_index]?)) with
      | none => none
      | some br0 =>
        if br0 = 0 then some 0                    -- no valid bit-rate try next
        else if sample_rate = 0 then none
        else
          let bit_rate := br0 * 1000
          let frame_size := MpegFrameLen h.layer h.padding bit_rate sample_rate
          if (frame_size : Int) + 4 > size then some (-(frame_size : Int) - 4)
          else if FastMpegCheck (data.add frame_size) then some (frame_size : Int)
          else some 0

/-- Fast check for AAC LATM audio: 3 bytes 0x56Exxx. -/
def FastLatmCheck (p : Ptr) : Bool :=
  if (p 0).val ≠ 0x56 then false                  -- 11bit sync
  else if (p 1).val &&& 0xE0 ≠ 0xE0 then false
  else true

/-- Frame size computed by `LatmCheck`: 13 bit frame size plus 3 header bytes. -/
def LatmFrameSize (data : Ptr) : Nat :=
  ((((data 1).val &&& 0x1F) <<< 8) + (data 2).val) + 3

/-- Check for AAC LATM audio. -/
def LatmCheck (data : Ptr) (size : Int) : Int :=
  let frame_size := LatmFrameSize data
  if (frame_size : Int) + 2 > size then -(frame_size : Int) - 2
  else if FastLatmCheck (data.add frame_size) then (frame_size : Int)
  else 0

/-- Possible AC3 frame sizes, from ATSC A/52 table 5.18 frame size code table. -/
def Ac3FrameSizeTable : List (List Nat) :=
  [ [64, 69, 96], [64, 70, 96], [80, 87, 120], [80, 88, 120],
    [96, 104, 144], [96, 105, 144], [112, 121, 168], [112, 122, 168],
    [128, 139, 192], [128, 140, 192], [160, 174, 240], [160, 175, 240],
    [192, 208, 288], [192, 209, 288], [224, 243, 336], [224, 244, 336],
    [256, 278, 384], [256, 279, 384], [320, 348, 480], [320, 349, 480],
    [384, 417, 576], [384, 418, 576], [448, 487, 672], [448, 488, 672],
    [512, 557, 768], [512, 558, 768], [640, 696, 960], [640, 697, 960],
    [768, 835, 1152], [768, 836, 1152], [896, 975, 1344], [896, 976, 1344],
    [1024, 1114, 1536], [1024, 1115, 1536], [1152, 1253, 1728],
    [1152, 1254, 1728], [1280, 1393, 1920], [1280, 1394, 1920] ]

/-- Fast check for AC3 audio: 5 bytes 0x0B77xxxxxx. -/
def FastAc3Check (p : Ptr) : Bool :=
  if (p 0).val ≠ 0x0B then false                  -- 16bit sync
  else if (p 1).val ≠ 0x77 then false
  else if (p 4).val &&& 0xC0 = 0xC0 then false    -- invalid sample rate
  else if (p 4).val &&& 0x3F > 37 then false      -- invalid frame size
  else true

/-- Table read `Ac3FrameSizeTable[frmsizcod][fscod] * 2` of `Ac3Check`;
`none` when an index leaves the 38x3 table. -/
def Ac3FrameSize (data : Ptr) : Option Nat :=
  let fscod := (data 4).val >>> 6
  let frmsizcod := (data 4).val &&& 0x3F
  ((Ac3FrameSizeTable[frmsizcod]?).bind (fun row => row[fscod]?)).map (fun w => w * 2)

/-- Check for AC-3 audio. -/
def Ac3Check (data : Ptr) (size : Int) : Option Int :=
  match Ac3FrameSize data with
  | none => none
  | some frame_size =>
    if (frame_size : Int) + 5 > size then some (-(frame_size : Int) - 5)
    else if FastAc3Check (data.add frame_size) then some (frame_size : Int)
    else some 0

/-- Fast check for ADTS Audio Data Transport Stream: 0xFFFxxxxxxxxxxx. -/
def FastAdtsCheck (p : Ptr) : Bool :=
  if (p 0).val ≠ 0xFF then false                  -- 12bit sync
  else if (p 1).val &&& 0xF6 ≠ 0xF0 then false    -- sync + layer must be 0
  else if (p 2).val &&& 0x3C = 0x3C then false    -- sampling frequency index != 15
  else true

/-- The 13 bit frame length `AdtsCheck` reads from header bytes 3, 4 and 5. -/
def AdtsFrameSize (data : Ptr) : Nat :=
  ((((data 3).val &&& 0x03) <<< 11) ||| (((data 4).val &&& 0xFF) <<< 3))
    ||| (((data 5).val &&& 0xE0) >>> 5)

/-- Check for ADTS Audio Data Transport Stream. -/
def AdtsCheck (data : Ptr) (size : Int) : Int :=
  if size < 6 then -6
  else
    let frame_size := AdtsFrameSize data
    if (frame_size : Int) + 3 > size then -(frame_size : Int) - 3
    else if FastAdtsCheck (data.add frame_size) then (frame_size : Int)
    else 0

/-- Table entry `Ac3FrameSizeTable[c][f]`, in 16-bit words. -/
def Ac3TableEntry (c f : Nat) : Nat := (Ac3FrameSizeTable.getD c []).getD f 0

/-- Table bit rate `BitRateTable[mpeg2 | mpeg25][layer][bit_rate_index]` of the
header, in kbit/s (0 when an index is out of range). -/
def MpegTableBitRate (data : Ptr) : Nat :=
  ((BitRateTable.getD ((MpegFields data).mpeg2 ||| (MpegFields data).mpeg25) []).getD
    (MpegFields data).layer []).getD (MpegFields data).bit_rate_index 0

/-- Sample rate `MpegCheck` divides by: the table entry after both shifts. -/
def MpegSampleRate (data : Ptr) : Nat :=
  ((SampleRateTable.getD (MpegFields data).sample_rate_index 0)
    >>> (MpegFields data).mpeg2) >>> (MpegFields data).mpeg25

/-- Frame length `MpegCheck` computes for a header with a non-zero bit rate. -/
def MpegFrameSize (data : Ptr) : Nat :=
  MpegFrameLen (MpegFields data).layer (MpegFields data).padding
    (MpegTableBitRate data * 1000) (MpegSampleRate data)

/-! ### The MPEG audio frame length as the specification words it -/

/-- Version bits of the header (3 = MPEG-1, 2 = MPEG-2, 0 = MPEG 2.5). -/
def MpegSpecVersion (data : Ptr) : Nat := (data 1).val / 8 % 4

/-- Layer number (1, 2 or 3) of the header. -/
def MpegSpecLayer (data : Ptr) : Nat := 4 - (data 1).val / 2 % 4

/-- Specification value `B = 1000 * BitRateTable[version][layer][bit-rate index]`,
with table 0 for MPEG-1 and table 1 otherwise. -/
def MpegSpecBitRate (data : Ptr) : Nat :=
  1000 * ((BitRateTable.getD (if MpegSpecVersion data = 3 then 0 else 1) []).getD
    (MpegSpecLayer data) []).getD ((data 2).val / 16) 0

/-- Specification value `S = SampleRateTable[rate index]`, halved for MPEG-2. -/
def MpegSpecSampleRate (data : Ptr) : Nat :=
  if MpegSpecVersion data = 2 then SampleRateTable.getD ((data 2).val / 4 % 4) 0 / 2
  else SampleRateTable.getD ((data 2).val / 4 % 4) 0

/-- Specification value `F = (12*B/S + padding)*4` for layer I and
`144*B/S + padding` for layers II and III, with integer division. -/
def MpegSpecFrameLen (data : Ptr) : Nat :=
  if MpegSpecLayer data = 1 then
    (12 * MpegSpecBitRate data / MpegSpecSampleRate data + (data 2).val / 2 % 2) * 4
  else 144 * MpegSpecBitRate data / MpegSpecSampleRate data + (data 2).val / 2 % 2

/-! ## PES timestamps -/

/-- The PES timestamp expression on the five bytes `data[i .. i+4]`
(softhddev.c, lines 731-734 and 744-746 in `PesParse`, 1004-1006 in
`PlayAudio`, 1763-1765 in `PlayVideo`):
`(int64_t) (data[i] & 0x0E) << 29 | data[i+1] << 22 | (data[i+2] & 0xFE) << 14
 | data[i+3] << 7 | (data[i+4] & 0xFE) >> 1`. -/
def PesTimestamp (data : Ptr) (i : Nat) : Int :=
  (((((((data i).val &&& 0x0E) <<< 29) ||| ((data (i + 1)).val <<< 22))
      ||| (((data (i + 2)).val &&& 0xFE) <<< 14)) ||| ((data (i + 3)).val <<< 7))
      ||| (((data (i + 4)).val &&& 0xFE) >>> 1) : Nat)

/-- The standard 5-byte packing of a 33-bit timestamp `v`, with a 4-bit prefix
and three marker bits, as the specification writes it. -/
def PesTimestampBytes (pre m0 m1 m2 v : Nat) : List Byte :=
  [ Fin.ofNat (((pre <<< 4) ||| ((v >>> 30 &&& 0x07) <<< 1)) ||| m0),
    Fin.ofNat (v >>> 22 &&& 0xFF),
    Fin.ofNat (((v >>> 15 &&& 0x7F) <<< 1) ||| m1),
    Fin.ofNat (v >>> 7 &&& 0xFF),
    Fin.ofNat (((v &&& 0x7F) <<< 1) ||| m2) ]

/-! ## PES demultiplexer (softhddev.c, lines 429-842) -/

/-- Codec identifiers of the decoder library that the plugin names. -/
inductive CodecID where
  | NONE | MPEG2VIDEO | H264 | HEVC | MP2 | AC3 | EAC3 | DTS | AAC | AAC_LATM | PCM_DVD
  deriving DecidableEq, Repr

/-- The library's "no timestamp" value, `INT64_MIN`. -/
def AV_NOPTS_VALUE : Int := -9223372036854775808

/-- PES packet type of private stream 1. -/
def PES_PRIVATE_STREAM1 : Nat := 0xBD

/-- PES parser state. -/
inductive PesState where
  | PES_INIT          -- unknown codec
  | PES_SKIP          -- skip packet
  | PES_SYNC          -- search packet sync byte
  | PES_HEADER        -- copy header
  | PES_START         -- pes packet start found
  | PES_PAYLOAD       -- copy payload
  | PES_LPCM_HEADER   -- copy lcpm header
  | PES_LPCM_PAYLOAD  -- copy lcpm payload
  deriving DecidableEq, Repr

/-- Size of pes start code with length. -/
def PES_START_CODE_SIZE : Nat := 6
/-- Size of pes header. -/
def PES_HEADER_SIZE : Nat := 9
/-- Maximal header size. -/
def PES_MAX_HEADER_SIZE : Nat := PES_HEADER_SIZE + 256
/-- Max pay load size. -/
def PES_MAX_PAYLOAD : Nat := 512 * 1024

/-- PES demuxer (`struct _pes_demux_`).  `Header` and `Buffer` are the byte
arrays, as maps from index to byte. -/
structure PesDemux where
  State : PesState
  Header : Ptr
  HeaderIndex : Nat
  HeaderSize : Nat
  Buffer : Ptr
  Index : Nat
  Skip : Nat
  Size : Nat
  StartCode : Nat
  PTS : Int
  DTS : Int

/-- Result of `memcpy (dst + idx, src, n)` on the array `dst`. -/
def memcpy (dst : Ptr) (idx : Nat) (src : Ptr) (n : Nat) : Ptr :=
  fun i => if idx ≤ i ∧ i < idx + n then src (i - idx) else dst i

/-- Reset packetized elementary stream demuxer. -/
def PesReset (pesdx : PesDemux) : PesDemux :=
  { pesdx with
    State := PesState.PES_INIT
    Index := 0
    Skip := 0
    StartCode := 255          -- `-1` stored in a `uint8_t`
    PTS := AV_NOPTS_VALUE
    DTS := AV_NOPTS_VALUE }

/-- Initialize a packetized elementary stream demuxer; `buffer` is the content
of the freshly allocated payload buffer. -/
def PesInit (buffer : Ptr) : PesDemux :=
  PesReset
    { State := PesState.PES_INIT
      Header := fun _ => 0
      HeaderIndex := 0
      HeaderSize := 0
      Buffer := buffer
      Index := 0
      Skip := 0
      Size := PES_MAX_PAYLOAD
      StartCode := 0
      PTS := 0
      DTS := 0 }

/-- An audio packet handed to `CodecAudioDecode`: the `size` bytes at `data`
with the two timestamps. -/
structure AVPacket where
  data : List Byte
  pts : Int
  dts : Int
  deriving DecidableEq

/-- Calls made on the external audio decoder. -/
inductive AudioCall where
  | close                        -- `CodecAudioClose (MyAudioDecoder)`
  | openCodec (id : CodecID)     -- `CodecAudioOpen (MyAudioDecoder, NULL, id)`
  | decode (avpkt : AVPacket)    -- `CodecAudioDecode (MyAudioDecoder, avpkt)`
  deriving DecidableEq

/-- The file-scope state `PesParse` works on: the audio demuxer
`PesDemuxAudio`, the current codec id, and the log of decoder calls, oldest
first. -/
structure PesCtx where
  pesdx : PesDemux
  AudioCodecID : CodecID
  calls : List AudioCall

/-- The packets passed to `CodecAudioDecode`, in call order. -/
def decodedFrames : List AudioCall → List AVPacket
  | [] => []
  | AudioCall.decode pkt :: rest => pkt :: decodedFrames rest
  | _ :: rest => decodedFrames rest

/-- The "copy remaining bytes down" block (softhddev.c, lines 546-548 and
558-560). -/
def PesCompact (pesdx : PesDemux) : PesDemux :=
  { pesdx with
    Index := pesdx.Index - pesdx.Skip
    Buffer := memcpy pesdx.Buffer 0 (pesdx.Buffer.add pesdx.Skip) (pesdx.Index - pesdx.Skip)
    Skip := 0 }

/-- The statements of `PesParse` before its loop (softhddev.c, lines 543-561). -/
def PesParseEntry (pesdx : PesDemux) (is_start : Bool) : PesDemux :=
  let pesdx1 :=
    if is_start then
      { (if pesdx.Index ≠ 0 ∧ pesdx.Skip ≠ 0 then PesCompact pesdx else pesdx) with
        State := PesState.PES_SYNC
        HeaderIndex := 0
        PTS := AV_NOPTS_VALUE
        DTS := AV_NOPTS_VALUE }
    else pesdx
  -- cleanup, if too much cruft
  if pesdx1.Skip > PES_MAX_PAYLOAD / 2 then PesCompact pesdx1 else pesdx1

/-- The four detector calls at one buffer position (softhddev.c, lines
614-630): the result `r` and the codec id assigned with it.  `codec_id` is
not initialised in C; it is only read when `r > 0`, after an assignment. -/
def PesDetect (q : Ptr) (n : Int) : Option (Int × CodecID) :=
  match (if FastMpegCheck q then (MpegCheck q n).map (fun r => (r, CodecID.MP2))
         else some (0, CodecID.NONE)) with
  | none => none
  | some (r1, c1) =>
    match (if r1 = 0 ∧ FastAc3Check q then (Ac3Check q n).map (fun r => (r, CodecID.AC3))
           else some (r1, c1)) with
    | none => none
    | some (r2, c2) =>
      let rc3 : Int × CodecID :=
        if r2 = 0 ∧ FastLatmCheck q then (LatmCheck q n, CodecID.AAC_LATM) else (r2, c2)
      let rc4 : Int × CodecID :=
        if rc3.1 = 0 ∧ FastAdtsCheck q then (AdtsCheck q n, CodecID.AAC) else rc3
      some rc4

/-- The decoder calls for one detected frame (softhddev.c, lines 637-650). -/
def PesEmit (ctx : PesCtx) (r : Nat) (codec_id : CodecID) : PesCtx :=
  let calls1 :=
    if ctx.AudioCodecID ≠ codec_id then
      ctx.calls ++ [AudioCall.close, AudioCall.openCodec codec_id]
    else ctx.calls
  { pesdx := { ctx.pesdx with
      PTS := AV_NOPTS_VALUE
      DTS := AV_NOPTS_VALUE
      Skip := ctx.pesdx.Skip + r }
    AudioCodecID := codec_id
    calls := calls1 ++ [AudioCall.decode
      { data := (ctx.pesdx.Buffer.add ctx.pesdx.Skip).bytes r
        pts := ctx.pesdx.PTS
        dts := ctx.pesdx.DTS }] }

/-- The scan loop `while (n >= 5)` (softhddev.c, lines 602-668), with
`q = Buffer + Skip`; the first argument is `n`. -/
def PesScan : Nat → PesCtx → Option PesCtx
  | 0, ctx => some ctx
  | n + 1, ctx =>
    if n + 1 ≥ 5 then
      match PesDetect (ctx.pesdx.Buffer.add ctx.pesdx.Skip) ((n + 1 : Nat) : Int) with
      | none => none
      | some (r, codec_id) =>
        if r < 0 then some ctx                       -- need more bytes
        else if r > 0 then some (PesEmit ctx r.toNat codec_id)
        else                                          -- try next byte
          PesScan n { ctx with pesdx := { ctx.pesdx with Skip := ctx.pesdx.Skip + 1 } }
    else some ctx

/-- State of the `do ... while (size > 0)` loop of `PesParse`: the file-scope
state, the offset of `p` from `data`, and the bytes left. -/
structure PesLoop where
  ctx : PesCtx
  p : Nat
  size : Nat

/-- How one pass through the `switch` ends. -/
inductive PesIterResult where
  | next (s : PesLoop)    -- `break`: go on to the loop test
  | ret (s : PesLoop)     -- `return`

/-- The clamp `n = limit; if (n > size) n = size;`. -/
def clampSize (limit size : Nat) : Nat := if limit > size then size else limit

/-- One pass through the `switch (pesdx->State)` of `PesParse`; `data` is the
parameter of `PesParse`.  `none`: a detector did not return. -/
def PesIter (data : Ptr) (s : PesLoop) : Option PesIterResult :=
  let pesdx := s.ctx.pesdx
  match pesdx.State with
  | PesState.PES_SKIP => some (PesIterResult.ret s)          -- skip this packet
  | PesState.PES_START | PesState.PES_INIT =>                -- find start of audio packet
    -- fill buffer
    let n := clampSize (pesdx.Size - pesdx.Index) s.size
    let pesdx1 : PesDemux :=
      { pesdx with
        Buffer := memcpy pesdx.Buffer pesdx.Index (data.add s.p) n
        Index := pesdx.Index + n }
    match PesScan (pesdx1.Index - pesdx1.Skip) { s.ctx with pesdx := pesdx1 } with
    | none => none
    | some ctx2 => some (PesIterResult.next { ctx := ctx2, p := s.p + n, size := s.size - n })
  | PesState.PES_SYNC =>                                     -- wait for pes sync
    let n := clampSize (PES_START_CODE_SIZE - pesdx.HeaderIndex) s.size
    let pesdx1 : PesDemux :=
      { pesdx with
        Header := memcpy pesdx.Header pesdx.HeaderIndex (data.add s.p) n
        HeaderIndex := pesdx.HeaderIndex + n }
    -- have complete packet start code
    if pesdx1.HeaderIndex ≥ PES_START_CODE_SIZE then
      -- bad mpeg pes packet start code prefix 0x00001xx
      if (pesdx1.Header 0).val ≠ 0 ∨ (pesdx1.Header 1).val ≠ 0
          ∨ (pesdx1.Header 2).val ≠ 0x01 then
        some (PesIterResult.ret
          { ctx := { s.ctx with pesdx := { pesdx1 with State := PesState.PES_SKIP } }
            p := s.p + n, size := s.size - n })
      else
        let code := (pesdx1.Header 3).val
        let pesdx2 : PesDemux :=
          if code ≠ pesdx1.StartCode then { pesdx1 with StartCode := code } else pesdx1
        some (PesIterResult.next
          { ctx := { s.ctx with pesdx :=
              { pesdx2 with State := PesState.PES_HEADER, HeaderSize := PES_HEADER_SIZE } }
            p := s.p + n, size := s.size - n })
    else
      some (PesIterResult.next
        { ctx := { s.ctx with pesdx := pesdx1 }, p := s.p + n, size := s.size - n })
  | PesState.PES_HEADER =>                                   -- parse PES header
    let n := clampSize (pesdx.HeaderSize - pesdx.HeaderIndex) s.size
    let pesdx1 : PesDemux :=
      { pesdx with
        Header := memcpy pesdx.Header pesdx.HeaderIndex (data.add s.p) n
        HeaderIndex := pesdx.HeaderIndex + n }
    -- have header upto size bits
    if pesdx1.HeaderIndex = PES_HEADER_SIZE then
      if (pesdx1.Header 6).val &&& 0xC0 = 0x80 then
        some (PesIterResult.next
          { ctx := { s.ctx with pesdx :=
              { pesdx1 with HeaderSize := pesdx1.HeaderSize + (pesdx1.Header 8).val } }
            p := s.p + n, size := s.size - n })
      else
        some (PesIterResult.ret
          { ctx := { s.ctx with pesdx := { pesdx1 with State := PesState.PES_SKIP } }
            p := s.p + n, size := s.size - n })
    -- have complete header
    else if pesdx1.HeaderIndex = pesdx1.HeaderSize then
      let pesdx2 : PesDemux :=
        if (pesdx1.Header 7).val &&& 0xC0 = 0x80 then
          { pesdx1 with PTS := PesTimestamp data 9 }
        else if (pesdx1.Header 7).val &&& 0xC0 = 0xC0 then
          { pesdx1 with PTS := PesTimestamp data 9, DTS := PesTimestamp data 14 }
        else pesdx1
      let pesdx3 : PesDemux :=
        -- only private stream 1, has sub streams
        if pesdx2.StartCode = PES_PRIVATE_STREAM1 then
          { pesdx2 with State := PesState.PES_START }
        else { pesdx2 with State := PesState.PES_INIT }
      some (PesIterResult.next
        { ctx := { s.ctx with pesdx := pesdx3 }, p := s.p + n, size := s.size - n })
    else
      some (PesIterResult.next
        { ctx := { s.ctx with pesdx := pesdx1 }, p := s.p + n, size := s.size - n })
  | _ => some (PesIterResult.next s)                         -- no `case` for these states

/-- Outcome of running code that may abort or may not stop. -/
inductive Run (α : Type) where
  | returned (a : α)    -- the function returned
  | aborted             -- `abort()` or an access outside a table
  | unfinished          -- still running when the step budget ran out

/-- The `do ... while (size > 0)` loop of `PesParse`, run for at most `fuel`
passes. -/
def PesRun (data : Ptr) : Nat → PesLoop → Run PesCtx
  | 0, _ => Run.unfinished
  | fuel + 1, s =>
    match PesIter data s with
    | none => Run.aborted
    | some (PesIterResult.ret s1) => Run.returned s1.ctx
    | some (PesIterResult.next s1) =>
      if s1.size > 0 then PesRun data fuel s1 else Run.returned s1.ctx

/-- Parse packetized elementary stream: `PesParse (pesdx, data, size,
is_start)`, with at most `fuel` passes through its loop. -/
def PesParse (fuel : Nat) (ctx : PesCtx) (data : Ptr) (size : Nat) (is_start : Bool) :
    Run PesCtx :=
  PesRun data fuel
    { ctx := { ctx with pesdx := PesParseEntry ctx.pesdx is_start }, p := 0, size := size }

/-- The loop state a pass through the `switch` ends in. -/
def PesIterResult.state : PesIterResult → PesLoop
  | PesIterResult.next s => s
  | PesIterResult.ret s => s

/-- The buffer invariant of the PES demuxer: `Skip <= Index <= Size`, with
`Size` the payload capacity of 512 KiB. -/
def PesInv (pesdx : PesDemux) : Prop :=
  pesdx.Skip ≤ pesdx.Index ∧ pesdx.Index ≤ pesdx.Size ∧ pesdx.Size = PES_MAX_PAYLOAD

/-- The loop state of `PesParse` after `k` passes that each ended with `break`
and left input to parse, if the loop gets that far. -/
def PesPasses (data : Ptr) : Nat → PesLoop → Option PesLoop
  | 0, s => some s
  | k + 1, s =>
    match PesIter data s with
    | some (PesIterResult.next s1) => if s1.size > 0 then PesPasses data k s1 else none
    | _ => none

/-- The states of the audio demuxer reachable from `PesInit` through
`PesReset` and `PesParse` calls: after a call that returned (`parse`) and
inside a call after any number of passes through its loop (`pass`); the codec
id and the decoder log may change in between. -/
inductive PesReachable : PesCtx → Prop where
  | init (buffer : Ptr) (id : CodecID) (calls : List AudioCall) :
      PesReachable { pesdx := PesInit buffer, AudioCodecID := id, calls := calls }
  | reset (ctx : PesCtx) :
      PesReachable ctx → PesReachable { ctx with pesdx := PesReset ctx.pesdx }
  | env (ctx : PesCtx) (id : CodecID) (calls : List AudioCall) :
      PesReachable ctx → PesReachable { ctx with AudioCodecID := id, calls := calls }
  | parse (ctx ctx2 : PesCtx) (fuel : Nat) (data : Ptr) (size : Nat) (is_start : Bool) :
      PesReachable ctx → PesParse fuel ctx data size is_start = Run.returned ctx2 →
      PesReachable ctx2
  | pass (ctx : PesCtx) (k : Nat) (data : Ptr) (size : Nat) (is_start : Bool) (s : PesLoop) :
      PesReachable ctx →
      PesPasses data k
        { ctx := { ctx with pesdx := PesParseEntry ctx.pesdx is_start }, p := 0, size := size }
        = some s →
      PesReachable s.ctx

/-- A stream fed to `PesParse` one byte per call: call `i` gets the pointer
`data + i` and size 1, and only the first call has the start flag. -/
def PesParseBytewise (fuel : Nat) (data : Ptr) : Nat → Nat → PesCtx → Run PesCtx
  | 0, _, ctx => Run.returned ctx
  | k + 1, i, ctx =>
    match PesParse fuel ctx (data.add i) 1 (decide (i = 0)) with
    | Run.returned ctx1 => PesParseBytewise fuel data k (i + 1) ctx1
    | Run.aborted => Run.aborted
    | Run.unfinished => Run.unfinished

/-- The frames the decoder got, when the run returned. -/
def framesOf : Run PesCtx → Option (List AVPacket)
  | Run.returned ctx => some (decodedFrames ctx.calls)
  | _ => none

/-! ## Transport stream demux (softhddev.c, lines 844-943) -/

/-- Transport stream packet size. -/
def TS_PACKET_SIZE : Nat := 188
/-- Transport stream packet sync byte. -/
def TS_PACKET_SYNC : Nat := 0x47

/-- Transport stream demuxer structure. -/
structure TsDemux where
  Packets : Int          -- packets between PCR

/-- The `switch (p[3] & 0x30)` of `TsDemuxer`: offset of the payload in the
packet, or `none` for `goto next_packet`. -/
def TsPayloadStart (pk : Ptr) : Option Nat :=
  if (pk 3).val &&& 0x30 = 0x10 then some 4             -- only payload
  else if (pk 3).val &&& 0x30 = 0x30 then               -- skip adaptation field
    -- illegal length, ignore packet
    if 5 + (pk 4).val ≥ TS_PACKET_SIZE then none else some (5 + (pk 4).val)
  else none                                             -- reserved, adaptation field only

/-- State of the packet loop of `TsDemuxer`: the two demuxers, the offset of
`p` from `data`, and the bytes left. -/
structure TsLoop where
  tsdx : TsDemux
  ctx : PesCtx
  p : Nat
  size : Int

/-- What `TsDemuxer` leaves behind: both demuxers and its return value. -/
structure TsResult where
  tsdx : TsDemux
  ctx : PesCtx
  ret : Int

/-- The loop `while (size >= TS_PACKET_SIZE)` of `TsDemuxer`, for at most the
given number of packets; every `PesParse` call gets `fuel` passes. -/
def TsDemuxerLoop (fuel : Nat) (data : Ptr) : Nat → TsLoop → Run TsResult
  | 0, s =>
    if s.size ≥ (TS_PACKET_SIZE : Int) then Run.unfinished
    else Run.returned { tsdx := s.tsdx, ctx := s.ctx, ret := (s.p : Int) }
  | k + 1, s =>
    if s.size ≥ (TS_PACKET_SIZE : Int) then
      let pk := data.add s.p
      if (pk 0).val ≠ TS_PACKET_SYNC then
        -- transport stream out of sync
        Run.returned { tsdx := s.tsdx, ctx := s.ctx, ret := s.size }
      else
        let tsdx1 : TsDemux := { Packets := s.tsdx.Packets + 1 }
        let payload : Option Nat :=
          if (pk 1).val &&& 0x80 ≠ 0 then none          -- error indicator
          else TsPayloadStart pk
        match payload with
        | none =>
          TsDemuxerLoop fuel data k
            { tsdx := tsdx1, ctx := s.ctx, p := s.p + TS_PACKET_SIZE,
              size := s.size - (TS_PACKET_SIZE : Int) }
        | some payload =>
          match PesParse fuel s.ctx (pk.add payload) (TS_PACKET_SIZE - payload)
              (decide ((pk 1).val &&& 0x40 ≠ 0)) with
          | Run.returned ctx1 =>
            TsDemuxerLoop fuel data k
              { tsdx := tsdx1, ctx := ctx1, p := s.p + TS_PACKET_SIZE,
                size := s.size - (TS_PACKET_SIZE : Int) }
          | Run.aborted => Run.aborted
          | Run.unfinished => Run.unfinished
    else Run.returned { tsdx := s.tsdx, ctx := s.ctx, ret := (s.p : Int) }

/-- Transport stream demuxer `TsDemuxer (tsdx, data, size)` on the audio
demuxer in `ctx`; `ret` is the number of bytes consumed from the buffer. -/
def TsDemuxer (fuel : Nat) (tsdx : TsDemux) (ctx : PesCtx) (data : Ptr) (size : Int) :
    Run TsResult :=
  TsDemuxerLoop fuel data fuel { tsdx := tsdx, ctx := ctx, p := 0, size := size }

/-- What the specification says about one transport packet: `none` when it is
skipped (transport-error bit set, adaptation-field-control 00 or 10, or 11
with a length byte of 183 or more), otherwise the offset of the payload in the
packet (4 for control 01, `5 + p[4]` for control 11) and the
payload-unit-start bit. -/
def TsSpecForward (pk : Ptr) : Option (Nat × Bool) :=
  if (pk 1).val / 128 = 1 then none
  else if (pk 3).val / 16 % 4 = 1 then some (4, decide ((pk 1).val / 64 % 2 = 1))
  else if (pk 3).val / 16 % 4 = 3 ∧ (pk 4).val ≤ 182 then
    some (5 + (pk 4).val, decide ((pk 1).val / 64 % 2 = 1))
  else none

/-- The return value of `TsDemuxer`, when it returned. -/
def tsRet : Run TsResult → Option Int
  | Run.returned r => some r.ret
  | _ => none

/-! ## The end-to-end AC-3 scenario -/

/-- The payload bytes of a buffer of payload-only transport packets (payload
at offset 4 of each 188-byte packet), concatenated. -/
def TsPayload (data : Ptr) : Ptr := fun i => data (188 * (i / 184) + 4 + i % 184)

/-- The elementary stream `pay` starts with an AC-3 frame of `F` bytes that is
followed by an accepted AC-3 header whose own frame, of `F2` bytes, does not
end within the first 1090 bytes. -/
def Ac3Scenario (pay : Ptr) (F F2 : Nat) : Prop :=
  FastAc3Check pay = true ∧ Ac3FrameSize pay = some F ∧ 0 < F ∧ F + 5 ≤ 1090
    ∧ FastAc3Check (pay.add F) = true ∧ Ac3FrameSize (pay.add F) = some F2
    ∧ 1090 < F + F2

/-- State of the audio demuxer after `k` packets of the scenario: the buffer
holds the first `184 * k - 14` bytes of `pay`, and either the frame is still
awaited with the PTS `T` pending, or exactly that frame was handed over. -/
def Ac3ScenarioInv (pay : Ptr) (F : Nat) (T : Int) (k : Nat) (ctx : PesCtx) : Prop :=
  ctx.pesdx.State = PesState.PES_START ∧ ctx.pesdx.Size = PES_MAX_PAYLOAD
    ∧ ctx.pesdx.Index = 184 * k - 14
    ∧ (∀ i < ctx.pesdx.Index, ctx.pesdx.Buffer i = pay i)
    ∧ ((ctx.pesdx.Index < F + 5 ∧ ctx.pesdx.Skip = 0 ∧ ctx.pesdx.PTS = T
          ∧ ctx.pesdx.DTS = AV_NOPTS_VALUE ∧ decodedFrames ctx.calls = [])
       ∨ (F + 5 ≤ ctx.pesdx.Index ∧ ctx.pesdx.Skip = F
          ∧ decodedFrames ctx.calls
              = [{ data := pay.bytes F, pts := T, dts := AV_NOPTS_VALUE }]))

/-! ## Video packet ring buffer (softhddev.c, lines 1223-1578) -/

/-- Video PES buffer default size. -/
def VIDEO_BUFFER_SIZE : Nat := 512 * 1024
/-- Max number of video packets. -/
def VIDEO_PACKET_MAX : Nat := 192
/-- Minimum free space in audio buffer 8 packets for 8 channels. -/
def AUDIO_MIN_BUFFER_FREE : Int := 3072 * 8 * 8

/-- A slot of the video PES packet ring buffer: the `AVPacket` fields the
plugin uses.  `size` is the allocated payload size, `stream_index` is used by
the plugin as the number of bytes accumulated, `priv` holds the codec id. -/
structure VideoPacket where
  data : Ptr
  size : Nat
  stream_index : Nat
  pts : Int
  dts : Int
  priv : CodecID

/-- Calls made on the external video decoder and display. -/
inductive VideoCall where
  | wakeup                       -- `VideoDisplayWakeup ()`
  | flush                        -- `CodecVideoFlushBuffers (MyVideoDecoder)`
  | resetStart                   -- `VideoResetStart (MyHwDecoder)`
  | close                        -- `CodecVideoClose (MyVideoDecoder)`
  | openCodec (id : CodecID)     -- `CodecVideoOpen (MyVideoDecoder, name, id)`
  | decode (avpkt : AVPacket)    -- `CodecVideoDecode (MyVideoDecoder, avpkt)`
  deriving DecidableEq

/-- The file-scope video state of softhddev.c: the ring buffer with its two
cursors and fill counter, the flags, `last_codec_id` of `VideoDecodeInput`,
and the log of external calls, oldest first. -/
structure VideoState where
  VideoPacketRb : Nat → VideoPacket
  VideoPacketWrite : Nat
  VideoPacketRead : Nat
  VideoPacketsFilled : Int
  VideoClearBuffers : Bool
  VideoClearClose : Bool
  SkipVideo : Bool
  CurrentTrickSpeed : Int
  NewVideoStream : Bool
  ClosingVideoStream : Bool
  StreamFreezed : Bool
  MyVideoDecoder : Bool
  VideoCodecID : CodecID
  last_codec_id : CodecID
  calls : List VideoCall

/-- Result of `memset (dst + idx, val, n)` on the array `dst`. -/
def memset (dst : Ptr) (idx : Nat) (val : Byte) (n : Nat) : Ptr :=
  fun i => if idx ≤ i ∧ i < idx + n then val else dst i

/-- The ring buffer with slot `i` replaced. -/
def setSlot (rb : Nat → VideoPacket) (i : Nat) (avpkt : VideoPacket) : Nat → VideoPacket :=
  fun j => if j = i then avpkt else rb j

/-- Initialize video packet ringbuffer; `buffers i` is the content of the
payload buffer allocated for slot `i`.  `av_new_packet` sets the size and, as
`av_init_packet` does, no timestamps and `stream_index` 0. -/
def VideoPacketInit (s : VideoState) (buffers : Nat → Ptr) : VideoState :=
  { s with
    VideoPacketRb := fun i =>
      if i < VIDEO_PACKET_MAX then
        { data := buffers i, size := VIDEO_BUFFER_SIZE, stream_index := 0
          pts := AV_NOPTS_VALUE, dts := AV_NOPTS_VALUE, priv := CodecID.NONE }
      else s.VideoPacketRb i
    VideoPacketsFilled := 0
    VideoPacketRead := 0
    VideoPacketWrite := 0 }

/-- Modelled from the decoder library (not under src/): `av_grow_packet`
when the allocation succeeds: the payload size grows by `grow_by`, the bytes
stay, and the `padding` bytes after the new size are zero. -/
def av_grow_packet (padding : Nat) (avpkt : VideoPacket) (grow_by : Nat) : VideoPacket :=
  { avpkt with
    size := avpkt.size + grow_by
    data := memset avpkt.data (avpkt.size + grow_by) 0 padding }

/-- Place video data in packet ringbuffer.  `padding` is the library constant
`FF_INPUT_BUFFER_PADDING_SIZE`. -/
def VideoEnqueue (padding : Nat) (s : VideoState) (pts : Int) (data : Ptr) (size : Nat) :
    VideoState :=
  let avpkt := s.VideoPacketRb s.VideoPacketWrite
  -- add pts only for first added
  let avpkt1 : VideoPacket := if avpkt.stream_index = 0 then { avpkt with pts := pts } else avpkt
  let avpkt2 : VideoPacket :=
    if avpkt1.stream_index + size ≥ avpkt1.size then
      av_grow_packet padding avpkt1
        (((size + VIDEO_BUFFER_SIZE / 2) / (VIDEO_BUFFER_SIZE / 2)) * (VIDEO_BUFFER_SIZE / 2))
    else avpkt1
  let avpkt3 : VideoPacket :=
    { avpkt2 with
      data := memcpy avpkt2.data avpkt2.stream_index data size
      stream_index := avpkt2.stream_index + size }
  { s with VideoPacketRb := setSlot s.VideoPacketRb s.VideoPacketWrite avpkt3 }

/-- Reset current packet. -/
def VideoResetPacket (s : VideoState) : VideoState :=
  let avpkt := s.VideoPacketRb s.VideoPacketWrite
  let avpkt1 : VideoPacket :=
    { avpkt with stream_index := 0, pts := AV_NOPTS_VALUE, dts := AV_NOPTS_VALUE }
  { s with VideoPacketRb := setSlot s.VideoPacketRb s.VideoPacketWrite avpkt1 }

/-- Finish current packet advance to next. -/
def VideoNextPacket (padding : Nat) (s : VideoState) (codec_id : CodecID) : VideoState :=
  let avpkt := s.VideoPacketRb s.VideoPacketWrite
  if avpkt.stream_index = 0 ∧ codec_id ≠ CodecID.NONE then s     -- ignore empty packets
  else if s.VideoPacketsFilled ≥ (VIDEO_PACKET_MAX : Int) - 1 then
    -- no free slot available drop last packet
    let avpkt0 : VideoPacket := { avpkt with stream_index := 0 }
    { s with VideoPacketRb := setSlot s.VideoPacketRb s.VideoPacketWrite avpkt0 }
  else
    -- clear area for decoder, always enough space allocated
    let avpkt1 : VideoPacket :=
      { avpkt with data := memset avpkt.data avpkt.stream_index 0 padding, priv := codec_id }
    -- advance packet write
    VideoResetPacket
      { s with
        VideoPacketRb := setSlot s.VideoPacketRb s.VideoPacketWrite avpkt1
        VideoPacketWrite := (s.VideoPacketWrite + 1) % VIDEO_PACKET_MAX
        VideoPacketsFilled := s.VideoPacketsFilled + 1
        calls := s.calls ++ [VideoCall.wakeup] }

/-- The loop of `FixPacketForFFMpeg`: `p` and `n` are the scan position and
the bytes left, `tdata`, `tsize`, `pts`, `dts` the fields of `tmp`; the first
argument bounds the number of passes and is at least `n`. -/
def FixPacketLoop (data : Ptr) : Nat → Nat → Nat → Nat → Nat → Int → Int → Bool →
    List VideoCall → List VideoCall
  | 0, _, _, tdata, tsize, pts, dts, _, calls =>
    calls ++ [VideoCall.decode { data := (data.add tdata).bytes tsize, pts := pts, dts := dts }]
  | fuel + 1, p, n, tdata, tsize, pts, dts, first, calls =>
    if n > 4 then
      -- scan for picture header 0x00000100
      if (data p).val = 0 ∧ (data (p + 1)).val = 0 ∧ (data (p + 2)).val = 0x01
          ∧ (data (p + 3)).val = 0 then
        if first then FixPacketLoop data fuel (p + 4) (n - 4) tdata tsize pts dts false calls
        else
          -- packet has already an picture header
          FixPacketLoop data fuel (p + 1) (n - 1) p n AV_NOPTS_VALUE AV_NOPTS_VALUE first
            (calls ++ [VideoCall.decode
              { data := (data.add tdata).bytes (p - tdata), pts := pts, dts := dts }])
      else FixPacketLoop data fuel (p + 1) (n - 1) tdata tsize pts dts first calls
    else
      calls ++ [VideoCall.decode { data := (data.add tdata).bytes tsize, pts := pts, dts := dts }]

/-- Fix packet for FFMpeg: split the packet into single picture packets; the
result is the call log after the `CodecVideoDecode` calls. -/
def FixPacketForFFMpeg (calls : List VideoCall) (data : Ptr) (size : Nat) (pts dts : Int) :
    List VideoCall :=
  FixPacketLoop data size 0 size 0 size pts dts true calls

/-- The forced clear at the top of `VideoPollInput` and `VideoDecodeInput`
(softhddev.c, lines 1447-1453 and 1477-1483). -/
def VideoClear (s : VideoState) : VideoState :=
  { s with
    VideoPacketsFilled := 0
    VideoPacketRead := s.VideoPacketWrite
    calls := if s.MyVideoDecoder then s.calls ++ [VideoCall.flush, VideoCall.resetStart]
             else s.calls
    VideoClearBuffers := false }

/-- Poll PES packet ringbuffer. -/
def VideoPollInput (s : VideoState) : VideoState × Int :=
  if s.VideoClearBuffers then (VideoClear s, 1)
  else if s.VideoPacketsFilled = 0 then (s, -1)
  else (s, 1)

/-- The search `for (f = 0; f < filled; ++f)` of `VideoDecodeInput` for the
first queued slot whose tag is `CODEC_ID_NONE`: the first argument is the
number of slots still to look at, the second is `f`. -/
def VideoFindClose (rb : Nat → VideoPacket) (read : Nat) : Nat → Nat → Option Nat
  | 0, _ => none
  | n + 1, f =>
    if (rb ((read + f) % VIDEO_PACKET_MAX)).priv = CodecID.NONE then some f
    else VideoFindClose rb read n (f + 1)

/-- The block `if (VideoClearClose)` of `VideoDecodeInput`: flush buffers, if
close is in the queue. -/
def VideoClearUptoClose (s : VideoState) : VideoState :=
  let s1 : VideoState :=
    match VideoFindClose s.VideoPacketRb s.VideoPacketRead s.VideoPacketsFilled.toNat 0 with
    | some f =>
      if f ≠ 0 then
        { s with
          VideoPacketsFilled := s.VideoPacketsFilled - (f : Int)
          VideoPacketRead := (s.VideoPacketRead + f) % VIDEO_PACKET_MAX
          VideoClearClose := false }
      else s
    | none => s
  { s1 with ClosingVideoStream := false }

/-- The label `skip:` of `VideoDecodeInput`: advance packet read. -/
def VideoAdvanceRead (s : VideoState) : VideoState × Int :=
  ({ s with
      VideoPacketRead := (s.VideoPacketRead + 1) % VIDEO_PACKET_MAX
      VideoPacketsFilled := s.VideoPacketsFilled - 1 }, 0)

/-- The decode part of `VideoDecodeInput` (softhddev.c, lines 1550-1561): the
slot is handed over with `size` set to the accumulated bytes and
`stream_index` set to 0, then `size` is restored. -/
def VideoDecodeSlot (s : VideoState) : VideoState :=
  let avpkt := s.VideoPacketRb s.VideoPacketRead
  let calls1 :=
    if s.last_codec_id = CodecID.MPEG2VIDEO then
      FixPacketForFFMpeg s.calls avpkt.data avpkt.stream_index avpkt.pts avpkt.dts
    else
      s.calls ++ [VideoCall.decode
        { data := avpkt.data.bytes avpkt.stream_index, pts := avpkt.pts, dts := avpkt.dts }]
  let avpkt1 : VideoPacket := { avpkt with stream_index := 0 }
  { s with
    VideoPacketRb := setSlot s.VideoPacketRb s.VideoPacketRead avpkt1
    calls := calls1 }

/-- Decode from PES packet ringbuffer: 0 packet decoded, 1 stream paused,
-1 empty stream. -/
def VideoDecodeInput (s : VideoState) : VideoState × Int :=
  if s.VideoClearBuffers then (VideoClear s, 1)
  else if s.StreamFreezed then (s, 1)             -- stream freezed
  else if s.VideoPacketsFilled = 0 then (s, -1)
  else
    -- clearing for normal channel switch has no advantage
    let s1 := if s.VideoClearClose then VideoClearUptoClose s else s
    -- handle queued commands
    match (s1.VideoPacketRb s1.VideoPacketRead).priv with
    | CodecID.NONE =>
      let s2 : VideoState := { s1 with ClosingVideoStream := false }
      if s2.last_codec_id ≠ CodecID.NONE then
        VideoAdvanceRead
          { s2 with last_codec_id := CodecID.NONE, calls := s2.calls ++ [VideoCall.close] }
      else VideoAdvanceRead s2
    | CodecID.MPEG2VIDEO =>
      let s2 : VideoState :=
        if s1.last_codec_id ≠ CodecID.MPEG2VIDEO then
          { s1 with
            last_codec_id := CodecID.MPEG2VIDEO
            calls := s1.calls ++ [VideoCall.openCodec CodecID.MPEG2VIDEO] }
        else s1
      VideoAdvanceRead (VideoDecodeSlot s2)
    | CodecID.H264 =>
      let s2 : VideoState :=
        if s1.last_codec_id ≠ CodecID.H264 then
          { s1 with
            last_codec_id := CodecID.H264
            calls := s1.calls ++ [VideoCall.openCodec CodecID.H264] }
        else s1
      VideoAdvanceRead (VideoDecodeSlot s2)
    | _ => VideoAdvanceRead (VideoDecodeSlot s1)

/-- Get number of video buffers. -/
def VideoGetBuffers (s : VideoState) : Int := s.VideoPacketsFilled

/-! ## Play video packet (softhddev.c, lines 1685-1842) -/

/-- PES packet type of the filler, padding stream. -/
def PES_PADDING_STREAM : Nat := 0xBE

/-- The loop `while (!*check)` of `PlayVideo` that counts leading zeros: the
arguments are `l`, the offset of `check` from `data`, and `z`; the result is
their value after the loop. -/
def PlayVideoZeros (data : Ptr) : Nat → Nat → Nat → Nat × Nat × Nat
  | 0, check, z => if (data check).val ≠ 0 then (0, check, z) else (0, check, 0)
  | l + 1, check, z =>
    if (data check).val ≠ 0 then (l + 1, check, z)
    else if l + 1 < 3 then (l + 1, check, 0)
    else PlayVideoZeros data l (check + 1) (z + 1)

/-- The H264 NAL End of Sequence `seq_end_h264` of `PlayVideo`. -/
def seq_end_h264 : Ptr := Ptr.ofList [0x00, 0x00, 0x00, 0x01, 0x0A]

/-- The part of `PlayVideo` after the buffer-full tests (softhddev.c, lines
1760-1841): a packet of `size > 9 + n` bytes with a PES start code is put in
the ring buffer. -/
def PlayVideoStore (padding : Nat) (s : VideoState) (data : Ptr) (size : Int) :
    VideoState × Int :=
  let n := (data 8).val                                  -- header size
  -- get pts/dts
  let pts : Int := if (data 7).val &&& 0x80 ≠ 0 then PesTimestamp data 9 else AV_NOPTS_VALUE
  let lcz := PlayVideoZeros data (size - 9 - (n : Int)).toNat (9 + n) 0
  let l := lcz.1
  let check := lcz.2.1
  let z := lcz.2.2
  -- H264 NAL AUD Access Unit Delimiter 0x00 0x00 0x00 0x01 0x09
  if (data 6).val &&& 0xC0 = 0x80 ∧ z > 2 ∧ (data check).val = 0x01
      ∧ (data (check + 1)).val = 0x09 then
    let s1 : VideoState :=
      if s.VideoCodecID = CodecID.H264 then
        let s2 : VideoState :=
          if s.CurrentTrickSpeed ≠ 0 ∧ pts ≠ AV_NOPTS_VALUE then
            -- NAL SPS sequence parameter set
            if (data (check + 7)).val &&& 0x1F = 0x07 then
              VideoEnqueue padding (VideoNextPacket padding s CodecID.H264) AV_NOPTS_VALUE
                seq_end_h264 5
            else s
          else s
        VideoNextPacket padding s2 CodecID.H264
      else { s with VideoCodecID := CodecID.H264 }
    -- SKIP PES header
    (VideoEnqueue padding s1 pts (data.add (check - 3)) (l + 3), size)
  -- PES start code 0x00 0x00 0x01
  else if z > 1 ∧ (data check).val = 0x01 then
    let s1 : VideoState :=
      if s.VideoCodecID = CodecID.MPEG2VIDEO then VideoNextPacket padding s CodecID.MPEG2VIDEO
      else { s with VideoCodecID := CodecID.MPEG2VIDEO }
    -- SKIP PES header, begin of start code
    (VideoEnqueue padding s1 pts (data.add (check - z)) (l + z), size)
  -- this happens when vdr sends incomplete packets
  else if s.VideoCodecID = CodecID.NONE then (s, size)
  else
    -- SKIP PES header
    let s1 := VideoEnqueue padding s pts (data.add (9 + n)) (size - 9 - (n : Int)).toNat
    -- incomplete packets produce artefacts after channel switch
    if size < 65526 ∧ s1.VideoCodecID = CodecID.MPEG2VIDEO then
      (VideoNextPacket padding s1 CodecID.MPEG2VIDEO, size)
    else (s1, size)

/-- The part of `PlayVideo` from the start-code test to the buffer-full tests
(softhddev.c, lines 1731-1759); `audioUsed` is what `AudioUsedBytes ()`
returns.  `data` is not a null pointer. -/
def PlayVideoPacket (padding : Nat) (s : VideoState) (data : Ptr) (size : Int)
    (audioUsed : Int) : VideoState × Int :=
  -- must be a PES start code
  if size < 9 ∨ (data 0).val ≠ 0 ∨ (data 1).val ≠ 0 ∨ (data 2).val ≠ 0x01 then (s, size)
  -- 0xBE, filler, padding stream
  else if (data 3).val = PES_PADDING_STREAM then (s, size)
  else if size ≤ 9 + ((data 8).val : Int) then (s, size)      -- wrong size
  -- hard limit buffer full: needed for replay
  else if s.VideoPacketsFilled ≥ (VIDEO_PACKET_MAX : Int) - 3 then (s, 0)
  -- soft limit buffer full
  else if s.VideoPacketsFilled > 3 ∧ audioUsed > AUDIO_MIN_BUFFER_FREE then (s, 0)
  else PlayVideoStore padding s data size

/-- Play video packet: returns the number of bytes used, 0 if internal buffer
are full. -/
def PlayVideo (padding : Nat) (s : VideoState) (data : Ptr) (size : Int) (audioUsed : Int) :
    VideoState × Int :=
  if ¬ s.MyVideoDecoder then (s, size)              -- no x11 video started
  else if s.SkipVideo then (s, size)                -- skip video
  else if s.StreamFreezed then (s, 0)               -- stream freezed
  else if s.NewVideoStream then                     -- channel switched
    if s.VideoPacketsFilled ≥ (VIDEO_PACKET_MAX : Int) - 1 then
      ({ s with NewVideoStream := false }, 0)
    else
      PlayVideoPacket padding
        { VideoNextPacket padding s CodecID.NONE with
          VideoCodecID := CodecID.NONE
          ClosingVideoStream := true
          NewVideoStream := false } data size audioUsed
  else PlayVideoPacket padding s data size audioUsed

/-! ## Sequential use of the ring buffer -/

/-- The states of a sequential run from `VideoPacketInit`: any interleaving of
`VideoNextPacket`, `VideoEnqueue`, `VideoDecodeInput`, `VideoPollInput` and
`PlayVideo` calls, and of changes other functions of the plugin make to the
flags, the codec in use and the trick speed (`env`: they leave the slots, the
cursors and the fill counter alone). -/
inductive VideoReachable (padding : Nat) : VideoState → Prop where
  | init (s : VideoState) (buffers : Nat → Ptr) : VideoReachable padding (VideoPacketInit s buffers)
  | next (s : VideoState) (codec_id : CodecID) :
      VideoReachable padding s → VideoReachable padding (VideoNextPacket padding s codec_id)
  | enqueue (s : VideoState) (pts : Int) (data : Ptr) (size : Nat) :
      VideoReachable padding s → VideoReachable padding (VideoEnqueue padding s pts data size)
  | decode (s : VideoState) :
      VideoReachable padding s → VideoReachable padding (VideoDecodeInput s).1
  | poll (s : VideoState) :
      VideoReachable padding s → VideoReachable padding (VideoPollInput s).1
  | play (s : VideoState) (data : Ptr) (size : Int) (audioUsed : Int) :
      VideoReachable padding s → VideoReachable padding (PlayVideo padding s data size audioUsed).1
  | env (s s2 : VideoState) :
      VideoReachable padding s → s2.VideoPacketRb = s.VideoPacketRb
        → s2.VideoPacketWrite = s.VideoPacketWrite → s2.VideoPacketRead = s.VideoPacketRead
        → s2.VideoPacketsFilled = s.VideoPacketsFilled → VideoReachable padding s2

/-- The fill counter is between zero and one less than the number of slots. -/
def VideoFillOk (s : VideoState) : Prop :=
  0 ≤ s.VideoPacketsFilled ∧ s.VideoPacketsFilled ≤ (VIDEO_PACKET_MAX : Int) - 1

/-! ## Audio pass-through (codec.c, lines 850-934 and 1298-1484; codec.h, lines 30-34) -/

/-- PCM bit mask. -/
def CodecPCM : Nat := 0x01
/-- AC-3 bit mask. -/
def CodecAC3 : Nat := 0x04
/-- E-AC-3 bit mask. -/
def CodecEAC3 : Nat := 0x08
/-- DTS bit mask. -/
def CodecDTS : Nat := 0x10

/-- Flag of `CodecAudioDrift`: do PCM audio-drift correction. -/
def CORRECT_PCM : Nat := 1
/-- Flag of `CodecAudioDrift`: do AC-3 audio-drift correction. -/
def CORRECT_AC3 : Nat := 2

/-- IEC data type: AC-3 data. -/
def IEC61937_AC3 : Nat := 0x01
/-- IEC data type: E-AC-3 data. -/
def IEC61937_EAC3 : Nat := 0x15
/-- IEC data type: DTS type I (512 samples). -/
def IEC61937_DTS1 : Nat := 0x0B
/-- IEC data type: DTS type II (1024 samples). -/
def IEC61937_DTS2 : Nat := 0x0C
/-- IEC data type: DTS type III (2048 samples). -/
def IEC61937_DTS3 : Nat := 0x0D

/-- The fields `tv_sec` and `tv_nsec` of a `struct timespec`. -/
structure Timespec where
  tv_sec : Int
  tv_nsec : Int
  deriving DecidableEq

/-- Audio decoder structure: the fields the pass-through helper, the clock
and the format update use.  `codec_id`, `sample_rate` and `channels` are the
fields of `AudioCtx`; `Spdif` is the byte view of the SPDIF output buffer
`uint16_t Spdif[24576 / 2]`; `ReSample` and `AvResample` tell whether the
pointer is set.  The fields with a default are zero in a decoder that
`CodecAudioNewDecoder` has allocated with `calloc`. -/
structure AudioDecoder where
  codec_id : CodecID
  HwSampleRate : Int      -- hw sample rate
  HwChannels : Int        -- hw channels
  Spdif : Ptr             -- SPDIF output buffer
  SpdifIndex : Int        -- index into SPDIF output buffer
  SpdifCount : Int        -- SPDIF repeat counter
  DriftCorr : Int         -- audio drift correction value
  DriftFrac : Int         -- audio drift fraction for ac3
  sample_rate : Int := 0  -- samples per second of the codec context
  channels : Int := 0     -- number of audio channels of the codec context
  Passthrough : Nat := 0  -- current pass-through flags
  SampleRate : Int := 0   -- current stream sample rate
  Channels : Int := 0     -- current stream channels
  ReSample : Bool := false      -- old resampling context
  AvResample : Bool := false    -- second audio resample context
  RemainCount : Int := 0  -- number of remaining samples
  LastDelay : Int := 0    -- last delay
  LastTime : Timespec := { tv_sec := 0, tv_nsec := 0 }    -- last time
  LastPTS : Int := 0      -- last PTS
  Drift : Int := 0        -- accumulated audio drift

/-- Result of `spdif[k] = htole16 (w)` on the bytes of the `uint16_t` array
`spdif`: the low byte of `w` first, whatever the host byte order; `w` is cut
to 16 bits. -/
def storeLe16 (spdif : Ptr) (k : Nat) (w : Nat) : Ptr :=
  fun i =>
    if i = 2 * k then Fin.ofNat (w % 256)
    else if i = 2 * k + 1 then Fin.ofNat (w / 256 % 256)
    else spdif i

/-- Modelled from the C library (not under src/): result of
`swab (src, dst + idx, n)` on the array `dst`: the bytes of `src` are copied
with adjacent bytes exchanged; for odd `n` the last byte is not copied. -/
def swab (src : Ptr) (dst : Ptr) (idx : Nat) (n : Nat) : Ptr :=
  fun i =>
    if idx ≤ i ∧ i < idx + 2 * (n / 2) then
      if (i - idx) % 2 = 0 then src (i - idx + 1) else src (i - idx - 1)
    else dst i

/-- The burst size drift correction of the AC-3 and DTS branches (codec.c,
lines 1323-1341 and 1450-1468): the decoder with the new `DriftFrac`, and the
corrected burst size.  `none` stands for the division by zero of a zero
`HwSampleRate`; the `int` arithmetic is taken without overflow, `/` and `%`
truncate as in C. -/
def CodecAudioDriftBurst (audio_decoder : AudioDecoder) (burst_sz : Int) :
    Option (AudioDecoder × Int) :=
  if 10 * audio_decoder.HwSampleRate * 100 = 0 then none
  else
    let x0 := Int.tdiv (audio_decoder.DriftFrac + audio_decoder.DriftCorr * burst_sz)
      (10 * audio_decoder.HwSampleRate * 100)
    let frac := Int.tmod (audio_decoder.DriftFrac + audio_decoder.DriftCorr * burst_sz)
      (10 * audio_decoder.HwSampleRate * 100)
    -- round to word border
    let x1 := x0 * (audio_decoder.HwChannels * 4)
    -- limit correction
    let x : Int := if x1 < -64 then -64 else if x1 > 64 then 64 else x1
    some ({ audio_decoder with DriftFrac := frac }, burst_sz + x)

/-- The burst size the AC-3 branch computes (codec.c, lines 1318-1342), with
the decoder after the drift correction. -/
def Ac3BurstSize (CodecAudioDrift : Nat) (audio_decoder : AudioDecoder) :
    Option (AudioDecoder × Int) :=
  if CodecAudioDrift &&& CORRECT_AC3 ≠ 0 then CodecAudioDriftBurst audio_decoder 6144
  else some (audio_decoder, 6144)

/-- The burst size the E-AC-3 branch computes (codec.c, lines 1371-1375). -/
def Eac3BurstSize (audio_decoder : AudioDecoder) : Int :=
  if audio_decoder.HwSampleRate = 48000 then 6144 else 24576       -- 4 * 6144

/-- The number of blocks `nbs` the DTS branch reads from the frame header. -/
def DtsNbs (data : Ptr) : Nat :=
  ((((data 4).val &&& 0x01) <<< 6) % 256) ||| (((data 5).val >>> 2) &&& 0x3f)

/-- The `switch (nbs)` of the DTS branch: the data type `bsid` and the burst
size. -/
def DtsBurstType (nbs : Nat) : Nat × Int :=
  if nbs = 0x07 then (0x0a, 1024)
  else if nbs = 0x0f then (IEC61937_DTS1, 2048)
  else if nbs = 0x1f then (IEC61937_DTS2, 4096)
  else if nbs = 0x3f then (IEC61937_DTS3, 8192)
  else (0x00, ((((if nbs < 5 then 127 else nbs) + 1) * 32 * 2 + 2 : Nat) : Int))

/-- The burst size the DTS branch computes (codec.c, lines 1420-1469), with
the decoder after the drift correction. -/
def DtsBurstSize (CodecAudioDrift : Nat) (audio_decoder : AudioDecoder) (data : Ptr) :
    Option (AudioDecoder × Int) :=
  if CodecAudioDrift &&& CORRECT_AC3 ≠ 0 then
    CodecAudioDriftBurst audio_decoder (DtsBurstType (DtsNbs data)).2
  else some (audio_decoder, (DtsBurstType (DtsNbs data)).2)

/-- Repeat counts of the E-AC-3 branch, by `fscod2`. -/
def eac3_repeat : List Int := [6, 3, 2, 1]

/-- What a call of the pass-through helper leaves: the decoder, the bursts
given to `AudioEnqueue` so far (oldest first), and the value returned. -/
structure PassthroughResult where
  audio_decoder : AudioDecoder
  sink : List (List Byte)
  ret : Int

/-- Size in bytes of the SPDIF output buffer `uint16_t Spdif[24576 / 2]` of the
decoder; `SpdifIndex` and `SpdifCount` follow it in the structure. -/
def SpdifBytes : Nat := 2 * (24576 / 2)

/-- Audio pass-through decoder helper.  `CodecPassthrough` and
`CodecAudioDrift` are the two flag variables, `sink` the bursts given to
`AudioEnqueue` before the call; `avpkt` is the undecoded audio packet, whose
bytes are followed by zero padding.  `none` stands for a call without a
defined result: the division by zero in the drift correction, or the copy of
the E-AC-3 branch running past the end of the `Spdif` array (the bytes would
land on `SpdifIndex`, `SpdifCount` and what follows them). -/
def CodecAudioPassthroughHelper (CodecPassthrough CodecAudioDrift : Nat)
    (audio_decoder : AudioDecoder) (sink : List (List Byte)) (avpkt : AVPacket) :
    Option PassthroughResult :=
  let data := Ptr.ofList avpkt.data
  let size : Int := avpkt.data.length
  -- SPDIF/HDMI passthrough
  if CodecPassthrough &&& CodecAC3 ≠ 0 ∧ audio_decoder.codec_id = CodecID.AC3 then
    match Ac3BurstSize CodecAudioDrift audio_decoder with
    | none => none
    | some (d, spdif_sz) =>
      -- build SPDIF header and append A52 audio to it
      if spdif_sz < size + 8 then some { audio_decoder := d, sink := sink, ret := -1 }
      else
        let spdif0 := storeLe16 d.Spdif 0 0xF872           -- iec 61937 sync word
        let spdif1 := storeLe16 spdif0 1 0x4E1F
        let spdif2 := storeLe16 spdif1 2 (IEC61937_AC3 ||| (((data 5).val &&& 0x07) <<< 8))
        let spdif3 := storeLe16 spdif2 3 (size * 8).toNat
        -- copy original data for output
        let spdif4 := swab data spdif3 (2 * 4) size.toNat
        let spdif5 := memset spdif4 (2 * (4 + size.toNat / 2)) 0 (spdif_sz - 8 - size).toNat
        -- don't play with the ac-3 samples
        some { audio_decoder := { d with Spdif := spdif5 }
               sink := sink ++ [spdif5.bytes spdif_sz.toNat]
               ret := 1 }
  else if CodecPassthrough &&& CodecEAC3 ≠ 0 ∧ audio_decoder.codec_id = CodecID.EAC3 then
    let spdif_sz := Eac3BurstSize audio_decoder
    if spdif_sz < audio_decoder.SpdifIndex + size + 8 then
      some { audio_decoder := audio_decoder, sink := sink, ret := -1 }
    -- `swab` writes `size & ~1` bytes from `spdif + 4 + SpdifIndex` on, a
    -- `uint16_t` pointer: the array ends at byte `SpdifBytes`
    else if SpdifBytes < 2 * (4 + audio_decoder.SpdifIndex.toNat) + 2 * (size.toNat / 2) then
      none
    else
      -- check if we must pack multiple packets
      let repeat_ : Int :=
        if (data 4).val &&& 0xc0 ≠ 0xc0 then                -- fscod
          eac3_repeat.getD (((data 4).val &&& 0x30) >>> 4) 0    -- fscod2
        else 1
      -- pack upto repeat EAC-3 pakets into one IEC 61937 burst
      let spdif0 := swab data audio_decoder.Spdif
        (2 * (4 + audio_decoder.SpdifIndex.toNat)) size.toNat
      let index := audio_decoder.SpdifIndex + size
      let count := audio_decoder.SpdifCount + 1
      if count < repeat_ then
        some { audio_decoder :=
                 { audio_decoder with Spdif := spdif0, SpdifIndex := index, SpdifCount := count }
               sink := sink
               ret := 1 }
      else
        let spdif1 := storeLe16 spdif0 0 0xF872            -- iec 61937 sync word
        let spdif2 := storeLe16 spdif1 1 0x4E1F
        let spdif3 := storeLe16 spdif2 2 IEC61937_EAC3
        let spdif4 := storeLe16 spdif3 3 (index * 8).toNat
        let spdif5 := memset spdif4 (2 * (4 + index.toNat / 2)) 0 (spdif_sz - 8 - index).toNat
        -- don't play with the eac-3 samples
        some { audio_decoder :=
                 { audio_decoder with Spdif := spdif5, SpdifIndex := 0, SpdifCount := 0 }
               sink := sink ++ [spdif5.bytes spdif_sz.toNat]
               ret := 1 }
  else if CodecPassthrough &&& CodecDTS ≠ 0 ∧ audio_decoder.codec_id = CodecID.DTS then
    match DtsBurstSize CodecAudioDrift audio_decoder data with
    | none => none
    | some (d, burst_sz) =>
      -- build SPDIF header and append DTS audio to it
      if burst_sz < size + 8 then some { audio_decoder := d, sink := sink, ret := -1 }
      else
        let spdif0 := storeLe16 d.Spdif 0 0xF872           -- iec 61937 sync word
        let spdif1 := storeLe16 spdif0 1 0x4E1F
        let spdif2 := storeLe16 spdif1 2 (DtsBurstType (DtsNbs data)).1
        let spdif3 := storeLe16 spdif2 3 (size * 8).toNat
        let spdif4 := storeLe16 spdif3 4 0x7FFE
        let spdif5 := storeLe16 spdif4 5 0x8001
        -- copy original data for output
        let spdif6 := swab data spdif5 (2 * 4) size.toNat
        let spdif7 := memset spdif6 (2 * (4 + size.toNat)) 0 (burst_sz - 8 - size).toNat
        -- don't play with the dts samples
        some { audio_decoder := { d with Spdif := spdif7 }
               sink := sink ++ [spdif7.bytes burst_sz.toNat]
               ret := 1 }
  else some { audio_decoder := audio_decoder, sink := sink, ret := 0 }

/-! ### The AC-3 burst as the specification words it -/

/-- The two bytes of a 16-bit word, low byte first. -/
def le16 (w : Nat) : List Byte := [Fin.ofNat (w % 256), Fin.ofNat (w / 256 % 256)]

/-- The bytes of a list with each byte pair swapped. -/
def swapPairs : List Byte → List Byte
  | a :: b :: rest => b :: a :: swapPairs rest
  | l => l

/-- The AC-3 burst of a frame, following the specification: the four 16-bit
little-endian words 0xF872, 0x4E1F, `0x01 | (frame byte 5 & 7) << 8` and
8 times the frame length, then the frame with each byte pair swapped, then
zeros up to byte 6144. -/
def Ac3BurstSpec (frame : List Byte) : List Byte :=
  le16 0xF872 ++ le16 0x4E1F ++ le16 (0x01 ||| (((frame.getD 5 0).val &&& 7) <<< 8))
    ++ le16 (8 * frame.length) ++ swapPairs frame
    ++ List.replicate (6144 - 8 - frame.length) 0

/-- Calls of the pass-through helper in sequence, one packet each: the decoder
and the bursts given to `AudioEnqueue` after the last call. -/
def CodecAudioPassthroughRun (CodecPassthrough CodecAudioDrift : Nat) :
    AudioDecoder → List (List Byte) → List AVPacket → Option (AudioDecoder × List (List Byte))
  | audio_decoder, sink, [] => some (audio_decoder, sink)
  | audio_decoder, sink, avpkt :: rest =>
    match CodecAudioPassthroughHelper CodecPassthrough CodecAudioDrift audio_decoder sink
        avpkt with
    | none => none
    | some r => CodecAudioPassthroughRun CodecPassthrough CodecAudioDrift r.audio_decoder
        r.sink rest

/-! ### The E-AC-3 and DTS bursts as the specification words them -/

/-- The payload of an E-AC-3 burst of `burst_sz` bytes, following the
specification: the frames back to back in arrival order, each with its byte
pairs swapped, then zeros up to the burst size. -/
def Eac3PayloadSpec (frames : List (List Byte)) (burst_sz : Nat) : List Byte :=
  (frames.map swapPairs).flatten
    ++ List.replicate (burst_sz - 8 - (frames.map List.length).sum) 0

/-- The DTS burst of a frame, following the specification: the four 16-bit
little-endian words 0xF872, 0x4E1F, the data-type code and 8 times the frame
length, then the frame with each byte pair swapped, then zeros up to the
burst size. -/
def DtsBurstSpec (code burst_sz : Nat) (frame : List Byte) : List Byte :=
  le16 0xF872 ++ le16 0x4E1F ++ le16 code ++ le16 (8 * frame.length) ++ swapPairs frame
    ++ List.replicate (burst_sz - 8 - frame.length) 0

/-! ## Audio clock and drift correction (codec.c, lines 944-958, 1203-1296,
1504-1608 and 1617-1682) -/

/-- The value a C `int` (32 bits, two's complement) holds after arithmetic or
a conversion whose exact result is `x`: `x` modulo 2^32, in the range from
-2^31 to 2^31 - 1. -/
def wrapInt32 (x : Int) : Int := (x + 2147483648) % 4294967296 - 2147483648

/-- The library function `abs` on an `int`, taken modulo 2^32: the most
negative value is its own result. -/
def abs32 (x : Int) : Int := wrapInt32 (if x < 0 then -x else x)

/-- Calls to the audio output module and to the resampler. -/
inductive ClockCall where
  | AudioSetClock (pts : Int)
  | av_resample_compensate (sample_delta : Int) (compensation_distance : Int)
  deriving DecidableEq

/-- Allocate a new audio decoder context: `calloc` leaves every field zero. -/
def CodecAudioNewDecoder : AudioDecoder :=
  { codec_id := CodecID.NONE, HwSampleRate := 0, HwChannels := 0, Spdif := fun _ => 0
    SpdifIndex := 0, SpdifCount := 0, DriftCorr := 0, DriftFrac := 0 }

/-- The part of `CodecAudioSetClock` that judges the drift of an observation
(codec.c, lines 1556-1586): `drift` is the value of the `int` variable, and
the baseline of the decoder is already the observation. -/
def CodecAudioClockDrift (CodecPassthrough CodecAudioDrift : Nat) (d1 : AudioDecoder)
    (drift : Int) : AudioDecoder :=
  -- underruns and av_resample have the same time :(((
  if abs32 drift > 10 * 90 then
    -- drift too big, pts changed?
    { d1 with LastDelay := 0 }
  else
    let drift1 := wrapInt32 (drift + d1.Drift)
    let corr := Int.tdiv (wrapInt32 (10 * d1.HwSampleRate * drift1)) (90 * 1000)
    let d3 : AudioDecoder := { d1 with Drift := drift1 }
    -- SPDIF/HDMI passthrough
    let d4 : AudioDecoder :=
      if CodecAudioDrift &&& CORRECT_AC3 ≠ 0
          ∧ (¬ (CodecPassthrough &&& CodecAC3 ≠ 0) ∨ d3.codec_id ≠ CodecID.AC3)
          ∧ (¬ (CodecPassthrough &&& CodecEAC3 ≠ 0) ∨ d3.codec_id ≠ CodecID.EAC3)
          ∧ (¬ (CodecPassthrough &&& CodecDTS ≠ 0) ∨ d3.codec_id ≠ CodecID.DTS) then
        { d3 with DriftCorr := wrapInt32 (-corr) }
      else d3
    -- limit correction
    if d4.DriftCorr < -20000 then { d4 with DriftCorr := -20000 }
    else if d4.DriftCorr > 20000 then { d4 with DriftCorr := 20000 }
    else d4

/-- The part of `CodecAudioSetClock` that hands the correction to the
resampler (codec.c, lines 1587-1599): the calls it makes. -/
def CodecAudioClockCompensate (d2 : AudioDecoder) (pts_diff : Int) : List ClockCall :=
  if d2.AvResample = true ∧ d2.DriftCorr ≠ 0 then
    -- try workaround for buggy ffmpeg 0.10
    let distance : Int :=
      if abs32 d2.DriftCorr < 2000 then
        wrapInt32 (Int.tdiv (pts_diff * d2.HwSampleRate) (900 * 1000))
      else wrapInt32 (Int.tdiv (pts_diff * d2.HwSampleRate) (90 * 1000))
    [ClockCall.av_resample_compensate (Int.tdiv d2.DriftCorr 10) distance]
  else []

/-- The exact value of the expression that `CodecAudioSetClock` stores in its
`int` variable `drift`: elapsed time in ticks, less the elapsed PTS, plus the
change of the delay. -/
def CodecAudioClockExactDrift (audio_decoder : AudioDecoder) (pts : Int) (delay : Int)
    (nowtime : Timespec) : Int :=
  Int.tdiv
      (((nowtime.tv_sec - audio_decoder.LastTime.tv_sec) * 1000 * 1000 * 1000
        + (nowtime.tv_nsec - audio_decoder.LastTime.tv_nsec)) * 90) (1000 * 1000)
    - (pts - audio_decoder.LastPTS) + delay - audio_decoder.LastDelay

/-- Set/update audio pts clock (codec.c, lines 1504-1608; the variant of lines
1963-2085 has the same statements on the fields).  `delay` is what
`AudioGetDelay ()` returns and `nowtime` what `clock_gettime` stores.  The
`int64_t` values are taken exactly, the `int` values modulo 2^32; `/` and `%`
truncate as in C. -/
def CodecAudioSetClock (CodecPassthrough CodecAudioDrift : Nat) (audio_decoder : AudioDecoder)
    (pts : Int) (delay : Int) (nowtime : Timespec) : AudioDecoder × List ClockCall :=
  let calls := [ClockCall.AudioSetClock pts]
  if delay = 0 then (audio_decoder, calls)
  else if audio_decoder.LastDelay = 0 then
    ({ audio_decoder with
        LastTime := nowtime, LastPTS := pts, LastDelay := delay, Drift := 0, DriftFrac := 0 },
      calls)
  else
    -- collect over some time
    let pts_diff := pts - audio_decoder.LastPTS
    if pts_diff < 10 * 1000 * 90 then (audio_decoder, calls)
    else
      let drift : Int := wrapInt32 (CodecAudioClockExactDrift audio_decoder pts delay nowtime)
      -- adjust rounding error
      let nowtime1 : Timespec :=
        { nowtime with tv_nsec := nowtime.tv_nsec - Int.tmod nowtime.tv_nsec (1000 * 1000 / 90) }
      let d1 : AudioDecoder :=
        { audio_decoder with LastTime := nowtime1, LastPTS := pts, LastDelay := delay }
      let d2 := CodecAudioClockDrift CodecPassthrough CodecAudioDrift d1 drift
      (d2, calls ++ CodecAudioClockCompensate d2 pts_diff)

/-- Handle audio format changes helper (codec.c, lines 1203-1296): the
decoder, the pass-through output and the value returned.  `AudioSetup` maps
the frequency, the channels and the pass-through flag it is given to the
value it returns and to the frequency and the channels it stores. -/
def CodecAudioUpdateHelper (CodecPassthrough : Nat) (CodecPassthroughHBR : Bool)
    (AudioSetup : Int → Int → Int → Int × Int × Int) (audio_decoder : AudioDecoder) :
    AudioDecoder × Int × Int :=
  let d1 : AudioDecoder :=
    { audio_decoder with
      SampleRate := audio_decoder.sample_rate
      HwSampleRate := audio_decoder.sample_rate
      Channels := audio_decoder.channels
      HwChannels := audio_decoder.channels
      Passthrough := CodecPassthrough }
  -- SPDIF/HDMI pass-through
  let dp : AudioDecoder × Int :=
    if (CodecPassthrough &&& CodecAC3 ≠ 0 ∧ d1.codec_id = CodecID.AC3)
        ∨ (CodecPassthrough &&& CodecDTS ≠ 0 ∧ d1.codec_id = CodecID.DTS)
        ∨ (CodecPassthrough &&& CodecEAC3 ≠ 0 ∧ d1.codec_id = CodecID.EAC3) then
      ({ d1 with
          -- E-AC-3 over HDMI some receivers need HBR
          HwSampleRate :=
            if d1.codec_id = CodecID.EAC3 ∧ CodecPassthroughHBR = true then
              wrapInt32 (d1.HwSampleRate * 4)
            else d1.HwSampleRate
          HwChannels := 2
          SpdifIndex := 0    -- reset buffer
          SpdifCount := 0 }, 1)
    else (d1, 0)
  -- channels/sample-rate not support?
  let r := AudioSetup dp.1.HwSampleRate dp.1.HwChannels dp.2
  let d2 : AudioDecoder := { dp.1 with HwSampleRate := r.2.1, HwChannels := r.2.2 }
  if r.1 ≠ 0 then
    -- try E-AC-3 none HBR
    let d3 : AudioDecoder :=
      { d2 with HwSampleRate := Int.tdiv d2.HwSampleRate (if CodecPassthroughHBR then 4 else 1) }
    if d3.codec_id ≠ CodecID.EAC3 then
      ({ d3 with HwChannels := 0, HwSampleRate := 0 }, dp.2, r.1)
    else
      let r2 := AudioSetup d3.HwSampleRate d3.HwChannels dp.2
      if r2.1 ≠ 0 then ({ d3 with HwChannels := 0, HwSampleRate := 0 }, dp.2, r2.1)
      else ({ d3 with HwSampleRate := r2.2.1, HwChannels := r2.2.2 }, dp.2, 0)
  else (d2, dp.2, 0)

/-- Handle audio format changes (codec.c, lines 1617-1682).  `resample_init`
and `av_resample_init` tell whether `av_audio_resample_init` and
`av_resample_init` give a context. -/
def CodecAudioUpdateFormat (CodecPassthrough CodecAudioDrift : Nat) (CodecPassthroughHBR : Bool)
    (AudioSetup : Int → Int → Int → Int × Int × Int) (resample_init av_resample_init : Bool)
    (audio_decoder : AudioDecoder) : AudioDecoder × List ClockCall :=
  let d0 : AudioDecoder :=
    if audio_decoder.ReSample then { audio_decoder with ReSample := false } else audio_decoder
  let d1 : AudioDecoder :=
    if d0.AvResample then { d0 with AvResample := false, RemainCount := 0 } else d0
  let h := CodecAudioUpdateHelper CodecPassthrough CodecPassthroughHBR AudioSetup d1
  if h.2.2 ≠ 0 then
    if h.2.2 = 1 then
      -- libav-0.8_pre didn't support 6 -> 2 channels
      if resample_init then ({ h.1 with ReSample := true }, [])
      else ({ h.1 with ReSample := false, HwChannels := 0, HwSampleRate := 0 }, [])
    else ({ h.1 with HwChannels := 0, HwSampleRate := 0 }, [])
  else if h.2.1 ≠ 0 then (h.1, [])      -- pass-through no conversion allowed
  -- prepare audio drift resample
  else if CodecAudioDrift &&& CORRECT_PCM ≠ 0 then
    if av_resample_init then
      -- reset drift to some default value
      let d2 : AudioDecoder :=
        { h.1 with AvResample := true, DriftCorr := Int.tdiv h.1.DriftCorr 2, DriftFrac := 0 }
      (d2, [ClockCall.av_resample_compensate (Int.tdiv d2.DriftCorr 10)
        (wrapInt32 (10 * d2.HwSampleRate))])
    else ({ h.1 with AvResample := false }, [])
  else (h.1, [])

/-- The audio decoders a run can reach from a newly allocated one through
`CodecAudioSetClock` observations and `CodecAudioUpdateFormat` calls, and
through the other functions of the module (`env`), which write other fields
but leave the drift correction value alone. -/
inductive AudioClockReachable : AudioDecoder → Prop where
  | init : AudioClockReachable CodecAudioNewDecoder
  | clock (CodecPassthrough CodecAudioDrift : Nat) (d : AudioDecoder) (pts delay : Int)
      (nowtime : Timespec) :
      AudioClockReachable d →
        AudioClockReachable
          (CodecAudioSetClock CodecPassthrough CodecAudioDrift d pts delay nowtime).1
  | format (CodecPassthrough CodecAudioDrift : Nat) (CodecPassthroughHBR : Bool)
      (AudioSetup : Int → Int → Int → Int × Int × Int) (resample_init av_resample_init : Bool)
      (d : AudioDecoder) :
      AudioClockReachable d →
        AudioClockReachable
          (CodecAudioUpdateFormat CodecPassthrough CodecAudioDrift CodecPassthroughHBR
            AudioSetup resample_init av_resample_init d).1
  | env (d d2 : AudioDecoder) :
      AudioClockReachable d → d2.DriftCorr = d.DriftCorr → AudioClockReachable d2

/-! ## Drivers and observers of the PES demuxer runs -/

/-- A PES packet of `size` bytes fed to `PesParse` in two calls: the first `k`
bytes with the start flag, the rest without. -/
def PesParseSplit (fuel : Nat) (data : Ptr) (k size : Nat) (ctx : PesCtx) : Run PesCtx :=
  match PesParse fuel ctx data k true with
  | Run.returned ctx1 => PesParse fuel ctx1 (data.add k) (size - k) false
  | Run.aborted => Run.aborted
  | Run.unfinished => Run.unfinished

/-- The bytes 9 to 13 of the header scratch after a run that returned. -/
def headerPtsBytesOf : Run PesCtx → Option (List Byte)
  | Run.returned ctx => some ((ctx.pesdx.Header.add 9).bytes 5)
  | _ => none

/-- The parser state a run ended in, when it returned. -/
def stateOf : Run PesCtx → Option PesState
  | Run.returned ctx => some ctx.pesdx.State
  | _ => none

/-- The four detector calls of `PlayAudio` at one buffer position (softhddev.c,
lines 1106-1128), for the stream `id`: the result `r` and the codec id. -/
def PlayAudioDetect (id : Nat) (p : Ptr) (n : Int) : Option (Int × CodecID) :=
  match (if id ≠ 0xbd ∧ FastMpegCheck p then (MpegCheck p n).map (fun r => (r, CodecID.MP2))
         else some (0, CodecID.NONE)) with
  | none => none
  | some (r1, c1) =>
    let rc2 : Int × CodecID :=
      if id ≠ 0xbd ∧ r1 = 0 ∧ FastLatmCheck p then (LatmCheck p n, CodecID.AAC_LATM)
      else (r1, c1)
    match (if (id = 0xbd ∨ id &&& 0xF0 = 0x80) ∧ rc2.1 = 0 ∧ FastAc3Check p then
             (Ac3Check p n).map (fun r => (r, CodecID.AC3))
           else some rc2) with
    | none => none
    | some (r3, c3) =>
      some (if id ≠ 0xbd ∧ r3 = 0 ∧ FastAdtsCheck p then (AdtsCheck p n, CodecID.AAC)
            else (r3, c3))

/-! ## The header index of the PES demuxer (softhddev.c, lines 471-498, 671-726) -/

/-- The header bookkeeping of the PES demuxer: in `PES_SYNC` the start code is
not yet complete; in `PES_HEADER` the write index is inside the header, whose
size is 9 until byte 8 has arrived and 9 plus that byte from then on. -/
def PesHeaderInv (pesdx : PesDemux) : Prop :=
  (pesdx.State = PesState.PES_SYNC → pesdx.HeaderIndex < PES_START_CODE_SIZE)
  ∧ (pesdx.State = PesState.PES_HEADER →
      pesdx.HeaderIndex ≤ pesdx.HeaderSize ∧ pesdx.HeaderSize ≤ 264
      ∧ (pesdx.HeaderIndex < PES_HEADER_SIZE → pesdx.HeaderSize = PES_HEADER_SIZE)
      ∧ (PES_HEADER_SIZE ≤ pesdx.HeaderIndex →
          pesdx.HeaderSize = PES_HEADER_SIZE + (pesdx.Header 8).val))

/-- The states of the audio demuxer reachable from `PesInit` through `PesReset`
and `PesParse` calls that each bring at least one byte (`1 <= size`): after a
call that returned (`parse`) and inside a call after any number of passes
through its loop (`pass`); the codec id and the decoder log may change in
between. -/
inductive PesFedReachable : PesCtx → Prop where
  | init (buffer : Ptr) (id : CodecID) (calls : List AudioCall) :
      PesFedReachable { pesdx := PesInit buffer, AudioCodecID := id, calls := calls }
  | reset (ctx : PesCtx) :
      PesFedReachable ctx → PesFedReachable { ctx with pesdx := PesReset ctx.pesdx }
  | env (ctx : PesCtx) (id : CodecID) (calls : List AudioCall) :
      PesFedReachable ctx → PesFedReachable { ctx with AudioCodecID := id, calls := calls }
  | parse (ctx ctx2 : PesCtx) (fuel : Nat) (data : Ptr) (size : Nat) (is_start : Bool) :
      PesFedReachable ctx → 1 ≤ size →
      PesParse fuel ctx data size is_start = Run.returned ctx2 →
      PesFedReachable ctx2
  | pass (ctx : PesCtx) (k : Nat) (data : Ptr) (size : Nat) (is_start : Bool) (s : PesLoop) :
      PesFedReachable ctx → 1 ≤ size →
      PesPasses data k
        { ctx := { ctx with pesdx := PesParseEntry ctx.pesdx is_start }, p := 0, size := size }
        = some s →
      PesFedReachable s.ctx

/-! ## Appending to the write slot (softhddev.c, lines 1301-1351) -/

/-- A sequence of `VideoEnqueue` calls, each with its `pts`, `data` and `size`,
with no other call in between. -/
def VideoEnqueueAll (padding : Nat) : VideoState → List (Int × Ptr × Nat) → VideoState
  | s, [] => s
  | s, (pts, data, size) :: rest =>
    VideoEnqueueAll padding (VideoEnqueue padding s pts data size) rest

/-- The bytes a sequence of `VideoEnqueue` calls appends, in call order. -/
def appendedBytes (chunks : List (Int × Ptr × Nat)) : List Byte :=
  (chunks.map (fun c => c.2.1.bytes c.2.2)).flatten

/-- The cursors and the fill counter of the ring agree: both cursors are slot
numbers, and the fill counter is the distance from the read to the write
cursor modulo the number of slots, at most 191. -/
def VideoRingOk (s : VideoState) : Prop :=
  s.VideoPacketRead < VIDEO_PACKET_MAX ∧ s.VideoPacketWrite < VIDEO_PACKET_MAX
  ∧ 0 ≤ s.VideoPacketsFilled ∧ s.VideoPacketsFilled ≤ 191
  ∧ s.VideoPacketsFilled = ((s.VideoPacketWrite : Int) - (s.VideoPacketRead : Int)) % 192

/-! ## The LPCM block of `PlayAudio` (softhddev.c, lines 1029-1081) -/

/-- The table `samplerates` of the LPCM block. -/
def samplerates : List Int := [48000, 96000, 44100, 32000]

/-- How the LPCM block of `PlayAudio` treats a packet. -/
inductive LpcmOutcome where
  | notLpcm      -- `(id & 0xF0) != 0xA0`: the block is not entered
  | invalid      -- fewer than 7 bytes: error message and `return size`
  | keep         -- the codec is `CODEC_ID_PCM_DVD` already: no new set-up
  | setup (bits_per_sample samplerate channels : Int)
                 -- `AudioSetup (&samplerate, &channels, 0)` with these values
  deriving DecidableEq

/-- The LPCM block of `PlayAudio` up to its `AudioSetup` call: `id` is the
stream id, `p` the payload after the PES header and `n` its size.  `none`:
the read `samplerates[p[5] >> 4]` is outside the array. -/
def PlayAudioLpcm (AudioCodecID : CodecID) (id : Nat) (p : Ptr) (n : Int) :
    Option LpcmOutcome :=
  -- Private stream + LPCM ID
  if id &&& 0xF0 = 0xA0 then
    if n < 7 then some LpcmOutcome.invalid
    else if AudioCodecID ≠ CodecID.PCM_DVD then
      let bits_per_sample : Nat := ((((p 5).val >>> 6) &&& 0x3) + 4) * 4
      match samplerates[(p 5).val >>> 4]? with
      | none => none
      | some samplerate =>
        some (LpcmOutcome.setup (bits_per_sample : Int) samplerate
          ((((p 5).val &&& 0x7) + 1 : Nat) : Int))
    else some LpcmOutcome.keep
  else some LpcmOutcome.notLpcm

/-! ## The sub-packets of `FixPacketForFFMpeg` (softhddev.c, lines 1395-1437) -/

/-- The picture start code 00 00 01 00 stands at offset `p` of the packet. -/
def PictureStartAt (data : Ptr) (p : Nat) : Prop :=
  (data p).val = 0 ∧ (data (p + 1)).val = 0 ∧ (data (p + 2)).val = 0x01
    ∧ (data (p + 3)).val = 0

instance (data : Ptr) (p : Nat) : Decidable (PictureStartAt data p) := by
  unfold PictureStartAt
  infer_instance

/-- The spans `(offset, length)` lie one after another, the first at `a`, the
last ending at `e`. -/
def spansFrom : Nat → List (Nat × Nat) → Nat → Prop
  | a, [], e => a = e
  | a, c :: rest, e => c.1 = a ∧ spansFrom (a + c.2) rest e

/-- The `CodecVideoDecode` call for the span `c` of the packet at `data`. -/
def decodeSpan (data : Ptr) (pts dts : Int) (c : Nat × Nat) : VideoCall :=
  VideoCall.decode { data := (data.add c.1).bytes c.2, pts := pts, dts := dts }

/-! ## The E-AC-3 burst cadence as the specification words it (codec.c, lines 1363-1412) -/

/-- The repeat count of an E-AC-3 frame, following the specification:
`{6, 3, 2, 1}[(byte4 & 0x30) >> 4]`, or 1 when the top two bits of byte 4 are
11. -/
def Eac3RepeatSpec (frame : List Byte) : Int :=
  if (frame.getD 4 0).val &&& 0xc0 = 0xc0 then 1
  else [6, 3, 2, 1].getD (((frame.getD 4 0).val &&& 0x30) >>> 4) 0

/-- The sum of the frame lengths of the packets. -/
def framesLength (pkts : List AVPacket) : Int :=
  (pkts.map (fun avpkt => (avpkt.data.length : Int))).sum

/-! ## Reorder audio frame (codec.c, lines 1155-1213) -/

/-- Result of `buf[i] = v` on the sample array `buf`.  The samples are
`int16_t`; the `int` temporaries of the function hold them unchanged. -/
def setSample (buf : Nat → Int) (i : Nat) (v : Int) : Nat → Int :=
  fun j => if j = i then v else buf j

/-- The loop body of `case 5` at frame start `i`. -/
def CodecReorderFrame5 (buf : Nat → Int) (i : Nat) : Nat → Int :=
  let c := buf (i + 2)
  let ls := buf (i + 3)
  let rs := buf (i + 4)
  setSample (setSample (setSample buf (i + 2) ls) (i + 3) rs) (i + 4) c

/-- The loop body of `case 6` and of `case 8` at frame start `i`. -/
def CodecReorderFrame6 (buf : Nat → Int) (i : Nat) : Nat → Int :=
  let c := buf (i + 2)
  let lfe := buf (i + 3)
  let ls := buf (i + 4)
  let rs := buf (i + 5)
  setSample (setSample (setSample (setSample buf (i + 2) ls) (i + 3) rs) (i + 4) c) (i + 5) lfe

/-- The loop `for (i = 0; i < size; i += step)` with the given body, run for
at most `fuel` passes; `none`: the loop is still running. -/
def CodecReorderLoop (body : (Nat → Int) → Nat → Nat → Int) (step : Nat) (size : Int) :
    Nat → Nat → (Nat → Int) → Option (Nat → Int)
  | 0, i, buf => if (i : Int) < size then none else some buf
  | fuel + 1, i, buf =>
    if (i : Int) < size then CodecReorderLoop body step size fuel (i + step) (body buf i)
    else some buf

/-- Reorder audio frame: `buf` is the sample buffer, `size` its size in
bytes, `channels` the number of channels interleaved in it; the loops run for
at most `fuel` passes. -/
def CodecReorderAudioFrame (fuel : Nat) (buf : Nat → Int) (size : Int) (channels : Int) :
    Option (Nat → Int) :=
  if channels = 5 then CodecReorderLoop CodecReorderFrame5 5 (size.tdiv 2) fuel 0 buf
  else if channels = 6 then CodecReorderLoop CodecReorderFrame6 6 (size.tdiv 2) fuel 0 buf
  else if channels = 8 then CodecReorderLoop CodecReorderFrame6 8 (size.tdiv 2) fuel 0 buf
  else some buf

/-! ### The channel orders as the documentation gives them -/

/-- The samples of frame `f` of a buffer with `channels` interleaved channels. -/
def frameAt (buf : Nat → Int) (channels f : Nat) : List Int :=
  (List.range channels).map (fun k => buf (channels * f + k))

/-- Documented order for 5 channels: L R C Ls Rs becomes L R Ls Rs C. -/
def reorder5 : List Int → List Int
  | [l, r, c, ls, rs] => [l, r, ls, rs, c]
  | frame => frame

/-- Documented order for 6 channels: L R C LFE Ls Rs becomes L R Ls Rs C LFE. -/
def reorder6 : List Int → List Int
  | [l, r, c, lfe, ls, rs] => [l, r, ls, rs, c, lfe]
  | frame => frame

/-- Documented order for 8 channels: L R C LFE Ls Rs Rl Rr becomes
L R Ls Rs C LFE Rl Rr. -/
def reorder8 : List Int → List Int
  | [l, r, c, lfe, ls, rs, rl, rr] => [l, r, ls, rs, c, lfe, rl, rr]
  | frame => frame

/-! ## Example streams -/

/-- Endless MPEG-1 layer II stream, 32 kbit/s at 44100 Hz: 104-byte frames. -/
def exMpegStream : Ptr := fun i => [0xFF, 0xFD, 0x10, 0x00].getD (i % 104) 0

/-- Endless AC-3 stream with `fscod = 0`, `frmsizcod = 20`: 768-byte frames. -/
def exAc3Stream : Ptr := fun i => [0x0B, 0x77, 0x00, 0x00, 0x14].getD (i % 768) 0

/-- Endless AAC LATM stream of 3-byte frames. -/
def exLatmStream : Ptr := fun i => [0x56, 0xE0, 0x00].getD (i % 3) 0

/-- Endless ADTS stream of 8-byte frames. -/
def exAdtsStream : Ptr := fun i => [0xFF, 0xF1, 0x50, 0x80, 0x01, 0x00].getD (i % 8) 0

/-- Endless ADTS stream of 256-byte frames. -/
def exAdtsLongStream : Ptr := fun i => [0xFF, 0xF1, 0x50, 0x80, 0x20, 0x00].getD (i % 256) 0

/-- A PES packet for private stream 1: PTS-only header carrying the PTS
`0x123456789`, then the example AC-3 stream. -/
def exPesAc3 : Ptr := fun j =>
  if j < 14 then
    ([0x00, 0x00, 0x01, 0xBD, 0x00, 0x00, 0x80, 0x80, 0x05]
      ++ PesTimestampBytes 2 1 1 1 4886718345).getD j 0
  else exAc3Stream (j - 14)

/-- Payload-only transport packets carrying `exPesAc3`; only the first has
the payload-unit-start bit. -/
def exTsAc3 : Ptr := fun i =>
  if i % 188 < 4 then [0x47, if i / 188 = 0 then 0x40 else 0x00, 0x00, 0x10].getD (i % 188) 0
  else exPesAc3 (184 * (i / 188) + i % 188 - 4)

/-- A PES start packet for private stream 1 with the MPEG-2 layout, no flags
and header data length 0, followed by one payload byte. -/
def exHangPacket : Ptr :=
  Ptr.ofList [0x00, 0x00, 0x01, 0xBD, 0x00, 0x00, 0x80, 0x00, 0x00, 0x11]

/-- A PES packet for audio stream 0xC0: PTS-only header carrying the PTS
`0x123456789`, one 3-byte AAC LATM frame, and the header of a 258-byte frame
of which 11 bytes are present. -/
def exPesLatm : Ptr :=
  Ptr.ofList ([0x00, 0x00, 0x01, 0xC0, 0x00, 0x00, 0x80, 0x80, 0x05]
    ++ PesTimestampBytes 2 1 1 1 4886718345
    ++ [0x56, 0xE0, 0x00, 0x56, 0xE0, 0xFF, 0x01, 0x02, 0x03, 0x04, 0x05, 0x06, 0x07, 0x08])

/-- A PES packet for audio stream 0xC0: PTS-only header, then six 3-byte AAC
LATM frames. -/
def exPesLatmFive : Ptr :=
  Ptr.ofList ([0x00, 0x00, 0x01, 0xC0, 0x00, 0x00, 0x80, 0x80, 0x05]
    ++ PesTimestampBytes 2 1 1 1 4886718345
    ++ [0x56, 0xE0, 0x00, 0x56, 0xE0, 0x00, 0x56, 0xE0, 0x00, 0x56, 0xE0, 0x00,
        0x56, 0xE0, 0x00, 0x56, 0xE0, 0x00])

/-- A freshly initialised and reset audio demuxer, no codec open. -/
def exFreshCtx : PesCtx :=
  { pesdx := PesReset (PesInit (fun _ => 0)), AudioCodecID := CodecID.NONE, calls := [] }

/-- One transport packet, payload-only with the payload-unit-start bit,
carrying `exHangPacket` at the start of its payload. -/
def exTsHang : Ptr := fun i =>
  if i < 4 then [0x47, 0x40, 0x00, 0x10].getD i 0 else exHangPacket (i - 4)

/-- Transport packets of which the first has the sync byte and
adaptation-field-control 00, and the others start with 0x00 instead of 0x47. -/
def exTsSyncLost : Ptr := fun i => if i = 0 then 0x47 else 0x00

/-- A state before `VideoPacketInit`, with no video stream running and every
flag clear. -/
def exVideoIdle : VideoState :=
  { VideoPacketRb := fun _ =>
      { data := fun _ => 0, size := 0, stream_index := 0, pts := 0, dts := 0
        priv := CodecID.NONE }
    VideoPacketWrite := 0, VideoPacketRead := 0, VideoPacketsFilled := 0
    VideoClearBuffers := false, VideoClearClose := false, SkipVideo := false
    CurrentTrickSpeed := 0, NewVideoStream := false, ClosingVideoStream := false
    StreamFreezed := false, MyVideoDecoder := true
    VideoCodecID := CodecID.NONE, last_codec_id := CodecID.NONE, calls := [] }

/-- The state after `VideoPacketInit` and `n` rounds of appending one byte
and committing the slot as H.264, with no dequeue in between. -/
def exVideoFilled : Nat → VideoState
  | 0 => VideoPacketInit exVideoIdle (fun _ _ => 0)
  | n + 1 =>
    VideoNextPacket 8 (VideoEnqueue 8 (exVideoFilled n) 900 (Ptr.ofList [0x65]) 1) CodecID.H264

/-- The example state with 189 slots filled and a channel switch pending. -/
def exVideoSwitch : VideoState := { exVideoFilled 189 with NewVideoStream := true }

/-- A video PES packet: start code, stream 0xE0, no header data, and an H.264
access unit delimiter as payload. -/
def exVideoPes : Ptr :=
  Ptr.ofList [0x00, 0x00, 0x01, 0xE0, 0x00, 0x00, 0x80, 0x00, 0x00,
    0x00, 0x00, 0x00, 0x01, 0x09]

/-- The example state with one slot committed, the write cursor at 1, and a
forced clear pending. -/
def exVideoClearPending : VideoState := { exVideoFilled 1 with VideoClearBuffers := true }

/-- An AC-3 decoder with pass-through to a 48 kHz stereo output, nothing
accumulated and no drift to correct. -/
def exAc3Decoder : AudioDecoder :=
  { codec_id := CodecID.AC3, HwSampleRate := 48000, HwChannels := 2, Spdif := fun _ => 0xAA
    SpdifIndex := 0, SpdifCount := 0, DriftCorr := 0, DriftFrac := 0 }

/-- An AC-3 audio packet of eight bytes; byte 5 is 0x45. -/
def exAc3Packet : AVPacket :=
  { data := [0x0B, 0x77, 0x12, 0x34, 0x10, 0x45, 0x56, 0x78], pts := 900, dts := 900 }

/-- An E-AC-3 decoder with pass-through to a 48 kHz output, with 6140 bytes
of two sub-frames accumulated. -/
def exEac3Decoder : AudioDecoder :=
  { exAc3Decoder with codec_id := CodecID.EAC3, SpdifIndex := 6140, SpdifCount := 2 }

/-- An E-AC-3 audio packet of eight bytes. -/
def exEac3Packet : AVPacket :=
  { data := [0x0B, 0x77, 0x00, 0x03, 0x00, 0x80, 0x00, 0x00], pts := 900, dts := 900 }

/-- A newly allocated audio decoder (`calloc`) on which the E-AC-3 codec has
been opened and the format set up for pass-through to a 48 kHz output. -/
def exEac3Fresh : AudioDecoder :=
  { codec_id := CodecID.EAC3, HwSampleRate := 48000, HwChannels := 2, Spdif := fun _ => 0
    SpdifIndex := 0, SpdifCount := 0, DriftCorr := 0, DriftFrac := 0 }

/-- Two E-AC-3 frames of eight bytes whose byte 4 gives the repeat count 2. -/
def exEac3Frames : List AVPacket :=
  [{ data := [0x0B, 0x77, 0x01, 0x02, 0x20, 0x03, 0x04, 0x05], pts := 900, dts := 900 },
   { data := [0x0B, 0x77, 0x11, 0x12, 0x20, 0x13, 0x14, 0x15], pts := 3780, dts := 3780 }]

/-- A newly allocated audio decoder on which the DTS codec has been opened and
the format set up for pass-through. -/
def exDtsFresh : AudioDecoder := { exEac3Fresh with codec_id := CodecID.DTS }

/-- Two DTS frames of frame-size class 0x07, the first of 16 bytes and the
second of 8 bytes. -/
def exDtsFrames : List AVPacket :=
  [{ data := [0x7F, 0xFE, 0x80, 0x01, 0x00, 0x1C, 0x21, 0x22,
              0x23, 0x24, 0x25, 0x26, 0x27, 0x28, 0x29, 0x2A], pts := 900, dts := 900 },
   { data := [0x7F, 0xFE, 0x80, 0x01, 0x00, 0x1C, 0x31, 0x32], pts := 1860, dts := 1860 }]

/-- An audio decoder with a seeded clock baseline: MPEG audio at 48 kHz, last
observation at PTS 0 and time 100 s with a delay of 9000 ticks, no drift. -/
def exClockSeeded : AudioDecoder :=
  { CodecAudioNewDecoder with
    codec_id := CodecID.MP2, HwSampleRate := 48000, HwChannels := 2
    LastDelay := 9000, LastTime := { tv_sec := 100, tv_nsec := 0 }, LastPTS := 0 }

/-- Ten bytes that start a PES packet with the bad start code prefix
00 00 02. -/
def exBadStart : Ptr :=
  Ptr.ofList [0x00, 0x00, 0x02, 0xC0, 0x00, 0x00, 0x80, 0x80, 0x05, 0x21]

/-- A PES packet of the MPEG-1 layout (byte 6 is 0x21, not 10xx xxxx) that
carries a 3-byte AAC LATM frame. -/
def exMpeg1Pes : Ptr :=
  Ptr.ofList [0x00, 0x00, 0x01, 0xC0, 0x00, 0x0A, 0x21, 0x00, 0x01, 0x00, 0x01,
    0x56, 0xE0, 0x00, 0x56, 0xE0, 0x00]

/-- A demuxer in the payload scan: the buffer holds two 3-byte AAC LATM frames
and the header of a third, and the pending PTS and DTS are 900 and 450. -/
def exScanCtx : PesCtx :=
  { pesdx :=
      { PesReset (PesInit exLatmStream) with Index := 8, PTS := 900, DTS := 450 }
    AudioCodecID := CodecID.AAC_LATM
    calls := [] }

/-- A demuxer with 300000 bytes skipped and ten candidate bytes after them. -/
def exCruftDemux : PesDemux :=
  { PesReset (PesInit (fun i => Fin.ofNat (i % 7))) with Skip := 300000, Index := 300010 }

/-- MPEG 2.5 layer III header (version bits 00), bit-rate index 1 (8 kbit/s),
sample-rate index 0, repeated every 52 bytes. -/
def exMpeg25Stream : Ptr := fun i => [0xFF, 0xE2, 0x10, 0x00].getD (i % 52) 0

/-- The first nine bytes of a PES packet with header data length 255. -/
def exLongHeader : Ptr :=
  Ptr.ofList [0x00, 0x00, 0x01, 0xBD, 0x00, 0x00, 0x80, 0x80, 0xFF]

/-- An idle ring whose write slot holds two bytes and has a capacity of four. -/
def exVideoTight : VideoState :=
  { exVideoIdle with
    VideoPacketRb := setSlot exVideoIdle.VideoPacketRb 0
      { data := Ptr.ofList [0xAA, 0xBB], size := 4, stream_index := 2
        pts := 0, dts := AV_NOPTS_VALUE, priv := CodecID.NONE } }

/-- An LPCM payload: seven header bytes, byte 5 = 0x41 (20 bits per sample,
sample-rate code 0, two channels), and two sample bytes. -/
def exLpcm20 : Ptr := Ptr.ofList [0xA0, 0x00, 0x00, 0x00, 0x00, 0x41, 0x80, 0x12, 0x34]

/-- The same payload with byte 5 = 0x01 (16 bits per sample). -/
def exLpcm16 : Ptr := Ptr.ofList [0xA0, 0x00, 0x00, 0x00, 0x00, 0x01, 0x80, 0x12, 0x34]

/-- A video packet with picture start codes at offsets 0, 4 and 7. -/
def exPictures : Ptr :=
  Ptr.ofList [0x00, 0x00, 0x01, 0x00, 0x00, 0x00, 0x01, 0x00, 0x00, 0x01, 0x00,
    0x11, 0x22, 0x33, 0x44, 0x55]

/-- Two frames of six samples. -/
def exSamples6 : Nat → Int := fun i =>
  [1, 2, 3, 4, 5, 6, 11, 12, 13, 14, 15, 16].getD i 0

/-- A newly allocated audio decoder on which the E-AC-3 codec has been opened
and the format set up for pass-through to a 192 kHz output. -/
def exEac3Fast : AudioDecoder := { exEac3Fresh with HwSampleRate := 192000 }

/-- An E-AC-3 frame of 2400 bytes whose byte 4 gives the repeat count 6. -/
def exEac3LongFrame : AVPacket :=
  { data := [0x0B, 0x77, 0x04, 0xAF, 0x00] ++ List.replicate 2395 0, pts := 900, dts := 900 }

/-- Six such frames. -/
def exEac3Long : List AVPacket := List.replicate 5 exEac3LongFrame ++ [exEac3LongFrame]

/-! ## Theorems -/

/-- Bytes of `p.add k` are the bytes of `p` shifted by `k`. -/
theorem Ptr.add_apply (p : Ptr) (k i : Nat) : (p.add k) i = p (k + i) := rfl

/-- Splitting byte 4 of an AC-3 header built from valid codes gives the codes back. -/
theorem ac3_codes_split : ∀ c < 38, ∀ f < 3,
    ((f <<< 6) ||| c) >>> 6 = f ∧ ((f <<< 6) ||| c) &&& 0x3F = c := by decide

/-- For valid codes the table read of `Ac3Check` is in range. -/
theorem ac3_table_lookup : ∀ c < 38, ∀ f < 3,
    ((Ac3FrameSizeTable[c]?).bind (fun row => row[f]?)).map (fun w => w * 2)
      = some (2 * Ac3TableEntry c f) := by decide

/-- Frame size read by `Ac3Check` when byte 4 carries valid codes `(f, c)`. -/
theorem Ac3FrameSize_of_codes (data : Ptr) (c f : Nat) (hc : c < 38) (hf : f < 3)
    (hb : (data 4).val = (f <<< 6) ||| c) :
    Ac3FrameSize data = some (2 * Ac3TableEntry c f) := by
  unfold Ac3FrameSize
  simp only [hb, (ac3_codes_split c hc f hf).1, (ac3_codes_split c hc f hf).2]
  exact ac3_table_lookup c hc f hf

/-- C1: for every frame-size code `c < 38` and sample-rate code `f < 3`, when
byte 4 is `(f << 6) | c`, at least `F + 5` bytes are given and the bytes at
offset `F = 2 * Ac3FrameSizeTable[c][f]` pass `FastAc3Check`, `Ac3Check`
returns exactly `F`. -/
theorem Ac3Check_reports_table_size (c f : Nat) (hc : c < 38) (hf : f < 3)
    (data : Ptr) (size : Int)
    (hb : (data 4).val = (f <<< 6) ||| c)
    (hsize : (2 * Ac3TableEntry c f : Nat) + 5 ≤ size)
    (hnext : FastAc3Check (data.add (2 * Ac3TableEntry c f)) = true) :
    Ac3Check data size = some ((2 * Ac3TableEntry c f : Nat) : Int) := by
  unfold Ac3Check
  rw [Ac3FrameSize_of_codes data c f hc hf hb]
  simp only [hnext, if_true]
  rw [if_neg (by omega)]

/-- A positive result of `MpegCheck` is a frame followed by an accepted header. -/
theorem MpegCheck_pos (data : Ptr) (size r : Int) (hr : MpegCheck data size = some r)
    (hpos : 0 < r) : FastMpegCheck (data.add r.toNat) = true ∧ r + 4 ≤ size := by
  unfold MpegCheck at hr
  simp only at hr
  split at hr
  · simp at hr
  · split at hr
    · simp at hr
    · split at hr
      · simp at hr
      · split at hr
        · simp at hr; omega
        · split at hr
          · simp at hr
          · split at hr
            · simp at hr; omega
            · split at hr
              · rename_i hfast
                simp at hr
                subst hr
                refine ⟨by simpa using hfast, by omega⟩
              · simp at hr; omega

/-- A positive result of `Ac3Check` is a frame followed by an accepted header. -/
theorem Ac3Check_pos (data : Ptr) (size r : Int) (hr : Ac3Check data size = some r)
    (hpos : 0 < r) : FastAc3Check (data.add r.toNat) = true ∧ r + 5 ≤ size := by
  unfold Ac3Check at hr
  split at hr
  · simp at hr
  · split at hr
    · simp at hr; omega
    · split at hr
      · rename_i hfast
        simp at hr
        subst hr
        refine ⟨by simpa using hfast, by omega⟩
      · simp at hr; omega

/-- A positive result of `LatmCheck` is a frame followed by an accepted header. -/
theorem LatmCheck_pos (data : Ptr) (size : Int) (hpos : 0 < LatmCheck data size) :
    FastLatmCheck (data.add (LatmCheck data size).toNat) = true
      ∧ LatmCheck data size + 2 ≤ size := by
  unfold LatmCheck at hpos ⊢
  simp only at hpos ⊢
  split
  · rename_i h; rw [if_pos h] at hpos; omega
  · rename_i h
    rw [if_neg h] at hpos
    split
    · rename_i hfast
      refine ⟨by simpa using hfast, by omega⟩
    · rename_i hfast; rw [if_neg hfast] at hpos; omega

/-- A positive result of `AdtsCheck` is a frame followed by an accepted header. -/
theorem AdtsCheck_pos (data : Ptr) (size : Int) (hpos : 0 < AdtsCheck data size) :
    FastAdtsCheck (data.add (AdtsCheck data size).toNat) = true
      ∧ AdtsCheck data size + 3 ≤ size := by
  unfold AdtsCheck at hpos ⊢
  simp only at hpos ⊢
  split
  · rename_i h; rw [if_pos h] at hpos; omega
  · rename_i h6
    rw [if_neg h6] at hpos
    split
    · rename_i h; rw [if_pos h] at hpos; omega
    · rename_i h
      rw [if_neg h] at hpos
      split
      · rename_i hfast
        refine ⟨by simpa using hfast, by omega⟩
      · rename_i hfast; rw [if_neg hfast] at hpos; omega

/-- C2: for each of the four full checks, a positive result `r` means that the
same format's fast check accepts the bytes at offset `r` and that the frame
plus the look-ahead header (4, 5, 2, 3 bytes) lies inside the given span. -/
theorem full_check_positive_inside_span (data : Ptr) (size : Int) :
    (FastMpegCheck data = true → ∀ r, MpegCheck data size = some r → 0 < r →
        FastMpegCheck (data.add r.toNat) = true ∧ r + 4 ≤ size)
    ∧ (FastAc3Check data = true → ∀ r, Ac3Check data size = some r → 0 < r →
        FastAc3Check (data.add r.toNat) = true ∧ r + 5 ≤ size)
    ∧ (FastLatmCheck data = true → 0 < LatmCheck data size →
        FastLatmCheck (data.add (LatmCheck data size).toNat) = true
          ∧ LatmCheck data size + 2 ≤ size)
    ∧ (FastAdtsCheck data = true → 0 < AdtsCheck data size →
        FastAdtsCheck (data.add (AdtsCheck data size).toNat) = true
          ∧ AdtsCheck data size + 3 ≤ size) :=
  ⟨fun _ r hr hpos => MpegCheck_pos data size r hr hpos,
   fun _ r hr hpos => Ac3Check_pos data size r hr hpos,
   fun _ hpos => LatmCheck_pos data size hpos,
   fun _ hpos => AdtsCheck_pos data size hpos⟩

/-- Witness for C2: each full check returns a positive length on its example
stream, and the conclusion of C2 holds there. -/
theorem full_check_positive_inside_span_witness :
    (MpegCheck exMpegStream 108 = some 104
      ∧ FastMpegCheck (exMpegStream.add 104) = true ∧ (104 : Int) + 4 ≤ 108)
    ∧ (Ac3Check exAc3Stream 773 = some 768
      ∧ FastAc3Check (exAc3Stream.add 768) = true ∧ (768 : Int) + 5 ≤ 773)
    ∧ (LatmCheck exLatmStream 5 = 3
      ∧ FastLatmCheck (exLatmStream.add (LatmCheck exLatmStream 5).toNat) = true
      ∧ LatmCheck exLatmStream 5 + 2 ≤ 5)
    ∧ (AdtsCheck exAdtsStream 11 = 8
      ∧ FastAdtsCheck (exAdtsStream.add (AdtsCheck exAdtsStream 11).toNat) = true
      ∧ AdtsCheck exAdtsStream 11 + 3 ≤ 11) :=
  ⟨⟨by decide, (full_check_positive_inside_span exMpegStream 108).1
      (by decide) 104 (by decide) (by decide)⟩,
   ⟨by decide, (full_check_positive_inside_span exAc3Stream 773).2.1
      (by decide) 768 (by decide) (by decide)⟩,
   ⟨by decide, (full_check_positive_inside_span exLatmStream 5).2.2.1
      (by decide) (by decide)⟩,
   ⟨by decide, (full_check_positive_inside_span exAdtsStream 11).2.2.2
      (by decide) (by decide)⟩⟩

set_option maxRecDepth 100000 in
/-- Byte 1 of a header accepted by `FastMpegCheck` gives in-range version and layer. -/
theorem mpeg_byte1_fields : ∀ b : Byte,
    b.val &&& 0xE0 = 0xE0 → b.val &&& 0x18 ≠ 0x08 → b.val &&& 0x06 ≠ 0 →
    (1 ≤ 4 - ((b.val >>> 1) &&& 0x03) ∧ 4 - ((b.val >>> 1) &&& 0x03) ≤ 3)
    ∧ ((if b.val &&& 0x08 = 0 ∧ b.val &&& 0x10 ≠ 0 then 1 else 0)
        ||| (if b.val &&& 0x08 = 0 ∧ b.val &&& 0x10 = 0 then 1 else 0)) < 2 := by
  decide

set_option maxRecDepth 100000 in
/-- Byte 2 of a header accepted by `FastMpegCheck` gives in-range table indices. -/
theorem mpeg_byte2_fields : ∀ b : Byte,
    b.val &&& 0xF0 ≠ 0xF0 → b.val &&& 0x0C ≠ 0x0C →
    ((b.val >>> 4) &&& 0x0F) < 15 ∧ ((b.val >>> 2) &&& 0x03) < 3 := by
  decide

/-- The byte conditions `FastMpegCheck` tests. -/
theorem FastMpegCheck_iff (p : Ptr) : FastMpegCheck p = true ↔
    (p 0).val = 0xFF ∧ (p 1).val &&& 0xE0 = 0xE0 ∧ (p 1).val &&& 0x18 ≠ 0x08
      ∧ (p 1).val &&& 0x06 ≠ 0 ∧ (p 2).val &&& 0xF0 ≠ 0xF0
      ∧ (p 2).val &&& 0x0C ≠ 0x0C := by
  unfold FastMpegCheck
  by_cases h0 : (p 0).val = 0xFF <;> by_cases h1 : (p 1).val &&& 0xE0 = 0xE0 <;>
    by_cases h2 : (p 1).val &&& 0x18 = 0x08 <;> by_cases h3 : (p 1).val &&& 0x06 = 0 <;>
    by_cases h4 : (p 2).val &&& 0xF0 = 0xF0 <;> by_cases h5 : (p 2).val &&& 0x0C = 0x0C <;>
    simp [h0, h1, h2, h3, h4, h5]

/-- Every in-range sample-rate index reads a non-zero rate that stays non-zero
after the two one-bit shifts. -/
theorem sample_rate_lookup : ∀ i < 3, ∀ a < 2, ∀ b < 2,
    SampleRateTable[i]? = some (SampleRateTable.getD i 0)
    ∧ SampleRateTable.getD i 0 ≠ 0
    ∧ 8000 ≤ (SampleRateTable.getD i 0 >>> a) >>> b := by decide

/-- Every in-range bit-rate read succeeds. -/
theorem bit_rate_lookup : ∀ v < 2, ∀ l < 4, ∀ i < 16,
    (BitRateTable[v]?).bind (fun t => (t[l]?).bind (fun row => row[i]?))
      = some (((BitRateTable.getD v []).getD l []).getD i 0) := by decide

/-- The two version flags are 0 or 1. -/
theorem mpeg_flags_le (data : Ptr) :
    (MpegFields data).mpeg2 < 2 ∧ (MpegFields data).mpeg25 < 2 := by
  unfold MpegFields
  constructor <;> (simp only; split <;> omega)

/-- Under `FastMpegCheck`, `MpegCheck` always returns, and its result is
fixed by the header fields, the size and the byte test at the frame end. -/
theorem MpegCheck_of_fast (data : Ptr) (size : Int) (hfast : FastMpegCheck data = true) :
    MpegCheck data size =
      if MpegTableBitRate data = 0 then some 0
      else if (MpegFrameSize data : Int) + 4 > size then some (-(MpegFrameSize data : Int) - 4)
      else if FastMpegCheck (data.add (MpegFrameSize data)) then
        some (MpegFrameSize data : Int)
      else some 0 := by
  obtain ⟨-, h1, h2, h3, h4, h5⟩ := (FastMpegCheck_iff data).1 hfast
  obtain ⟨⟨hl1, hl3⟩, hv⟩ := mpeg_byte1_fields (data 1) h1 h2 h3
  obtain ⟨hbi, hsi⟩ := mpeg_byte2_fields (data 2) h4 h5
  obtain ⟨hm2, hm25⟩ := mpeg_flags_le data
  have hsr := sample_rate_lookup (MpegFields data).sample_rate_index hsi
    (MpegFields data).mpeg2 hm2 (MpegFields data).mpeg25 hm25
  have hbr := bit_rate_lookup ((MpegFields data).mpeg2 ||| (MpegFields data).mpeg25) hv
    (MpegFields data).layer
    (by have hl : (MpegFields data).layer = 4 - (((data 1).val >>> 1) &&& 0x03) := rfl
        omega)
    (MpegFields data).bit_rate_index
    (by have hb : (MpegFields data).bit_rate_index = ((data 2).val >>> 4) &&& 0x0F := rfl
        omega)
  unfold MpegCheck
  simp only [hsr.1, hbr, if_neg hsr.2.1]
  have hs0 : ¬ ((SampleRateTable.getD (MpegFields data).sample_rate_index 0
      >>> (MpegFields data).mpeg2) >>> (MpegFields data).mpeg25 = 0) := by
    have := hsr.2.2; omega
  simp only [if_neg hs0]
  rfl

set_option maxRecDepth 100000 in
/-- Byte 4 of a header accepted by `FastAc3Check` splits into valid codes. -/
theorem ac3_byte4_codes : ∀ b : Byte,
    b.val &&& 0xC0 ≠ 0xC0 → ¬ (b.val &&& 0x3F > 37) →
    b.val >>> 6 < 3 ∧ b.val &&& 0x3F < 38 := by
  decide

/-- Under `FastAc3Check` the table read of `Ac3Check` is in range. -/
theorem Ac3FrameSize_of_fast (data : Ptr) (hfast : FastAc3Check data = true) :
    ∃ F, Ac3FrameSize data = some F := by
  unfold FastAc3Check at hfast
  split at hfast
  · simp at hfast
  · split at hfast
    · simp at hfast
    · split at hfast
      · simp at hfast
      · split at hfast
        · simp at hfast
        · rename_i h1 h2
          obtain ⟨hf, hc⟩ := ac3_byte4_codes (data 4) h1 h2
          exact ⟨_, ac3_table_lookup _ hc _ hf⟩

/-- C3: for `MpegCheck` (accepted header, non-zero table bit rate), `Ac3Check`
(accepted header) and `LatmCheck`, with `F` the frame length of the header
and `k` the look-ahead (4, 5, 2): the result is negative exactly when
`size < F + k`, it then equals `-(F + k)`, and the check run with any
`size >= -r` does not return a negative result. -/
theorem negative_result_is_missing_length (data : Ptr) :
    (FastMpegCheck data = true → MpegTableBitRate data ≠ 0 →
      ∀ size : Int, ∃ r, MpegCheck data size = some r
        ∧ (r < 0 ↔ size < (MpegFrameSize data : Int) + 4)
        ∧ (r < 0 → r = -((MpegFrameSize data : Int) + 4)
            ∧ ∀ size2 : Int, -r ≤ size2 →
                ∃ r2, MpegCheck data size2 = some r2 ∧ 0 ≤ r2))
    ∧ (FastAc3Check data = true →
      ∃ F : Nat, Ac3FrameSize data = some F ∧
      ∀ size : Int, ∃ r, Ac3Check data size = some r
        ∧ (r < 0 ↔ size < (F : Int) + 5)
        ∧ (r < 0 → r = -((F : Int) + 5)
            ∧ ∀ size2 : Int, -r ≤ size2 →
                ∃ r2, Ac3Check data size2 = some r2 ∧ 0 ≤ r2))
    ∧ (∀ size : Int,
        (LatmCheck data size < 0 ↔ size < (LatmFrameSize data : Int) + 2)
        ∧ (LatmCheck data size < 0 →
            LatmCheck data size = -((LatmFrameSize data : Int) + 2)
            ∧ ∀ size2 : Int, -(LatmCheck data size) ≤ size2 →
                0 ≤ LatmCheck data size2)) := by
  refine ⟨?_, ?_, ?_⟩
  · intro hfast hbr
    have key : ∀ size : Int, ∃ r, MpegCheck data size = some r
        ∧ (r < 0 ↔ size < (MpegFrameSize data : Int) + 4)
        ∧ (r < 0 → r = -((MpegFrameSize data : Int) + 4)) := by
      intro size
      rw [MpegCheck_of_fast data size hfast, if_neg hbr]
      split
      · exact ⟨_, rfl, by omega, by omega⟩
      · split
        · exact ⟨_, rfl, by omega, by omega⟩
        · exact ⟨_, rfl, by omega, by omega⟩
    intro size
    obtain ⟨r, hr, hiff, hval⟩ := key size
    refine ⟨r, hr, hiff, fun hneg => ⟨hval hneg, fun size2 hs2 => ?_⟩⟩
    obtain ⟨r2, hr2, hiff2, -⟩ := key size2
    refine ⟨r2, hr2, ?_⟩
    have := hval hneg
    by_contra hcon
    have := hiff2.1 (by omega)
    omega
  · intro hfast
    obtain ⟨F, hF⟩ := Ac3FrameSize_of_fast data hfast
    refine ⟨F, hF, ?_⟩
    have key : ∀ size : Int, ∃ r, Ac3Check data size = some r
        ∧ (r < 0 ↔ size < (F : Int) + 5) ∧ (r < 0 → r = -((F : Int) + 5)) := by
      intro size
      unfold Ac3Check
      rw [hF]
      simp only
      split
      · exact ⟨_, rfl, by omega, by omega⟩
      · split
        · exact ⟨_, rfl, by omega, by omega⟩
        · exact ⟨_, rfl, by omega, by omega⟩
    intro size
    obtain ⟨r, hr, hiff, hval⟩ := key size
    refine ⟨r, hr, hiff, fun hneg => ⟨hval hneg, fun size2 hs2 => ?_⟩⟩
    obtain ⟨r2, hr2, hiff2, -⟩ := key size2
    refine ⟨r2, hr2, ?_⟩
    have := hval hneg
    by_contra hcon
    have := hiff2.1 (by omega)
    omega
  · have key : ∀ size : Int,
        (LatmCheck data size < 0 ↔ size < (LatmFrameSize data : Int) + 2)
        ∧ (LatmCheck data size < 0 →
            LatmCheck data size = -((LatmFrameSize data : Int) + 2)) := by
      intro size
      unfold LatmCheck
      simp only
      split
      · exact ⟨by omega, by omega⟩
      · split
        · exact ⟨by omega, by omega⟩
        · exact ⟨by omega, by omega⟩
    intro size
    obtain ⟨hiff, hval⟩ := key size
    refine ⟨hiff, fun hneg => ⟨hval hneg, fun size2 hs2 => ?_⟩⟩
    have := hval hneg
    by_contra hcon
    have := (key size2).1.1 (by omega)
    omega

/-- Witness for C3: on the example streams with 10 bytes given, each check
asks for the frame length plus its look-ahead. -/
theorem negative_result_is_missing_length_witness :
    (FastMpegCheck exMpegStream = true ∧ MpegTableBitRate exMpegStream ≠ 0
      ∧ ∃ r, MpegCheck exMpegStream 10 = some r
        ∧ (r < 0 ↔ (10 : Int) < (MpegFrameSize exMpegStream : Int) + 4)
        ∧ (r < 0 → r = -((MpegFrameSize exMpegStream : Int) + 4)
            ∧ ∀ size2 : Int, -r ≤ size2 →
                ∃ r2, MpegCheck exMpegStream size2 = some r2 ∧ 0 ≤ r2))
    ∧ (FastAc3Check exAc3Stream = true
      ∧ ∃ F : Nat, Ac3FrameSize exAc3Stream = some F ∧
        ∀ size : Int, ∃ r, Ac3Check exAc3Stream size = some r
          ∧ (r < 0 ↔ size < (F : Int) + 5)
          ∧ (r < 0 → r = -((F : Int) + 5)
              ∧ ∀ size2 : Int, -r ≤ size2 →
                  ∃ r2, Ac3Check exAc3Stream size2 = some r2 ∧ 0 ≤ r2)) :=
  ⟨⟨by decide, by decide,
      (negative_result_is_missing_length exMpegStream).1 (by decide) (by decide) 10⟩,
   ⟨by decide, (negative_result_is_missing_length exAc3Stream).2.1 (by decide)⟩⟩

/-- C4, as stated, fails: on an accepted ADTS header announcing a 256-byte
frame, a 5-byte span gives `-6`, and the check run again with 6 more bytes
(11 in total) is still negative. -/
theorem AdtsCheck_short_span_counterexample :
    FastAdtsCheck exAdtsLongStream = true
      ∧ AdtsCheck exAdtsLongStream 5 = -6
      ∧ AdtsCheck exAdtsLongStream (5 + -(AdtsCheck exAdtsLongStream 5)) < 0 := by
  decide

/-- C4, amended: on bytes that pass `FastAdtsCheck`, a span shorter than 6
bytes gives `-6` whatever the header says; for a span of at least 6 bytes a
negative result is `-(F + 3)` with `F` the 13-bit frame length, and the check
run again on `size + (-r)` bytes, or on any span of at least `-r` bytes,
gives a result `>= 0`. -/
theorem AdtsCheck_need_more_then_decides (data : Ptr) (size : Int)
    (hfast : FastAdtsCheck data = true) :
    (size < 6 → AdtsCheck data size = -6)
    ∧ (6 ≤ size → AdtsCheck data size < 0 →
        AdtsCheck data size = -((AdtsFrameSize data : Int) + 3)
        ∧ 0 ≤ AdtsCheck data (size + -(AdtsCheck data size))
        ∧ ∀ size2 : Int, -(AdtsCheck data size) ≤ size2 → 0 ≤ AdtsCheck data size2) := by
  have _ := hfast
  have key : ∀ s : Int, 6 ≤ s →
      (AdtsCheck data s < 0 ↔ s < (AdtsFrameSize data : Int) + 3)
      ∧ (AdtsCheck data s < 0 → AdtsCheck data s = -((AdtsFrameSize data : Int) + 3)) := by
    intro s hs
    unfold AdtsCheck
    rw [if_neg (by omega)]
    simp only
    split
    · exact ⟨by omega, by omega⟩
    · split
      · exact ⟨by omega, by omega⟩
      · exact ⟨by omega, by omega⟩
  refine ⟨fun h => by unfold AdtsCheck; rw [if_pos h], fun h6 hneg => ?_⟩
  have hval := (key size h6).2 hneg
  have hlt := (key size h6).1.1 hneg
  have hge : ∀ size2 : Int, -(AdtsCheck data size) ≤ size2 → 0 ≤ AdtsCheck data size2 := by
    intro size2 hs2
    by_contra hcon
    have h62 : 6 ≤ size2 := by omega
    have := (key size2 h62).1.1 (by omega)
    omega
  exact ⟨hval, hge _ (by omega), hge⟩

/-- Witness for the amended C4: the 256-byte ADTS header with 6 bytes given. -/
theorem AdtsCheck_need_more_then_decides_witness :
    FastAdtsCheck exAdtsLongStream = true ∧ (6 : Int) ≤ 6
      ∧ AdtsCheck exAdtsLongStream 6 < 0
      ∧ AdtsCheck exAdtsLongStream 6 = -((AdtsFrameSize exAdtsLongStream : Int) + 3)
      ∧ 0 ≤ AdtsCheck exAdtsLongStream (6 + -(AdtsCheck exAdtsLongStream 6))
      ∧ ∀ size2 : Int, -(AdtsCheck exAdtsLongStream 6) ≤ size2 →
          0 ≤ AdtsCheck exAdtsLongStream size2 :=
  ⟨by decide, by decide, by decide,
    ((AdtsCheck_need_more_then_decides exAdtsLongStream 6 (by decide)).2
      (by decide) (by decide))⟩

set_option maxRecDepth 100000 in
/-- Byte 1 with MPEG-1 or MPEG-2 version bits: the flags and the layer bits
of `MpegCheck` in arithmetic form. -/
theorem mpeg_byte1_arith : ∀ b : Byte, (b.val / 8 % 4 = 3 ∨ b.val / 8 % 4 = 2) →
    (if b.val &&& 0x08 = 0 ∧ b.val &&& 0x10 ≠ 0 then 1 else 0)
        = (if b.val / 8 % 4 = 2 then 1 else 0)
    ∧ (if b.val &&& 0x08 = 0 ∧ b.val &&& 0x10 = 0 then 1 else 0) = 0
    ∧ (b.val >>> 1) &&& 0x03 = b.val / 2 % 4 := by
  decide

set_option maxRecDepth 100000 in
/-- Byte 2: the index and padding fields of `MpegCheck` in arithmetic form. -/
theorem mpeg_byte2_arith : ∀ b : Byte,
    (b.val >>> 4) &&& 0x0F = b.val / 16 ∧ (b.val >>> 2) &&& 0x03 = b.val / 4 % 4
    ∧ (b.val >>> 1) &&& 0x01 = b.val / 2 % 2 := by
  decide

/-- For MPEG-1 and MPEG-2 headers the values `MpegCheck` computes are the
specification's `B`, `S` and `F`. -/
theorem mpeg_spec_values (data : Ptr)
    (hver : MpegSpecVersion data = 3 ∨ MpegSpecVersion data = 2) :
    MpegTableBitRate data * 1000 = MpegSpecBitRate data
    ∧ MpegSampleRate data = MpegSpecSampleRate data
    ∧ MpegFrameSize data = MpegSpecFrameLen data := by
  obtain ⟨h2, h25, hl⟩ := mpeg_byte1_arith (data 1) hver
  obtain ⟨hbi, hsi, hpad⟩ := mpeg_byte2_arith (data 2)
  have hB : MpegTableBitRate data * 1000 = MpegSpecBitRate data := by
    unfold MpegTableBitRate MpegSpecBitRate MpegFields MpegSpecLayer
    simp only [h2, h25, hl, hbi]
    unfold MpegSpecVersion at hver ⊢
    rcases hver with h | h <;> simp [h, Nat.mul_comm]
  have hS : MpegSampleRate data = MpegSpecSampleRate data := by
    unfold MpegSampleRate MpegSpecSampleRate MpegFields
    simp only [h2, h25, hsi]
    unfold MpegSpecVersion at hver ⊢
    rcases hver with h | h <;> simp [h, Nat.shiftRight_eq_div_pow]
  refine ⟨hB, hS, ?_⟩
  unfold MpegFrameSize MpegSpecFrameLen MpegFrameLen
  rw [hB, hS]
  unfold MpegFields MpegSpecLayer
  simp only [hl, hpad]

/-- C5: for every header passing `FastMpegCheck` with MPEG-1 or MPEG-2 version
bits and every `size >= F + 4`, with `B`, `S` and `F` as the specification
defines them: `MpegCheck` returns 0 when `B = 0`, otherwise `F` when
`FastMpegCheck` accepts the bytes at offset `F` and 0 when it does not. -/
theorem MpegCheck_frame_length_formula (data : Ptr) (size : Int)
    (hfast : FastMpegCheck data = true)
    (hver : MpegSpecVersion data = 3 ∨ MpegSpecVersion data = 2)
    (hsize : (MpegSpecFrameLen data : Int) + 4 ≤ size) :
    MpegCheck data size =
      some (if MpegSpecBitRate data = 0 then 0
            else if FastMpegCheck (data.add (MpegSpecFrameLen data)) = true then
              (MpegSpecFrameLen data : Int)
            else 0) := by
  obtain ⟨hB, -, hF⟩ := mpeg_spec_values data hver
  rw [MpegCheck_of_fast data size hfast, hF]
  by_cases hb : MpegTableBitRate data = 0
  · have : MpegSpecBitRate data = 0 := by rw [← hB, hb]
    rw [if_pos hb, if_pos this]
  · have : ¬ MpegSpecBitRate data = 0 := by rw [← hB]; omega
    rw [if_neg hb, if_neg this, if_neg (by omega)]
    split <;> rfl

/-- Witness for C5: the example MPEG-1 layer II stream, 104-byte frames. -/
theorem MpegCheck_frame_length_formula_witness :
    FastMpegCheck exMpegStream = true ∧ MpegSpecVersion exMpegStream = 3
      ∧ MpegSpecFrameLen exMpegStream = 104
      ∧ MpegCheck exMpegStream 108 =
          some (if MpegSpecBitRate exMpegStream = 0 then 0
            else if FastMpegCheck (exMpegStream.add (MpegSpecFrameLen exMpegStream)) = true
              then (MpegSpecFrameLen exMpegStream : Int)
            else 0) :=
  ⟨by decide, by decide, by decide,
    MpegCheck_frame_length_formula exMpegStream 108 (by decide) (Or.inl (by decide))
      (by decide)⟩

/-- Witness for C1: the example AC-3 stream, codes `c = 20`, `f = 0`, `F = 768`. -/
theorem Ac3Check_reports_table_size_witness :
    2 * Ac3TableEntry 20 0 = 768 ∧ Ac3Check exAc3Stream 773 = some 768 :=
  ⟨by decide, Ac3Check_reports_table_size 20 0 (by decide) (by decide) exAc3Stream 773
    (by decide) (by decide) (by decide)⟩

/-- First timestamp byte: masking with `0x0E` leaves bits 32..30 in place. -/
theorem ts_byte0 : ∀ pre < 16, ∀ a < 8, ∀ m < 2,
    ((((pre <<< 4) ||| (a <<< 1)) ||| m) % 256) &&& 0x0E = a * 2 := by decide

/-- Third and fifth timestamp byte: masking with `0xFE` drops the marker bit. -/
theorem ts_byte_marker : ∀ c < 128, ∀ m < 2,
    (((c <<< 1) ||| m) % 256) &&& 0xFE = c * 2 := by decide

/-- OR of a multiple of `2 ^ k` with a smaller number is their sum. -/
theorem or_eq_add_of_lt (k a b : Nat) (hb : b < 2 ^ k) :
    (a * 2 ^ k) ||| b = a * 2 ^ k + b := by
  rw [Nat.mul_comm a, Nat.mul_add_lt_is_or hb]

/-- Bit field of a number: shift and mask are division and remainder. -/
theorem shift_mask_eq (v k n : Nat) : (v >>> k) &&& (2 ^ n - 1) = v / 2 ^ k % 2 ^ n := by
  rw [Nat.shiftRight_eq_div_pow, Nat.and_pow_two_sub_one_eq_mod]

/-- The timestamp expression on five bytes given by their fields. -/
theorem ts_compose (a b c d e : Nat) (hb : b < 256) (hc : c < 128)
    (hd : d < 256) (he : e < 128) :
    ((((((a * 2) <<< 29) ||| (b <<< 22)) ||| ((c * 2) <<< 14)) ||| (d <<< 7))
      ||| ((e * 2) >>> 1))
      = a * 2 ^ 30 + b * 2 ^ 22 + c * 2 ^ 15 + d * 2 ^ 7 + e := by
  have h1 : (a * 2) <<< 29 = a * 2 ^ 30 := by rw [Nat.shiftLeft_eq]; omega
  have h2 : b <<< 22 = b * 2 ^ 22 := Nat.shiftLeft_eq _ _
  have h3 : (c * 2) <<< 14 = c * 2 ^ 15 := by rw [Nat.shiftLeft_eq]; omega
  have h4 : d <<< 7 = d * 2 ^ 7 := Nat.shiftLeft_eq _ _
  have h5 : (e * 2) >>> 1 = e := by rw [Nat.shiftRight_eq_div_pow]; omega
  rw [h1, h2, h3, h4, h5]
  rw [or_eq_add_of_lt 30 a (b * 2 ^ 22) (by omega)]
  have e2 : a * 2 ^ 30 + b * 2 ^ 22 = (a * 2 ^ 8 + b) * 2 ^ 22 := by omega
  rw [e2, or_eq_add_of_lt 22 (a * 2 ^ 8 + b) (c * 2 ^ 15) (by omega)]
  have e3 : (a * 2 ^ 8 + b) * 2 ^ 22 + c * 2 ^ 15
      = (a * 2 ^ 15 + b * 2 ^ 7 + c) * 2 ^ 15 := by omega
  rw [e3, or_eq_add_of_lt 15 (a * 2 ^ 15 + b * 2 ^ 7 + c) (d * 2 ^ 7) (by omega)]
  have e4 : (a * 2 ^ 15 + b * 2 ^ 7 + c) * 2 ^ 15 + d * 2 ^ 7
      = (a * 2 ^ 23 + b * 2 ^ 15 + c * 2 ^ 8 + d) * 2 ^ 7 := by omega
  rw [e4, or_eq_add_of_lt 7 (a * 2 ^ 23 + b * 2 ^ 15 + c * 2 ^ 8 + d) e (by omega)]

/-- The timestamp expression applied to five bytes that are the standard
packing of `v` gives `v`. -/
theorem PesTimestamp_of_packed (data : Ptr) (i pre m0 m1 m2 v : Nat)
    (hpre : pre < 16) (hm0 : m0 < 2) (hm1 : m1 < 2) (hm2 : m2 < 2) (hv : v < 2 ^ 33)
    (hbytes : ∀ j < 5, data (i + j) = (PesTimestampBytes pre m0 m1 m2 v).getD j 0) :
    PesTimestamp data i = (v : Int) := by
  have ha : v >>> 30 &&& 0x07 = v / 2 ^ 30 % 2 ^ 3 := shift_mask_eq v 30 3
  have hb : v >>> 22 &&& 0xFF = v / 2 ^ 22 % 2 ^ 8 := shift_mask_eq v 22 8
  have hc : v >>> 15 &&& 0x7F = v / 2 ^ 15 % 2 ^ 7 := shift_mask_eq v 15 7
  have hd : v >>> 7 &&& 0xFF = v / 2 ^ 7 % 2 ^ 8 := shift_mask_eq v 7 8
  have he : v &&& 0x7F = v % 2 ^ 7 := Nat.and_pow_two_sub_one_eq_mod v 7
  have hv0 : (data i).val &&& 0x0E = (v / 2 ^ 30 % 2 ^ 3) * 2 := by
    have := hbytes 0 (by omega)
    rw [Nat.add_zero] at this
    rw [this]
    show ((((pre <<< 4) ||| ((v >>> 30 &&& 0x07) <<< 1)) ||| m0) % 256) &&& 0x0E = _
    rw [ha]
    exact ts_byte0 pre hpre _ (by omega) m0 hm0
  have hv1 : (data (i + 1)).val = v / 2 ^ 22 % 2 ^ 8 := by
    rw [hbytes 1 (by omega)]
    show (v >>> 22 &&& 0xFF) % 256 = _
    rw [hb]; omega
  have hv2 : (data (i + 2)).val &&& 0xFE = (v / 2 ^ 15 % 2 ^ 7) * 2 := by
    rw [hbytes 2 (by omega)]
    show ((((v >>> 15 &&& 0x7F) <<< 1) ||| m1) % 256) &&& 0xFE = _
    rw [hc]
    exact ts_byte_marker _ (by omega) m1 hm1
  have hv3 : (data (i + 3)).val = v / 2 ^ 7 % 2 ^ 8 := by
    rw [hbytes 3 (by omega)]
    show (v >>> 7 &&& 0xFF) % 256 = _
    rw [hd]; omega
  have hv4 : (data (i + 4)).val &&& 0xFE = (v % 2 ^ 7) * 2 := by
    rw [hbytes 4 (by omega)]
    show ((((v &&& 0x7F) <<< 1) ||| m2) % 256) &&& 0xFE = _
    rw [he]
    exact ts_byte_marker _ (by omega) m2 hm2
  unfold PesTimestamp
  rw [hv0, hv1, hv2, hv3, hv4,
    ts_compose _ _ _ _ _ (by omega) (by omega) (by omega) (by omega)]
  have : v / 2 ^ 30 % 2 ^ 3 * 2 ^ 30 + v / 2 ^ 22 % 2 ^ 8 * 2 ^ 22
      + v / 2 ^ 15 % 2 ^ 7 * 2 ^ 15 + v / 2 ^ 7 % 2 ^ 8 * 2 ^ 7 + v % 2 ^ 7 = v := by
    omega
  rw [this]

/-- The timestamp expression yields a value below `2 ^ 33`. -/
theorem PesTimestamp_lt (data : Ptr) (i : Nat) :
    0 ≤ PesTimestamp data i ∧ PesTimestamp data i < 2 ^ 33 := by
  refine ⟨Int.natCast_nonneg _, ?_⟩
  unfold PesTimestamp
  have b0 : ((data i).val &&& 0x0E) <<< 29 < 2 ^ 33 := by
    have : (data i).val &&& 0x0E ≤ 0x0E := Nat.and_le_right
    rw [Nat.shiftLeft_eq]; omega
  have b1 : (data (i + 1)).val <<< 22 < 2 ^ 33 := by
    have := (data (i + 1)).isLt
    rw [Nat.shiftLeft_eq]; omega
  have b2 : ((data (i + 2)).val &&& 0xFE) <<< 14 < 2 ^ 33 := by
    have : (data (i + 2)).val &&& 0xFE ≤ 0xFE := Nat.and_le_right
    rw [Nat.shiftLeft_eq]; omega
  have b3 : (data (i + 3)).val <<< 7 < 2 ^ 33 := by
    have := (data (i + 3)).isLt
    rw [Nat.shiftLeft_eq]; omega
  have b4 : ((data (i + 4)).val &&& 0xFE) >>> 1 < 2 ^ 33 := by
    have : (data (i + 4)).val &&& 0xFE ≤ 0xFE := Nat.and_le_right
    rw [Nat.shiftRight_eq_div_pow]; omega
  have := Nat.or_lt_two_pow (Nat.or_lt_two_pow (Nat.or_lt_two_pow
    (Nat.or_lt_two_pow b0 b1) b2) b3) b4
  exact_mod_cast this

/-- C6: the PES timestamp expression inverts the standard 5-byte packing: for
every `v < 2^33`, every 4-bit prefix and every choice of the three marker
bits, decoding the packed bytes gives `v`; and for arbitrary five bytes the
decoded value lies in `[0, 2^33)`. -/
theorem PesTimestamp_inverts_packing :
    (∀ pre m0 m1 m2 v : Nat, pre < 16 → m0 < 2 → m1 < 2 → m2 < 2 → v < 2 ^ 33 →
      PesTimestamp (Ptr.ofList (PesTimestampBytes pre m0 m1 m2 v)) 0 = (v : Int))
    ∧ (∀ (data : Ptr) (i : Nat),
        0 ≤ PesTimestamp data i ∧ PesTimestamp data i < 2 ^ 33) :=
  ⟨fun pre m0 m1 m2 v hpre hm0 hm1 hm2 hv =>
      PesTimestamp_of_packed _ 0 pre m0 m1 m2 v hpre hm0 hm1 hm2 hv
        (fun j _ => by rw [Nat.zero_add]; rfl),
    PesTimestamp_lt⟩

/-- Witness for C6: the timestamp `0x123456789` packed with prefix `0010` and
all marker bits set decodes to itself. -/
theorem PesTimestamp_inverts_packing_witness :
    PesTimestamp (Ptr.ofList (PesTimestampBytes 2 1 1 1 4886718345)) 0 = 4886718345 :=
  PesTimestamp_inverts_packing.1 2 1 1 1 4886718345 (by decide) (by decide) (by decide)
    (by decide) (by decide)

/-- Bytes below the destination offset are not touched by `memcpy`. -/
theorem memcpy_apply_lt (dst src : Ptr) (idx n i : Nat) (h : i < idx) :
    memcpy dst idx src n i = dst i := by
  unfold memcpy
  rw [if_neg (by omega)]

/-- Bytes inside the copied range come from the source. -/
theorem memcpy_apply_in (dst src : Ptr) (idx n i : Nat) (h1 : idx ≤ i) (h2 : i < idx + n) :
    memcpy dst idx src n i = src (i - idx) := by
  unfold memcpy
  rw [if_pos ⟨h1, h2⟩]

/-- Bytes past the copied range are not touched by `memcpy`. -/
theorem memcpy_apply_ge (dst src : Ptr) (idx n i : Nat) (h : idx + n ≤ i) :
    memcpy dst idx src n i = dst i := by
  unfold memcpy
  rw [if_neg (by omega)]

/-- Copying no bytes changes nothing. -/
theorem memcpy_zero (dst src : Ptr) (idx : Nat) : memcpy dst idx src 0 = dst := by
  funext i
  unfold memcpy
  rw [if_neg (by omega)]

/-- State `PES_SYNC` with the six start-code bytes available and a good prefix:
the header scratch holds them and the state becomes `PES_HEADER`. -/
theorem PesIter_sync (data : Ptr) (s : PesLoop)
    (hst : s.ctx.pesdx.State = PesState.PES_SYNC) (hhi : s.ctx.pesdx.HeaderIndex = 0)
    (hsize : 6 ≤ s.size)
    (h0 : (data s.p).val = 0) (h1 : (data (s.p + 1)).val = 0)
    (h2 : (data (s.p + 2)).val = 1) :
    PesIter data s = some (PesIterResult.next
      { ctx := { s.ctx with pesdx :=
          { s.ctx.pesdx with
            Header := memcpy s.ctx.pesdx.Header 0 (data.add s.p) 6
            HeaderIndex := 6
            StartCode := (data (s.p + 3)).val
            State := PesState.PES_HEADER
            HeaderSize := 9 } }
        p := s.p + 6, size := s.size - 6 }) := by
  have hc : clampSize (PES_START_CODE_SIZE - 0) s.size = 6 := by
    unfold clampSize PES_START_CODE_SIZE
    split <;> omega
  unfold PesIter
  simp only [hst, hhi, hc]
  have e0 : memcpy s.ctx.pesdx.Header 0 (data.add s.p) 6 0 = data s.p :=
    memcpy_apply_in _ _ _ _ _ (by omega) (by omega)
  have e1 : memcpy s.ctx.pesdx.Header 0 (data.add s.p) 6 1 = data (s.p + 1) :=
    memcpy_apply_in _ _ _ _ _ (by omega) (by omega)
  have e2 : memcpy s.ctx.pesdx.Header 0 (data.add s.p) 6 2 = data (s.p + 2) :=
    memcpy_apply_in _ _ _ _ _ (by omega) (by omega)
  have e3 : memcpy s.ctx.pesdx.Header 0 (data.add s.p) 6 3 = data (s.p + 3) :=
    memcpy_apply_in _ _ _ _ _ (by omega) (by omega)
  by_cases hcs : (data (s.p + 3)).val = s.ctx.pesdx.StartCode
  · simp [e0, e1, e2, e3, h0, h1, h2, hcs, PES_START_CODE_SIZE, PES_HEADER_SIZE]
  · simp [e0, e1, e2, e3, h0, h1, h2, hcs, PES_START_CODE_SIZE, PES_HEADER_SIZE]

/-- State `PES_HEADER` with header bytes 6 to 8 available and the MPEG-2 layout:
the header size grows by the header data length in byte 8. -/
theorem PesIter_header_fixed (data : Ptr) (s : PesLoop)
    (hst : s.ctx.pesdx.State = PesState.PES_HEADER) (hhi : s.ctx.pesdx.HeaderIndex = 6)
    (hhs : s.ctx.pesdx.HeaderSize = 9) (hsize : 3 ≤ s.size)
    (h6 : (data s.p).val &&& 0xC0 = 0x80) :
    PesIter data s = some (PesIterResult.next
      { ctx := { s.ctx with pesdx :=
          { s.ctx.pesdx with
            Header := memcpy s.ctx.pesdx.Header 6 (data.add s.p) 3
            HeaderIndex := 9
            HeaderSize := 9 + (data (s.p + 2)).val } }
        p := s.p + 3, size := s.size - 3 }) := by
  have hc : clampSize (9 - 6) s.size = 3 := by
    unfold clampSize
    split <;> omega
  have e6 : memcpy s.ctx.pesdx.Header 6 (data.add s.p) 3 6 = data s.p :=
    memcpy_apply_in _ _ _ _ _ (by omega) (by omega)
  have e8 : memcpy s.ctx.pesdx.Header 6 (data.add s.p) 3 8 = data (s.p + 2) :=
    memcpy_apply_in _ _ _ _ _ (by omega) (by omega)
  unfold PesIter
  simp [hst, hhi, hhs, hc, e6, e8, h6, PES_HEADER_SIZE]

/-- State `PES_HEADER` with the rest of a PTS-only header of private stream 1
available: the pending PTS is set from bytes 9 to 13 of the call's buffer and
the state becomes `PES_START`. -/
theorem PesIter_header_rest (data : Ptr) (s : PesLoop) (k : Nat)
    (hst : s.ctx.pesdx.State = PesState.PES_HEADER) (hhi : s.ctx.pesdx.HeaderIndex = 9)
    (hhs : s.ctx.pesdx.HeaderSize = 9 + k) (hk : 0 < k) (hsize : k ≤ s.size)
    (h7 : (s.ctx.pesdx.Header 7).val &&& 0xC0 = 0x80)
    (hcode : s.ctx.pesdx.StartCode = PES_PRIVATE_STREAM1) :
    PesIter data s = some (PesIterResult.next
      { ctx := { s.ctx with pesdx :=
          { s.ctx.pesdx with
            Header := memcpy s.ctx.pesdx.Header 9 (data.add s.p) k
            HeaderIndex := 9 + k
            PTS := PesTimestamp data 9
            State := PesState.PES_START } }
        p := s.p + k, size := s.size - k }) := by
  have hc : clampSize k s.size = k := by
    unfold clampSize
    split <;> omega
  have hk0 : ¬ (k = 0) := by omega
  have e7 : memcpy s.ctx.pesdx.Header 9 (data.add s.p) k 7 = s.ctx.pesdx.Header 7 :=
    memcpy_apply_lt _ _ _ _ _ (by omega)
  have hne : ¬ (9 + k = 9) := by omega
  unfold PesIter
  simp [hst, hhi, hhs, hc, hk0, e7, h7, hcode, hne, PES_HEADER_SIZE]

/-- The detectors at a position holding an AC-3 sync word: when `Ac3Check`
gives a non-zero result, that is the result of the whole cascade. -/
theorem PesDetect_ac3 (q : Ptr) (n r : Int) (hq0 : (q 0).val = 0x0B)
    (hfast : FastAc3Check q = true) (hr : Ac3Check q n = some r) (hne : r ≠ 0) :
    PesDetect q n = some (r, CodecID.AC3) := by
  have hm : FastMpegCheck q = false := by
    unfold FastMpegCheck
    rw [if_pos (by rw [hq0]; decide)]
  unfold PesDetect
  simp [hm, hfast, hr, hne]

/-- The scan at a position holding an AC-3 sync word whose `Ac3Check` result
is non-zero: wait when it is negative, hand the frame over when positive. -/
theorem PesScan_ac3 (n : Nat) (ctx : PesCtx) (r : Int) (hn : 5 ≤ n)
    (hq0 : (ctx.pesdx.Buffer (ctx.pesdx.Skip + 0)).val = 0x0B)
    (hfast : FastAc3Check (ctx.pesdx.Buffer.add ctx.pesdx.Skip) = true)
    (hr : Ac3Check (ctx.pesdx.Buffer.add ctx.pesdx.Skip) (n : Int) = some r)
    (hne : r ≠ 0) :
    PesScan n ctx = some (if r < 0 then ctx else PesEmit ctx r.toNat CodecID.AC3) := by
  obtain ⟨m, rfl⟩ : ∃ m, n = m + 1 := ⟨n - 1, by omega⟩
  have hd := PesDetect_ac3 (ctx.pesdx.Buffer.add ctx.pesdx.Skip) ((m + 1 : Nat) : Int) r
    hq0 hfast hr hne
  unfold PesScan
  rw [if_pos hn, hd]
  simp only
  by_cases hneg : r < 0
  · rw [if_pos hneg, if_pos hneg]
  · rw [if_neg hneg, if_neg hneg, if_pos (by omega)]

/-- In `PES_START` or `PES_INIT`, when the whole input fits the payload
buffer, one pass copies it and scans once; nothing is left to parse. -/
theorem PesIter_payload (data : Ptr) (s : PesLoop)
    (hst : s.ctx.pesdx.State = PesState.PES_START ∨ s.ctx.pesdx.State = PesState.PES_INIT)
    (hroom : s.size ≤ s.ctx.pesdx.Size - s.ctx.pesdx.Index) :
    PesIter data s =
      match PesScan (s.ctx.pesdx.Index + s.size - s.ctx.pesdx.Skip)
          { s.ctx with pesdx :=
            { s.ctx.pesdx with
              Buffer := memcpy s.ctx.pesdx.Buffer s.ctx.pesdx.Index (data.add s.p) s.size
              Index := s.ctx.pesdx.Index + s.size } } with
      | none => none
      | some ctx2 => some (PesIterResult.next { ctx := ctx2, p := s.p + s.size, size := 0 }) := by
  have hc : clampSize (s.ctx.pesdx.Size - s.ctx.pesdx.Index) s.size = s.size := by
    unfold clampSize
    split <;> omega
  unfold PesIter
  rcases hst with h | h <;> simp [h, hc]

/-- A `PesParse` call without the start flag in `PES_START` or `PES_INIT`,
with room for the whole input and little cruft: copy, scan once, return. -/
theorem PesParse_payload (fuel : Nat) (ctx : PesCtx) (data : Ptr) (size : Nat)
    (hst : ctx.pesdx.State = PesState.PES_START ∨ ctx.pesdx.State = PesState.PES_INIT)
    (hskip : ctx.pesdx.Skip ≤ PES_MAX_PAYLOAD / 2)
    (hroom : size ≤ ctx.pesdx.Size - ctx.pesdx.Index) :
    PesParse (fuel + 1) ctx data size false =
      match PesScan (ctx.pesdx.Index + size - ctx.pesdx.Skip)
          { ctx with pesdx :=
            { ctx.pesdx with
              Buffer := memcpy ctx.pesdx.Buffer ctx.pesdx.Index data size
              Index := ctx.pesdx.Index + size } } with
      | none => Run.aborted
      | some ctx2 => Run.returned ctx2 := by
  have he : PesParseEntry ctx.pesdx false = ctx.pesdx := by
    unfold PesParseEntry
    simp only [Bool.false_eq_true, if_false]
    rw [if_neg (by omega)]
  have hadd : data.add 0 = data := by
    funext i; unfold Ptr.add; rw [Nat.zero_add]
  unfold PesParse
  rw [he]
  unfold PesRun
  rw [PesIter_payload data _ hst hroom]
  simp only [hadd]
  generalize PesScan _ _ = res
  cases res with
  | none => rfl
  | some c => simp

/-- The fast check `FastAc3Check` reads bytes 0, 1 and 4 only. -/
theorem FastAc3Check_congr (p q : Ptr) (h : ∀ i < 5, p i = q i) :
    FastAc3Check p = FastAc3Check q := by
  unfold FastAc3Check
  rw [h 0 (by omega), h 1 (by omega), h 4 (by omega)]

/-- The full check `Ac3Check` reads only the first `n` bytes when `n >= 5`. -/
theorem Ac3Check_congr (p q : Ptr) (n : Nat) (hn : 5 ≤ n) (h : ∀ i < n, p i = q i) :
    Ac3Check p (n : Int) = Ac3Check q (n : Int) := by
  have hs : Ac3FrameSize p = Ac3FrameSize q := by
    unfold Ac3FrameSize
    rw [h 4 (by omega)]
  unfold Ac3Check
  rw [hs]
  cases Ac3FrameSize q with
  | none => rfl
  | some F =>
    simp only
    by_cases hlt : (F : Int) + 5 > (n : Int)
    · rw [if_pos hlt, if_pos hlt]
    · rw [if_neg hlt, if_neg hlt]
      have : FastAc3Check (p.add F) = FastAc3Check (q.add F) :=
        FastAc3Check_congr _ _ (fun i hi => h (F + i) (by omega))
      rw [this]

/-- Every entry of the AC-3 frame size table is at least 64 words. -/
theorem ac3_entry_ge : ∀ c < 38, ∀ f < 3, 64 ≤ Ac3TableEntry c f := by decide

/-- An accepted AC-3 header starts with `0x0B`. -/
theorem FastAc3Check_byte0 (p : Ptr) (h : FastAc3Check p = true) : (p 0).val = 0x0B := by
  unfold FastAc3Check at h
  by_contra hne
  rw [if_pos hne] at h
  exact Bool.false_ne_true h

/-- The scan at an AC-3 header of the stream `pay`, of which the buffer holds
the first `Index` bytes: it waits while fewer than `G + 5` bytes follow the
header, and hands over the `G`-byte frame once they are there and the next
header is accepted. -/
theorem PesScan_at_ac3 (pay : Ptr) (ctx : PesCtx) (G : Nat)
    (hbuf : ∀ i < ctx.pesdx.Index, ctx.pesdx.Buffer i = pay i)
    (hn : 5 ≤ ctx.pesdx.Index - ctx.pesdx.Skip)
    (hfast : FastAc3Check (pay.add ctx.pesdx.Skip) = true)
    (hG : Ac3FrameSize (pay.add ctx.pesdx.Skip) = some G) (hG0 : 0 < G)
    (hnext : G + 5 ≤ ctx.pesdx.Index - ctx.pesdx.Skip →
      FastAc3Check (pay.add (ctx.pesdx.Skip + G)) = true) :
    PesScan (ctx.pesdx.Index - ctx.pesdx.Skip) ctx =
      some (if ctx.pesdx.Index - ctx.pesdx.Skip < G + 5 then ctx
            else PesEmit ctx G CodecID.AC3) := by
  have hagree : ∀ i < ctx.pesdx.Index - ctx.pesdx.Skip,
      (ctx.pesdx.Buffer.add ctx.pesdx.Skip) i = (pay.add ctx.pesdx.Skip) i :=
    fun i hi => hbuf _ (by omega)
  have hf : FastAc3Check (ctx.pesdx.Buffer.add ctx.pesdx.Skip) = true := by
    rw [FastAc3Check_congr _ (pay.add ctx.pesdx.Skip) (fun i hi => hagree i (by omega))]
    exact hfast
  have hq0 : (ctx.pesdx.Buffer (ctx.pesdx.Skip + 0)).val = 0x0B :=
    FastAc3Check_byte0 _ hf
  have hcheck := Ac3Check_congr _ (pay.add ctx.pesdx.Skip) _ hn hagree
  by_cases hlt : ctx.pesdx.Index - ctx.pesdx.Skip < G + 5
  · have hr : Ac3Check (ctx.pesdx.Buffer.add ctx.pesdx.Skip)
        ((ctx.pesdx.Index - ctx.pesdx.Skip : Nat) : Int) = some (-(G : Int) - 5) := by
      rw [hcheck]
      unfold Ac3Check
      rw [hG]
      simp only
      rw [if_pos (by omega)]
    rw [PesScan_ac3 _ ctx _ hn hq0 hf hr (by omega), if_pos (by omega), if_pos hlt]
  · have hr : Ac3Check (ctx.pesdx.Buffer.add ctx.pesdx.Skip)
        ((ctx.pesdx.Index - ctx.pesdx.Skip : Nat) : Int) = some (G : Int) := by
      rw [hcheck]
      unfold Ac3Check
      rw [hG]
      simp only
      have hn2 : FastAc3Check ((pay.add ctx.pesdx.Skip).add G) = true := by
        have := hnext (by omega)
        have e : (pay.add ctx.pesdx.Skip).add G = pay.add (ctx.pesdx.Skip + G) := by
          funext i; unfold Ptr.add; rw [Nat.add_assoc]
        rw [e]; exact this
      rw [if_neg (by omega), hn2]
      rfl
    rw [PesScan_ac3 _ ctx _ hn hq0 hf hr (by omega), if_neg (by omega), if_neg hlt]
    rfl

/-- Adding offset zero to a pointer changes nothing. -/
theorem Ptr.add_zero (p : Ptr) : p.add 0 = p := by
  funext i; unfold Ptr.add; rw [Nat.zero_add]

/-- The decoded frames of a call log extended by further calls. -/
theorem decodedFrames_append (l1 l2 : List AudioCall) :
    decodedFrames (l1 ++ l2) = decodedFrames l1 ++ decodedFrames l2 := by
  induction l1 with
  | nil => rfl
  | cons a t ih =>
    cases a <;> simp [decodedFrames, ih]

/-- Handing over a frame appends exactly one packet to the decoded frames. -/
theorem decodedFrames_PesEmit (ctx : PesCtx) (r : Nat) (id : CodecID) :
    decodedFrames (PesEmit ctx r id).calls = decodedFrames ctx.calls ++
      [{ data := (ctx.pesdx.Buffer.add ctx.pesdx.Skip).bytes r
         pts := ctx.pesdx.PTS, dts := ctx.pesdx.DTS }] := by
  unfold PesEmit
  simp only
  split <;> simp [decodedFrames_append, decodedFrames]

/-- Two pointers that agree below `n` have the same first `n` bytes. -/
theorem Ptr.bytes_congr (p q : Ptr) (n : Nat) (h : ∀ i < n, p i = q i) :
    p.bytes n = q.bytes n := by
  unfold Ptr.bytes
  apply List.map_congr_left
  intro i hi
  exact h i (List.mem_range.1 hi)

/-- One scan in the scenario, with the first `184 * k - 14` stream bytes
buffered: the frame is handed over exactly when its look-ahead is complete. -/
theorem scenario_scan (pay : Ptr) (F F2 : Nat) (T : Int) (k : Nat) (ctx : PesCtx)
    (hsc : Ac3Scenario pay F F2) (hk1 : 1 ≤ k) (hk6 : k ≤ 6)
    (hst : ctx.pesdx.State = PesState.PES_START) (hsz : ctx.pesdx.Size = PES_MAX_PAYLOAD)
    (hidx : ctx.pesdx.Index = 184 * k - 14)
    (hbuf : ∀ i < ctx.pesdx.Index, ctx.pesdx.Buffer i = pay i)
    (hcase : (ctx.pesdx.Skip = 0 ∧ ctx.pesdx.PTS = T ∧ ctx.pesdx.DTS = AV_NOPTS_VALUE
                ∧ decodedFrames ctx.calls = [])
             ∨ (ctx.pesdx.Skip = F ∧ F + 5 ≤ ctx.pesdx.Index
                ∧ decodedFrames ctx.calls
                    = [{ data := pay.bytes F, pts := T, dts := AV_NOPTS_VALUE }])) :
    ∃ ctx2, PesScan (ctx.pesdx.Index - ctx.pesdx.Skip) ctx = some ctx2
      ∧ Ac3ScenarioInv pay F T k ctx2 := by
  obtain ⟨hfast, hF, hF0, hF5, hfast2, hF2, hinc⟩ := hsc
  rcases hcase with ⟨hskip, hpts, hdts, hfr⟩ | ⟨hskip, hF5i, hfr⟩
  · have hscan := PesScan_at_ac3 pay ctx F hbuf (by omega)
      (by rw [hskip, Ptr.add_zero]; exact hfast) (by rw [hskip, Ptr.add_zero]; exact hF) hF0
      (fun _ => by rw [hskip, Nat.zero_add]; exact hfast2)
    rw [hscan]
    by_cases hlt : ctx.pesdx.Index - ctx.pesdx.Skip < F + 5
    · rw [if_pos hlt]
      exact ⟨ctx, rfl, hst, hsz, hidx, hbuf,
        Or.inl ⟨by omega, hskip, hpts, hdts, hfr⟩⟩
    · rw [if_neg hlt]
      refine ⟨_, rfl, hst, hsz, hidx, hbuf,
        Or.inr ⟨by show F + 5 ≤ ctx.pesdx.Index; omega, ?_, ?_⟩⟩
      · show ctx.pesdx.Skip + F = F
        omega
      · rw [decodedFrames_PesEmit, hfr, hpts, hdts, hskip, Ptr.add_zero,
          Ptr.bytes_congr _ pay F (fun i hi => hbuf i (by omega))]
        rfl
  · have hscan := PesScan_at_ac3 pay ctx F2 hbuf (by omega)
      (by rw [hskip]; exact hfast2) (by rw [hskip]; exact hF2) (by omega)
      (fun h => by omega)
    rw [hscan, if_pos (by omega)]
    exact ⟨ctx, rfl, hst, hsz, hidx, hbuf, Or.inr ⟨hF5i, hskip, hfr⟩⟩

/-- A pass that ends with `break` and leaves input: the loop goes on. -/
theorem PesRun_next (data : Ptr) (fuel : Nat) (s s1 : PesLoop)
    (h : PesIter data s = some (PesIterResult.next s1)) (hpos : 0 < s1.size) :
    PesRun data (fuel + 1) s = PesRun data fuel s1 := by
  rw [PesRun, h]
  simp only
  rw [if_pos hpos]

/-- A pass that ends with `break` and leaves no input: the loop ends. -/
theorem PesRun_last (data : Ptr) (fuel : Nat) (s s1 : PesLoop)
    (h : PesIter data s = some (PesIterResult.next s1)) (h0 : s1.size = 0) :
    PesRun data (fuel + 1) s = Run.returned s1.ctx := by
  rw [PesRun, h]
  simp only
  rw [if_neg (by omega)]

/-- A continuation packet of the scenario: the next 184 stream bytes are
buffered and scanned once. -/
theorem scenario_next_call (pay : Ptr) (F F2 : Nat) (T : Int) (k fuel : Nat)
    (ctx : PesCtx) (d : Ptr)
    (hsc : Ac3Scenario pay F F2) (hk1 : 1 ≤ k) (hk6 : k < 6)
    (hinv : Ac3ScenarioInv pay F T k ctx)
    (hd : ∀ j < 184, d j = pay (184 * k - 14 + j)) :
    ∃ ctx2, PesParse (fuel + 1) ctx d 184 false = Run.returned ctx2
      ∧ Ac3ScenarioInv pay F T (k + 1) ctx2 := by
  obtain ⟨hst, hsz, hidx, hbuf, hcase⟩ := hinv
  have hF5 : F + 5 ≤ 1090 := hsc.2.2.2.1
  have hmax : PES_MAX_PAYLOAD = 524288 := rfl
  have hskip : ctx.pesdx.Skip ≤ PES_MAX_PAYLOAD / 2 := by
    rcases hcase with h | h <;> omega
  rw [PesParse_payload fuel ctx d 184 (Or.inl hst) hskip (by omega)]
  obtain ⟨ctx2, hscan, hinv2⟩ := scenario_scan pay F F2 T (k + 1)
    { ctx with pesdx :=
      { ctx.pesdx with
        Buffer := memcpy ctx.pesdx.Buffer ctx.pesdx.Index d 184
        Index := ctx.pesdx.Index + 184 } }
    hsc (by omega) (by omega) hst hsz
    (by show ctx.pesdx.Index + 184 = 184 * (k + 1) - 14; omega)
    (by
      intro i hi
      have hi2 : i < ctx.pesdx.Index + 184 := hi
      show memcpy ctx.pesdx.Buffer ctx.pesdx.Index d 184 i = pay i
      by_cases hlt : i < ctx.pesdx.Index
      · rw [memcpy_apply_lt _ _ _ _ _ hlt]; exact hbuf i hlt
      · rw [memcpy_apply_in _ _ _ _ _ (by omega) (by omega), hd _ (by omega)]
        congr 1
        omega)
    (by
      rcases hcase with ⟨_, h2, h3, h4, h5⟩ | ⟨h1, h2, h3⟩
      · exact Or.inl ⟨h2, h3, h4, h5⟩
      · exact Or.inr ⟨h2, by show F + 5 ≤ ctx.pesdx.Index + 184; omega, h3⟩)
  refine ⟨ctx2, ?_, hinv2⟩
  rw [show PesScan (ctx.pesdx.Index + 184 - ctx.pesdx.Skip) _ = some ctx2 from hscan]

/-- Loop form of `PesIter_sync`, with input left after the start code. -/
theorem PesRun_sync (data : Ptr) (fuel : Nat) (s : PesLoop)
    (hst : s.ctx.pesdx.State = PesState.PES_SYNC) (hhi : s.ctx.pesdx.HeaderIndex = 0)
    (hsize : 6 < s.size)
    (h0 : (data s.p).val = 0) (h1 : (data (s.p + 1)).val = 0)
    (h2 : (data (s.p + 2)).val = 1) :
    PesRun data (fuel + 1) s = PesRun data fuel
      { ctx := { s.ctx with pesdx :=
          { s.ctx.pesdx with
            Header := memcpy s.ctx.pesdx.Header 0 (data.add s.p) 6
            HeaderIndex := 6
            StartCode := (data (s.p + 3)).val
            State := PesState.PES_HEADER
            HeaderSize := 9 } }
        p := s.p + 6, size := s.size - 6 } :=
  PesRun_next data fuel s _ (PesIter_sync data s hst hhi (by omega) h0 h1 h2)
    (by show 0 < s.size - 6; omega)

/-- Loop form of `PesIter_header_fixed`, with input left after byte 8. -/
theorem PesRun_header_fixed (data : Ptr) (fuel : Nat) (s : PesLoop)
    (hst : s.ctx.pesdx.State = PesState.PES_HEADER) (hhi : s.ctx.pesdx.HeaderIndex = 6)
    (hhs : s.ctx.pesdx.HeaderSize = 9) (hsize : 3 < s.size)
    (h6 : (data s.p).val &&& 0xC0 = 0x80) :
    PesRun data (fuel + 1) s = PesRun data fuel
      { ctx := { s.ctx with pesdx :=
          { s.ctx.pesdx with
            Header := memcpy s.ctx.pesdx.Header 6 (data.add s.p) 3
            HeaderIndex := 9
            HeaderSize := 9 + (data (s.p + 2)).val } }
        p := s.p + 3, size := s.size - 3 } :=
  PesRun_next data fuel s _ (PesIter_header_fixed data s hst hhi hhs (by omega) h6)
    (by show 0 < s.size - 3; omega)

/-- Loop form of `PesIter_header_rest`, with input left after the header. -/
theorem PesRun_header_rest (data : Ptr) (fuel : Nat) (s : PesLoop) (k : Nat)
    (hst : s.ctx.pesdx.State = PesState.PES_HEADER) (hhi : s.ctx.pesdx.HeaderIndex = 9)
    (hhs : s.ctx.pesdx.HeaderSize = 9 + k) (hk : 0 < k) (hsize : k < s.size)
    (h7 : (s.ctx.pesdx.Header 7).val &&& 0xC0 = 0x80)
    (hcode : s.ctx.pesdx.StartCode = PES_PRIVATE_STREAM1) :
    PesRun data (fuel + 1) s = PesRun data fuel
      { ctx := { s.ctx with pesdx :=
          { s.ctx.pesdx with
            Header := memcpy s.ctx.pesdx.Header 9 (data.add s.p) k
            HeaderIndex := 9 + k
            PTS := PesTimestamp data 9
            State := PesState.PES_START } }
        p := s.p + k, size := s.size - k } :=
  PesRun_next data fuel s _ (PesIter_header_rest data s k hst hhi hhs hk (by omega) h7 hcode)
    (by show 0 < s.size - k; omega)

/-- Loop form of `PesIter_payload`: the pass that buffers all remaining input
is the last one. -/
theorem PesRun_payload (data : Ptr) (fuel : Nat) (s : PesLoop) (ctx2 : PesCtx)
    (hst : s.ctx.pesdx.State = PesState.PES_START ∨ s.ctx.pesdx.State = PesState.PES_INIT)
    (hroom : s.size ≤ s.ctx.pesdx.Size - s.ctx.pesdx.Index)
    (hscan : PesScan (s.ctx.pesdx.Index + s.size - s.ctx.pesdx.Skip)
        { s.ctx with pesdx :=
          { s.ctx.pesdx with
            Buffer := memcpy s.ctx.pesdx.Buffer s.ctx.pesdx.Index (data.add s.p) s.size
            Index := s.ctx.pesdx.Index + s.size } } = some ctx2) :
    PesRun data (fuel + 1) s = Run.returned ctx2 := by
  have h := PesIter_payload data s hst hroom
  rw [hscan] at h
  exact PesRun_last data fuel s _ h rfl

/-- The start packet of the scenario on a reset demuxer: the PES header is
parsed, the PTS `T` is pending, and the first 170 stream bytes are buffered
and scanned once. -/
theorem scenario_first_call (pay : Ptr) (F F2 : Nat) (T : Int) (fuel : Nat)
    (pes0 : PesDemux) (id0 : CodecID) (d : Ptr)
    (hsc : Ac3Scenario pay F F2) (hsz : pes0.Size = PES_MAX_PAYLOAD)
    (hd0 : (d 0).val = 0) (hd1 : (d 1).val = 0) (hd2 : (d 2).val = 1)
    (hd3 : (d 3).val = 0xBD) (hd6 : (d 6).val &&& 0xC0 = 0x80)
    (hd7 : (d 7).val &&& 0xC0 = 0x80) (hd8 : (d 8).val = 5)
    (hpts : PesTimestamp d 9 = T)
    (hd : ∀ j < 170, d (14 + j) = pay j) :
    ∃ ctx2, PesParse (fuel + 4)
        { pesdx := PesReset pes0, AudioCodecID := id0, calls := [] } d 184 true
          = Run.returned ctx2
      ∧ Ac3ScenarioInv pay F T 1 ctx2 := by
  have hmax : PES_MAX_PAYLOAD = 524288 := rfl
  have hentry : PesParseEntry (PesReset pes0) true =
      { PesReset pes0 with
        State := PesState.PES_SYNC, HeaderIndex := 0
        PTS := AV_NOPTS_VALUE, DTS := AV_NOPTS_VALUE } := by
    unfold PesParseEntry PesReset
    simp
  unfold PesParse
  simp only [hentry]
  rw [PesRun_sync d (fuel + 3)]
  rotate_left
  · rfl
  · rfl
  · show 6 < 184; decide
  · exact hd0
  · exact hd1
  · exact hd2
  rw [PesRun_header_fixed d (fuel + 2)]
  rotate_left
  · rfl
  · rfl
  · rfl
  · show 3 < 184 - 6; decide
  · exact hd6
  rw [PesRun_header_rest d (fuel + 1) _ 5]
  rotate_left
  · rfl
  · rfl
  · show 9 + (d (0 + 6 + 2)).val = 9 + 5
    rw [show (0 + 6 + 2) = 8 from rfl, hd8]
  · decide
  · show 5 < 184 - 6 - 3; decide
  · show (memcpy (memcpy (PesReset pes0).Header 0 (d.add 0) 6) 6 (d.add (0 + 6)) 3 7).val
        &&& 0xC0 = 0x80
    rw [memcpy_apply_in _ _ _ _ _ (by omega) (by omega)]
    exact hd7
  · show (d (0 + 3)).val = PES_PRIVATE_STREAM1
    exact hd3
  obtain ⟨ctx2, hscan, hinv2⟩ := scenario_scan pay F F2 T 1
    { pesdx :=
        { PesReset pes0 with
          State := PesState.PES_START
          Header := memcpy (memcpy (memcpy (PesReset pes0).Header 0 (d.add 0) 6) 6
            (d.add (0 + 6)) 3) 9 (d.add (0 + 6 + 3)) 5
          HeaderIndex := 9 + 5
          HeaderSize := 9 + (d (0 + 6 + 2)).val
          StartCode := (d (0 + 3)).val
          PTS := PesTimestamp d 9
          DTS := AV_NOPTS_VALUE
          Buffer := memcpy (PesReset pes0).Buffer 0 (d.add (0 + 6 + 3 + 5)) (184 - 6 - 3 - 5)
          Index := 0 + (184 - 6 - 3 - 5) }
      AudioCodecID := id0, calls := [] }
    hsc (by omega) (by omega) rfl hsz rfl
    (by
      intro i hi
      have hi2 : i < 0 + (184 - 6 - 3 - 5) := hi
      show memcpy (PesReset pes0).Buffer 0 (d.add (0 + 6 + 3 + 5)) (184 - 6 - 3 - 5) i = pay i
      rw [memcpy_apply_in _ _ _ _ _ (by omega) (by omega)]
      have := hd i (by omega)
      rw [← this]
      rfl)
    (Or.inl ⟨rfl, hpts, rfl, rfl⟩)
  refine ⟨ctx2, ?_, hinv2⟩
  exact PesRun_payload d fuel _ ctx2 (Or.inl rfl) (by show 184 - 6 - 3 - 5 ≤ pes0.Size - 0; omega)
    hscan

/-- One pass of the packet loop on a payload-only packet with the sync byte
and without the error bit, whose `PesParse` call returns. -/
theorem TsDemuxerLoop_payload_only (fuel : Nat) (data : Ptr) (n : Nat) (s : TsLoop)
    (ctx1 : PesCtx) (hsize : 188 ≤ s.size)
    (hsync : (data (s.p + 0)).val = 0x47)
    (herr : (data (s.p + 1)).val &&& 0x80 = 0)
    (hafc : (data (s.p + 3)).val &&& 0x30 = 0x10)
    (hparse : PesParse fuel s.ctx ((data.add s.p).add 4) 184
      (decide ((data (s.p + 1)).val &&& 0x40 ≠ 0)) = Run.returned ctx1) :
    TsDemuxerLoop fuel data (n + 1) s = TsDemuxerLoop fuel data n
      { tsdx := { Packets := s.tsdx.Packets + 1 }, ctx := ctx1
        p := s.p + 188, size := s.size - 188 } := by
  have hpay : TsPayloadStart (data.add s.p) = some 4 := by
    unfold TsPayloadStart
    rw [if_pos (by exact hafc)]
  have h188 : TS_PACKET_SIZE - 4 = 184 := rfl
  rw [TsDemuxerLoop]
  rw [if_pos (by exact hsize)]
  simp only
  rw [if_neg (by show ¬ ((data (s.p + 0)).val ≠ 0x47); rw [hsync]; decide)]
  rw [if_neg (by show ¬ ((data (s.p + 1)).val &&& 0x80 ≠ 0); rw [herr]; decide)]
  rw [hpay]
  simp only [h188]
  rw [show PesParse fuel s.ctx ((data.add s.p).add 4) 184
      (decide ((data.add s.p 1).val &&& 0x40 ≠ 0)) = Run.returned ctx1 from hparse]
  rfl

/-- The packet loop ends when less than one packet is left. -/
theorem TsDemuxerLoop_done (fuel : Nat) (data : Ptr) (n : Nat) (s : TsLoop)
    (hsize : s.size < 188) :
    TsDemuxerLoop fuel data n s
      = Run.returned { tsdx := s.tsdx, ctx := s.ctx, ret := (s.p : Int) } := by
  have hn : ¬ (s.size ≥ (TS_PACKET_SIZE : Int)) := by
    show ¬ (s.size ≥ ((188 : Nat) : Int)); omega
  cases n with
  | zero => rw [TsDemuxerLoop, if_neg hn]
  | succ k => rw [TsDemuxerLoop, if_neg hn]

/-- A continuation packet of the scenario, seen from the packet loop. -/
theorem scenario_ts_step (data : Ptr) (F F2 : Nat) (T : Int) (k fuel n : Nat) (s : TsLoop)
    (hsc : Ac3Scenario ((TsPayload data).add 14) F F2) (hk1 : 1 ≤ k) (hk6 : k < 6)
    (hp : s.p = 188 * k) (hsize : s.size = 1128 - 188 * (k : Int))
    (hinv : Ac3ScenarioInv ((TsPayload data).add 14) F T k s.ctx)
    (hsync : (data (188 * k)).val = 0x47)
    (herr : (data (188 * k + 1)).val &&& 0x80 = 0)
    (hafc : (data (188 * k + 3)).val &&& 0x30 = 0x10)
    (hcont : (data (188 * k + 1)).val &&& 0x40 = 0) :
    ∃ s2, TsDemuxerLoop (fuel + 1) data (n + 1) s = TsDemuxerLoop (fuel + 1) data n s2
      ∧ s2.p = 188 * (k + 1) ∧ s2.size = 1128 - 188 * ((k + 1 : Nat) : Int)
      ∧ Ac3ScenarioInv ((TsPayload data).add 14) F T (k + 1) s2.ctx := by
  obtain ⟨ctx2, hparse, hinv2⟩ := scenario_next_call ((TsPayload data).add 14) F F2 T k fuel
    s.ctx ((data.add s.p).add 4) hsc hk1 hk6 hinv
    (by
      intro j hj
      show data (s.p + (4 + j)) = data (188 * ((14 + (184 * k - 14 + j)) / 184) + 4
        + (14 + (184 * k - 14 + j)) % 184)
      congr 1
      omega)
  have hflag : decide ((data (s.p + 1)).val &&& 0x40 ≠ 0) = false := by
    rw [hp, hcont]; decide
  refine ⟨_, TsDemuxerLoop_payload_only (fuel + 1) data n s ctx2 (by omega)
    (by rw [hp]; exact hsync) (by rw [hp]; exact herr) (by rw [hp]; exact hafc)
    (by rw [hflag]; exact hparse), ?_, ?_, hinv2⟩
  · show s.p + 188 = 188 * (k + 1); omega
  · show s.size - 188 = 1128 - 188 * ((k + 1 : Nat) : Int); omega

/-- Byte 4 built from valid codes passes the code tests of `FastAc3Check`. -/
theorem ac3_codes_accepted : ∀ c < 38, ∀ f < 3,
    ¬ (((f <<< 6) ||| c) &&& 0xC0 = 0xC0) ∧ ¬ (((f <<< 6) ||| c) &&& 0x3F > 37) := by
  decide

/-- C8: from a freshly reset PES demuxer, six payload-only transport packets,
the first with the payload-unit-start bit, whose payloads are a PES header
for stream 0xBD with PTS-only flags carrying the PTS `T`, an AC-3 frame with
valid codes `(c, f)` of `F = 2 * Ac3FrameSizeTable[c][f]` bytes with
`F + 5 <= 1090`, and an accepted AC-3 header whose own frame does not end
within these packets: `TsDemuxer` returns, having handed exactly one frame to
the decoder, the `F` frame bytes with PTS `T`. -/
theorem TsDemuxer_ac3_end_to_end (data : Ptr) (tsdx : TsDemux) (pes0 : PesDemux)
    (id0 : CodecID) (c f pre m0 m1 m2 T F2 fuel : Nat)
    (hfuel : 6 ≤ fuel) (hsz : pes0.Size = PES_MAX_PAYLOAD)
    (hpk : ∀ k < 6, (data (188 * k)).val = 0x47 ∧ (data (188 * k + 1)).val &&& 0x80 = 0
      ∧ (data (188 * k + 3)).val &&& 0x30 = 0x10)
    (hstart : (data 1).val &&& 0x40 ≠ 0)
    (hcont : ∀ k, 1 ≤ k → k < 6 → (data (188 * k + 1)).val &&& 0x40 = 0)
    (hp0 : (TsPayload data 0).val = 0) (hp1 : (TsPayload data 1).val = 0)
    (hp2 : (TsPayload data 2).val = 1) (hp3 : (TsPayload data 3).val = 0xBD)
    (hp6 : (TsPayload data 6).val &&& 0xC0 = 0x80)
    (hp7 : (TsPayload data 7).val &&& 0xC0 = 0x80)
    (hp8 : (TsPayload data 8).val = 5)
    (hpre : pre < 16) (hm0 : m0 < 2) (hm1 : m1 < 2) (hm2 : m2 < 2) (hT : T < 2 ^ 33)
    (hpts : ∀ j < 5, TsPayload data (9 + j) = (PesTimestampBytes pre m0 m1 m2 T).getD j 0)
    (hc : c < 38) (hf : f < 3)
    (ha0 : (TsPayload data 14).val = 0x0B) (ha1 : (TsPayload data 15).val = 0x77)
    (ha4 : (TsPayload data 18).val = (f <<< 6) ||| c)
    (hF : 2 * Ac3TableEntry c f + 5 ≤ 1090)
    (hnext : FastAc3Check ((TsPayload data).add (14 + 2 * Ac3TableEntry c f)) = true)
    (hF2 : Ac3FrameSize ((TsPayload data).add (14 + 2 * Ac3TableEntry c f)) = some F2)
    (hinc : 1090 < 2 * Ac3TableEntry c f + F2) :
    ∃ r, TsDemuxer fuel tsdx
        { pesdx := PesReset pes0, AudioCodecID := id0, calls := [] } data 1128
          = Run.returned r
      ∧ r.ret = 1128
      ∧ decodedFrames r.ctx.calls =
          [{ data := ((TsPayload data).add 14).bytes (2 * Ac3TableEntry c f)
             pts := (T : Int), dts := AV_NOPTS_VALUE }] := by
  obtain ⟨m, rfl⟩ : ∃ m, fuel = m + 6 := ⟨fuel - 6, by omega⟩
  have hassoc : ((TsPayload data).add 14).add (2 * Ac3TableEntry c f)
      = (TsPayload data).add (14 + 2 * Ac3TableEntry c f) := by
    funext i; unfold Ptr.add; rw [Nat.add_assoc]
  have hsc : Ac3Scenario ((TsPayload data).add 14) (2 * Ac3TableEntry c f) F2 := by
    refine ⟨?_, Ac3FrameSize_of_codes _ c f hc hf ha4, ?_, hF, ?_, ?_, hinc⟩
    · unfold FastAc3Check
      have e0 : ((TsPayload data).add 14) 0 = TsPayload data 14 := rfl
      have e1 : ((TsPayload data).add 14) 1 = TsPayload data 15 := rfl
      have e4 : ((TsPayload data).add 14) 4 = TsPayload data 18 := rfl
      rw [e0, e1, e4, ha0, ha1, ha4]
      obtain ⟨h1, h2⟩ := ac3_codes_accepted c hc f hf
      simp [h1, h2]
    · have := ac3_entry_ge c hc f hf; omega
    · rw [hassoc]; exact hnext
    · rw [hassoc]; exact hF2
  -- the start packet
  obtain ⟨ctx1, hparse1, hinv1⟩ := scenario_first_call ((TsPayload data).add 14)
    (2 * Ac3TableEntry c f) F2 (T : Int) (m + 2) pes0 id0 ((data.add 0).add 4) hsc hsz
    hp0 hp1 hp2 hp3 hp6 hp7 hp8
    (PesTimestamp_of_packed _ 9 pre m0 m1 m2 T hpre hm0 hm1 hm2 hT
      (fun j hj => by
        rw [← hpts j hj]
        show data (0 + (4 + (9 + j))) = data (188 * ((9 + j) / 184) + 4 + (9 + j) % 184)
        congr 1
        omega))
    (fun j hj => by
      show data (0 + (4 + (14 + j))) = data (188 * ((14 + j) / 184) + 4 + (14 + j) % 184)
      congr 1
      omega)
  have hflag : decide ((data (0 + 1)).val &&& 0x40 ≠ 0) = true := by
    rw [decide_eq_true_eq]; exact hstart
  have step0 := TsDemuxerLoop_payload_only (m + 6) data (m + 5)
    { tsdx := tsdx, ctx := { pesdx := PesReset pes0, AudioCodecID := id0, calls := [] }
      p := 0, size := 1128 } ctx1 (by show (188 : Int) ≤ 1128; omega)
    (hpk 0 (by omega)).1 (hpk 0 (by omega)).2.1 (hpk 0 (by omega)).2.2
    (by rw [hflag]; exact hparse1)
  -- the five continuation packets
  obtain ⟨s2, step1, hp2, hs2, hinv2⟩ := scenario_ts_step data _ F2 (T : Int) 1 (m + 5)
    (m + 4)
    { tsdx := { Packets := tsdx.Packets + 1 }, ctx := ctx1, p := 0 + 188, size := 1128 - 188 }
    hsc (by omega) (by omega) (by show 0 + 188 = 188 * 1; rfl)
    (by show (1128 : Int) - 188 = 1128 - 188 * ((1 : Nat) : Int); omega) hinv1
    (hpk 1 (by omega)).1 (hpk 1 (by omega)).2.1 (hpk 1 (by omega)).2.2
    (hcont 1 (by omega) (by omega))
  obtain ⟨s3, step2, hp3, hs3, hinv3⟩ := scenario_ts_step data _ F2 (T : Int) 2 (m + 5)
    (m + 3) s2 hsc (by omega) (by omega) hp2 hs2 hinv2
    (hpk 2 (by omega)).1 (hpk 2 (by omega)).2.1 (hpk 2 (by omega)).2.2
    (hcont 2 (by omega) (by omega))
  obtain ⟨s4, step3, hp4, hs4, hinv4⟩ := scenario_ts_step data _ F2 (T : Int) 3 (m + 5)
    (m + 2) s3 hsc (by omega) (by omega) hp3 hs3 hinv3
    (hpk 3 (by omega)).1 (hpk 3 (by omega)).2.1 (hpk 3 (by omega)).2.2
    (hcont 3 (by omega) (by omega))
  obtain ⟨s5, step4, hp5, hs5, hinv5⟩ := scenario_ts_step data _ F2 (T : Int) 4 (m + 5)
    (m + 1) s4 hsc (by omega) (by omega) hp4 hs4 hinv4
    (hpk 4 (by omega)).1 (hpk 4 (by omega)).2.1 (hpk 4 (by omega)).2.2
    (hcont 4 (by omega) (by omega))
  obtain ⟨s6, step5, hp6, hs6, hinv6⟩ := scenario_ts_step data _ F2 (T : Int) 5 (m + 5)
    m s5 hsc (by omega) (by omega) hp5 hs5 hinv5
    (hpk 5 (by omega)).1 (hpk 5 (by omega)).2.1 (hpk 5 (by omega)).2.2
    (hcont 5 (by omega) (by omega))
  have hdone := TsDemuxerLoop_done (m + 6) data m s6 (by omega)
  refine ⟨{ tsdx := s6.tsdx, ctx := s6.ctx, ret := (s6.p : Int) }, ?_, ?_, ?_⟩
  · unfold TsDemuxer
    rw [step0, step1, step2, step3, step4, step5, hdone]
  · show (s6.p : Int) = 1128
    omega
  · obtain ⟨-, -, hidx, -, hcase⟩ := hinv6
    rcases hcase with ⟨hlt, -⟩ | ⟨-, -, hfr⟩
    · omega
    · exact hfr

/-- Witness for C8: codes `c = 20`, `f = 0`, frame length 768, PTS
`0x123456789`, on the example transport packets. -/
theorem TsDemuxer_ac3_end_to_end_witness :
    ∃ r, TsDemuxer 6 { Packets := 0 }
        { pesdx := PesReset (PesInit (fun _ => 0)), AudioCodecID := CodecID.NONE, calls := [] }
        exTsAc3 1128 = Run.returned r
      ∧ r.ret = 1128
      ∧ decodedFrames r.ctx.calls =
          [{ data := ((TsPayload exTsAc3).add 14).bytes (2 * Ac3TableEntry 20 0)
             pts := ((4886718345 : Nat) : Int), dts := AV_NOPTS_VALUE }] :=
  TsDemuxer_ac3_end_to_end exTsAc3 { Packets := 0 } (PesInit (fun _ => 0)) CodecID.NONE
    20 0 2 1 1 1 4886718345 768 6 (by decide) (by decide) (by decide) (by decide) (by decide)
    (by decide) (by decide) (by decide) (by decide) (by decide) (by decide) (by decide)
    (by decide) (by decide) (by decide) (by decide) (by decide) (by decide) (by decide)
    (by decide) (by decide) (by decide) (by decide) (by decide) (by decide) (by decide)
    (by decide)

/-- In `PES_HEADER` with exactly the nine fixed header bytes stored, the
MPEG-2 layout and header data length 0, a pass through the `switch` copies
nothing and changes nothing. -/
theorem PesIter_header_stuck (data : Ptr) (s : PesLoop)
    (hst : s.ctx.pesdx.State = PesState.PES_HEADER) (hhi : s.ctx.pesdx.HeaderIndex = 9)
    (hhs : s.ctx.pesdx.HeaderSize = 9)
    (h6 : (s.ctx.pesdx.Header 6).val &&& 0xC0 = 0x80)
    (h8 : (s.ctx.pesdx.Header 8).val = 0) :
    PesIter data s = some (PesIterResult.next s) := by
  obtain ⟨⟨pesdx, id, calls⟩, p, size⟩ := s
  obtain ⟨State, Header, HeaderIndex, HeaderSize, Buffer, Index, Skip, Size, StartCode,
    PTS, DTS⟩ := pesdx
  simp only at hst hhi hhs h6 h8
  subst hst hhi hhs
  have hc : clampSize (9 - 9) size = 0 := by
    unfold clampSize
    split <;> omega
  unfold PesIter
  simp only [hc, memcpy_zero, PES_HEADER_SIZE, h6, h8]
  simp

/-- A loop state that a pass leaves unchanged, with input left, never ends. -/
theorem PesRun_stuck (data : Ptr) (s : PesLoop)
    (h : PesIter data s = some (PesIterResult.next s)) (hpos : 0 < s.size) :
    ∀ fuel, PesRun data fuel s = Run.unfinished := by
  intro fuel
  induction fuel with
  | zero => rfl
  | succ n ih => rw [PesRun_next data n s s h hpos, ih]

/-- C9 fails on the code: from a freshly reset demuxer, a 10-byte PES start
packet whose header data length byte is 0 keeps `PesParse` in its loop for
every number of passes. -/
theorem PesParse_hangs_on_header_data_length_zero :
    ∀ fuel, PesParse fuel
      { pesdx := PesReset (PesInit (fun _ => 0)), AudioCodecID := CodecID.NONE, calls := [] }
      exHangPacket 10 true = Run.unfinished := by
  intro fuel
  have hentry : PesParseEntry (PesReset (PesInit (fun _ => 0))) true =
      { PesReset (PesInit (fun _ => 0)) with
        State := PesState.PES_SYNC, HeaderIndex := 0
        PTS := AV_NOPTS_VALUE, DTS := AV_NOPTS_VALUE } := by
    unfold PesParseEntry PesReset
    simp
  unfold PesParse
  simp only [hentry]
  match fuel with
  | 0 => rfl
  | 1 =>
    rw [PesRun_sync exHangPacket 0]
    rotate_left
    · rfl
    · rfl
    · show 6 < 10; decide
    · decide
    · decide
    · decide
    rfl
  | n + 2 =>
    rw [PesRun_sync exHangPacket (n + 1)]
    rotate_left
    · rfl
    · rfl
    · show 6 < 10; decide
    · decide
    · decide
    · decide
    rw [PesRun_header_fixed exHangPacket n]
    rotate_left
    · rfl
    · rfl
    · rfl
    · show 3 < 10 - 6; decide
    · decide
    apply PesRun_stuck
    · apply PesIter_header_stuck
      · rfl
      · rfl
      · show 9 + (exHangPacket (0 + 6 + 2)).val = 9
        decide
      · show (memcpy (memcpy (PesReset (PesInit (fun _ => 0))).Header 0
            (exHangPacket.add 0) 6) 6 (exHangPacket.add (0 + 6)) 3 6).val &&& 0xC0 = 0x80
        decide
      · show (memcpy (memcpy (PesReset (PesInit (fun _ => 0))).Header 0
            (exHangPacket.add 0) 6) 6 (exHangPacket.add (0 + 6)) 3 8).val = 0
        decide
    · show 0 < 10 - 6 - 3; decide

/-- A positive result of the detector cascade is a frame that fits the bytes
scanned, with at least two bytes of look-ahead. -/
theorem PesDetect_pos (q : Ptr) (n r : Int) (id : CodecID)
    (h : PesDetect q n = some (r, id)) (hpos : 0 < r) : r + 2 ≤ n := by
  unfold PesDetect at h
  split at h
  · simp at h
  · rename_i r1 c1 h1
    split at h
    · simp at h
    · rename_i r2 c2 h2
      have hr1 : 0 < r1 → r1 + 2 ≤ n := by
        intro hp
        split at h1
        · cases hm : MpegCheck q n with
          | none => rw [hm] at h1; simp at h1
          | some v =>
            rw [hm] at h1
            simp at h1
            have := (MpegCheck_pos q n v hm (by omega)).2
            omega
        · simp at h1; omega
      have hr2 : 0 < r2 → r2 + 2 ≤ n := by
        intro hp
        split at h2
        · cases hm : Ac3Check q n with
          | none => rw [hm] at h2; simp at h2
          | some v =>
            rw [hm] at h2
            simp at h2
            have := (Ac3Check_pos q n v hm (by omega)).2
            omega
        · simp at h2
          obtain ⟨e, -⟩ := h2
          subst e
          exact hr1 hp
      simp only [Option.some.injEq] at h
      split at h
      · split at h
        · simp at h
          have := (AdtsCheck_pos q n (by omega)).2
          omega
        · simp at h
          have := (LatmCheck_pos q n (by omega)).2
          omega
      · split at h
        · simp at h
          have := (AdtsCheck_pos q n (by omega)).2
          omega
        · simp at h
          obtain ⟨e, -⟩ := h
          subst e
          exact hr2 hpos

/-- The scan keeps `Skip <= Index` and does not touch `Index` and `Size`. -/
theorem PesScan_inv : ∀ (n : Nat) (ctx ctx2 : PesCtx),
    n ≤ ctx.pesdx.Index - ctx.pesdx.Skip → PesInv ctx.pesdx →
    PesScan n ctx = some ctx2 → PesInv ctx2.pesdx := by
  intro n
  induction n with
  | zero =>
    intro ctx ctx2 _ hinv h
    rw [PesScan] at h
    simp only [Option.some.injEq] at h
    subst h
    exact hinv
  | succ n ih =>
    intro ctx ctx2 hn hinv h
    rw [PesScan] at h
    split at h
    · split at h
      · simp at h
      · rename_i r id hdet
        split at h
        · simp only [Option.some.injEq] at h
          subst h
          exact hinv
        · split at h
          · rename_i hpos
            simp only [Option.some.injEq] at h
            subst h
            have hle := PesDetect_pos _ _ r id hdet hpos
            obtain ⟨h1, h2, h3⟩ := hinv
            refine ⟨?_, h2, h3⟩
            show ctx.pesdx.Skip + r.toNat ≤ ctx.pesdx.Index
            omega
          · refine ih _ ctx2 ?_ ?_ h
            · show n ≤ ctx.pesdx.Index - (ctx.pesdx.Skip + 1)
              omega
            · obtain ⟨h1, h2, h3⟩ := hinv
              refine ⟨?_, h2, h3⟩
              show ctx.pesdx.Skip + 1 ≤ ctx.pesdx.Index
              omega
    · simp only [Option.some.injEq] at h
      subst h
      exact hinv

/-- Copying the remaining bytes down keeps the buffer invariant. -/
theorem PesCompact_inv (pesdx : PesDemux) (hinv : PesInv pesdx) : PesInv (PesCompact pesdx) := by
  obtain ⟨h1, h2, h3⟩ := hinv
  refine ⟨?_, ?_, h3⟩
  · show 0 ≤ pesdx.Index - pesdx.Skip
    omega
  · show pesdx.Index - pesdx.Skip ≤ pesdx.Size
    omega

/-- The statements before the loop keep the buffer invariant. -/
theorem PesParseEntry_inv (pesdx : PesDemux) (is_start : Bool) (hinv : PesInv pesdx) :
    PesInv (PesParseEntry pesdx is_start) := by
  unfold PesParseEntry
  simp only
  split
  · split
    · split
      · exact PesCompact_inv _ (PesCompact_inv _ hinv)
      · exact PesCompact_inv _ hinv
    · split
      · exact PesCompact_inv _ hinv
      · exact hinv
  · split
    · exact PesCompact_inv _ hinv
    · exact hinv

/-- One pass through the `switch` keeps the buffer invariant. -/
theorem PesIter_inv (data : Ptr) (s : PesLoop) (res : PesIterResult)
    (hinv : PesInv s.ctx.pesdx) (h : PesIter data s = some res) :
    PesInv res.state.ctx.pesdx := by
  unfold PesIter at h
  simp only at h
  split at h
  · -- PES_SKIP
    simp only [Option.some.injEq] at h
    subst h
    exact hinv
  · -- PES_START, PES_INIT
    split at h
    · simp at h
    · rename_i ctx2 hscan
      simp only [Option.some.injEq] at h
      subst h
      refine PesScan_inv _ _ ctx2 ?_ ?_ hscan
      · exact Nat.le_refl _
      obtain ⟨h1, h2, h3⟩ := hinv
      refine ⟨?_, ?_, h3⟩
      · show s.ctx.pesdx.Skip ≤ s.ctx.pesdx.Index + _
        omega
      · show s.ctx.pesdx.Index + clampSize (s.ctx.pesdx.Size - s.ctx.pesdx.Index) s.size
          ≤ s.ctx.pesdx.Size
        unfold clampSize
        split <;> omega
  · split at h
    · simp at h
    · rename_i ctx2 hscan
      simp only [Option.some.injEq] at h
      subst h
      refine PesScan_inv _ _ ctx2 ?_ ?_ hscan
      · exact Nat.le_refl _
      obtain ⟨h1, h2, h3⟩ := hinv
      refine ⟨?_, ?_, h3⟩
      · show s.ctx.pesdx.Skip ≤ s.ctx.pesdx.Index + _
        omega
      · show s.ctx.pesdx.Index + clampSize (s.ctx.pesdx.Size - s.ctx.pesdx.Index) s.size
          ≤ s.ctx.pesdx.Size
        unfold clampSize
        split <;> omega
  · -- PES_SYNC
    split at h
    · split at h
      · simp only [Option.some.injEq] at h
        subst h
        exact hinv
      · simp only [Option.some.injEq] at h
        subst h
        split <;> exact hinv
    · simp only [Option.some.injEq] at h
      subst h
      exact hinv
  · -- PES_HEADER
    split at h
    · split at h
      · simp only [Option.some.injEq] at h
        subst h
        exact hinv
      · simp only [Option.some.injEq] at h
        subst h
        exact hinv
    · split at h
      · simp only [Option.some.injEq] at h
        subst h
        show PesInv (if _ then _ else _)
        split <;> split <;> first | exact hinv | (split <;> exact hinv)
      · simp only [Option.some.injEq] at h
        subst h
        exact hinv
  · -- the other states
    simp only [Option.some.injEq] at h
    subst h
    exact hinv

/-- The loop of `PesParse` keeps the buffer invariant up to its return. -/
theorem PesRun_inv (data : Ptr) : ∀ (fuel : Nat) (s : PesLoop) (ctx2 : PesCtx),
    PesInv s.ctx.pesdx → PesRun data fuel s = Run.returned ctx2 → PesInv ctx2.pesdx := by
  intro fuel
  induction fuel with
  | zero =>
    intro s ctx2 _ h
    rw [PesRun] at h
    cases h
  | succ n ih =>
    intro s ctx2 hinv h
    rw [PesRun] at h
    split at h
    · cases h
    · rename_i s1 hit
      cases h
      exact PesIter_inv data s _ hinv hit
    · rename_i s1 hit
      have h1 : PesInv s1.ctx.pesdx := PesIter_inv data s _ hinv hit
      split at h
      · exact ih s1 ctx2 h1 h
      · cases h
        exact h1

/-- The loop of `PesParse` keeps the buffer invariant in every pass. -/
theorem PesPasses_inv (data : Ptr) : ∀ (k : Nat) (s s2 : PesLoop),
    PesInv s.ctx.pesdx → PesPasses data k s = some s2 → PesInv s2.ctx.pesdx := by
  intro k
  induction k with
  | zero =>
    intro s s2 hinv h
    rw [PesPasses] at h
    cases h
    exact hinv
  | succ n ih =>
    intro s s2 hinv h
    rw [PesPasses] at h
    split at h
    · rename_i s1 hit
      have h1 : PesInv s1.ctx.pesdx := PesIter_inv data s _ hinv hit
      split at h
      · exact ih s1 s2 h1 h
      · cases h
    · cases h

/-- Every reachable state of the audio demuxer satisfies the buffer invariant. -/
theorem PesReachable_inv (ctx : PesCtx) (h : PesReachable ctx) : PesInv ctx.pesdx := by
  induction h with
  | init buffer id calls =>
    exact ⟨Nat.le_refl _, Nat.zero_le _, rfl⟩
  | reset ctx _ ih =>
    exact ⟨Nat.le_refl _, Nat.zero_le _, ih.2.2⟩
  | env ctx id calls _ ih => exact ih
  | parse ctx ctx2 fuel data size is_start _ hp ih =>
    exact PesRun_inv data fuel _ ctx2 (PesParseEntry_inv _ _ ih) hp
  | pass ctx k data size is_start s _ hp ih =>
    exact PesPasses_inv data k _ s (PesParseEntry_inv _ _ ih) hp

/-- C10: in every PES demuxer state reachable from `PesInit` through
`PesReset` and `PesParse` calls (after a call that returned, and also after
any number of passes inside a call), `Skip <= Index <= Size` holds with
`Size` = 512 KiB, so the accumulated payload never grows beyond the buffer
capacity.  `0 <= Skip` holds as `Skip` is a natural number. -/
theorem PesReachable_skip_le_index_le_size (ctx : PesCtx) (h : PesReachable ctx) :
    0 ≤ ctx.pesdx.Skip ∧ ctx.pesdx.Skip ≤ ctx.pesdx.Index
      ∧ ctx.pesdx.Index ≤ ctx.pesdx.Size ∧ ctx.pesdx.Size = 512 * 1024 := by
  obtain ⟨h1, h2, h3⟩ := PesReachable_inv ctx h
  exact ⟨Nat.zero_le _, h1, h2, h3⟩

/-- Witness for C10: the state after the example AAC LATM packet went through
a reset demuxer in one call. -/
theorem PesReachable_skip_le_index_le_size_witness :
    ∃ ctx2, PesParse 4 exFreshCtx exPesLatm 28 true = Run.returned ctx2
      ∧ 0 ≤ ctx2.pesdx.Skip ∧ ctx2.pesdx.Skip ≤ ctx2.pesdx.Index
      ∧ ctx2.pesdx.Index ≤ ctx2.pesdx.Size ∧ ctx2.pesdx.Size = 512 * 1024 :=
  ⟨_, rfl, PesReachable_skip_le_index_le_size _
    (PesReachable.parse _ _ 4 exPesLatm 28 true
      (PesReachable.reset _ (PesReachable.init (fun _ => 0) CodecID.NONE [])) rfl)⟩

/-- C7 fails on the code: the example AAC LATM packet fed in one call gives
the decoder its frame with the PTS of the PES header (bytes 9 to 13), fed one
byte per call it gives the same frame with the PTS decoded from bytes 22 to
26 of the stream: `PesParse` reads the timestamp from `data[9..13]` of the
current call's buffer, not from the header it has collected. -/
theorem PesParse_bytewise_changes_pts :
    framesOf (PesParse 10 exFreshCtx exPesLatm 28 true)
        = some [{ data := [0x56, 0xE0, 0x00], pts := 4886718345, dts := AV_NOPTS_VALUE }]
    ∧ framesOf (PesParseBytewise 10 exPesLatm 28 0 exFreshCtx)
        = some [{ data := [0x56, 0xE0, 0x00], pts := 1090585347, dts := AV_NOPTS_VALUE }]
    ∧ PesTimestamp exPesLatm 9 = 4886718345
    ∧ PesTimestamp exPesLatm 22 = 1090585347 := by
  decide

/-- A second difference between the two ways of feeding: a call stops scanning
after the first frame it hands over, so a packet with five complete 3-byte
frames fed in one call delivers one frame, and fed one byte per call it
delivers five. -/
theorem PesParse_one_frame_per_call :
    (framesOf (PesParse 10 exFreshCtx exPesLatmFive 32 true)).map List.length = some 1
    ∧ (framesOf (PesParseBytewise 10 exPesLatmFive 32 0 exFreshCtx)).map List.length
        = some 5 := by
  decide

set_option maxRecDepth 100000 in
/-- The flag tests of `TsDemuxer` on byte 1, in arithmetic form. -/
theorem ts_byte1_bits : ∀ b : Byte,
    (b.val &&& 0x80 ≠ 0 ↔ b.val / 128 = 1) ∧ (b.val &&& 0x40 ≠ 0 ↔ b.val / 64 % 2 = 1) := by
  decide

set_option maxRecDepth 100000 in
/-- The adaptation-field-control test of `TsDemuxer` on byte 3, in arithmetic form. -/
theorem ts_byte3_bits : ∀ b : Byte,
    (b.val &&& 0x30 = 0x10 ↔ b.val / 16 % 4 = 1) ∧ (b.val &&& 0x30 = 0x30 ↔ b.val / 16 % 4 = 3) := by
  decide

/-- The error test and the `switch` of `TsDemuxer` select the payload as the
specification says. -/
theorem TsPayloadStart_spec (pk : Ptr) :
    (if (pk 1).val &&& 0x80 ≠ 0 then none else TsPayloadStart pk)
      = (TsSpecForward pk).map Prod.fst := by
  obtain ⟨he, -⟩ := ts_byte1_bits (pk 1)
  obtain ⟨h01, h11⟩ := ts_byte3_bits (pk 3)
  unfold TsSpecForward TsPayloadStart TS_PACKET_SIZE
  by_cases e : (pk 1).val / 128 = 1
  · rw [if_pos (he.2 e), if_pos e]; rfl
  · rw [if_neg (fun h => e (he.1 h)), if_neg e]
    by_cases a1 : (pk 3).val / 16 % 4 = 1
    · rw [if_pos (h01.2 a1), if_pos a1]; rfl
    · rw [if_neg (fun h => a1 (h01.1 h)), if_neg a1]
      by_cases a3 : (pk 3).val / 16 % 4 = 3
      · rw [if_pos (h11.2 a3)]
        by_cases hl : (pk 4).val ≤ 182
        · rw [if_neg (by omega), if_pos ⟨a3, hl⟩]; rfl
        · rw [if_pos (by omega), if_neg (fun h => hl h.2)]; rfl
      · rw [if_neg (fun h => a3 (h11.1 h)), if_neg (fun h => a3 h.1)]; rfl

/-- The start flag of a forwarded packet is the payload-unit-start bit. -/
theorem TsSpecForward_flag (pk : Ptr) (off : Nat) (start : Bool)
    (h : TsSpecForward pk = some (off, start)) :
    start = decide ((pk 1).val &&& 0x40 ≠ 0) ∧ 4 ≤ off ∧ off ≤ 187 := by
  obtain ⟨-, hs⟩ := ts_byte1_bits (pk 1)
  have hflag : decide ((pk 1).val / 64 % 2 = 1) = decide ((pk 1).val &&& 0x40 ≠ 0) := by
    by_cases c : (pk 1).val / 64 % 2 = 1
    · rw [decide_eq_true c, decide_eq_true (hs.2 c)]
    · rw [decide_eq_false c, decide_eq_false (fun h => c (hs.1 h))]
  unfold TsSpecForward at h
  split at h
  · cases h
  · split at h
    · cases h
      exact ⟨hflag, by omega, by omega⟩
    · split at h
      · rename_i hc
        cases h
        exact ⟨hflag, by omega, by omega⟩
      · cases h

/-- With the start flag the statements before the loop leave the demuxer in
`PES_SYNC` with an empty header scratch. -/
theorem PesParseEntry_start (pesdx : PesDemux) :
    (PesParseEntry pesdx true).State = PesState.PES_SYNC
      ∧ (PesParseEntry pesdx true).HeaderIndex = 0 := by
  unfold PesParseEntry
  simp only [if_true]
  split <;> split <;> exact ⟨rfl, rfl⟩

/-- A PES start packet of more than nine bytes with a good start code, the
MPEG-2 layout and header data length 0 keeps `PesParse` in its loop for every
number of passes, whatever the state of the demuxer. -/
theorem PesParse_stuck_header_len_zero (ctx : PesCtx) (d : Ptr) (size : Nat)
    (hsize : 9 < size) (hd0 : (d 0).val = 0) (hd1 : (d 1).val = 0) (hd2 : (d 2).val = 1)
    (hd6 : (d 6).val &&& 0xC0 = 0x80) (hd8 : (d 8).val = 0) :
    ∀ fuel, PesParse fuel ctx d size true = Run.unfinished := by
  intro fuel
  obtain ⟨hst, hhi⟩ := PesParseEntry_start ctx.pesdx
  unfold PesParse
  match fuel with
  | 0 => rfl
  | 1 =>
    rw [PesRun_sync d 0 _ hst hhi (by show 6 < size; omega) hd0 hd1 hd2]
    rfl
  | n + 2 =>
    rw [PesRun_sync d (n + 1) _ hst hhi (by show 6 < size; omega) hd0 hd1 hd2]
    rw [PesRun_header_fixed d n _ rfl rfl rfl (by show 3 < size - 6; omega)
      (by show (d (0 + 6)).val &&& 0xC0 = 0x80; exact hd6)]
    apply PesRun_stuck
    · apply PesIter_header_stuck
      · rfl
      · rfl
      · show 9 + (d (0 + 6 + 2)).val = 9
        rw [show 0 + 6 + 2 = 8 from rfl, hd8]
      · show (memcpy (memcpy (PesParseEntry ctx.pesdx true).Header 0 (d.add 0) 6) 6
            (d.add (0 + 6)) 3 6).val &&& 0xC0 = 0x80
        rw [memcpy_apply_in _ _ _ _ _ (by omega) (by omega)]
        exact hd6
      · show (memcpy (memcpy (PesParseEntry ctx.pesdx true).Header 0 (d.add 0) 6) 6
            (d.add (0 + 6)) 3 8).val = 0
        rw [memcpy_apply_in _ _ _ _ _ (by omega) (by omega)]
        exact hd8
    · show 0 < size - 6 - 3; omega

/-- C12 fails on the code: on one transport packet with the sync byte whose
payload is a PES start packet with header data length 0, `TsDemuxer` is still
running after every number of steps; it does not return 188. -/
theorem TsDemuxer_hangs_in_PesParse :
    ∀ fuel, TsDemuxer fuel { Packets := 0 } exFreshCtx exTsHang 188 = Run.unfinished := by
  intro fuel
  unfold TsDemuxer
  cases fuel with
  | zero => rfl
  | succ n =>
    have hhang := PesParse_stuck_header_len_zero exFreshCtx ((exTsHang.add 0).add 4) 184
      (by omega) (by decide) (by decide) (by decide) (by decide) (by decide) (n + 1)
    rw [TsDemuxerLoop, if_pos (by decide)]
    simp only
    rw [if_neg (by decide), if_neg (by decide)]
    rw [show TsPayloadStart (exTsHang.add 0) = some 4 from by decide]
    simp only
    rw [show PesParse (n + 1) exFreshCtx ((exTsHang.add 0).add 4) (TS_PACKET_SIZE - 4)
      (decide ((exTsHang.add 0 1).val &&& 0x40 ≠ 0)) = Run.unfinished from hhang]

/-- When `TsDemuxer` does return and every complete packet starts with the
sync byte, the returned count is that of the complete packets. -/
theorem TsDemuxerLoop_ret_of_sync (fuel : Nat) (data : Ptr) :
    ∀ (k : Nat) (s : TsLoop) (r : TsResult), 0 ≤ s.size →
    (∀ j : Nat, 188 * ((j : Int) + 1) ≤ s.size → (data (s.p + 188 * j)).val = 0x47) →
    TsDemuxerLoop fuel data k s = Run.returned r →
    r.ret = (s.p : Int) + 188 * (s.size / 188) := by
  intro k
  induction k with
  | zero =>
    intro s r h0 _ h
    rw [TsDemuxerLoop] at h
    split at h
    · cases h
    · rename_i hlt
      cases h
      have hlt2 : s.size < 188 := by
        have : ¬ (s.size ≥ ((188 : Nat) : Int)) := hlt
        omega
      show (s.p : Int) = (s.p : Int) + 188 * (s.size / 188)
      have : s.size / 188 = 0 := Int.ediv_eq_zero_of_lt h0 hlt2
      omega
  | succ n ih =>
    intro s r h0 hs h
    rw [TsDemuxerLoop] at h
    split at h
    · rename_i hge
      have hge2 : 188 ≤ s.size := by
        have : s.size ≥ ((188 : Nat) : Int) := hge
        omega
      have hsync : (data (s.p + 188 * 0)).val = 0x47 := hs 0 (by omega)
      simp only at h
      rw [if_neg (by
        show ¬ ((data (s.p + 0)).val ≠ TS_PACKET_SYNC)
        rw [show s.p + 0 = s.p + 188 * 0 from rfl, hsync]; decide)] at h
      have hnext : ∀ (s2 : TsLoop), s2.p = s.p + 188 → s2.size = s.size - 188 →
          TsDemuxerLoop fuel data n s2 = Run.returned r →
          r.ret = (s.p : Int) + 188 * (s.size / 188) := by
        intro s2 hp2 hs2 hr
        have := ih s2 r (by omega)
          (by
            intro j hj
            have := hs (j + 1) (by push_cast; omega)
            rw [hp2, show s.p + 188 + 188 * j = s.p + 188 * (j + 1) from by omega]
            exact this)
          hr
        rw [this, hp2, hs2]
        have : s.size / 188 = (s.size - 188) / 188 + 1 := by omega
        push_cast
        omega
      split at h
      · exact hnext _ rfl rfl h
      · split at h
        · exact hnext _ rfl rfl h
        · cases h
        · cases h
    · rename_i hlt
      cases h
      have hlt2 : s.size < 188 := by
        have : ¬ (s.size ≥ ((188 : Nat) : Int)) := hlt
        omega
      show (s.p : Int) = (s.p : Int) + 188 * (s.size / 188)
      have : s.size / 188 = 0 := Int.ediv_eq_zero_of_lt h0 hlt2
      omega

/-- On a packet without the sync byte `TsDemuxer` returns the number of bytes
that were left when it got there. -/
theorem TsDemuxerLoop_sync_lost (fuel : Nat) (data : Ptr) (k : Nat) (s : TsLoop)
    (hsize : 188 ≤ s.size) (hsync : (data s.p).val ≠ 0x47) :
    TsDemuxerLoop fuel data (k + 1) s
      = Run.returned { tsdx := s.tsdx, ctx := s.ctx, ret := s.size } := by
  rw [TsDemuxerLoop, if_pos (by exact hsize)]
  simp only
  rw [if_pos (by show (data (s.p + 0)).val ≠ TS_PACKET_SYNC; exact hsync)]

/-- C13 fails on the code: on a 564-byte buffer (three packets) whose first
packet has the sync byte (and is skipped) and whose second packet has not,
`TsDemuxer` returns 376, the bytes left at the second packet: not the buffer
size 564, and not the 188 bytes consumed. -/
theorem TsDemuxer_sync_lost_returns_rest :
    tsRet (TsDemuxer 2 { Packets := 0 } exFreshCtx exTsSyncLost 564) = some 376 := by
  decide

/-- Reading a replaced slot. -/
theorem setSlot_same (rb : Nat → VideoPacket) (i : Nat) (v : VideoPacket) :
    setSlot rb i v i = v := by
  unfold setSlot
  rw [if_pos rfl]

/-- Reading another slot than the replaced one. -/
theorem setSlot_other (rb : Nat → VideoPacket) (i j : Nat) (v : VideoPacket) (h : j ≠ i) :
    setSlot rb i v j = rb j := by
  unfold setSlot
  rw [if_neg h]

/-- A commit of a slot with bytes, or of the sentinel, with fewer than 191
slots filled: the state it leaves. -/
theorem VideoNextPacket_commit (padding : Nat) (s : VideoState) (codec_id : CodecID)
    (h1 : ¬ ((s.VideoPacketRb s.VideoPacketWrite).stream_index = 0 ∧ codec_id ≠ CodecID.NONE))
    (h2 : s.VideoPacketsFilled < 191) :
    VideoNextPacket padding s codec_id =
      VideoResetPacket
        { s with
          VideoPacketRb := setSlot s.VideoPacketRb s.VideoPacketWrite
            { s.VideoPacketRb s.VideoPacketWrite with
              data := memset (s.VideoPacketRb s.VideoPacketWrite).data
                (s.VideoPacketRb s.VideoPacketWrite).stream_index 0 padding
              priv := codec_id }
          VideoPacketWrite := (s.VideoPacketWrite + 1) % VIDEO_PACKET_MAX
          VideoPacketsFilled := s.VideoPacketsFilled + 1
          calls := s.calls ++ [VideoCall.wakeup] } := by
  have hmax : (VIDEO_PACKET_MAX : Int) = 192 := rfl
  unfold VideoNextPacket
  simp only
  rw [if_neg h1, if_neg (by rw [hmax]; omega)]

/-- A commit with 191 slots filled drops the slot: the cursors and the fill
counter stay. -/
theorem VideoNextPacket_full (padding : Nat) (s : VideoState) (codec_id : CodecID)
    (h : 191 ≤ s.VideoPacketsFilled) :
    (VideoNextPacket padding s codec_id).VideoPacketWrite = s.VideoPacketWrite
      ∧ (VideoNextPacket padding s codec_id).VideoPacketRead = s.VideoPacketRead
      ∧ (VideoNextPacket padding s codec_id).VideoPacketsFilled = s.VideoPacketsFilled := by
  have hmax : (VIDEO_PACKET_MAX : Int) = 192 := rfl
  unfold VideoNextPacket
  simp only
  split
  · exact ⟨rfl, rfl, rfl⟩
  · rw [if_pos (by rw [hmax]; omega)]
    exact ⟨rfl, rfl, rfl⟩

/-- The example state after `n` rounds, for `n` up to 191: `n` slots are
filled, the write cursor is at `n`, and no flag has changed. -/
theorem exVideoFilled_spec (n : Nat) (hn : n ≤ 191) :
    (exVideoFilled n).VideoPacketsFilled = (n : Int) ∧ (exVideoFilled n).VideoPacketWrite = n
      ∧ (exVideoFilled n).VideoPacketRead = 0 ∧ (exVideoFilled n).MyVideoDecoder = true
      ∧ (exVideoFilled n).SkipVideo = false ∧ (exVideoFilled n).StreamFreezed = false
      ∧ (exVideoFilled n).NewVideoStream = false
      ∧ (exVideoFilled n).VideoClearBuffers = false := by
  induction n with
  | zero => exact ⟨rfl, rfl, rfl, rfl, rfl, rfl, rfl, rfl⟩
  | succ n ih =>
    obtain ⟨h1, h2, h3, h4, h5, h6, h7, h8⟩ := ih (by omega)
    have hne : ¬ (((VideoEnqueue 8 (exVideoFilled n) 900 (Ptr.ofList [0x65]) 1).VideoPacketRb
        (VideoEnqueue 8 (exVideoFilled n) 900 (Ptr.ofList [0x65]) 1).VideoPacketWrite).stream_index
          = 0 ∧ CodecID.H264 ≠ CodecID.NONE) := by
      intro hc
      have h0 := hc.1
      unfold VideoEnqueue at h0
      simp only [setSlot_same] at h0
      omega
    have hfill : (VideoEnqueue 8 (exVideoFilled n) 900 (Ptr.ofList [0x65]) 1).VideoPacketsFilled
        < 191 := by
      show (exVideoFilled n).VideoPacketsFilled < 191
      omega
    unfold exVideoFilled
    rw [VideoNextPacket_commit 8 _ CodecID.H264 hne hfill]
    refine ⟨?_, ?_, h3, h4, h5, h6, h7, h8⟩
    · show (exVideoFilled n).VideoPacketsFilled + 1 = _
      rw [h1]
      push_cast
      rfl
    · show ((exVideoFilled n).VideoPacketWrite + 1) % 192 = n + 1
      rw [h2]
      omega

/-- Each example state is reachable from `VideoPacketInit`. -/
theorem exVideoFilled_reachable (n : Nat) : VideoReachable 8 (exVideoFilled n) := by
  induction n with
  | zero => exact VideoReachable.init _ _
  | succ n ih => exact VideoReachable.next _ _ (VideoReachable.enqueue _ _ _ _ ih)

/-- The slot a commit leaves at the old write cursor: the bytes and the PTS
stay, the padding after the bytes is zero, and the tag is the one given. -/
theorem VideoNextPacket_commit_slot (padding : Nat) (s : VideoState) (codec_id : CodecID)
    (h1 : ¬ ((s.VideoPacketRb s.VideoPacketWrite).stream_index = 0 ∧ codec_id ≠ CodecID.NONE))
    (h2 : s.VideoPacketsFilled < 191) :
    (VideoNextPacket padding s codec_id).VideoPacketRb s.VideoPacketWrite =
      { s.VideoPacketRb s.VideoPacketWrite with
        data := memset (s.VideoPacketRb s.VideoPacketWrite).data
          (s.VideoPacketRb s.VideoPacketWrite).stream_index 0 padding
        priv := codec_id } := by
  have hmax : VIDEO_PACKET_MAX = 192 := rfl
  rw [VideoNextPacket_commit padding s codec_id h1 h2]
  unfold VideoResetPacket
  simp only [hmax]
  rw [setSlot_other _ _ _ _ (by omega), setSlot_same]

/-- A commit keeps the fill counter in range. -/
theorem VideoNextPacket_fill (padding : Nat) (s : VideoState) (codec_id : CodecID)
    (h : VideoFillOk s) : VideoFillOk (VideoNextPacket padding s codec_id) := by
  unfold VideoNextPacket
  simp only
  split
  · exact h
  · split
    · exact h
    · rename_i hfull
      obtain ⟨h1, h2⟩ := h
      have hmax : (VIDEO_PACKET_MAX : Int) = 192 := rfl
      rw [hmax] at hfull h2
      refine ⟨?_, ?_⟩
      · show 0 ≤ s.VideoPacketsFilled + 1
        omega
      · show s.VideoPacketsFilled + 1 ≤ (VIDEO_PACKET_MAX : Int) - 1
        rw [hmax]
        omega

/-- An append keeps the fill counter. -/
theorem VideoEnqueue_fill (padding : Nat) (s : VideoState) (pts : Int) (data : Ptr)
    (size : Nat) (h : VideoFillOk s) : VideoFillOk (VideoEnqueue padding s pts data size) :=
  h

/-- The search for a close finds it among the slots it looks at. -/
theorem VideoFindClose_lt (rb : Nat → VideoPacket) (read : Nat) (n f k : Nat)
    (h : VideoFindClose rb read n f = some k) : k < f + n := by
  induction n generalizing f with
  | zero => simp [VideoFindClose] at h
  | succ n ih =>
    unfold VideoFindClose at h
    split at h
    · injection h with h
      omega
    · have := ih (f + 1) h
      omega

/-- The clear to close leaves at least one slot queued. -/
theorem VideoClearUptoClose_fill (s : VideoState) (h1 : 1 ≤ s.VideoPacketsFilled) :
    1 ≤ (VideoClearUptoClose s).VideoPacketsFilled
      ∧ (VideoClearUptoClose s).VideoPacketsFilled ≤ s.VideoPacketsFilled := by
  unfold VideoClearUptoClose
  simp only
  split
  · rename_i f hf
    have := VideoFindClose_lt _ _ _ _ _ hf
    split
    · refine ⟨?_, ?_⟩
      · show 1 ≤ s.VideoPacketsFilled - (f : Int)
        omega
      · show s.VideoPacketsFilled - (f : Int) ≤ s.VideoPacketsFilled
        omega
    · exact ⟨h1, le_refl _⟩
  · exact ⟨h1, le_refl _⟩

/-- A dequeue keeps the fill counter in range. -/
theorem VideoDecodeInput_fill (s : VideoState) (h : VideoFillOk s) :
    VideoFillOk (VideoDecodeInput s).1 := by
  have hmax : (VIDEO_PACKET_MAX : Int) = 192 := rfl
  have key : ∀ s1 : VideoState, 1 ≤ s1.VideoPacketsFilled → s1.VideoPacketsFilled ≤ 191 →
      ∀ s2 : VideoState, s2.VideoPacketsFilled = s1.VideoPacketsFilled →
        VideoFillOk (VideoAdvanceRead s2).1 := by
    intro s1 h1 h2 s2 e
    refine ⟨?_, ?_⟩
    · show 0 ≤ s2.VideoPacketsFilled - 1
      omega
    · show s2.VideoPacketsFilled - 1 ≤ (VIDEO_PACKET_MAX : Int) - 1
      rw [hmax]
      omega
  obtain ⟨h1, h2⟩ := h
  rw [hmax] at h2
  unfold VideoDecodeInput
  split
  · exact ⟨le_refl _, by show (0 : Int) ≤ 192 - 1; decide⟩
  · split
    · exact ⟨h1, by rw [hmax]; exact h2⟩
    · split
      · exact ⟨h1, by rw [hmax]; exact h2⟩
      · rename_i h0
        simp only
        have hs1 : 1 ≤ (if s.VideoClearClose then VideoClearUptoClose s else s).VideoPacketsFilled
            ∧ (if s.VideoClearClose then VideoClearUptoClose s else s).VideoPacketsFilled
              ≤ 191 := by
          split
          · have := VideoClearUptoClose_fill s (by omega)
            omega
          · omega
        generalize (if s.VideoClearClose then VideoClearUptoClose s else s) = s1 at hs1 ⊢
        split
        · split
          · exact key s1 hs1.1 hs1.2 _ rfl
          · exact key s1 hs1.1 hs1.2 _ rfl
        · split
          · exact key s1 hs1.1 hs1.2 _ rfl
          · exact key s1 hs1.1 hs1.2 _ rfl
        · split
          · exact key s1 hs1.1 hs1.2 _ rfl
          · exact key s1 hs1.1 hs1.2 _ rfl
        · exact key s1 hs1.1 hs1.2 _ rfl

/-- A poll keeps the fill counter in range. -/
theorem VideoPollInput_fill (s : VideoState) (h : VideoFillOk s) :
    VideoFillOk (VideoPollInput s).1 := by
  unfold VideoPollInput
  split
  · exact ⟨le_refl _, by show (0 : Int) ≤ 192 - 1; decide⟩
  · split
    · exact h
    · exact h

/-- The store part of `PlayVideo` keeps the fill counter in range. -/
theorem PlayVideoStore_fill (padding : Nat) (s : VideoState) (data : Ptr) (size : Int)
    (h : VideoFillOk s) : VideoFillOk (PlayVideoStore padding s data size).1 := by
  unfold PlayVideoStore
  simp only
  repeat' split
  all_goals
    repeat
      first
      | exact h
      | refine VideoNextPacket_fill _ _ _ ?_
      | refine VideoEnqueue_fill _ _ _ _ _ ?_

/-- The packet part of `PlayVideo` keeps the fill counter in range. -/
theorem PlayVideoPacket_fill (padding : Nat) (s : VideoState) (data : Ptr) (size : Int)
    (audioUsed : Int) (h : VideoFillOk s) :
    VideoFillOk (PlayVideoPacket padding s data size audioUsed).1 := by
  unfold PlayVideoPacket
  repeat' split
  all_goals first | exact h | exact PlayVideoStore_fill _ _ _ _ h

/-- A call of `PlayVideo` keeps the fill counter in range. -/
theorem PlayVideo_fill (padding : Nat) (s : VideoState) (data : Ptr) (size : Int)
    (audioUsed : Int) (h : VideoFillOk s) :
    VideoFillOk (PlayVideo padding s data size audioUsed).1 := by
  unfold PlayVideo
  split
  · exact h
  · split
    · exact h
    · split
      · exact h
      · split
        · split
          · exact h
          · exact PlayVideoPacket_fill _ _ _ _ _ (VideoNextPacket_fill padding s CodecID.NONE h)
        · exact PlayVideoPacket_fill _ _ _ _ _ h

/-- Every reachable state has its fill counter in range. -/
theorem VideoReachable_fill (padding : Nat) (s : VideoState) (h : VideoReachable padding s) :
    VideoFillOk s := by
  induction h with
  | init s buffers => exact ⟨le_refl _, by show (0 : Int) ≤ 192 - 1; decide⟩
  | next s codec_id _ ih => exact VideoNextPacket_fill _ _ _ ih
  | enqueue s pts data size _ ih => exact ih
  | decode s _ ih => exact VideoDecodeInput_fill _ ih
  | poll s _ ih => exact VideoPollInput_fill _ ih
  | play s data size audioUsed _ ih => exact PlayVideo_fill _ _ _ _ _ ih
  | env s s2 _ _ _ _ hf ih =>
    unfold VideoFillOk
    rw [hf]
    exact ih

/-- C15: in every state reachable from `VideoPacketInit` by a sequential
interleaving of `VideoNextPacket`, `VideoDecodeInput`, `VideoPollInput` and
`PlayVideo` calls (and of appends and flag changes), the fill counter
`VideoPacketsFilled` is within 0 and `VIDEO_PACKET_MAX` = 192; it never
reaches 192, the commit leaves one slot free. -/
theorem VideoPacketsFilled_within_capacity (padding : Nat) (s : VideoState)
    (h : VideoReachable padding s) :
    0 ≤ s.VideoPacketsFilled ∧ s.VideoPacketsFilled ≤ (VIDEO_PACKET_MAX : Int)
      ∧ VIDEO_PACKET_MAX = 192 ∧ s.VideoPacketsFilled ≤ 191 := by
  obtain ⟨h1, h2⟩ := VideoReachable_fill padding s h
  have hmax : (VIDEO_PACKET_MAX : Int) = 192 := rfl
  rw [hmax] at h2 ⊢
  exact ⟨h1, by omega, rfl, by omega⟩

/-- The fill counter after one commit and one dequeue. -/
theorem VideoPacketsFilled_within_capacity_witness :
    VideoReachable 8 (VideoDecodeInput (exVideoFilled 1)).1
      ∧ 0 ≤ (VideoDecodeInput (exVideoFilled 1)).1.VideoPacketsFilled
      ∧ (VideoDecodeInput (exVideoFilled 1)).1.VideoPacketsFilled ≤ (VIDEO_PACKET_MAX : Int)
      ∧ VIDEO_PACKET_MAX = 192
      ∧ (VideoDecodeInput (exVideoFilled 1)).1.VideoPacketsFilled ≤ 191 :=
  ⟨VideoReachable.decode _ (exVideoFilled_reachable 1),
    VideoPacketsFilled_within_capacity 8 _
      (VideoReachable.decode _ (exVideoFilled_reachable 1))⟩

/-- C17 (amended): `VideoNextPacket` called with the stream-boundary sentinel
tag `CODEC_ID_NONE` commits the current slot, also an empty one, whenever
fewer than 191 slots are filled: afterwards the slot carries the sentinel tag
and still its byte count and PTS, the write cursor has advanced by one modulo
192, the fill counter has increased by one, and the display is woken. -/
theorem VideoNextPacket_sentinel_commits_below_full (padding : Nat) (s : VideoState)
    (h : s.VideoPacketsFilled < 191) :
    ((VideoNextPacket padding s CodecID.NONE).VideoPacketRb s.VideoPacketWrite).priv
        = CodecID.NONE
      ∧ ((VideoNextPacket padding s CodecID.NONE).VideoPacketRb s.VideoPacketWrite).stream_index
        = (s.VideoPacketRb s.VideoPacketWrite).stream_index
      ∧ ((VideoNextPacket padding s CodecID.NONE).VideoPacketRb s.VideoPacketWrite).pts
        = (s.VideoPacketRb s.VideoPacketWrite).pts
      ∧ (VideoNextPacket padding s CodecID.NONE).VideoPacketWrite
        = (s.VideoPacketWrite + 1) % 192
      ∧ (VideoNextPacket padding s CodecID.NONE).VideoPacketsFilled = s.VideoPacketsFilled + 1
      ∧ (VideoNextPacket padding s CodecID.NONE).calls = s.calls ++ [VideoCall.wakeup] := by
  have hslot := VideoNextPacket_commit_slot padding s CodecID.NONE (fun h => h.2 rfl) h
  have hc := VideoNextPacket_commit padding s CodecID.NONE (fun h => h.2 rfl) h
  refine ⟨by rw [hslot], by rw [hslot], by rw [hslot], ?_, ?_, ?_⟩
  · rw [hc]
    rfl
  · rw [hc]
    rfl
  · rw [hc]
    rfl

/-- The sentinel committed on the empty slot of a fresh ring buffer. -/
theorem VideoNextPacket_sentinel_commits_below_full_witness :
    (VideoPacketInit exVideoIdle (fun _ _ => 0)).VideoPacketsFilled < 191
      ∧ ((VideoPacketInit exVideoIdle (fun _ _ => 0)).VideoPacketRb 0).stream_index = 0
      ∧ ((VideoNextPacket 8 (VideoPacketInit exVideoIdle (fun _ _ => 0))
          CodecID.NONE).VideoPacketRb 0).priv = CodecID.NONE
      ∧ (VideoNextPacket 8 (VideoPacketInit exVideoIdle (fun _ _ => 0))
          CodecID.NONE).VideoPacketWrite = 1
      ∧ (VideoNextPacket 8 (VideoPacketInit exVideoIdle (fun _ _ => 0))
          CodecID.NONE).VideoPacketsFilled = 1 :=
  have hp := VideoNextPacket_sentinel_commits_below_full 8
    (VideoPacketInit exVideoIdle (fun _ _ => 0)) (by decide)
  ⟨by decide, rfl, hp.1, hp.2.2.2.1, hp.2.2.2.2.1⟩

/-- C17 (counterexample): the example state with 191 slots filled is
reachable from `VideoPacketInit`; `VideoNextPacket` called on it with the
sentinel tag does not commit: the fill counter stays 191 and the write cursor
stays at 191, where the claim has 192 and 0. -/
theorem VideoNextPacket_sentinel_dropped_when_full :
    VideoReachable 8 (exVideoFilled 191)
      ∧ (exVideoFilled 191).VideoPacketsFilled = 191
      ∧ (exVideoFilled 191).VideoPacketWrite = 191
      ∧ (VideoNextPacket 8 (exVideoFilled 191) CodecID.NONE).VideoPacketsFilled = 191
      ∧ (VideoNextPacket 8 (exVideoFilled 191) CodecID.NONE).VideoPacketWrite = 191 := by
  have h := exVideoFilled_spec 191 (by decide)
  have hf : (exVideoFilled 191).VideoPacketsFilled = 191 := by
    rw [h.1]
    rfl
  have hfull := VideoNextPacket_full 8 (exVideoFilled 191) CodecID.NONE (by rw [hf])
  exact ⟨exVideoFilled_reachable 191, hf, h.2.1, by rw [hfull.2.2, hf], by rw [hfull.1, h.2.1]⟩

/-- With 189 or more slots filled, the packet part of `PlayVideo` refuses a
well-formed packet and changes nothing. -/
theorem PlayVideoPacket_hard_limit (padding : Nat) (s : VideoState) (data : Ptr) (size : Int)
    (audioUsed : Int) (hfill : 189 ≤ s.VideoPacketsFilled)
    (hstart : ¬ (size < 9 ∨ (data 0).val ≠ 0 ∨ (data 1).val ≠ 0 ∨ (data 2).val ≠ 0x01))
    (hpad : (data 3).val ≠ PES_PADDING_STREAM) (hsize : 9 + ((data 8).val : Int) < size) :
    PlayVideoPacket padding s data size audioUsed = (s, 0) := by
  have hmax : (VIDEO_PACKET_MAX : Int) = 192 := rfl
  unfold PlayVideoPacket
  rw [if_neg hstart, if_neg hpad, if_neg (by omega), if_pos (by rw [hmax]; omega)]

/-- With 189 or more slots filled, `PlayVideo` refuses a well-formed packet
of an active, not skipped, not frozen decoder: what it returns and the state
it leaves, by the pending channel switch and the fill counter. -/
theorem PlayVideo_at_hard_limit (padding : Nat) (s : VideoState) (data : Ptr)
    (size : Int) (audioUsed : Int) (hfill : 189 ≤ s.VideoPacketsFilled)
    (hdec : s.MyVideoDecoder = true) (hskip : s.SkipVideo = false)
    (hfrz : s.StreamFreezed = false)
    (hstart : ¬ (size < 9 ∨ (data 0).val ≠ 0 ∨ (data 1).val ≠ 0 ∨ (data 2).val ≠ 0x01))
    (hpad : (data 3).val ≠ PES_PADDING_STREAM) (hsize : 9 + ((data 8).val : Int) < size) :
    (PlayVideo padding s data size audioUsed).2 = 0
      ∧ (s.NewVideoStream = false → (PlayVideo padding s data size audioUsed).1 = s)
      ∧ (s.NewVideoStream = true → 191 ≤ s.VideoPacketsFilled →
          (PlayVideo padding s data size audioUsed).1 = { s with NewVideoStream := false })
      ∧ (s.NewVideoStream = true → s.VideoPacketsFilled < 191 →
          (PlayVideo padding s data size audioUsed).1
              = { VideoNextPacket padding s CodecID.NONE with
                  VideoCodecID := CodecID.NONE
                  ClosingVideoStream := true
                  NewVideoStream := false }
            ∧ (PlayVideo padding s data size audioUsed).1.VideoPacketsFilled
              = s.VideoPacketsFilled + 1
            ∧ (PlayVideo padding s data size audioUsed).1.VideoPacketWrite
              = (s.VideoPacketWrite + 1) % VIDEO_PACKET_MAX)
      ∧ 189 ≤ (PlayVideo padding s data size audioUsed).1.VideoPacketsFilled
      ∧ (PlayVideo padding s data size audioUsed).1.MyVideoDecoder = true
      ∧ (PlayVideo padding s data size audioUsed).1.SkipVideo = false
      ∧ (PlayVideo padding s data size audioUsed).1.StreamFreezed = false
      ∧ (PlayVideo padding s data size audioUsed).1.NewVideoStream = false := by
  have hmax : (VIDEO_PACKET_MAX : Int) = 192 := rfl
  unfold PlayVideo
  rw [hdec, hskip, hfrz]
  simp only [not_true_eq_false, Bool.false_eq_true, if_false]
  cases hnew : s.NewVideoStream with
  | false =>
    simp only [Bool.false_eq_true, if_false]
    rw [PlayVideoPacket_hard_limit padding s data size audioUsed hfill hstart hpad hsize]
    exact ⟨rfl, fun _ => rfl, fun h => absurd h (by decide), fun h => absurd h (by decide),
      hfill, hdec, hskip, hfrz, hnew⟩
  | true =>
    simp only [if_true]
    by_cases hfull : 191 ≤ s.VideoPacketsFilled
    · rw [if_pos (by rw [hmax]; omega)]
      exact ⟨rfl, fun h => absurd h (by decide), fun _ _ => rfl,
        fun _ h => absurd hfull (by omega), hfill, rfl, rfl, rfl, rfl⟩
    · have hlt : s.VideoPacketsFilled < 191 := by omega
      have hc := VideoNextPacket_commit padding s CodecID.NONE (fun h => h.2 rfl) hlt
      rw [if_neg (by rw [hmax]; omega), PlayVideoPacket_hard_limit]
      · refine ⟨rfl, fun h => absurd h (by decide), fun _ h => absurd h hfull,
          fun _ _ => ⟨rfl, ?_, ?_⟩, ?_, ?_, ?_, ?_, rfl⟩
        · show (VideoNextPacket padding s CodecID.NONE).VideoPacketsFilled = _
          rw [hc]
          rfl
        · show (VideoNextPacket padding s CodecID.NONE).VideoPacketWrite = _
          rw [hc]
          rfl
        · show 189 ≤ (VideoNextPacket padding s CodecID.NONE).VideoPacketsFilled
          rw [hc]
          show 189 ≤ s.VideoPacketsFilled + 1
          omega
        · show (VideoNextPacket padding s CodecID.NONE).MyVideoDecoder = true
          rw [hc]
          exact hdec
        · show (VideoNextPacket padding s CodecID.NONE).SkipVideo = false
          rw [hc]
          exact hskip
        · show (VideoNextPacket padding s CodecID.NONE).StreamFreezed = false
          rw [hc]
          exact hfrz
      · show 189 ≤ (VideoNextPacket padding s CodecID.NONE).VideoPacketsFilled
        rw [hc]
        show 189 ≤ s.VideoPacketsFilled + 1
        omega
      · exact hstart
      · exact hpad
      · exact hsize

/-- C16 (amended): with 189 or more slots filled, the decoder active, not
skipped and not frozen, `PlayVideo` on a well-formed video PES packet (start
code, not the padding stream, more bytes than the header) returns 0.  With no
channel switch pending it leaves the whole state unchanged.  With a channel
switch pending (`NewVideoStream`) it first clears that flag and, while fewer
than 191 slots are filled, commits the stream-boundary sentinel: the write
cursor and the fill counter advance by one.  In each case the state it leaves
refuses the next packet in the same way, with no channel switch pending. -/
theorem PlayVideo_hard_limit_returns_zero (padding : Nat) (s : VideoState) (data : Ptr)
    (size : Int) (audioUsed : Int) (hfill : 189 ≤ s.VideoPacketsFilled)
    (hdec : s.MyVideoDecoder = true) (hskip : s.SkipVideo = false)
    (hfrz : s.StreamFreezed = false)
    (hstart : ¬ (size < 9 ∨ (data 0).val ≠ 0 ∨ (data 1).val ≠ 0 ∨ (data 2).val ≠ 0x01))
    (hpad : (data 3).val ≠ PES_PADDING_STREAM) (hsize : 9 + ((data 8).val : Int) < size) :
    (PlayVideo padding s data size audioUsed).2 = 0
      ∧ (s.NewVideoStream = false → (PlayVideo padding s data size audioUsed).1 = s)
      ∧ (s.NewVideoStream = true → 191 ≤ s.VideoPacketsFilled →
          (PlayVideo padding s data size audioUsed).1 = { s with NewVideoStream := false })
      ∧ (s.NewVideoStream = true → s.VideoPacketsFilled < 191 →
          (PlayVideo padding s data size audioUsed).1
              = { VideoNextPacket padding s CodecID.NONE with
                  VideoCodecID := CodecID.NONE
                  ClosingVideoStream := true
                  NewVideoStream := false }
            ∧ (PlayVideo padding s data size audioUsed).1.VideoPacketsFilled
              = s.VideoPacketsFilled + 1
            ∧ (PlayVideo padding s data size audioUsed).1.VideoPacketWrite
              = (s.VideoPacketWrite + 1) % VIDEO_PACKET_MAX)
      ∧ 189 ≤ (PlayVideo padding s data size audioUsed).1.VideoPacketsFilled
      ∧ (PlayVideo padding s data size audioUsed).1.MyVideoDecoder = true
      ∧ (PlayVideo padding s data size audioUsed).1.SkipVideo = false
      ∧ (PlayVideo padding s data size audioUsed).1.StreamFreezed = false
      ∧ (PlayVideo padding s data size audioUsed).1.NewVideoStream = false :=
  PlayVideo_at_hard_limit padding s data size audioUsed hfill hdec hskip hfrz hstart hpad hsize

/-- The refusal at 189 filled slots with no channel switch pending: the state
is unchanged. -/
theorem PlayVideo_hard_limit_returns_zero_witness :
    189 ≤ (exVideoFilled 189).VideoPacketsFilled
      ∧ (PlayVideo 8 (exVideoFilled 189) exVideoPes 14 0).2 = 0
      ∧ (PlayVideo 8 (exVideoFilled 189) exVideoPes 14 0).1 = exVideoFilled 189 :=
  have h := exVideoFilled_spec 189 (by decide)
  have hfill : 189 ≤ (exVideoFilled 189).VideoPacketsFilled := by rw [h.1]; decide
  have hp := PlayVideo_hard_limit_returns_zero 8 (exVideoFilled 189) exVideoPes 14 0 hfill
    h.2.2.2.1 h.2.2.2.2.1 h.2.2.2.2.2.1 (by decide) (by decide) (by decide)
  ⟨hfill, hp.1, hp.2.1 h.2.2.2.2.2.2.1⟩

/-- C16 (counterexample): the example state is reachable, has 189 slots
filled and the write cursor at 189, its decoder is active, not skipped and not
frozen, and a channel switch is pending.  `PlayVideo` on the well-formed
example packet returns 0 but does not leave the ring buffer unchanged: it
commits the sentinel slot, so that 190 slots are filled and the write cursor
is at 190. -/
theorem PlayVideo_commits_sentinel_at_hard_limit :
    VideoReachable 8 exVideoSwitch
      ∧ exVideoSwitch.VideoPacketsFilled = 189 ∧ exVideoSwitch.VideoPacketWrite = 189
      ∧ exVideoSwitch.MyVideoDecoder = true ∧ exVideoSwitch.SkipVideo = false
      ∧ exVideoSwitch.StreamFreezed = false
      ∧ (PlayVideo 8 exVideoSwitch exVideoPes 14 0).2 = 0
      ∧ (PlayVideo 8 exVideoSwitch exVideoPes 14 0).1.VideoPacketsFilled = 190
      ∧ (PlayVideo 8 exVideoSwitch exVideoPes 14 0).1.VideoPacketWrite = 190
      ∧ ((PlayVideo 8 exVideoSwitch exVideoPes 14 0).1.VideoPacketRb 189).priv
        = CodecID.NONE := by
  have h := exVideoFilled_spec 189 (by decide)
  have hf : exVideoSwitch.VideoPacketsFilled = 189 := by
    unfold exVideoSwitch
    simp only [h.1, Nat.cast_ofNat]
  have hw : exVideoSwitch.VideoPacketWrite = 189 := by
    unfold exVideoSwitch
    simp only [h.2.1]
  have hdec : exVideoSwitch.MyVideoDecoder = true := by
    unfold exVideoSwitch
    simp only [h.2.2.2.1]
  have hskip : exVideoSwitch.SkipVideo = false := by
    unfold exVideoSwitch
    simp only [h.2.2.2.2.1]
  have hfrz : exVideoSwitch.StreamFreezed = false := by
    unfold exVideoSwitch
    simp only [h.2.2.2.2.2.1]
  have hnew : exVideoSwitch.NewVideoStream = true := by
    unfold exVideoSwitch
    simp only
  have hreach : VideoReachable 8 exVideoSwitch := by
    refine VideoReachable.env _ _ (exVideoFilled_reachable 189) ?_ ?_ ?_ ?_
    all_goals
      unfold exVideoSwitch
      simp only
  have hfill : 189 ≤ exVideoSwitch.VideoPacketsFilled := by rw [hf]
  have hlt : exVideoSwitch.VideoPacketsFilled < 191 := by rw [hf]; decide
  have hp := PlayVideo_at_hard_limit 8 exVideoSwitch exVideoPes 14 0 hfill
    hdec hskip hfrz (by decide) (by decide) (by decide)
  have hc := hp.2.2.2.1 hnew hlt
  refine ⟨hreach, hf, hw, hdec, hskip, hfrz, hp.1, ?_, ?_, ?_⟩
  · rw [hc.2.1, hf]
    decide
  · rw [hc.2.2, hw]
    decide
  · have hslot := VideoNextPacket_commit_slot 8 exVideoSwitch CodecID.NONE
      (fun h => h.2 rfl) hlt
    rw [hw] at hslot
    rw [hc.1]
    simp only [hslot]

/-- C18 (amended): when a forced clear is pending (`VideoClearBuffers` set),
`VideoPollInput` and `VideoDecodeInput` both empty the ring buffer by moving
the read cursor to the write cursor, which stays where it is, and setting the
fill counter to zero; the clear flag is cleared, the call returns 1, no slot
changes, and the decoder is only asked to flush and to reset its start (if
there is one), not to decode. -/
theorem VideoClearBuffers_moves_read_to_write (s : VideoState)
    (h : s.VideoClearBuffers = true) :
    VideoPollInput s = (VideoClear s, 1) ∧ VideoDecodeInput s = (VideoClear s, 1)
      ∧ (VideoClear s).VideoPacketRead = s.VideoPacketWrite
      ∧ (VideoClear s).VideoPacketWrite = s.VideoPacketWrite
      ∧ (VideoClear s).VideoPacketsFilled = 0
      ∧ (VideoClear s).VideoClearBuffers = false
      ∧ (VideoClear s).VideoPacketRb = s.VideoPacketRb
      ∧ (VideoClear s).calls
        = (if s.MyVideoDecoder then s.calls ++ [VideoCall.flush, VideoCall.resetStart]
          else s.calls) := by
  refine ⟨?_, ?_, rfl, rfl, rfl, rfl, rfl, rfl⟩
  · unfold VideoPollInput
    rw [h, if_pos rfl]
  · unfold VideoDecodeInput
    rw [h, if_pos rfl]

/-- The forced clear of the example state with the write cursor at 1. -/
theorem VideoClearBuffers_moves_read_to_write_witness :
    exVideoClearPending.VideoClearBuffers = true
      ∧ VideoPollInput exVideoClearPending = (VideoClear exVideoClearPending, 1)
      ∧ VideoDecodeInput exVideoClearPending = (VideoClear exVideoClearPending, 1)
      ∧ (VideoClear exVideoClearPending).VideoPacketsFilled = 0 :=
  have hp := VideoClearBuffers_moves_read_to_write exVideoClearPending rfl
  ⟨rfl, hp.1, hp.2.1, hp.2.2.2.2.1⟩

/-- C18 (counterexample): the example state, reachable from
`VideoPacketInit`, has one slot committed, the write cursor at 1 and a forced
clear pending; after `VideoDecodeInput` and after `VideoPollInput` the read
and the write cursor are both 1, not zero. -/
theorem VideoClearBuffers_cursors_not_zero :
    VideoReachable 8 exVideoClearPending
      ∧ exVideoClearPending.VideoClearBuffers = true
      ∧ (VideoDecodeInput exVideoClearPending).1.VideoPacketRead = 1
      ∧ (VideoDecodeInput exVideoClearPending).1.VideoPacketWrite = 1
      ∧ (VideoPollInput exVideoClearPending).1.VideoPacketRead = 1
      ∧ (VideoPollInput exVideoClearPending).1.VideoPacketWrite = 1
      ∧ (VideoDecodeInput exVideoClearPending).2 = 1
      ∧ (VideoPollInput exVideoClearPending).2 = 1 :=
  ⟨VideoReachable.env _ _ (exVideoFilled_reachable 1) rfl rfl rfl rfl, by decide, by decide,
    by decide, by decide, by decide, by decide, by decide⟩

/-- The bytes at a pointer are a given list when they agree at each index. -/
theorem Ptr.bytes_eq_of_getD (p : Ptr) (n : Nat) (l : List Byte) (hl : l.length = n)
    (h : ∀ i < n, p i = l.getD i 0) : p.bytes n = l := by
  apply List.ext_getElem
  · simp [Ptr.bytes, hl]
  · intro i h1 h2
    have hi : i < n := by simpa [Ptr.bytes] using h1
    simp only [Ptr.bytes, List.getElem_map, List.getElem_range]
    rw [h i hi, List.getD_eq_getElem _ _ h2]

/-- Swapping byte pairs keeps the length. -/
theorem swapPairs_length : ∀ l : List Byte, (swapPairs l).length = l.length
  | [] => rfl
  | [_] => rfl
  | a :: b :: rest => by
    simp only [swapPairs, List.length_cons, swapPairs_length rest]

/-- The bytes of a list of even length with its pairs swapped. -/
theorem swapPairs_getD : ∀ (l : List Byte) (i : Nat), l.length % 2 = 0 → i < l.length →
    (swapPairs l).getD i 0 = if i % 2 = 0 then l.getD (i + 1) 0 else l.getD (i - 1) 0
  | [], i, _, hi => absurd hi (Nat.not_lt_zero _)
  | [_], _, he, _ => absurd he (by simp)
  | a :: b :: rest, 0, _, _ => rfl
  | a :: b :: rest, 1, _, _ => rfl
  | a :: b :: rest, i + 2, he, hi => by
    have he2 : rest.length % 2 = 0 := by
      simp only [List.length_cons] at he
      omega
    have hi2 : i < rest.length := by
      simp only [List.length_cons] at hi
      omega
    have ih := swapPairs_getD rest i he2 hi2
    simp only [swapPairs, List.getD_cons_succ]
    rw [ih]
    have hmod : (i + 2) % 2 = i % 2 := by omega
    rw [hmod]
    split
    · rfl
    · rename_i hodd
      have hpos : 1 ≤ i := by omega
      obtain ⟨j, rfl⟩ : ∃ j, i = j + 1 := ⟨i - 1, by omega⟩
      simp only [Nat.add_sub_cancel, List.getD_cons_succ]
      show rest.getD j 0 = (a :: b :: rest).getD (j + 2) 0
      rfl

/-- The spec burst of a frame that fits is 6144 bytes long. -/
theorem Ac3BurstSpec_length (frame : List Byte) (h : frame.length + 8 ≤ 6144) :
    (Ac3BurstSpec frame).length = 6144 := by
  simp only [Ac3BurstSpec, le16, List.length_append, List.length_cons, List.length_nil,
    swapPairs_length, List.length_replicate]
  omega

/-- The AC-3 burst the helper builds in the SPDIF buffer, byte by byte, is
the spec burst. -/
theorem Ac3Burst_bytes (spdif : Ptr) (frame : List Byte) (heven : frame.length % 2 = 0)
    (hsize : frame.length + 8 ≤ 6144) :
    (memset
      (swab (Ptr.ofList frame)
        (storeLe16
          (storeLe16 (storeLe16 (storeLe16 spdif 0 0xF872) 1 0x4E1F) 2
            (IEC61937_AC3 ||| ((((Ptr.ofList frame) 5).val &&& 0x07) <<< 8)))
          3 (frame.length * 8))
        (2 * 4) frame.length)
      (2 * (4 + frame.length / 2)) 0 (6144 - 8 - frame.length)).bytes 6144
      = Ac3BurstSpec frame := by
  apply Ptr.bytes_eq_of_getD _ _ _ (Ac3BurstSpec_length frame hsize)
  intro i hi
  have h2 : 2 * (frame.length / 2) = frame.length := by omega
  unfold Ac3BurstSpec
  by_cases hz : 8 + frame.length ≤ i
  · -- the zero padding
    rw [List.getD_append_right _ _ _ _ (by
      simp only [le16, List.length_append, List.length_cons, List.length_nil,
        swapPairs_length]
      omega)]
    rw [List.getD_eq_getElem _ _ (by
      simp only [le16, List.length_append, List.length_cons, List.length_nil,
        swapPairs_length, List.length_replicate]
      omega), List.getElem_replicate]
    unfold memset
    rw [if_pos (by omega)]
  · rw [List.getD_append _ _ _ _ (by
      simp only [le16, List.length_append, List.length_cons, List.length_nil,
        swapPairs_length]
      omega)]
    unfold memset
    rw [if_neg (by omega)]
    by_cases hp : 8 ≤ i
    · -- the payload
      rw [List.getD_append_right _ _ _ _ (by
        simp only [le16, List.length_append, List.length_cons, List.length_nil]
        omega)]
      simp only [le16, List.length_append, List.length_cons, List.length_nil]
      rw [swapPairs_getD frame _ heven (by omega)]
      unfold swab
      rw [if_pos (by omega)]
      rfl
    · -- the header
      rw [List.getD_append _ _ _ _ (by
        simp only [le16, List.length_append, List.length_cons, List.length_nil]
        omega)]
      unfold swab
      rw [if_neg (by omega)]
      have hi8 : i < 8 := by omega
      have h8 : (8 * frame.length) = frame.length * 8 := Nat.mul_comm _ _
      rw [h8]
      generalize frame.length * 8 = w
      have h5 : (Ptr.ofList frame 5) = frame.getD 5 0 := rfl
      rw [h5]
      have ht : IEC61937_AC3 ||| (((frame.getD 5 0).val &&& 0x07) <<< 8)
          = 0x01 ||| (((frame.getD 5 0).val &&& 7) <<< 8) := rfl
      rw [ht]
      generalize (0x01 ||| (((frame.getD 5 0).val &&& 7) <<< 8)) = t
      interval_cases i <;> simp [storeLe16, le16]

/-- C19: with AC-3 pass-through enabled, the AC-3 codec active and the AC-3
burst-size drift correction off, for every AC-3 frame of even length N with
N + 8 <= 6144 the helper returns 1 and gives `AudioEnqueue` exactly one burst:
the 6144 bytes of the spec burst, whose 16-bit little-endian words are 0xF872,
0x4E1F, `0x01 | (frame byte 5 & 7) << 8` and 8*N, followed by the N payload
bytes with each byte pair swapped, followed by zeros up to byte 6144. -/
theorem CodecAudioPassthroughHelper_ac3_burst (CodecPassthrough CodecAudioDrift : Nat)
    (audio_decoder : AudioDecoder) (sink : List (List Byte)) (avpkt : AVPacket)
    (hpass : CodecPassthrough &&& CodecAC3 ≠ 0) (hcodec : audio_decoder.codec_id = CodecID.AC3)
    (hdrift : CodecAudioDrift &&& CORRECT_AC3 = 0) (heven : avpkt.data.length % 2 = 0)
    (hsize : avpkt.data.length + 8 ≤ 6144) :
    (CodecAudioPassthroughHelper CodecPassthrough CodecAudioDrift audio_decoder sink
        avpkt).map (fun r => (r.sink, r.ret))
        = some (sink ++ [Ac3BurstSpec avpkt.data], 1)
      ∧ (Ac3BurstSpec avpkt.data).length = 6144 := by
  refine ⟨?_, Ac3BurstSpec_length avpkt.data hsize⟩
  unfold CodecAudioPassthroughHelper Ac3BurstSize
  simp only
  rw [if_pos ⟨hpass, hcodec⟩, if_neg (not_not.2 hdrift)]
  simp only
  rw [if_neg (by omega)]
  simp only [Option.map_some']
  have e1 : ((avpkt.data.length : Int) * 8).toNat = avpkt.data.length * 8 := by omega
  have e2 : ((avpkt.data.length : Int)).toNat = avpkt.data.length := by omega
  have e3 : ((6144 : Int) - 8 - (avpkt.data.length : Int)).toNat
      = 6144 - 8 - avpkt.data.length := by omega
  have e4 : (6144 : Int).toNat = 6144 := rfl
  rw [e1, e2, e3, e4, Ac3Burst_bytes _ avpkt.data heven hsize]

/-- The burst of the eight-byte example packet. -/
theorem CodecAudioPassthroughHelper_ac3_burst_witness :
    (CodecAudioPassthroughHelper CodecAC3 0 exAc3Decoder [] exAc3Packet).map
        (fun r => (r.sink, r.ret)) = some ([] ++ [Ac3BurstSpec exAc3Packet.data], 1)
      ∧ (Ac3BurstSpec exAc3Packet.data).length = 6144 :=
  CodecAudioPassthroughHelper_ac3_burst CodecAC3 0 exAc3Decoder [] exAc3Packet (by decide) rfl
    (by decide) (by decide) (by decide)

/-- The first 18 bytes of the burst of the example packet: the header words
0xF872, 0x4E1F, 0x0501 and 64, the swapped payload, and zeros. -/
theorem Ac3BurstSpec_example :
    (Ac3BurstSpec exAc3Packet.data).take 18
      = [0x72, 0xF8, 0x1F, 0x4E, 0x01, 0x05, 0x40, 0x00,
         0x77, 0x0B, 0x34, 0x12, 0x45, 0x10, 0x78, 0x56, 0x00, 0x00] := by
  decide

/-- The drift correction changes the drift fraction only. -/
theorem CodecAudioDriftBurst_keeps (audio_decoder d : AudioDecoder) (burst_sz b : Int)
    (h : CodecAudioDriftBurst audio_decoder burst_sz = some (d, b)) :
    d.SpdifIndex = audio_decoder.SpdifIndex ∧ d.SpdifCount = audio_decoder.SpdifCount
      ∧ d.Spdif = audio_decoder.Spdif := by
  unfold CodecAudioDriftBurst at h
  split at h
  · exact absurd h (by simp)
  · simp only [Option.some.injEq, Prod.mk.injEq] at h
    rw [← h.1]
    exact ⟨rfl, rfl, rfl⟩

/-- C20: for each pass-through format, if the burst size computed for the
frame is smaller than the payload already accumulated (`SpdifIndex` for
E-AC-3; AC-3 and DTS accumulate nothing) plus the new frame plus the 8-byte
header, the helper returns -1, gives no burst to `AudioEnqueue`, and leaves
`SpdifIndex`, `SpdifCount` and the SPDIF buffer unchanged. -/
theorem CodecAudioPassthroughHelper_burst_too_small (CodecPassthrough CodecAudioDrift : Nat)
    (audio_decoder : AudioDecoder) (sink : List (List Byte)) (avpkt : AVPacket)
    (h : (CodecPassthrough &&& CodecAC3 ≠ 0 ∧ audio_decoder.codec_id = CodecID.AC3
          ∧ ∃ d b, Ac3BurstSize CodecAudioDrift audio_decoder = some (d, b)
            ∧ b < (avpkt.data.length : Int) + 8)
        ∨ (CodecPassthrough &&& CodecEAC3 ≠ 0 ∧ audio_decoder.codec_id = CodecID.EAC3
          ∧ Eac3BurstSize audio_decoder
            < audio_decoder.SpdifIndex + (avpkt.data.length : Int) + 8)
        ∨ (CodecPassthrough &&& CodecDTS ≠ 0 ∧ audio_decoder.codec_id = CodecID.DTS
          ∧ ∃ d b, DtsBurstSize CodecAudioDrift audio_decoder (Ptr.ofList avpkt.data)
              = some (d, b)
            ∧ b < (avpkt.data.length : Int) + 8)) :
    ∃ r, CodecAudioPassthroughHelper CodecPassthrough CodecAudioDrift audio_decoder sink avpkt
        = some r
      ∧ r.ret = -1 ∧ r.sink = sink
      ∧ r.audio_decoder.SpdifIndex = audio_decoder.SpdifIndex
      ∧ r.audio_decoder.SpdifCount = audio_decoder.SpdifCount
      ∧ r.audio_decoder.Spdif = audio_decoder.Spdif := by
  unfold CodecAudioPassthroughHelper
  simp only
  rcases h with ⟨hp, hc, d, b, hb, hlt⟩ | ⟨hp, hc, hlt⟩ | ⟨hp, hc, d, b, hb, hlt⟩
  · rw [if_pos ⟨hp, hc⟩, hb]
    simp only
    rw [if_pos hlt]
    have hk : d.SpdifIndex = audio_decoder.SpdifIndex ∧ d.SpdifCount = audio_decoder.SpdifCount
        ∧ d.Spdif = audio_decoder.Spdif := by
      unfold Ac3BurstSize at hb
      split at hb
      · exact CodecAudioDriftBurst_keeps _ _ _ _ hb
      · simp only [Option.some.injEq, Prod.mk.injEq] at hb
        rw [← hb.1]
        exact ⟨rfl, rfl, rfl⟩
    exact ⟨_, rfl, rfl, rfl, hk.1, hk.2.1, hk.2.2⟩
  · rw [if_neg (fun hx => by rw [hc] at hx; exact absurd hx.2 (by decide)), if_pos ⟨hp, hc⟩,
      if_pos hlt]
    exact ⟨_, rfl, rfl, rfl, rfl, rfl, rfl⟩
  · rw [if_neg (fun hx => by rw [hc] at hx; exact absurd hx.2 (by decide)),
      if_neg (fun hx => by rw [hc] at hx; exact absurd hx.2 (by decide)), if_pos ⟨hp, hc⟩, hb]
    simp only
    rw [if_pos hlt]
    have hk : d.SpdifIndex = audio_decoder.SpdifIndex ∧ d.SpdifCount = audio_decoder.SpdifCount
        ∧ d.Spdif = audio_decoder.Spdif := by
      unfold DtsBurstSize at hb
      split at hb
      · exact CodecAudioDriftBurst_keeps _ _ _ _ hb
      · simp only [Option.some.injEq, Prod.mk.injEq] at hb
        rw [← hb.1]
        exact ⟨rfl, rfl, rfl⟩
    exact ⟨_, rfl, rfl, rfl, hk.1, hk.2.1, hk.2.2⟩

/-- The E-AC-3 example: with 6140 bytes accumulated, a frame of 8 bytes does
not fit the burst of 6144 bytes; the accumulation stays at 6140 bytes of two
sub-frames. -/
theorem CodecAudioPassthroughHelper_burst_too_small_witness :
    Eac3BurstSize exEac3Decoder = 6144
      ∧ exEac3Decoder.SpdifIndex + (exEac3Packet.data.length : Int) + 8 = 6156
      ∧ ∃ r, CodecAudioPassthroughHelper CodecEAC3 0 exEac3Decoder [] exEac3Packet = some r
        ∧ r.ret = -1 ∧ r.sink = []
        ∧ r.audio_decoder.SpdifIndex = 6140 ∧ r.audio_decoder.SpdifCount = 2
        ∧ r.audio_decoder.Spdif = exEac3Decoder.Spdif :=
  ⟨by decide, by decide,
    CodecAudioPassthroughHelper_burst_too_small CodecEAC3 0 exEac3Decoder [] exEac3Packet
      (Or.inr (Or.inl ⟨by decide, rfl, by decide⟩))⟩

/-- Reading the bytes at a pointer by index. -/
theorem Ptr.bytes_getD (p : Ptr) (n i : Nat) :
    (p.bytes n).getD i 0 = if i < n then p i else 0 := by
  split
  · rename_i h
    have hl : i < (p.bytes n).length := by simpa [Ptr.bytes] using h
    rw [List.getD_eq_getElem _ _ hl]
    simp [Ptr.bytes]
  · rename_i h
    exact List.getD_eq_default _ _ (by simpa [Ptr.bytes] using h)

/-- The bytes at a pointer are as many as asked for. -/
theorem Ptr.bytes_length (p : Ptr) (n : Nat) : (p.bytes n).length = n := by
  simp [Ptr.bytes]

/-- C21 fails on the code: on a newly allocated decoder set up for E-AC-3
pass-through to a 48 kHz output, two frames of eight bytes with repeat count 2
give one burst of 6144 bytes on the second call; its bytes 8..15 are the
first frame with its byte pairs swapped, but its bytes 16..23 are zero, where
the burst of the specification has the second frame. -/
theorem CodecAudioPassthroughHelper_eac3_second_frame_lost :
    ∃ burst : List Byte,
      (CodecAudioPassthroughRun CodecEAC3 0 exEac3Fresh [] exEac3Frames).map Prod.snd
          = some [burst]
        ∧ burst.length = 6144
        ∧ (List.range 8).map (fun i => burst.getD (8 + i) 0)
          = [0x77, 0x0B, 0x02, 0x01, 0x03, 0x20, 0x05, 0x04]
        ∧ (List.range 8).map (fun i => burst.getD (16 + i) 0) = [0, 0, 0, 0, 0, 0, 0, 0]
        ∧ (List.range 8).map
            (fun i => (Eac3PayloadSpec (exEac3Frames.map AVPacket.data) 6144).getD (8 + i) 0)
          = [0x77, 0x0B, 0x12, 0x11, 0x13, 0x20, 0x15, 0x14] := by
  refine ⟨_, rfl, Ptr.bytes_length _ _, ?_, ?_, ?_⟩
  · simp only [Ptr.bytes_getD]
    decide
  · simp only [Ptr.bytes_getD]
    decide
  · decide

/-- The `switch` of the DTS branch: the four standard frame-size classes, and
the fallback of every other class. -/
theorem DtsBurstType_table :
    DtsBurstType 0x07 = (0x0A, 1024) ∧ DtsBurstType 0x0F = (0x0B, 2048)
      ∧ DtsBurstType 0x1F = (0x0C, 4096) ∧ DtsBurstType 0x3F = (0x0D, 8192)
      ∧ ∀ nbs, nbs ≠ 0x07 → nbs ≠ 0x0F → nbs ≠ 0x1F → nbs ≠ 0x3F →
        DtsBurstType nbs
          = (0, ((((if nbs < 5 then 127 else nbs) + 1) * 64 + 2 : Nat) : Int)) := by
  refine ⟨rfl, rfl, rfl, rfl, ?_⟩
  intro nbs h1 h2 h3 h4
  unfold DtsBurstType
  rw [if_neg h1, if_neg h2, if_neg h3, if_neg h4]
  congr 2
  omega

/-- C22 fails on the code: on a newly allocated decoder set up for DTS
pass-through, a frame of 16 bytes followed by a frame of 8 bytes, both of
frame-size class 0x07, give two bursts of 1024 bytes.  The second burst has
the header words and, at bytes 8..15, the second frame with its byte pairs
swapped, but its bytes 16..23 are not zero: they still hold bytes 8..15 of
the first frame, swapped.  The burst of the specification is zero there. -/
theorem CodecAudioPassthroughHelper_dts_padding_not_zero :
    ∃ burst1 burst2 : List Byte,
      (CodecAudioPassthroughRun CodecDTS 0 exDtsFresh [] exDtsFrames).map Prod.snd
          = some [burst1, burst2]
        ∧ (exDtsFrames.map (fun avpkt => DtsBurstType (DtsNbs (Ptr.ofList avpkt.data))))
          = [(0x0A, 1024), (0x0A, 1024)]
        ∧ burst2.length = 1024
        ∧ (List.range 16).map (fun i => burst2.getD i 0)
          = [0x72, 0xF8, 0x1F, 0x4E, 0x0A, 0x00, 0x40, 0x00,
             0xFE, 0x7F, 0x01, 0x80, 0x1C, 0x00, 0x32, 0x31]
        ∧ (List.range 8).map (fun i => burst2.getD (16 + i) 0)
          = [0x24, 0x23, 0x26, 0x25, 0x28, 0x27, 0x2A, 0x29]
        ∧ (List.range 8).map
            (fun i => (DtsBurstSpec 0x0A 1024 [0x7F, 0xFE, 0x80, 0x01, 0x00, 0x1C, 0x31,
              0x32]).getD (16 + i) 0)
          = [0, 0, 0, 0, 0, 0, 0, 0] := by
  refine ⟨_, _, rfl, by decide, Ptr.bytes_length _ _, ?_, ?_, ?_⟩
  · simp only [Ptr.bytes_getD]
    decide
  · simp only [Ptr.bytes_getD]
    decide
  · decide

/-- Judging the drift leaves the baseline time and PTS alone. -/
theorem CodecAudioClockDrift_baseline (CodecPassthrough CodecAudioDrift : Nat)
    (d1 : AudioDecoder) (drift : Int) :
    (CodecAudioClockDrift CodecPassthrough CodecAudioDrift d1 drift).LastPTS = d1.LastPTS
      ∧ (CodecAudioClockDrift CodecPassthrough CodecAudioDrift d1 drift).LastTime
        = d1.LastTime := by
  unfold CodecAudioClockDrift
  simp only
  split
  · exact ⟨rfl, rfl⟩
  · split <;> split <;> (try split) <;> exact ⟨rfl, rfl⟩

/-- An observation that passes the gates of `CodecAudioSetClock` moves the
baseline PTS to its own PTS. -/
theorem CodecAudioSetClock_LastPTS (CodecPassthrough CodecAudioDrift : Nat)
    (audio_decoder : AudioDecoder) (pts delay : Int) (nowtime : Timespec)
    (hseed : audio_decoder.LastDelay ≠ 0) (hdelay : delay ≠ 0)
    (hgate : ¬ pts - audio_decoder.LastPTS < 10 * 1000 * 90) :
    (CodecAudioSetClock CodecPassthrough CodecAudioDrift audio_decoder pts delay
      nowtime).1.LastPTS = pts := by
  unfold CodecAudioSetClock
  simp only
  rw [if_neg hdelay, if_neg hseed, if_neg hgate]
  exact (CodecAudioClockDrift_baseline _ _ _ _).1

/-- An observation that does not pass the gate on the PTS progress changes
nothing. -/
theorem CodecAudioSetClock_gate (CodecPassthrough CodecAudioDrift : Nat)
    (audio_decoder : AudioDecoder) (pts delay : Int) (nowtime : Timespec)
    (hseed : audio_decoder.LastDelay ≠ 0) (hdelay : delay ≠ 0)
    (hgate : pts - audio_decoder.LastPTS < 10 * 1000 * 90) :
    CodecAudioSetClock CodecPassthrough CodecAudioDrift audio_decoder pts delay nowtime
      = (audio_decoder, [ClockCall.AudioSetClock pts]) := by
  unfold CodecAudioSetClock
  simp only
  rw [if_neg hdelay, if_neg hseed, if_pos hgate]

/-- C23 (amended): with a seeded baseline (`LastDelay` not 0) and a non-zero
reported output delay, `CodecAudioSetClock` ignores an observation (baseline
time, PTS and delay, accumulated drift and correction all unchanged) if and
only if fewer than 10 * 1000 * 90 = 900000 ticks (ten seconds) of PTS progress
have accumulated since the baseline PTS; an ignored observation changes no
field at all. -/
theorem CodecAudioSetClock_ignores_below_ten_seconds (CodecPassthrough CodecAudioDrift : Nat)
    (audio_decoder : AudioDecoder) (pts delay : Int) (nowtime : Timespec)
    (hseed : audio_decoder.LastDelay ≠ 0) (hdelay : delay ≠ 0) :
    (((CodecAudioSetClock CodecPassthrough CodecAudioDrift audio_decoder pts delay
          nowtime).1.LastTime = audio_decoder.LastTime
        ∧ (CodecAudioSetClock CodecPassthrough CodecAudioDrift audio_decoder pts delay
          nowtime).1.LastPTS = audio_decoder.LastPTS
        ∧ (CodecAudioSetClock CodecPassthrough CodecAudioDrift audio_decoder pts delay
          nowtime).1.LastDelay = audio_decoder.LastDelay
        ∧ (CodecAudioSetClock CodecPassthrough CodecAudioDrift audio_decoder pts delay
          nowtime).1.Drift = audio_decoder.Drift
        ∧ (CodecAudioSetClock CodecPassthrough CodecAudioDrift audio_decoder pts delay
          nowtime).1.DriftCorr = audio_decoder.DriftCorr)
        ↔ pts - audio_decoder.LastPTS < 900000)
      ∧ (pts - audio_decoder.LastPTS < 900000 →
          (CodecAudioSetClock CodecPassthrough CodecAudioDrift audio_decoder pts delay
            nowtime).1 = audio_decoder) := by
  have key : pts - audio_decoder.LastPTS < 900000 →
      CodecAudioSetClock CodecPassthrough CodecAudioDrift audio_decoder pts delay nowtime
        = (audio_decoder, [ClockCall.AudioSetClock pts]) :=
    fun h => CodecAudioSetClock_gate CodecPassthrough CodecAudioDrift audio_decoder pts delay
      nowtime hseed hdelay h
  refine ⟨⟨fun h => ?_, fun h => ?_⟩, fun h => ?_⟩
  · by_contra hge
    have hp := CodecAudioSetClock_LastPTS CodecPassthrough CodecAudioDrift audio_decoder pts
      delay nowtime hseed hdelay hge
    rw [hp] at h
    have := h.2.1
    omega
  · rw [key h]
    exact ⟨rfl, rfl, rfl, rfl, rfl⟩
  · rw [key h]

/-- The gate at the seeded example decoder: an observation 899999 ticks after
the baseline is ignored. -/
theorem CodecAudioSetClock_ignores_below_ten_seconds_witness :
    exClockSeeded.LastDelay ≠ 0 ∧ 899999 - exClockSeeded.LastPTS < 900000
      ∧ (CodecAudioSetClock 0 CORRECT_AC3 exClockSeeded 899999 9000
          { tv_sec := 110, tv_nsec := 0 }).1 = exClockSeeded :=
  ⟨by decide, by decide,
    (CodecAudioSetClock_ignores_below_ten_seconds 0 CORRECT_AC3 exClockSeeded 899999 9000
      { tv_sec := 110, tv_nsec := 0 } (by decide) (by decide)).2 (by decide)⟩

/-- C23 (counterexample): at the seeded example decoder an observation with
10000 ticks of PTS progress (and one with 899999 ticks) is ignored, although
no fewer than 10000 ticks have accumulated: nothing changes. -/
theorem CodecAudioSetClock_ignores_ten_thousand_ticks :
    exClockSeeded.LastDelay ≠ 0 ∧ 10000 - exClockSeeded.LastPTS = 10000
      ∧ CodecAudioSetClock 0 CORRECT_AC3 exClockSeeded 10000 9000
          { tv_sec := 100, tv_nsec := 111111111 }
        = (exClockSeeded, [ClockCall.AudioSetClock 10000])
      ∧ CodecAudioSetClock 0 CORRECT_AC3 exClockSeeded 899999 9000
          { tv_sec := 110, tv_nsec := 0 }
        = (exClockSeeded, [ClockCall.AudioSetClock 899999]) :=
  ⟨by decide, by decide, rfl, rfl⟩

/-- An `int` that holds its exact value. -/
theorem wrapInt32_of_range (x : Int) (h1 : -2147483648 ≤ x) (h2 : x < 2147483648) :
    wrapInt32 x = x := by
  unfold wrapInt32
  omega

/-- The range of an `int`. -/
theorem wrapInt32_range (x : Int) : -2147483648 ≤ wrapInt32 x ∧ wrapInt32 x < 2147483648 := by
  unfold wrapInt32
  omega

/-- A drift whose exact value fits an `int` and is more than 900 ticks away
from zero is too big for `CodecAudioSetClock`. -/
theorem abs32_wrapInt32_gt (x : Int) (h1 : -2147483648 < x) (h2 : x < 2147483648)
    (h : x < -900 ∨ 900 < x) : abs32 (wrapInt32 x) > 10 * 90 := by
  rw [wrapInt32_of_range x (by omega) h2]
  unfold abs32
  split
  · rw [wrapInt32_of_range _ (by omega) (by omega)]
    omega
  · rw [wrapInt32_of_range _ (by omega) (by omega)]
    omega

/-- The discontinuity branch of `CodecAudioSetClock`: when the `int` drift of
an observation that passes the gates is too big, the baseline is invalidated,
the accumulated drift and the correction stay, and the next observation with
a non-zero delay seeds the baseline anew with accumulated drift 0. -/
theorem CodecAudioSetClock_discontinuity (CodecPassthrough CodecAudioDrift : Nat)
    (audio_decoder : AudioDecoder) (pts delay : Int) (nowtime : Timespec)
    (hseed : audio_decoder.LastDelay ≠ 0) (hdelay : delay ≠ 0)
    (hgate : ¬ pts - audio_decoder.LastPTS < 10 * 1000 * 90)
    (hbig : abs32 (wrapInt32 (CodecAudioClockExactDrift audio_decoder pts delay nowtime))
      > 10 * 90) :
    (CodecAudioSetClock CodecPassthrough CodecAudioDrift audio_decoder pts delay
        nowtime).1.LastDelay = 0
      ∧ (CodecAudioSetClock CodecPassthrough CodecAudioDrift audio_decoder pts delay
        nowtime).1.Drift = audio_decoder.Drift
      ∧ (CodecAudioSetClock CodecPassthrough CodecAudioDrift audio_decoder pts delay
        nowtime).1.DriftCorr = audio_decoder.DriftCorr
      ∧ ∀ (CodecPassthrough2 CodecAudioDrift2 : Nat) (pts2 delay2 : Int) (nowtime2 : Timespec),
        delay2 ≠ 0 →
          (CodecAudioSetClock CodecPassthrough2 CodecAudioDrift2
              (CodecAudioSetClock CodecPassthrough CodecAudioDrift audio_decoder pts delay
                nowtime).1 pts2 delay2 nowtime2).1
            = { (CodecAudioSetClock CodecPassthrough CodecAudioDrift audio_decoder pts delay
                  nowtime).1 with
                LastTime := nowtime2, LastPTS := pts2, LastDelay := delay2, Drift := 0
                DriftFrac := 0 } := by
  have e : (CodecAudioSetClock CodecPassthrough CodecAudioDrift audio_decoder pts delay
      nowtime).1
      = { audio_decoder with
          LastTime :=
            { nowtime with
              tv_nsec := nowtime.tv_nsec - Int.tmod nowtime.tv_nsec (1000 * 1000 / 90) }
          LastPTS := pts
          LastDelay := 0 } := by
    unfold CodecAudioSetClock
    simp only
    rw [if_neg hdelay, if_neg hseed, if_neg hgate]
    unfold CodecAudioClockDrift
    simp only
    rw [if_pos hbig]
  rw [e]
  refine ⟨rfl, rfl, rfl, ?_⟩
  intro cp2 cd2 pts2 delay2 nowtime2 hdelay2
  unfold CodecAudioSetClock
  simp only
  rw [if_neg hdelay2, if_pos trivial]

/-- C24 fails on the code: at the seeded example decoder, ten seconds after
the baseline, an observation whose PTS has jumped ahead by 2^32 - 300 ticks
more than the ten seconds passes the gates with the exact drift
300 - 2^32, far beyond 900 ticks.  `CodecAudioSetClock` stores it in an `int`,
where it is 300: the baseline is not invalidated (`LastDelay` stays 9000), the
accumulated drift becomes 300 and the correction -1600. -/
theorem CodecAudioSetClock_wrapped_drift_not_reset :
    exClockSeeded.LastDelay ≠ 0
      ∧ 900000 ≤ 4295867296 - 300 - exClockSeeded.LastPTS
      ∧ CodecAudioClockExactDrift exClockSeeded (4295867296 - 300) 9000
          { tv_sec := 110, tv_nsec := 0 } = 300 - 4294967296
      ∧ (CodecAudioSetClock 0 CORRECT_AC3 exClockSeeded (4295867296 - 300) 9000
          { tv_sec := 110, tv_nsec := 0 }).1.LastDelay = 9000
      ∧ (CodecAudioSetClock 0 CORRECT_AC3 exClockSeeded (4295867296 - 300) 9000
          { tv_sec := 110, tv_nsec := 0 }).1.Drift = 300
      ∧ (CodecAudioSetClock 0 CORRECT_AC3 exClockSeeded (4295867296 - 300) 9000
          { tv_sec := 110, tv_nsec := 0 }).1.DriftCorr = -1600 := by
  decide

/-- The discontinuity branch at the seeded example decoder: a PTS that has
jumped ahead by ten seconds more than the ten seconds passed gives the drift
-900000, and the baseline is invalidated. -/
theorem CodecAudioSetClock_discontinuity_example :
    CodecAudioClockExactDrift exClockSeeded 1800000 9000 { tv_sec := 110, tv_nsec := 0 }
        = -900000
      ∧ (CodecAudioSetClock 0 CORRECT_AC3 exClockSeeded 1800000 9000
          { tv_sec := 110, tv_nsec := 0 }).1.LastDelay = 0 :=
  ⟨by decide,
    (CodecAudioSetClock_discontinuity 0 CORRECT_AC3 exClockSeeded 1800000 9000
      { tv_sec := 110, tv_nsec := 0 } (by decide) (by decide) (by decide) (by decide)).1⟩

/-- The limit of the correction. -/
theorem DriftCorr_limit (d4 : AudioDecoder) :
    -20000 ≤ (if d4.DriftCorr < -20000 then { d4 with DriftCorr := -20000 }
        else if d4.DriftCorr > 20000 then { d4 with DriftCorr := 20000 } else d4).DriftCorr
      ∧ (if d4.DriftCorr < -20000 then { d4 with DriftCorr := -20000 }
        else if d4.DriftCorr > 20000 then { d4 with DriftCorr := 20000 } else d4).DriftCorr
        ≤ 20000 := by
  split
  · exact ⟨by show (-20000 : Int) ≤ -20000; decide, by show (-20000 : Int) ≤ 20000; decide⟩
  · split
    · exact ⟨by show (-20000 : Int) ≤ 20000; decide, by show (20000 : Int) ≤ 20000; decide⟩
    · rename_i h1 h2
      exact ⟨by omega, by omega⟩

/-- Judging the drift keeps the correction bounded. -/
theorem CodecAudioClockDrift_bound (CodecPassthrough CodecAudioDrift : Nat) (d1 : AudioDecoder)
    (drift : Int) (h : -20000 ≤ d1.DriftCorr ∧ d1.DriftCorr ≤ 20000) :
    -20000 ≤ (CodecAudioClockDrift CodecPassthrough CodecAudioDrift d1 drift).DriftCorr
      ∧ (CodecAudioClockDrift CodecPassthrough CodecAudioDrift d1 drift).DriftCorr ≤ 20000 := by
  unfold CodecAudioClockDrift
  simp only
  by_cases hbig : abs32 drift > 10 * 90
  · rw [if_pos hbig]
    exact h
  · rw [if_neg hbig]
    exact DriftCorr_limit _

/-- An observation keeps the correction bounded. -/
theorem CodecAudioSetClock_bound (CodecPassthrough CodecAudioDrift : Nat)
    (audio_decoder : AudioDecoder) (pts delay : Int) (nowtime : Timespec)
    (h : -20000 ≤ audio_decoder.DriftCorr ∧ audio_decoder.DriftCorr ≤ 20000) :
    -20000 ≤ (CodecAudioSetClock CodecPassthrough CodecAudioDrift audio_decoder pts delay
        nowtime).1.DriftCorr
      ∧ (CodecAudioSetClock CodecPassthrough CodecAudioDrift audio_decoder pts delay
        nowtime).1.DriftCorr ≤ 20000 := by
  unfold CodecAudioSetClock
  simp only
  split
  · exact h
  · split
    · exact h
    · split
      · exact h
      · exact CodecAudioClockDrift_bound _ _ _ _ h

/-- The format helper leaves the correction alone. -/
theorem CodecAudioUpdateHelper_DriftCorr (CodecPassthrough : Nat) (CodecPassthroughHBR : Bool)
    (AudioSetup : Int → Int → Int → Int × Int × Int) (audio_decoder : AudioDecoder) :
    (CodecAudioUpdateHelper CodecPassthrough CodecPassthroughHBR AudioSetup
      audio_decoder).1.DriftCorr = audio_decoder.DriftCorr := by
  unfold CodecAudioUpdateHelper
  simp only
  split_ifs <;> rfl

/-- Halving keeps the correction bounded. -/
theorem tdiv_two_bound (x : Int) (h : -20000 ≤ x ∧ x ≤ 20000) :
    -20000 ≤ Int.tdiv x 2 ∧ Int.tdiv x 2 ≤ 20000 := by
  by_cases hx : 0 ≤ x
  · rw [Int.tdiv_eq_ediv hx (by decide)]
    omega
  · obtain ⟨y, rfl⟩ : ∃ y, x = -y := ⟨-x, by omega⟩
    rw [Int.neg_tdiv, Int.tdiv_eq_ediv (by omega) (by decide)]
    omega

/-- A format update keeps the correction bounded. -/
theorem CodecAudioUpdateFormat_bound (CodecPassthrough CodecAudioDrift : Nat)
    (CodecPassthroughHBR : Bool) (AudioSetup : Int → Int → Int → Int × Int × Int)
    (resample_init av_resample_init : Bool) (audio_decoder : AudioDecoder)
    (h : -20000 ≤ audio_decoder.DriftCorr ∧ audio_decoder.DriftCorr ≤ 20000) :
    -20000 ≤ (CodecAudioUpdateFormat CodecPassthrough CodecAudioDrift CodecPassthroughHBR
        AudioSetup resample_init av_resample_init audio_decoder).1.DriftCorr
      ∧ (CodecAudioUpdateFormat CodecPassthrough CodecAudioDrift CodecPassthroughHBR
        AudioSetup resample_init av_resample_init audio_decoder).1.DriftCorr ≤ 20000 := by
  have h1 : ∀ d : AudioDecoder, d.DriftCorr = audio_decoder.DriftCorr →
      (CodecAudioUpdateHelper CodecPassthrough CodecPassthroughHBR AudioSetup d).1.DriftCorr
        = audio_decoder.DriftCorr := by
    intro d hd
    rw [CodecAudioUpdateHelper_DriftCorr, hd]
  have h0 : (if (if audio_decoder.ReSample = true then
        { audio_decoder with ReSample := false } else audio_decoder).AvResample = true then
      { (if audio_decoder.ReSample = true then
          { audio_decoder with ReSample := false } else audio_decoder) with
        AvResample := false, RemainCount := 0 }
      else (if audio_decoder.ReSample = true then
        { audio_decoder with ReSample := false } else audio_decoder)).DriftCorr
      = audio_decoder.DriftCorr := by
    split <;> split <;> rfl
  unfold CodecAudioUpdateFormat
  simp only
  have hh := h1 _ h0
  generalize CodecAudioUpdateHelper CodecPassthrough CodecPassthroughHBR AudioSetup _ = r at hh ⊢
  split
  · split
    · split
      · show -20000 ≤ r.1.DriftCorr ∧ r.1.DriftCorr ≤ 20000
        rw [hh]
        exact h
      · show -20000 ≤ r.1.DriftCorr ∧ r.1.DriftCorr ≤ 20000
        rw [hh]
        exact h
    · show -20000 ≤ r.1.DriftCorr ∧ r.1.DriftCorr ≤ 20000
      rw [hh]
      exact h
  · split
    · rw [hh]
      exact h
    · split
      · split
        · show -20000 ≤ Int.tdiv r.1.DriftCorr 2 ∧ Int.tdiv r.1.DriftCorr 2 ≤ 20000
          rw [hh]
          exact tdiv_two_bound _ h
        · show -20000 ≤ r.1.DriftCorr ∧ r.1.DriftCorr ≤ 20000
          rw [hh]
          exact h
      · rw [hh]
        exact h

/-- Every reachable audio decoder has a bounded correction. -/
theorem AudioClockReachable_bound (d : AudioDecoder) (h : AudioClockReachable d) :
    -20000 ≤ d.DriftCorr ∧ d.DriftCorr ≤ 20000 := by
  induction h with
  | init => exact ⟨by decide, by decide⟩
  | clock cp cd d pts delay nowtime _ ih => exact CodecAudioSetClock_bound _ _ _ _ _ _ ih
  | format cp cd hbr setup r1 r2 d _ ih => exact CodecAudioUpdateFormat_bound _ _ _ _ _ _ _ ih
  | env d d2 _ he ih =>
    rw [he]
    exact ih

/-- C25: the drift correction value stays bounded: starting from a newly
allocated audio decoder (`DriftCorr` 0), after any sequence of
`CodecAudioSetClock` observations and `CodecAudioUpdateFormat` calls (and of
writes of other functions to other fields), -20000 <= `DriftCorr` <= 20000,
for every sample rate and every accumulated drift, the `int` arithmetic being
taken modulo 2^32. -/
theorem DriftCorr_bounded (d : AudioDecoder) (h : AudioClockReachable d) :
    -20000 ≤ d.DriftCorr ∧ d.DriftCorr ≤ 20000 :=
  AudioClockReachable_bound d h

/-- The bound after the opening of a codec at 10^9 Hz and two observations,
the second with the largest drift that is not reset: the product overflows,
and the correction -22705 is limited to -20000. -/
theorem DriftCorr_bounded_witness :
    AudioClockReachable
        (CodecAudioSetClock 0 CORRECT_AC3
          (CodecAudioSetClock 0 CORRECT_AC3
            { CodecAudioNewDecoder with codec_id := CodecID.MP2, HwSampleRate := 1000000000 }
            0 9000 { tv_sec := 100, tv_nsec := 0 }).1
          900000 9900 { tv_sec := 110, tv_nsec := 0 }).1
      ∧ (CodecAudioSetClock 0 CORRECT_AC3
          (CodecAudioSetClock 0 CORRECT_AC3
            { CodecAudioNewDecoder with codec_id := CodecID.MP2, HwSampleRate := 1000000000 }
            0 9000 { tv_sec := 100, tv_nsec := 0 }).1
          900000 9900 { tv_sec := 110, tv_nsec := 0 }).1.DriftCorr = -20000
      ∧ -20000 ≤ (CodecAudioSetClock 0 CORRECT_AC3
          (CodecAudioSetClock 0 CORRECT_AC3
            { CodecAudioNewDecoder with codec_id := CodecID.MP2, HwSampleRate := 1000000000 }
            0 9000 { tv_sec := 100, tv_nsec := 0 }).1
          900000 9900 { tv_sec := 110, tv_nsec := 0 }).1.DriftCorr
      ∧ (CodecAudioSetClock 0 CORRECT_AC3
          (CodecAudioSetClock 0 CORRECT_AC3
            { CodecAudioNewDecoder with codec_id := CodecID.MP2, HwSampleRate := 1000000000 }
            0 9000 { tv_sec := 100, tv_nsec := 0 }).1
          900000 9900 { tv_sec := 110, tv_nsec := 0 }).1.DriftCorr ≤ 20000 :=
  have hr := AudioClockReachable.clock 0 CORRECT_AC3 _ 900000 9900 { tv_sec := 110, tv_nsec := 0 }
    (AudioClockReachable.clock 0 CORRECT_AC3 _ 0 9000 { tv_sec := 100, tv_nsec := 0 }
      (AudioClockReachable.env _
        { CodecAudioNewDecoder with codec_id := CodecID.MP2, HwSampleRate := 1000000000 }
        AudioClockReachable.init rfl))
  ⟨hr, by decide, DriftCorr_bounded _ hr⟩

/-- C26 fails on the code: the example packet with a 14-byte PES header fed in
two calls, ten bytes with the start flag and the other eighteen without.  The
header completes in the second call, and its bytes 9 to 13 in the header
scratch are the packed PTS 4886718345 of the packet.  But the frame is handed
over with the PTS 7520420226, decoded from bytes 9 to 13 of the second call's
buffer, which are bytes 19 to 23 of the packet, payload bytes. -/
theorem PesParse_split_header_wrong_pts :
    framesOf (PesParseSplit 10 exPesLatm 10 28 exFreshCtx)
        = some [{ data := [0x56, 0xE0, 0x00], pts := 7520420226, dts := AV_NOPTS_VALUE }]
      ∧ headerPtsBytesOf (PesParseSplit 10 exPesLatm 10 28 exFreshCtx)
        = some (PesTimestampBytes 2 1 1 1 4886718345)
      ∧ PesTimestamp (Ptr.ofList ([0, 0, 0, 0, 0, 0, 0, 0, 0]
          ++ PesTimestampBytes 2 1 1 1 4886718345)) 9 = 4886718345
      ∧ PesTimestamp (exPesLatm.add 10) 9 = 7520420226 := by
  decide

/-- The bytes the compaction leaves at the start of the buffer. -/
theorem PesCompact_bytes (pesdx : PesDemux) (i : Nat) (h : i < pesdx.Index - pesdx.Skip) :
    (PesCompact pesdx).Buffer i = pesdx.Buffer (pesdx.Skip + i) := by
  show memcpy _ _ _ _ i = _
  rw [memcpy_apply_in _ _ _ _ _ (Nat.zero_le _) (by omega)]
  rfl

/-- C29: if `Skip` exceeds half the payload capacity (`Skip` > 262144) on
entry to `PesParse`, in a state with `Skip <= Index`, the statements before
the loop compact: afterwards `Skip` = 0, `Index` = old `Index` - old `Skip`,
and the candidate bytes are preserved in order (new `Buffer[0 .. Index)` equals
old `Buffer[Skip .. Index)`); if `Skip` <= 262144 and the start flag is clear,
these statements change nothing. -/
theorem PesParseEntry_compacts_cruft (pesdx : PesDemux) (is_start : Bool)
    (hinv : pesdx.Skip ≤ pesdx.Index) :
    (pesdx.Skip > 262144 →
        (PesParseEntry pesdx is_start).Skip = 0
          ∧ (PesParseEntry pesdx is_start).Index = pesdx.Index - pesdx.Skip
          ∧ (PesParseEntry pesdx is_start).Index + pesdx.Skip = pesdx.Index
          ∧ (∀ i < (PesParseEntry pesdx is_start).Index,
              (PesParseEntry pesdx is_start).Buffer i = pesdx.Buffer (pesdx.Skip + i))
          ∧ (PesParseEntry pesdx is_start).Buffer.bytes (PesParseEntry pesdx is_start).Index
            = (pesdx.Buffer.add pesdx.Skip).bytes (pesdx.Index - pesdx.Skip))
      ∧ (pesdx.Skip ≤ 262144 → is_start = false → PesParseEntry pesdx is_start = pesdx) := by
  have hmax : PES_MAX_PAYLOAD / 2 = 262144 := rfl
  refine ⟨fun hskip => ?_, fun hskip hstart => ?_⟩
  · have key : (PesParseEntry pesdx is_start).Skip = 0
        ∧ (PesParseEntry pesdx is_start).Index = pesdx.Index - pesdx.Skip
        ∧ (PesParseEntry pesdx is_start).Buffer = (PesCompact pesdx).Buffer := by
      unfold PesParseEntry
      simp only [hmax]
      cases is_start with
      | true =>
        simp only [if_true]
        have hc : (if pesdx.Index ≠ 0 ∧ pesdx.Skip ≠ 0 then PesCompact pesdx else pesdx)
            = PesCompact pesdx := if_pos ⟨by omega, by omega⟩
        rw [hc, if_neg (by show ¬ (0 > 262144); decide)]
        exact ⟨rfl, rfl, rfl⟩
      | false =>
        simp only [Bool.false_eq_true, if_false]
        rw [if_pos hskip]
        exact ⟨rfl, rfl, rfl⟩
    obtain ⟨k1, k2, k3⟩ := key
    have hb : ∀ i < (PesParseEntry pesdx is_start).Index,
        (PesParseEntry pesdx is_start).Buffer i = pesdx.Buffer (pesdx.Skip + i) := by
      intro i hi
      rw [k3]
      exact PesCompact_bytes pesdx i (by omega)
    refine ⟨k1, k2, by omega, hb, ?_⟩
    rw [k2]
    apply Ptr.bytes_congr
    intro i hi
    rw [k3]
    exact PesCompact_bytes pesdx i hi
  · subst hstart
    unfold PesParseEntry
    simp only [Bool.false_eq_true, if_false, hmax]
    rw [if_neg (by omega)]

/-- The compaction of the example demuxer, and no compaction after it. -/
theorem PesParseEntry_compacts_cruft_witness :
    exCruftDemux.Skip ≤ exCruftDemux.Index ∧ exCruftDemux.Skip > 262144
      ∧ (PesParseEntry exCruftDemux false).Skip = 0
      ∧ (PesParseEntry exCruftDemux false).Index = 10
      ∧ (PesParseEntry exCruftDemux false).Buffer.bytes 10
        = (exCruftDemux.Buffer.add 300000).bytes 10
      ∧ PesParseEntry (PesParseEntry exCruftDemux false) false
        = PesParseEntry exCruftDemux false :=
  have h1 := PesParseEntry_compacts_cruft exCruftDemux false (by decide)
  have h2 := PesParseEntry_compacts_cruft (PesParseEntry exCruftDemux false) false (by decide)
  ⟨by decide, by decide, (h1.1 (by decide)).1, (h1.1 (by decide)).2.1,
    (h1.1 (by decide)).2.2.2.2, h2.2 (by decide) rfl⟩

/-- State `PES_SYNC`, the pass that completes the six start-code bytes, with a
bad prefix: the call returns in state `PES_SKIP`; only the header scratch and
its index have changed besides. -/
theorem PesRun_sync_bad (data : Ptr) (fuel : Nat) (s : PesLoop)
    (hst : s.ctx.pesdx.State = PesState.PES_SYNC)
    (hfull : s.ctx.pesdx.HeaderIndex
      + clampSize (PES_START_CODE_SIZE - s.ctx.pesdx.HeaderIndex) s.size ≥ PES_START_CODE_SIZE)
    (hbad : (memcpy s.ctx.pesdx.Header s.ctx.pesdx.HeaderIndex (data.add s.p)
          (clampSize (PES_START_CODE_SIZE - s.ctx.pesdx.HeaderIndex) s.size) 0).val ≠ 0
      ∨ (memcpy s.ctx.pesdx.Header s.ctx.pesdx.HeaderIndex (data.add s.p)
          (clampSize (PES_START_CODE_SIZE - s.ctx.pesdx.HeaderIndex) s.size) 1).val ≠ 0
      ∨ (memcpy s.ctx.pesdx.Header s.ctx.pesdx.HeaderIndex (data.add s.p)
          (clampSize (PES_START_CODE_SIZE - s.ctx.pesdx.HeaderIndex) s.size) 2).val ≠ 0x01) :
    PesRun data (fuel + 1) s = Run.returned
      { s.ctx with pesdx :=
          { s.ctx.pesdx with
            Header := memcpy s.ctx.pesdx.Header s.ctx.pesdx.HeaderIndex (data.add s.p)
              (clampSize (PES_START_CODE_SIZE - s.ctx.pesdx.HeaderIndex) s.size)
            HeaderIndex := s.ctx.pesdx.HeaderIndex
              + clampSize (PES_START_CODE_SIZE - s.ctx.pesdx.HeaderIndex) s.size
            State := PesState.PES_SKIP } } := by
  have hi : PesIter data s = some (PesIterResult.ret
      { ctx := { s.ctx with pesdx :=
          { s.ctx.pesdx with
            Header := memcpy s.ctx.pesdx.Header s.ctx.pesdx.HeaderIndex (data.add s.p)
              (clampSize (PES_START_CODE_SIZE - s.ctx.pesdx.HeaderIndex) s.size)
            HeaderIndex := s.ctx.pesdx.HeaderIndex
              + clampSize (PES_START_CODE_SIZE - s.ctx.pesdx.HeaderIndex) s.size
            State := PesState.PES_SKIP } }
        p := s.p + clampSize (PES_START_CODE_SIZE - s.ctx.pesdx.HeaderIndex) s.size
        size := s.size - clampSize (PES_START_CODE_SIZE - s.ctx.pesdx.HeaderIndex) s.size }) := by
    unfold PesIter
    simp only [hst]
    rw [if_pos hfull, if_pos hbad]
  rw [PesRun, hi]

/-- State `PES_HEADER`, the pass that completes the nine fixed header bytes,
with byte 6 not of the MPEG-2 layout: the call returns in state `PES_SKIP`;
only the header scratch and its index have changed besides. -/
theorem PesRun_header_bad (data : Ptr) (fuel : Nat) (s : PesLoop)
    (hst : s.ctx.pesdx.State = PesState.PES_HEADER)
    (hfull : s.ctx.pesdx.HeaderIndex
      + clampSize (s.ctx.pesdx.HeaderSize - s.ctx.pesdx.HeaderIndex) s.size = PES_HEADER_SIZE)
    (hbad : (memcpy s.ctx.pesdx.Header s.ctx.pesdx.HeaderIndex (data.add s.p)
          (clampSize (s.ctx.pesdx.HeaderSize - s.ctx.pesdx.HeaderIndex) s.size) 6).val
        &&& 0xC0 ≠ 0x80) :
    PesRun data (fuel + 1) s = Run.returned
      { s.ctx with pesdx :=
          { s.ctx.pesdx with
            Header := memcpy s.ctx.pesdx.Header s.ctx.pesdx.HeaderIndex (data.add s.p)
              (clampSize (s.ctx.pesdx.HeaderSize - s.ctx.pesdx.HeaderIndex) s.size)
            HeaderIndex := s.ctx.pesdx.HeaderIndex
              + clampSize (s.ctx.pesdx.HeaderSize - s.ctx.pesdx.HeaderIndex) s.size
            State := PesState.PES_SKIP } } := by
  have hi : PesIter data s = some (PesIterResult.ret
      { ctx := { s.ctx with pesdx :=
          { s.ctx.pesdx with
            Header := memcpy s.ctx.pesdx.Header s.ctx.pesdx.HeaderIndex (data.add s.p)
              (clampSize (s.ctx.pesdx.HeaderSize - s.ctx.pesdx.HeaderIndex) s.size)
            HeaderIndex := s.ctx.pesdx.HeaderIndex
              + clampSize (s.ctx.pesdx.HeaderSize - s.ctx.pesdx.HeaderIndex) s.size
            State := PesState.PES_SKIP } }
        p := s.p + clampSize (s.ctx.pesdx.HeaderSize - s.ctx.pesdx.HeaderIndex) s.size
        size := s.size - clampSize (s.ctx.pesdx.HeaderSize - s.ctx.pesdx.HeaderIndex) s.size }) := by
    unfold PesIter
    simp only [hst]
    rw [if_pos hfull, if_neg hbad]
  rw [PesRun, hi]

/-- A call without the start flag in state `PES_SKIP` returns at once: after
the statements before the loop nothing is done. -/
theorem PesParse_skip (fuel : Nat) (ctx : PesCtx) (data : Ptr) (size : Nat)
    (hst : ctx.pesdx.State = PesState.PES_SKIP) :
    PesParse (fuel + 1) ctx data size false
      = Run.returned { ctx with pesdx := PesParseEntry ctx.pesdx false } := by
  have hst2 : (PesParseEntry ctx.pesdx false).State = PesState.PES_SKIP := by
    unfold PesParseEntry
    simp only [Bool.false_eq_true, if_false]
    split
    · exact hst
    · exact hst
  unfold PesParse
  rw [PesRun]
  unfold PesIter
  simp only [hst2]

/-- What the statements before the loop keep when the start flag is clear:
the state, the pending timestamps and the candidate bytes. -/
theorem PesParseEntry_no_start (pesdx : PesDemux) (hinv : pesdx.Skip ≤ pesdx.Index) :
    (PesParseEntry pesdx false).State = pesdx.State
      ∧ (PesParseEntry pesdx false).PTS = pesdx.PTS
      ∧ (PesParseEntry pesdx false).DTS = pesdx.DTS
      ∧ (PesParseEntry pesdx false).Skip ≤ (PesParseEntry pesdx false).Index
      ∧ ((PesParseEntry pesdx false).Buffer.add (PesParseEntry pesdx false).Skip).bytes
          ((PesParseEntry pesdx false).Index - (PesParseEntry pesdx false).Skip)
        = (pesdx.Buffer.add pesdx.Skip).bytes (pesdx.Index - pesdx.Skip) := by
  unfold PesParseEntry
  simp only [Bool.false_eq_true, if_false]
  split
  · refine ⟨rfl, rfl, rfl, Nat.zero_le _, ?_⟩
    show ((PesCompact pesdx).Buffer.add 0).bytes (pesdx.Index - pesdx.Skip - 0) = _
    apply Ptr.bytes_congr
    intro i hi
    show (PesCompact pesdx).Buffer (0 + i) = _
    rw [Nat.zero_add, PesCompact_bytes pesdx i (by omega)]
    rfl
  · exact ⟨rfl, rfl, rfl, hinv, rfl⟩

/-- C27: in `PesParse`, the pass that completes the six start-code bytes in
state `PES_SYNC` with bytes 0..2 of the header not 00 00 01, and the pass that
completes the nine fixed header bytes in state `PES_HEADER` with the top two
bits of header byte 6 not 10, end the call in state `PES_SKIP` with no frame
handed over (pending PTS and DTS, buffer, `Skip` and `Index` as they were);
and every call without the start flag in state `PES_SKIP` returns with no
frame handed over, the state still `PES_SKIP`, the pending PTS and DTS and the
candidate bytes `Buffer[Skip .. Index)` unchanged, so that the same holds for
the next call. -/
theorem PesParse_skips_bad_packet :
    (∀ (data : Ptr) (fuel : Nat) (s : PesLoop),
        s.ctx.pesdx.State = PesState.PES_SYNC →
        s.ctx.pesdx.HeaderIndex
          + clampSize (PES_START_CODE_SIZE - s.ctx.pesdx.HeaderIndex) s.size
            ≥ PES_START_CODE_SIZE →
        ((memcpy s.ctx.pesdx.Header s.ctx.pesdx.HeaderIndex (data.add s.p)
              (clampSize (PES_START_CODE_SIZE - s.ctx.pesdx.HeaderIndex) s.size) 0).val ≠ 0
          ∨ (memcpy s.ctx.pesdx.Header s.ctx.pesdx.HeaderIndex (data.add s.p)
              (clampSize (PES_START_CODE_SIZE - s.ctx.pesdx.HeaderIndex) s.size) 1).val ≠ 0
          ∨ (memcpy s.ctx.pesdx.Header s.ctx.pesdx.HeaderIndex (data.add s.p)
              (clampSize (PES_START_CODE_SIZE - s.ctx.pesdx.HeaderIndex) s.size) 2).val
            ≠ 0x01) →
        ∃ ctx2, PesRun data (fuel + 1) s = Run.returned ctx2
          ∧ ctx2.pesdx.State = PesState.PES_SKIP ∧ ctx2.calls = s.ctx.calls
          ∧ ctx2.pesdx.PTS = s.ctx.pesdx.PTS ∧ ctx2.pesdx.DTS = s.ctx.pesdx.DTS
          ∧ ctx2.pesdx.Buffer = s.ctx.pesdx.Buffer ∧ ctx2.pesdx.Skip = s.ctx.pesdx.Skip
          ∧ ctx2.pesdx.Index = s.ctx.pesdx.Index)
    ∧ (∀ (data : Ptr) (fuel : Nat) (s : PesLoop),
        s.ctx.pesdx.State = PesState.PES_HEADER →
        s.ctx.pesdx.HeaderIndex
          + clampSize (s.ctx.pesdx.HeaderSize - s.ctx.pesdx.HeaderIndex) s.size
            = PES_HEADER_SIZE →
        (memcpy s.ctx.pesdx.Header s.ctx.pesdx.HeaderIndex (data.add s.p)
            (clampSize (s.ctx.pesdx.HeaderSize - s.ctx.pesdx.HeaderIndex) s.size) 6).val
          &&& 0xC0 ≠ 0x80 →
        ∃ ctx2, PesRun data (fuel + 1) s = Run.returned ctx2
          ∧ ctx2.pesdx.State = PesState.PES_SKIP ∧ ctx2.calls = s.ctx.calls
          ∧ ctx2.pesdx.PTS = s.ctx.pesdx.PTS ∧ ctx2.pesdx.DTS = s.ctx.pesdx.DTS
          ∧ ctx2.pesdx.Buffer = s.ctx.pesdx.Buffer ∧ ctx2.pesdx.Skip = s.ctx.pesdx.Skip
          ∧ ctx2.pesdx.Index = s.ctx.pesdx.Index)
    ∧ (∀ (fuel : Nat) (ctx : PesCtx) (data : Ptr) (size : Nat),
        ctx.pesdx.State = PesState.PES_SKIP → ctx.pesdx.Skip ≤ ctx.pesdx.Index →
        ∃ ctx2, PesParse (fuel + 1) ctx data size false = Run.returned ctx2
          ∧ ctx2.pesdx.State = PesState.PES_SKIP ∧ ctx2.calls = ctx.calls
          ∧ ctx2.pesdx.PTS = ctx.pesdx.PTS ∧ ctx2.pesdx.DTS = ctx.pesdx.DTS
          ∧ ctx2.pesdx.Skip ≤ ctx2.pesdx.Index
          ∧ (ctx2.pesdx.Buffer.add ctx2.pesdx.Skip).bytes (ctx2.pesdx.Index - ctx2.pesdx.Skip)
            = (ctx.pesdx.Buffer.add ctx.pesdx.Skip).bytes (ctx.pesdx.Index - ctx.pesdx.Skip)) := by
  refine ⟨fun data fuel s hst hfull hbad => ?_, fun data fuel s hst hfull hbad => ?_,
    fun fuel ctx data size hst hinv => ?_⟩
  · exact ⟨_, PesRun_sync_bad data fuel s hst hfull hbad, rfl, rfl, rfl, rfl, rfl, rfl, rfl⟩
  · exact ⟨_, PesRun_header_bad data fuel s hst hfull hbad, rfl, rfl, rfl, rfl, rfl, rfl, rfl⟩
  · obtain ⟨h1, h2, h3, h4, h5⟩ := PesParseEntry_no_start ctx.pesdx hinv
    exact ⟨_, PesParse_skip fuel ctx data size hst, by rw [← hst]; exact h1, rfl, h2, h3, h4, h5⟩

/-- The bad start code of the example, and the call after it. -/
theorem PesParse_skips_bad_packet_witness :
    ∃ ctx2, PesParse 1 exFreshCtx exBadStart 10 true = Run.returned ctx2
      ∧ ctx2.pesdx.State = PesState.PES_SKIP ∧ ctx2.calls = []
      ∧ ∃ ctx3, PesParse 1 ctx2 exLatmStream 9 false = Run.returned ctx3
        ∧ ctx3.pesdx.State = PesState.PES_SKIP ∧ ctx3.calls = [] :=
  have h1 := PesParse_skips_bad_packet.1 exBadStart 0
    { ctx := { exFreshCtx with pesdx := PesParseEntry exFreshCtx.pesdx true }, p := 0
      size := 10 } (by decide) (by decide) (by decide)
  have h3 := PesParse_skips_bad_packet.2.2 0 h1.choose exLatmStream 9 h1.choose_spec.2.1
    (by rw [h1.choose_spec.2.2.2.2.2.2.2, h1.choose_spec.2.2.2.2.2.2.1]; decide)
  ⟨h1.choose, h1.choose_spec.1, h1.choose_spec.2.1, h1.choose_spec.2.2.1,
    h3.choose, h3.choose_spec.1, h3.choose_spec.2.1,
    by rw [h3.choose_spec.2.2.1, h1.choose_spec.2.2.1]; rfl⟩

/-- The two kinds of bad packet, run: the bad start code and the MPEG-1 layout
both end in `PES_SKIP`; nothing of the 3-byte frames in the packet or in the
next calls reaches the decoder. -/
theorem PesParse_skip_examples :
    stateOf (PesParse 4 exFreshCtx exBadStart 10 true) = some PesState.PES_SKIP
      ∧ framesOf (PesParse 4 exFreshCtx exBadStart 10 true) = some []
      ∧ stateOf (PesParse 4 exFreshCtx exMpeg1Pes 17 true) = some PesState.PES_SKIP
      ∧ framesOf (PesParse 4 exFreshCtx exMpeg1Pes 17 true) = some []
      ∧ (match PesParse 4 exFreshCtx exMpeg1Pes 17 true with
        | Run.returned ctx2 =>
          (stateOf (PesParse 4 ctx2 exLatmStream 9 false),
            framesOf (PesParse 4 ctx2 exLatmStream 9 false))
        | _ => (none, none)) = (some PesState.PES_SKIP, some []) := by
  decide

/-- The scan at a position where the detectors confirm a frame of length
`r > 0`: the frame is handed over and the scan ends. -/
theorem PesScan_confirmed (n : Nat) (ctx : PesCtx) (r : Int) (codec_id : CodecID)
    (hn : 5 ≤ n)
    (hdet : PesDetect (ctx.pesdx.Buffer.add ctx.pesdx.Skip) (n : Int) = some (r, codec_id))
    (hr : 0 < r) : PesScan n ctx = some (PesEmit ctx r.toNat codec_id) := by
  obtain ⟨m, rfl⟩ : ∃ m, n = m + 1 := ⟨n - 1, by omega⟩
  unfold PesScan
  rw [if_pos hn, hdet]
  simp only
  rw [if_neg (by omega), if_pos hr]

/-- C28: in the payload scan of `PesParse`, whenever the detectors confirm a
frame of length r > 0 at offset `Skip` (with n >= 5 bytes to scan): the scan
hands exactly one frame to the decoder, the r bytes `Buffer[Skip .. Skip+r)`
with the pending PTS and DTS; afterwards the pending PTS and DTS are both
`AV_NOPTS_VALUE`, `Skip` has increased by exactly r, and the buffer and
`Index` are as before.  So a frame confirmed by a later scan of the same
packet carries no timestamp. -/
theorem PesScan_emits_with_pending_timestamps (n : Nat) (ctx : PesCtx) (r : Int)
    (codec_id : CodecID) (hn : 5 ≤ n)
    (hdet : PesDetect (ctx.pesdx.Buffer.add ctx.pesdx.Skip) (n : Int) = some (r, codec_id))
    (hr : 0 < r) :
    ∃ ctx2, PesScan n ctx = some ctx2
      ∧ decodedFrames ctx2.calls = decodedFrames ctx.calls ++
          [{ data := (ctx.pesdx.Buffer.add ctx.pesdx.Skip).bytes r.toNat
             pts := ctx.pesdx.PTS, dts := ctx.pesdx.DTS }]
      ∧ ((ctx.pesdx.Buffer.add ctx.pesdx.Skip).bytes r.toNat).length = r.toNat
      ∧ ctx2.pesdx.PTS = AV_NOPTS_VALUE ∧ ctx2.pesdx.DTS = AV_NOPTS_VALUE
      ∧ (ctx2.pesdx.Skip : Int) = ctx.pesdx.Skip + r
      ∧ ctx2.pesdx.Buffer = ctx.pesdx.Buffer ∧ ctx2.pesdx.Index = ctx.pesdx.Index
      ∧ ∀ (n2 : Nat) (r2 : Int) (codec_id2 : CodecID), 5 ≤ n2 →
          PesDetect (ctx2.pesdx.Buffer.add ctx2.pesdx.Skip) (n2 : Int) = some (r2, codec_id2) →
          0 < r2 →
          ∃ ctx3, PesScan n2 ctx2 = some ctx3
            ∧ decodedFrames ctx3.calls = decodedFrames ctx2.calls ++
                [{ data := (ctx2.pesdx.Buffer.add ctx2.pesdx.Skip).bytes r2.toNat
                   pts := AV_NOPTS_VALUE, dts := AV_NOPTS_VALUE }] := by
  refine ⟨_, PesScan_confirmed n ctx r codec_id hn hdet hr, decodedFrames_PesEmit _ _ _,
    by simp [Ptr.bytes], rfl, rfl, ?_, rfl, rfl, ?_⟩
  · show ((ctx.pesdx.Skip + r.toNat : Nat) : Int) = ctx.pesdx.Skip + r
    omega
  · intro n2 r2 codec_id2 hn2 hdet2 hr2
    exact ⟨_, PesScan_confirmed n2 _ r2 codec_id2 hn2 hdet2 hr2, decodedFrames_PesEmit _ _ _⟩

/-- The first scan of the example buffer hands over the first frame with the
pending timestamps. -/
theorem PesScan_emits_with_pending_timestamps_witness :
    PesDetect (exScanCtx.pesdx.Buffer.add exScanCtx.pesdx.Skip) ((8 : Nat) : Int)
        = some (3, CodecID.AAC_LATM)
      ∧ ∃ ctx2, PesScan 8 exScanCtx = some ctx2
        ∧ decodedFrames ctx2.calls = decodedFrames exScanCtx.calls ++
            [{ data := (exScanCtx.pesdx.Buffer.add exScanCtx.pesdx.Skip).bytes (3 : Int).toNat
               pts := 900, dts := 450 }]
        ∧ ctx2.pesdx.PTS = AV_NOPTS_VALUE ∧ ctx2.pesdx.DTS = AV_NOPTS_VALUE
        ∧ (ctx2.pesdx.Skip : Int) = exScanCtx.pesdx.Skip + 3 :=
  have hdet : PesDetect (exScanCtx.pesdx.Buffer.add exScanCtx.pesdx.Skip) ((8 : Nat) : Int)
      = some (3, CodecID.AAC_LATM) := by decide
  have hp := PesScan_emits_with_pending_timestamps 8 exScanCtx 3 CodecID.AAC_LATM (by decide)
    hdet (by decide)
  ⟨hdet, hp.choose, hp.choose_spec.1, hp.choose_spec.2.1, hp.choose_spec.2.2.2.1,
    hp.choose_spec.2.2.2.2.1, hp.choose_spec.2.2.2.2.2.1⟩

/-- The two scans of the example buffer: the first frame carries the pending
timestamps, the second none. -/
theorem exScanCtx_frames :
    (PesScan 8 exScanCtx).map (fun c => decodedFrames c.calls)
        = some [{ data := [0x56, 0xE0, 0x00], pts := 900, dts := 450 }]
      ∧ ((PesScan 8 exScanCtx).bind (PesScan 5)).map (fun c => decodedFrames c.calls)
        = some [{ data := [0x56, 0xE0, 0x00], pts := 900, dts := 450 },
                { data := [0x56, 0xE0, 0x00], pts := AV_NOPTS_VALUE, dts := AV_NOPTS_VALUE }] := by
  decide

set_option maxRecDepth 100000 in
/-- A byte with the ADTS sync and layer bits has the MPEG layer bits 00. -/
theorem adts_layer_zero : ∀ b : Byte, b.val &&& 0xF6 = 0xF0 → b.val &&& 0x06 = 0 := by
  decide

/-- The fast checks for MPEG audio and for ADTS never both accept. -/
theorem FastMpegCheck_not_FastAdtsCheck (p : Ptr) (h1 : FastMpegCheck p = true)
    (h2 : FastAdtsCheck p = true) : False := by
  have hm := ((FastMpegCheck_iff p).1 h1).2.2.2.1
  unfold FastAdtsCheck at h2
  by_cases ha : (p 1).val &&& 0xF6 = 0xF0
  · exact hm (adts_layer_zero _ ha)
  · simp [ha] at h2

/-- The first bytes the fast checks accept: 0xFF for MPEG audio and ADTS, 0x0B
for AC-3, 0x56 for AAC LATM. -/
theorem fast_check_first_byte (p : Ptr) :
    (FastMpegCheck p = true → (p 0).val = 0xFF) ∧ (FastAc3Check p = true → (p 0).val = 0x0B)
      ∧ (FastLatmCheck p = true → (p 0).val = 0x56)
      ∧ (FastAdtsCheck p = true → (p 0).val = 0xFF) := by
  refine ⟨fun h => ?_, fun h => ?_, fun h => ?_, fun h => ?_⟩
  · by_contra hc
    simp [FastMpegCheck, hc] at h
  · by_contra hc
    simp [FastAc3Check, hc] at h
  · by_contra hc
    simp [FastLatmCheck, hc] at h
  · by_contra hc
    simp [FastAdtsCheck, hc] at h

/-- The six pairs of fast checks, each exclusive. -/
theorem fast_checks_exclusive (p : Ptr) :
    ¬ (FastMpegCheck p = true ∧ FastAc3Check p = true)
      ∧ ¬ (FastMpegCheck p = true ∧ FastLatmCheck p = true)
      ∧ ¬ (FastMpegCheck p = true ∧ FastAdtsCheck p = true)
      ∧ ¬ (FastAc3Check p = true ∧ FastLatmCheck p = true)
      ∧ ¬ (FastAc3Check p = true ∧ FastAdtsCheck p = true)
      ∧ ¬ (FastLatmCheck p = true ∧ FastAdtsCheck p = true) := by
  obtain ⟨hm, ha, hl, hd⟩ := fast_check_first_byte p
  refine ⟨fun h => ?_, fun h => ?_, fun h => FastMpegCheck_not_FastAdtsCheck p h.1 h.2,
    fun h => ?_, fun h => ?_, fun h => ?_⟩
  · have := hm h.1
    have := ha h.2
    omega
  · have := hm h.1
    have := hl h.2
    omega
  · have := ha h.1
    have := hl h.2
    omega
  · have := ha h.1
    have := hd h.2
    omega
  · have := hl h.1
    have := hd h.2
    omega

/-- C30: the four fast checks are pairwise mutually exclusive: for every
window at most one of `FastMpegCheck`, `FastAc3Check`, `FastLatmCheck` and
`FastAdtsCheck` accepts (in particular never both MPEG audio and ADTS).  So
the order of the detectors does not matter: where `PlayAudio` tries all four
(a stream id 0x80..0x8F), its order Mpeg, Latm, Ac3, Adts gives the result and
the codec id of the order Mpeg, Ac3, Latm, Adts of `PesParse`. -/
theorem fast_checks_pairwise_exclusive (p : Ptr) :
    (¬ (FastMpegCheck p = true ∧ FastAc3Check p = true)
      ∧ ¬ (FastMpegCheck p = true ∧ FastLatmCheck p = true)
      ∧ ¬ (FastMpegCheck p = true ∧ FastAdtsCheck p = true)
      ∧ ¬ (FastAc3Check p = true ∧ FastLatmCheck p = true)
      ∧ ¬ (FastAc3Check p = true ∧ FastAdtsCheck p = true)
      ∧ ¬ (FastLatmCheck p = true ∧ FastAdtsCheck p = true))
    ∧ ∀ (id : Nat) (n : Int), id &&& 0xF0 = 0x80 → PlayAudioDetect id p n = PesDetect p n := by
  have hx := fast_checks_exclusive p
  refine ⟨hx, ?_⟩
  obtain ⟨h1, h2, h3, h4, h5, h6⟩ := hx
  intro id n hid
  have hbd : id ≠ 0xbd := by
    intro h
    rw [h] at hid
    exact absurd hid (by decide)
  unfold PlayAudioDetect PesDetect
  cases hM : FastMpegCheck p <;> cases hA : FastAc3Check p <;> cases hL : FastLatmCheck p <;>
    cases hD : FastAdtsCheck p <;> simp_all

/-- The exclusion at the ADTS example stream. -/
theorem fast_checks_pairwise_exclusive_witness :
    FastAdtsCheck exAdtsStream = true ∧ FastMpegCheck exAdtsStream = false
      ∧ PlayAudioDetect 0x80 exAdtsStream 16 = PesDetect exAdtsStream 16 :=
  ⟨by decide, by decide, (fast_checks_pairwise_exclusive exAdtsStream).2 0x80 16 (by decide)⟩

/-- Every in-range sample-rate index reads a rate of at least 16000 after the
shifts by two flags of which at most one is set. -/
theorem sample_rate_floor : ∀ i < 3, ∀ a < 2, ∀ b < 2, a + b ≤ 1 →
    16000 ≤ (SampleRateTable.getD i 0 >>> a) >>> b := by decide

/-- The two version flags of `MpegCheck` are never both set. -/
theorem mpeg_flags_exclusive (data : Ptr) :
    (MpegFields data).mpeg2 + (MpegFields data).mpeg25 ≤ 1 := by
  unfold MpegFields
  simp only
  split <;> split <;> omega

set_option maxRecDepth 100000 in
/-- Version bits 00 clear both tested bits of byte 1. -/
theorem mpeg25_version_bits : ∀ b : Byte, b.val &&& 0x18 = 0 →
    b.val &&& 0x08 = 0 ∧ b.val &&& 0x10 = 0 := by decide

/-- C31: for MPEG 2.5 version bits (00) the flag `mpeg2` is 0 and `mpeg25` is 1,
so the two shifts of `MpegCheck` divide the `SampleRateTable` entry by two, not
by four: the frame length is computed with half the table rate (22050, 24000 or
16000 Hz), the same divisor as for MPEG-2. -/
theorem MpegCheck_mpeg25_halves_sample_rate (data : Ptr)
    (hver : (data 1).val &&& 0x18 = 0) :
    (MpegFields data).mpeg2 = 0 ∧ (MpegFields data).mpeg25 = 1
    ∧ MpegSampleRate data
        = SampleRateTable.getD (MpegFields data).sample_rate_index 0 / 2 := by
  obtain ⟨h8, h10⟩ := mpeg25_version_bits (data 1) hver
  have h2 : (MpegFields data).mpeg2 = 0 := by
    unfold MpegFields; simp [h8, h10]
  have h25 : (MpegFields data).mpeg25 = 1 := by
    unfold MpegFields; simp [h8, h10]
  refine ⟨h2, h25, ?_⟩
  unfold MpegSampleRate
  rw [h2, h25]
  simp [Nat.shiftRight_eq_div_pow]

/-- Witness for C31: the MPEG 2.5 example header, table rate 44100 Hz: the
divisor is 22050 Hz and the frame found is 52 bytes long (a quarter rate of
11025 Hz would give 104 bytes). -/
theorem MpegCheck_mpeg25_halves_sample_rate_witness :
    FastMpegCheck exMpeg25Stream = true
    ∧ (exMpeg25Stream 1).val &&& 0x18 = 0
    ∧ SampleRateTable.getD (MpegFields exMpeg25Stream).sample_rate_index 0 = 44100
    ∧ MpegSampleRate exMpeg25Stream = 22050
    ∧ MpegCheck exMpeg25Stream 56 = some 52
    ∧ MpegFrameLen 3 0 8000 11025 = 104
    ∧ ((MpegFields exMpeg25Stream).mpeg2 = 0 ∧ (MpegFields exMpeg25Stream).mpeg25 = 1
      ∧ MpegSampleRate exMpeg25Stream
        = SampleRateTable.getD (MpegFields exMpeg25Stream).sample_rate_index 0 / 2) :=
  ⟨by decide, by decide, by decide, by decide, by decide, by decide,
    MpegCheck_mpeg25_halves_sample_rate exMpeg25Stream (by decide)⟩

/-- C37: under `FastMpegCheck` the function `MpegCheck` returns for every size:
the layer is 1, 2 or 3, the sample-rate read is inside the table and non-zero
(no `abort()`), the bit-rate table indices are in range, and the divisor, the
sample rate after the version shifts, is at least 16000. -/
theorem MpegCheck_total_under_fast (data : Ptr) (size : Int)
    (hfast : FastMpegCheck data = true) :
    (∃ r, MpegCheck data size = some r)
    ∧ (1 ≤ (MpegFields data).layer ∧ (MpegFields data).layer ≤ 3)
    ∧ (MpegFields data).sample_rate_index < SampleRateTable.length
    ∧ SampleRateTable.getD (MpegFields data).sample_rate_index 0 ≠ 0
    ∧ ((MpegFields data).mpeg2 ||| (MpegFields data).mpeg25) < BitRateTable.length
    ∧ (MpegFields data).layer
        < (BitRateTable.getD ((MpegFields data).mpeg2 ||| (MpegFields data).mpeg25) []).length
    ∧ (MpegFields data).bit_rate_index
        < ((BitRateTable.getD ((MpegFields data).mpeg2 ||| (MpegFields data).mpeg25) []).getD
            (MpegFields data).layer []).length
    ∧ 16000 ≤ MpegSampleRate data := by
  obtain ⟨-, h1, h2, h3, h4, h5⟩ := (FastMpegCheck_iff data).1 hfast
  obtain ⟨⟨hl1, hl3⟩, hv⟩ := mpeg_byte1_fields (data 1) h1 h2 h3
  obtain ⟨hbi, hsi⟩ := mpeg_byte2_fields (data 2) h4 h5
  obtain ⟨hm2, hm25⟩ := mpeg_flags_le data
  have hsr := sample_rate_lookup (MpegFields data).sample_rate_index hsi
    (MpegFields data).mpeg2 hm2 (MpegFields data).mpeg25 hm25
  have hfl := sample_rate_floor (MpegFields data).sample_rate_index hsi
    (MpegFields data).mpeg2 hm2 (MpegFields data).mpeg25 hm25 (mpeg_flags_exclusive data)
  have hl : (MpegFields data).layer = 4 - (((data 1).val >>> 1) &&& 0x03) := rfl
  have hb : (MpegFields data).bit_rate_index = ((data 2).val >>> 4) &&& 0x0F := rfl
  have hs : (MpegFields data).sample_rate_index = ((data 2).val >>> 2) &&& 0x03 := rfl
  have hvv : ((MpegFields data).mpeg2 ||| (MpegFields data).mpeg25) < 2 := hv
  have hrows : ∀ v < 2, ∀ l < 4, (BitRateTable.getD v []).length = 4
      ∧ ((BitRateTable.getD v []).getD l []).length = 16 := by decide
  obtain ⟨hr1, hr2⟩ := hrows _ hvv (MpegFields data).layer (by omega)
  refine ⟨?_, ⟨by omega, by omega⟩, ?_, hsr.2.1, hvv, by omega, by omega, hfl⟩
  · rw [MpegCheck_of_fast data size hfast]
    split
    · exact ⟨_, rfl⟩
    · split
      · exact ⟨_, rfl⟩
      · split <;> exact ⟨_, rfl⟩
  · show (MpegFields data).sample_rate_index < 4
    omega

/-- Witness for C37: the example MPEG-1 layer II stream. -/
theorem MpegCheck_total_under_fast_witness :
    FastMpegCheck exMpegStream = true ∧ MpegCheck exMpegStream 108 = some 104
    ∧ 16000 ≤ MpegSampleRate exMpegStream :=
  ⟨by decide, by decide,
    (MpegCheck_total_under_fast exMpegStream 108 (by decide)).2.2.2.2.2.2.2⟩

/-- The scan does not touch the parser state and the header bookkeeping. -/
theorem PesScan_header : ∀ (n : Nat) (ctx ctx2 : PesCtx),
    PesScan n ctx = some ctx2 →
    ctx2.pesdx.State = ctx.pesdx.State ∧ ctx2.pesdx.HeaderIndex = ctx.pesdx.HeaderIndex
    ∧ ctx2.pesdx.HeaderSize = ctx.pesdx.HeaderSize ∧ ctx2.pesdx.Header = ctx.pesdx.Header := by
  intro n
  induction n with
  | zero =>
    intro ctx ctx2 h
    rw [PesScan] at h
    simp only [Option.some.injEq] at h
    subst h
    exact ⟨rfl, rfl, rfl, rfl⟩
  | succ n ih =>
    intro ctx ctx2 h
    rw [PesScan] at h
    split at h
    · split at h
      · simp at h
      · split at h
        · simp only [Option.some.injEq] at h
          subst h
          exact ⟨rfl, rfl, rfl, rfl⟩
        · split at h
          · simp only [Option.some.injEq] at h
            subst h
            exact ⟨rfl, rfl, rfl, rfl⟩
          · have := ih _ ctx2 h
            exact this
    · simp only [Option.some.injEq] at h
      subst h
      exact ⟨rfl, rfl, rfl, rfl⟩

/-- The header bookkeeping holds whenever the state is neither `PES_SYNC` nor
`PES_HEADER`. -/
theorem PesHeaderInv_of_state (pesdx : PesDemux) (h1 : pesdx.State ≠ PesState.PES_SYNC)
    (h2 : pesdx.State ≠ PesState.PES_HEADER) : PesHeaderInv pesdx :=
  ⟨fun h => absurd h h1, fun h => absurd h h2⟩

/-- The statements before the loop keep the header bookkeeping. -/
theorem PesParseEntry_header (pesdx : PesDemux) (is_start : Bool) (hinv : PesHeaderInv pesdx) :
    PesHeaderInv (PesParseEntry pesdx is_start) := by
  have hstart : ∀ q : PesDemux, q.State = PesState.PES_SYNC → q.HeaderIndex = 0 →
      PesHeaderInv q := by
    intro q hs hi
    refine ⟨fun _ => ?_, fun h => ?_⟩
    · rw [hi]; decide
    · rw [hs] at h; cases h
  unfold PesParseEntry
  simp only
  cases is_start
  · simp only [Bool.false_eq_true, if_false]
    split
    · exact hinv
    · exact hinv
  · simp only [if_true]
    split_ifs <;> exact hstart _ rfl rfl

/-- One pass through the `switch` with input left keeps the header
bookkeeping. -/
theorem PesIter_header (data : Ptr) (s : PesLoop) (res : PesIterResult)
    (hinv : PesHeaderInv s.ctx.pesdx) (hsize : 0 < s.size) (h : PesIter data s = some res) :
    PesHeaderInv res.state.ctx.pesdx := by
  unfold PesIter at h
  simp only at h
  split at h
  · -- PES_SKIP
    simp only [Option.some.injEq] at h
    subst h
    exact hinv
  · -- PES_START
    rename_i hst
    split at h
    · simp at h
    · rename_i ctx2 hscan
      simp only [Option.some.injEq] at h
      subst h
      obtain ⟨e, -, -, -⟩ := PesScan_header _ _ ctx2 hscan
      refine PesHeaderInv_of_state _ ?_ ?_
      · show ctx2.pesdx.State ≠ _
        rw [e]; show s.ctx.pesdx.State ≠ _; rw [hst]; decide
      · show ctx2.pesdx.State ≠ _
        rw [e]; show s.ctx.pesdx.State ≠ _; rw [hst]; decide
  · -- PES_INIT
    rename_i hst
    split at h
    · simp at h
    · rename_i ctx2 hscan
      simp only [Option.some.injEq] at h
      subst h
      obtain ⟨e, -, -, -⟩ := PesScan_header _ _ ctx2 hscan
      refine PesHeaderInv_of_state _ ?_ ?_
      · show ctx2.pesdx.State ≠ _
        rw [e]; show s.ctx.pesdx.State ≠ _; rw [hst]; decide
      · show ctx2.pesdx.State ≠ _
        rw [e]; show s.ctx.pesdx.State ≠ _; rw [hst]; decide
  · -- PES_SYNC
    rename_i hst
    have hi := hinv.1 hst
    have hc : s.ctx.pesdx.HeaderIndex
        + clampSize (PES_START_CODE_SIZE - s.ctx.pesdx.HeaderIndex) s.size
          ≤ PES_START_CODE_SIZE := by
      unfold clampSize; split <;> omega
    split at h
    · rename_i hge
      split at h
      · simp only [Option.some.injEq] at h
        subst h
        exact PesHeaderInv_of_state _ (by show PesState.PES_SKIP ≠ _; decide)
          (by show PesState.PES_SKIP ≠ _; decide)
      · simp only [Option.some.injEq] at h
        subst h
        have hix : ∀ q : PesDemux, q.State = PesState.PES_HEADER →
            q.HeaderSize = PES_HEADER_SIZE →
            q.HeaderIndex = s.ctx.pesdx.HeaderIndex
              + clampSize (PES_START_CODE_SIZE - s.ctx.pesdx.HeaderIndex) s.size →
            PesHeaderInv q := by
          intro q hqs hqz hq
          have h6 : PES_START_CODE_SIZE = 6 := rfl
          have h9 : PES_HEADER_SIZE = 9 := rfl
          constructor
          · intro hh
            rw [hqs] at hh
            cases hh
          · intro _
            refine ⟨by omega, by omega, fun _ => hqz, fun hh => ?_⟩
            omega
        refine hix _ rfl rfl ?_
        show PesDemux.HeaderIndex (if _ then _ else _) = _
        split <;> rfl
    · rename_i hlt
      simp only [Option.some.injEq] at h
      subst h
      refine ⟨fun _ => ?_, fun hh => ?_⟩
      · exact Nat.lt_of_not_le hlt
      · have : s.ctx.pesdx.State = PesState.PES_HEADER := hh
        rw [hst] at this; cases this
  · -- PES_HEADER
    rename_i hst
    obtain ⟨hle, hmax, hlow, hat⟩ := hinv.2 hst
    have h9 : PES_HEADER_SIZE = 9 := rfl
    have hb8 : ∀ b : Byte, b.val ≤ 255 := fun b => by have := b.isLt; omega
    have hc : s.ctx.pesdx.HeaderIndex
        + clampSize (s.ctx.pesdx.HeaderSize - s.ctx.pesdx.HeaderIndex) s.size
          ≤ s.ctx.pesdx.HeaderSize := by
      unfold clampSize; split <;> omega
    split at h
    · rename_i heq
      have heq9 : s.ctx.pesdx.HeaderIndex
          + clampSize (s.ctx.pesdx.HeaderSize - s.ctx.pesdx.HeaderIndex) s.size
            = PES_HEADER_SIZE := heq
      split at h
      · simp only [Option.some.injEq] at h
        subst h
        refine ⟨fun hh => ?_, fun _ => ⟨?_, ?_, fun hh => ?_, fun _ => ?_⟩⟩
        · have : s.ctx.pesdx.State = PesState.PES_SYNC := hh
          rw [hst] at this; cases this
        · show s.ctx.pesdx.HeaderIndex + clampSize _ s.size ≤ s.ctx.pesdx.HeaderSize + _
          omega
        · show s.ctx.pesdx.HeaderSize
            + (memcpy s.ctx.pesdx.Header s.ctx.pesdx.HeaderIndex (data.add s.p)
                (clampSize (s.ctx.pesdx.HeaderSize - s.ctx.pesdx.HeaderIndex) s.size) 8).val
            ≤ 264
          have hb := hb8 (memcpy s.ctx.pesdx.Header s.ctx.pesdx.HeaderIndex (data.add s.p)
                (clampSize (s.ctx.pesdx.HeaderSize - s.ctx.pesdx.HeaderIndex) s.size) 8)
          by_cases hlt : s.ctx.pesdx.HeaderIndex < PES_HEADER_SIZE
          · have := hlow hlt
            omega
          · have hix : s.ctx.pesdx.HeaderIndex = PES_HEADER_SIZE := by omega
            have hn : clampSize (s.ctx.pesdx.HeaderSize - s.ctx.pesdx.HeaderIndex) s.size = 0 := by
              omega
            have hsz := hat (Nat.le_of_eq hix.symm)
            have hz : s.ctx.pesdx.HeaderSize - s.ctx.pesdx.HeaderIndex = 0 := by
              unfold clampSize at hn
              split at hn <;> omega
            have h80 : (s.ctx.pesdx.Header 8).val = 0 := by omega
            rw [hn, memcpy_zero, h80]
            omega
        · have : s.ctx.pesdx.HeaderIndex + clampSize _ s.size < PES_HEADER_SIZE := hh
          omega
        · have key : s.ctx.pesdx.HeaderSize = PES_HEADER_SIZE := by
            by_cases hlt : s.ctx.pesdx.HeaderIndex < PES_HEADER_SIZE
            · exact hlow hlt
            · have hix : s.ctx.pesdx.HeaderIndex = PES_HEADER_SIZE := by omega
              have hsz := hat (Nat.le_of_eq hix.symm)
              have hn : clampSize (s.ctx.pesdx.HeaderSize - s.ctx.pesdx.HeaderIndex) s.size
                  = 0 := by omega
              have hz : s.ctx.pesdx.HeaderSize - s.ctx.pesdx.HeaderIndex = 0 := by
                unfold clampSize at hn
                split at hn <;> omega
              omega
          show s.ctx.pesdx.HeaderSize + _ = PES_HEADER_SIZE + _
          rw [key]
          rfl
      · simp only [Option.some.injEq] at h
        subst h
        exact PesHeaderInv_of_state _ (by show PesState.PES_SKIP ≠ _; decide)
          (by show PesState.PES_SKIP ≠ _; decide)
    · rename_i hne
      split at h
      · simp only [Option.some.injEq] at h
        subst h
        refine PesHeaderInv_of_state _ ?_ ?_
        · show PesDemux.State (if _ then _ else _) ≠ _
          split_ifs <;> simp
        · show PesDemux.State (if _ then _ else _) ≠ _
          split_ifs <;> simp
      · rename_i hne2
        simp only [Option.some.injEq] at h
        subst h
        have hne9 : ¬ s.ctx.pesdx.HeaderIndex
          + clampSize (s.ctx.pesdx.HeaderSize - s.ctx.pesdx.HeaderIndex) s.size
            = PES_HEADER_SIZE := hne
        have hne10 : ¬ s.ctx.pesdx.HeaderIndex
          + clampSize (s.ctx.pesdx.HeaderSize - s.ctx.pesdx.HeaderIndex) s.size
            = s.ctx.pesdx.HeaderSize := hne2
        refine ⟨fun hh => ?_, fun _ => ⟨hc, hmax, fun hh => ?_, fun hh => ?_⟩⟩
        · have : s.ctx.pesdx.State = PesState.PES_SYNC := hh
          rw [hst] at this; cases this
        · have h1 : s.ctx.pesdx.HeaderIndex + clampSize _ s.size < PES_HEADER_SIZE := hh
          exact hlow (by omega)
        · have h1 : PES_HEADER_SIZE ≤ s.ctx.pesdx.HeaderIndex
            + clampSize (s.ctx.pesdx.HeaderSize - s.ctx.pesdx.HeaderIndex) s.size := hh
          have hge : PES_HEADER_SIZE ≤ s.ctx.pesdx.HeaderIndex := by
            by_cases hlt : s.ctx.pesdx.HeaderIndex < PES_HEADER_SIZE
            · have := hlow hlt
              omega
            · omega
          show s.ctx.pesdx.HeaderSize = PES_HEADER_SIZE + (memcpy _ _ _ _ 8).val
          rw [memcpy_apply_lt _ _ _ _ _ (by omega)]
          exact hat hge
  · -- the other states
    simp only [Option.some.injEq] at h
    subst h
    exact hinv

/-- The loop of `PesParse`, started with input, keeps the header bookkeeping
up to its return. -/
theorem PesRun_header (data : Ptr) : ∀ (fuel : Nat) (s : PesLoop) (ctx2 : PesCtx),
    PesHeaderInv s.ctx.pesdx → 0 < s.size → PesRun data fuel s = Run.returned ctx2 →
    PesHeaderInv ctx2.pesdx := by
  intro fuel
  induction fuel with
  | zero =>
    intro s ctx2 _ _ h
    rw [PesRun] at h
    cases h
  | succ n ih =>
    intro s ctx2 hinv hsize h
    rw [PesRun] at h
    split at h
    · cases h
    · rename_i s1 hit
      cases h
      exact PesIter_header data s _ hinv hsize hit
    · rename_i s1 hit
      have h1 : PesHeaderInv s1.ctx.pesdx := PesIter_header data s _ hinv hsize hit
      split at h
      · rename_i hpos
        exact ih s1 ctx2 h1 hpos h
      · cases h
        exact h1

/-- The loop of `PesParse`, started with input, keeps the header bookkeeping
in every pass. -/
theorem PesPasses_header (data : Ptr) : ∀ (k : Nat) (s s2 : PesLoop),
    PesHeaderInv s.ctx.pesdx → 0 < s.size → PesPasses data k s = some s2 →
    PesHeaderInv s2.ctx.pesdx := by
  intro k
  induction k with
  | zero =>
    intro s s2 hinv _ h
    rw [PesPasses] at h
    cases h
    exact hinv
  | succ n ih =>
    intro s s2 hinv hsize h
    rw [PesPasses] at h
    split at h
    · rename_i s1 hit
      have h1 : PesHeaderInv s1.ctx.pesdx := PesIter_header data s _ hinv hsize hit
      split at h
      · rename_i hpos
        exact ih s1 s2 h1 hpos h
      · cases h
    · cases h

/-- Every state reachable through calls that bring input satisfies the header
bookkeeping. -/
theorem PesFedReachable_header (ctx : PesCtx) (h : PesFedReachable ctx) :
    PesHeaderInv ctx.pesdx := by
  induction h with
  | init buffer id calls =>
    exact PesHeaderInv_of_state _ (by show PesState.PES_INIT ≠ _; decide)
      (by show PesState.PES_INIT ≠ _; decide)
  | reset ctx _ ih =>
    exact PesHeaderInv_of_state _ (by show PesState.PES_INIT ≠ _; decide)
      (by show PesState.PES_INIT ≠ _; decide)
  | env ctx id calls _ ih => exact ih
  | parse ctx ctx2 fuel data size is_start _ hsz hp ih =>
    exact PesRun_header data fuel
      { ctx := { ctx with pesdx := PesParseEntry ctx.pesdx is_start }, p := 0, size := size }
      ctx2 (PesParseEntry_header _ _ ih) hsz hp
  | pass ctx k data size is_start s _ hsz hp ih =>
    exact PesPasses_header data k
      { ctx := { ctx with pesdx := PesParseEntry ctx.pesdx is_start }, p := 0, size := size }
      s (PesParseEntry_header _ _ ih) hsz hp

/-- C39: in every PES demuxer state reachable from `PesInit` through `PesReset`
and `PesParse` calls with `1 <= size` (after a call that returned, and also
after any number of passes inside a call), while the state is `PES_SYNC` or
`PES_HEADER` the header write index is at most 264; in `PES_HEADER` the header
size is 9 until header byte 8 has arrived and 9 plus that byte afterwards, and
the index does not pass it. -/
theorem PesFedReachable_header_index_le (ctx : PesCtx) (h : PesFedReachable ctx)
    (hs : ctx.pesdx.State = PesState.PES_SYNC ∨ ctx.pesdx.State = PesState.PES_HEADER) :
    ctx.pesdx.HeaderIndex ≤ 264
    ∧ (ctx.pesdx.State = PesState.PES_HEADER →
        ctx.pesdx.HeaderIndex ≤ ctx.pesdx.HeaderSize
        ∧ (ctx.pesdx.HeaderSize = 9 ∨ ctx.pesdx.HeaderSize = 9 + (ctx.pesdx.Header 8).val)
        ∧ ctx.pesdx.HeaderSize ≤ 264) := by
  obtain ⟨h1, h2⟩ := PesFedReachable_header ctx h
  have h6 : PES_START_CODE_SIZE = 6 := rfl
  have h9 : PES_HEADER_SIZE = 9 := rfl
  constructor
  · rcases hs with hs | hs
    · have := h1 hs
      omega
    · obtain ⟨ha, hb, -, -⟩ := h2 hs
      omega
  · intro hs2
    obtain ⟨ha, hb, hc, hd⟩ := h2 hs2
    refine ⟨ha, ?_, hb⟩
    by_cases hlt : ctx.pesdx.HeaderIndex < PES_HEADER_SIZE
    · left
      rw [hc hlt, h9]
    · right
      rw [hd (by omega), h9]

/-- Witness for C39: a reset demuxer fed the first nine bytes of a PES packet
with header data length 255 in one call: state `PES_HEADER`, write index 9,
header size 264. -/
theorem PesFedReachable_header_index_le_witness :
    ∃ ctx2, PesParse 4 exFreshCtx exLongHeader 9 true = Run.returned ctx2
      ∧ ctx2.pesdx.State = PesState.PES_HEADER
      ∧ ctx2.pesdx.HeaderIndex = 9 ∧ ctx2.pesdx.HeaderSize = 264
      ∧ (ctx2.pesdx.HeaderIndex ≤ 264
        ∧ (ctx2.pesdx.State = PesState.PES_HEADER →
          ctx2.pesdx.HeaderIndex ≤ ctx2.pesdx.HeaderSize
          ∧ (ctx2.pesdx.HeaderSize = 9
            ∨ ctx2.pesdx.HeaderSize = 9 + (ctx2.pesdx.Header 8).val)
          ∧ ctx2.pesdx.HeaderSize ≤ 264)) :=
  ⟨_, rfl, rfl, rfl, rfl, PesFedReachable_header_index_le _
    (PesFedReachable.parse _ _ 4 exLongHeader 9 true
      (PesFedReachable.reset _ (PesFedReachable.init (fun _ => 0) CodecID.NONE []))
      (by decide) rfl)
    (Or.inr rfl)⟩

/-- The first `a + b` bytes at a pointer are the first `a` followed by the `b`
bytes at offset `a`. -/
theorem Ptr.bytes_add (p : Ptr) (a b : Nat) :
    p.bytes (a + b) = p.bytes a ++ (p.add a).bytes b := by
  unfold Ptr.bytes Ptr.add
  rw [List.range_add, List.map_append, List.map_map]
  rfl

/-- The write slot after one `VideoEnqueue`: the cursor is the same, the byte
count grew by `size`, the capacity grew by the rounded amount when the bytes
did not fit with room to spare, and the bytes are the old ones followed by the
new ones. -/
theorem VideoEnqueue_slot (padding : Nat) (s : VideoState) (pts : Int) (data : Ptr)
    (size : Nat)
    (hsi : (s.VideoPacketRb s.VideoPacketWrite).stream_index
      < (s.VideoPacketRb s.VideoPacketWrite).size) :
    (VideoEnqueue padding s pts data size).VideoPacketWrite = s.VideoPacketWrite
    ∧ ((VideoEnqueue padding s pts data size).VideoPacketRb s.VideoPacketWrite).stream_index
        = (s.VideoPacketRb s.VideoPacketWrite).stream_index + size
    ∧ ((VideoEnqueue padding s pts data size).VideoPacketRb s.VideoPacketWrite).size
        = (if (s.VideoPacketRb s.VideoPacketWrite).stream_index + size
              ≥ (s.VideoPacketRb s.VideoPacketWrite).size then
            (s.VideoPacketRb s.VideoPacketWrite).size + (size / 262144 + 1) * 262144
          else (s.VideoPacketRb s.VideoPacketWrite).size)
    ∧ ((VideoEnqueue padding s pts data size).VideoPacketRb s.VideoPacketWrite).data.bytes
          ((s.VideoPacketRb s.VideoPacketWrite).stream_index + size)
        = (s.VideoPacketRb s.VideoPacketWrite).data.bytes
            (s.VideoPacketRb s.VideoPacketWrite).stream_index ++ data.bytes size := by
  have hg : ((size + VIDEO_BUFFER_SIZE / 2) / (VIDEO_BUFFER_SIZE / 2)) * (VIDEO_BUFFER_SIZE / 2)
      = (size / 262144 + 1) * 262144 := by
    show ((size + 262144) / 262144) * 262144 = _
    rw [Nat.add_div_right _ (by decide : 0 < 262144)]
  unfold VideoEnqueue
  simp only [setSlot_same]
  rw [hg]
  have e1 : (if (s.VideoPacketRb s.VideoPacketWrite).stream_index = 0 then
      { s.VideoPacketRb s.VideoPacketWrite with pts := pts }
      else s.VideoPacketRb s.VideoPacketWrite).stream_index
        = (s.VideoPacketRb s.VideoPacketWrite).stream_index := by split <;> rfl
  have e2 : (if (s.VideoPacketRb s.VideoPacketWrite).stream_index = 0 then
      { s.VideoPacketRb s.VideoPacketWrite with pts := pts }
      else s.VideoPacketRb s.VideoPacketWrite).size
        = (s.VideoPacketRb s.VideoPacketWrite).size := by split <;> rfl
  have e3 : (if (s.VideoPacketRb s.VideoPacketWrite).stream_index = 0 then
      { s.VideoPacketRb s.VideoPacketWrite with pts := pts }
      else s.VideoPacketRb s.VideoPacketWrite).data
        = (s.VideoPacketRb s.VideoPacketWrite).data := by split <;> rfl
  generalize (if (s.VideoPacketRb s.VideoPacketWrite).stream_index = 0 then
      { s.VideoPacketRb s.VideoPacketWrite with pts := pts }
      else s.VideoPacketRb s.VideoPacketWrite) = w1 at e1 e2 e3 ⊢
  generalize s.VideoPacketRb s.VideoPacketWrite = w at hsi e1 e2 e3 ⊢
  rw [← e1, ← e2, ← e3]
  rw [← e1, ← e2] at hsi
  refine ⟨trivial, ?_, ?_, ?_⟩
  · split <;> rfl
  · split <;> rfl
  · rw [Ptr.bytes_add]
    congr 1
    · apply Ptr.bytes_congr
      intro i hi
      split
      · rename_i hge
        show memcpy (memset w1.data _ 0 padding) w1.stream_index data size i = _
        rw [memcpy_apply_lt _ _ _ _ _ hi]
        unfold memset
        rw [if_neg (by omega)]
      · show memcpy w1.data w1.stream_index data size i = _
        rw [memcpy_apply_lt _ _ _ _ _ hi]
    · apply Ptr.bytes_congr
      intro i hi
      unfold Ptr.add
      split
      · show memcpy (memset w1.data _ 0 padding) w1.stream_index data size _ = _
        rw [memcpy_apply_in _ _ _ _ _ (by omega) (by omega)]
        congr 1
        omega
      · show memcpy w1.data w1.stream_index data size _ = _
        rw [memcpy_apply_in _ _ _ _ _ (by omega) (by omega)]
        congr 1
        omega

/-- The write slot after a sequence of `VideoEnqueue` calls: the byte count
grew by the number of bytes appended and is below the capacity, the capacity
grew by a multiple of 256 KiB, and the bytes are the old ones followed by the
appended ones. -/
theorem VideoEnqueueAll_slot (padding : Nat) (chunks : List (Int × Ptr × Nat)) :
    ∀ s : VideoState,
    (s.VideoPacketRb s.VideoPacketWrite).stream_index
      < (s.VideoPacketRb s.VideoPacketWrite).size →
    (VideoEnqueueAll padding s chunks).VideoPacketWrite = s.VideoPacketWrite
    ∧ ((VideoEnqueueAll padding s chunks).VideoPacketRb s.VideoPacketWrite).stream_index
        = (s.VideoPacketRb s.VideoPacketWrite).stream_index + (appendedBytes chunks).length
    ∧ ((VideoEnqueueAll padding s chunks).VideoPacketRb s.VideoPacketWrite).stream_index
        < ((VideoEnqueueAll padding s chunks).VideoPacketRb s.VideoPacketWrite).size
    ∧ (∃ k, ((VideoEnqueueAll padding s chunks).VideoPacketRb s.VideoPacketWrite).size
        = (s.VideoPacketRb s.VideoPacketWrite).size + k * 262144)
    ∧ ((VideoEnqueueAll padding s chunks).VideoPacketRb s.VideoPacketWrite).data.bytes
          ((s.VideoPacketRb s.VideoPacketWrite).stream_index + (appendedBytes chunks).length)
        = (s.VideoPacketRb s.VideoPacketWrite).data.bytes
            (s.VideoPacketRb s.VideoPacketWrite).stream_index ++ appendedBytes chunks := by
  induction chunks with
  | nil =>
    intro s hsi
    refine ⟨rfl, rfl, hsi, ⟨0, (Nat.add_zero _).symm⟩, ?_⟩
    show Ptr.bytes _ (_ + 0) = _ ++ []
    rw [List.append_nil]
    rfl
  | cons c rest ih =>
    intro s hsi
    obtain ⟨pts, data, size⟩ := c
    obtain ⟨hw, h1, h2, h3⟩ := VideoEnqueue_slot padding s pts data size hsi
    have hlt : ((VideoEnqueue padding s pts data size).VideoPacketRb
          (VideoEnqueue padding s pts data size).VideoPacketWrite).stream_index
        < ((VideoEnqueue padding s pts data size).VideoPacketRb
          (VideoEnqueue padding s pts data size).VideoPacketWrite).size := by
      rw [hw, h1, h2]
      split <;> omega
    obtain ⟨iw, i1, i2, ⟨k, i3⟩, i4⟩ := ih (VideoEnqueue padding s pts data size) hlt
    rw [hw] at iw i1 i2 i3 i4
    have hlen : (appendedBytes ((pts, data, size) :: rest)).length
        = size + (appendedBytes rest).length := by
      simp [appendedBytes, Ptr.bytes_length]
    have happ : appendedBytes ((pts, data, size) :: rest)
        = data.bytes size ++ appendedBytes rest := by
      simp [appendedBytes]
    show (VideoEnqueueAll padding (VideoEnqueue padding s pts data size) rest).VideoPacketWrite
        = s.VideoPacketWrite
      ∧ ((VideoEnqueueAll padding (VideoEnqueue padding s pts data size) rest).VideoPacketRb
          s.VideoPacketWrite).stream_index = _
      ∧ ((VideoEnqueueAll padding (VideoEnqueue padding s pts data size) rest).VideoPacketRb
          s.VideoPacketWrite).stream_index
        < ((VideoEnqueueAll padding (VideoEnqueue padding s pts data size) rest).VideoPacketRb
          s.VideoPacketWrite).size
      ∧ (∃ k, ((VideoEnqueueAll padding (VideoEnqueue padding s pts data size)
          rest).VideoPacketRb s.VideoPacketWrite).size = _ + k * 262144)
      ∧ ((VideoEnqueueAll padding (VideoEnqueue padding s pts data size) rest).VideoPacketRb
          s.VideoPacketWrite).data.bytes _ = _
    refine ⟨iw, ?_, i2, ?_, ?_⟩
    · rw [i1, h1, hlen]
      omega
    · rw [i3, h2]
      split
      · exact ⟨size / 262144 + 1 + k, by rw [Nat.add_mul]; omega⟩
      · exact ⟨k, rfl⟩
    · rw [h1] at i4
      rw [hlen, happ, ← List.append_assoc, ← h3, ← i4, Nat.add_assoc]

/-- C38: `VideoEnqueue` keeps the write slot within its buffer.  Let the write
slot have `stream_index` below its capacity (`size`), let any sequence `pre` of
`VideoEnqueue` calls run, and then one more call with `size` bytes (buffer
growth modelled as succeeding).  At that call the slot still has
`stream_index` below its capacity; when `stream_index + size` reaches the
capacity, the capacity grows by a multiple of 256 KiB that is larger than
`size`, otherwise it stays; `stream_index` grows by exactly `size` and is
below the capacity afterwards; and the bytes below `stream_index` are the
bytes the slot held at the start followed by everything appended since, which
is everything appended since the reset when the run starts from a reset slot
(`stream_index = 0`). -/
theorem VideoEnqueue_keeps_slot_within_buffer (padding : Nat) (s : VideoState)
    (pre : List (Int × Ptr × Nat)) (pts : Int) (data : Ptr) (size : Nat)
    (hsi : (s.VideoPacketRb s.VideoPacketWrite).stream_index
      < (s.VideoPacketRb s.VideoPacketWrite).size) :
    ((VideoEnqueueAll padding s pre).VideoPacketRb s.VideoPacketWrite).stream_index
      < ((VideoEnqueueAll padding s pre).VideoPacketRb s.VideoPacketWrite).size
    ∧ (((VideoEnqueueAll padding s pre).VideoPacketRb s.VideoPacketWrite).stream_index + size
          ≥ ((VideoEnqueueAll padding s pre).VideoPacketRb s.VideoPacketWrite).size →
        ∃ k, ((VideoEnqueue padding (VideoEnqueueAll padding s pre) pts data size).VideoPacketRb
              s.VideoPacketWrite).size
            = ((VideoEnqueueAll padding s pre).VideoPacketRb s.VideoPacketWrite).size
              + k * (256 * 1024)
          ∧ size < k * (256 * 1024))
    ∧ (((VideoEnqueueAll padding s pre).VideoPacketRb s.VideoPacketWrite).stream_index + size
          < ((VideoEnqueueAll padding s pre).VideoPacketRb s.VideoPacketWrite).size →
        ((VideoEnqueue padding (VideoEnqueueAll padding s pre) pts data size).VideoPacketRb
            s.VideoPacketWrite).size
          = ((VideoEnqueueAll padding s pre).VideoPacketRb s.VideoPacketWrite).size)
    ∧ ((VideoEnqueue padding (VideoEnqueueAll padding s pre) pts data size).VideoPacketRb
          s.VideoPacketWrite).stream_index
        = ((VideoEnqueueAll padding s pre).VideoPacketRb s.VideoPacketWrite).stream_index + size
    ∧ ((VideoEnqueue padding (VideoEnqueueAll padding s pre) pts data size).VideoPacketRb
          s.VideoPacketWrite).stream_index
        < ((VideoEnqueue padding (VideoEnqueueAll padding s pre) pts data size).VideoPacketRb
            s.VideoPacketWrite).size
    ∧ ((VideoEnqueue padding (VideoEnqueueAll padding s pre) pts data size).VideoPacketRb
          s.VideoPacketWrite).data.bytes
        ((VideoEnqueue padding (VideoEnqueueAll padding s pre) pts data size).VideoPacketRb
          s.VideoPacketWrite).stream_index
        = (s.VideoPacketRb s.VideoPacketWrite).data.bytes
            (s.VideoPacketRb s.VideoPacketWrite).stream_index
          ++ appendedBytes (pre ++ [(pts, data, size)])
    ∧ (VideoEnqueue padding (VideoEnqueueAll padding s pre) pts data size).VideoPacketWrite
        = s.VideoPacketWrite := by
  obtain ⟨iw, i1, i2, -, i4⟩ := VideoEnqueueAll_slot padding pre s hsi
  have hsi2 : ((VideoEnqueueAll padding s pre).VideoPacketRb
        (VideoEnqueueAll padding s pre).VideoPacketWrite).stream_index
      < ((VideoEnqueueAll padding s pre).VideoPacketRb
        (VideoEnqueueAll padding s pre).VideoPacketWrite).size := by
    rw [iw]; exact i2
  obtain ⟨hw, h1, h2, h3⟩ :=
    VideoEnqueue_slot padding (VideoEnqueueAll padding s pre) pts data size hsi2
  rw [iw] at hw h1 h2 h3
  have hk : (256 * 1024 : Nat) = 262144 := rfl
  have hdiv : size < (size / 262144 + 1) * 262144 := by
    have := Nat.div_add_mod size 262144
    have := Nat.mod_lt size (by decide : 0 < 262144)
    omega
  refine ⟨i2, fun hge => ?_, fun hlt => ?_, h1, ?_, ?_, hw⟩
  · refine ⟨size / 262144 + 1, ?_, ?_⟩
    · rw [h2, if_pos hge]
    · rw [hk]; exact hdiv
  · rw [h2, if_neg (by omega)]
  · rw [h1, h2]
    split <;> omega
  · have happ : appendedBytes (pre ++ [(pts, data, size)])
        = appendedBytes pre ++ data.bytes size := by
      simp [appendedBytes]
    rw [h1, h3, i1, i4, happ, List.append_assoc]

/-- Witness for C38: a write slot of capacity 4 holding the two bytes AA BB
gets the two bytes 01 02: they do not fit with room to spare, the capacity
grows by 256 KiB, and the slot holds AA BB 01 02. -/
theorem VideoEnqueue_keeps_slot_within_buffer_witness :
    (exVideoTight.VideoPacketRb exVideoTight.VideoPacketWrite).stream_index
      < (exVideoTight.VideoPacketRb exVideoTight.VideoPacketWrite).size
    ∧ ((VideoEnqueue 64 exVideoTight 0 (Ptr.ofList [0x01, 0x02]) 2).VideoPacketRb 0).size
        = 4 + 256 * 1024
    ∧ ((VideoEnqueue 64 (VideoEnqueueAll 64 exVideoTight []) 0 (Ptr.ofList [0x01, 0x02])
          2).VideoPacketRb exVideoTight.VideoPacketWrite).stream_index
        < ((VideoEnqueue 64 (VideoEnqueueAll 64 exVideoTight []) 0 (Ptr.ofList [0x01, 0x02])
          2).VideoPacketRb exVideoTight.VideoPacketWrite).size
    ∧ ((VideoEnqueue 64 (VideoEnqueueAll 64 exVideoTight []) 0 (Ptr.ofList [0x01, 0x02])
          2).VideoPacketRb exVideoTight.VideoPacketWrite).data.bytes
        ((VideoEnqueue 64 (VideoEnqueueAll 64 exVideoTight []) 0 (Ptr.ofList [0x01, 0x02])
          2).VideoPacketRb exVideoTight.VideoPacketWrite).stream_index
        = (exVideoTight.VideoPacketRb exVideoTight.VideoPacketWrite).data.bytes
            (exVideoTight.VideoPacketRb exVideoTight.VideoPacketWrite).stream_index
          ++ appendedBytes ([] ++ [(0, Ptr.ofList [0x01, 0x02], 2)])
    ∧ (exVideoTight.VideoPacketRb exVideoTight.VideoPacketWrite).data.bytes
            (exVideoTight.VideoPacketRb exVideoTight.VideoPacketWrite).stream_index
          ++ appendedBytes ([] ++ [(0, Ptr.ofList [0x01, 0x02], 2)])
        = [0xAA, 0xBB, 0x01, 0x02] :=
  ⟨by decide, by decide,
    (VideoEnqueue_keeps_slot_within_buffer 64 exVideoTight [] 0 (Ptr.ofList [0x01, 0x02]) 2
      (by decide)).2.2.2.2.1,
    (VideoEnqueue_keeps_slot_within_buffer 64 exVideoTight [] 0 (Ptr.ofList [0x01, 0x02]) 2
      (by decide)).2.2.2.2.2.1,
    by decide⟩

/-- The ring relation from the values of the cursors and the fill counter. -/
theorem VideoRingOk_mk (s : VideoState) (r w : Nat) (f : Int)
    (hr : s.VideoPacketRead = r) (hw : s.VideoPacketWrite = w) (hf : s.VideoPacketsFilled = f)
    (h1 : r < 192) (h2 : w < 192) (h3 : 0 ≤ f) (h4 : f ≤ 191)
    (h5 : f = ((w : Int) - (r : Int)) % 192) : VideoRingOk s := by
  unfold VideoRingOk
  rw [hr, hw, hf]
  exact ⟨h1, h2, h3, h4, h5⟩

/-- The numbers behind the ring relation. -/
theorem VideoRingOk_elim (s : VideoState) (h : VideoRingOk s) :
    s.VideoPacketRead < 192 ∧ s.VideoPacketWrite < 192
    ∧ 0 ≤ s.VideoPacketsFilled ∧ s.VideoPacketsFilled ≤ 191
    ∧ s.VideoPacketsFilled = ((s.VideoPacketWrite : Int) - (s.VideoPacketRead : Int)) % 192 := h

/-- A commit keeps the ring relation. -/
theorem VideoNextPacket_ring (padding : Nat) (s : VideoState) (codec_id : CodecID)
    (h : VideoRingOk s) : VideoRingOk (VideoNextPacket padding s codec_id) := by
  unfold VideoNextPacket
  simp only
  split
  · exact h
  · split
    · exact h
    · rename_i hfull
      obtain ⟨h1, h2, h3, h4, h5⟩ := VideoRingOk_elim s h
      have hmax : (VIDEO_PACKET_MAX : Int) = 192 := rfl
      rw [hmax] at hfull
      refine VideoRingOk_mk _ s.VideoPacketRead ((s.VideoPacketWrite + 1) % 192)
        (s.VideoPacketsFilled + 1) rfl rfl rfl h1 (by omega) (by omega) (by omega) ?_
      omega

/-- The forced clear establishes the ring relation with an empty queue. -/
theorem VideoClear_ring (s : VideoState) (h : VideoRingOk s) : VideoRingOk (VideoClear s) := by
  obtain ⟨h1, h2, h3, h4, h5⟩ := VideoRingOk_elim s h
  refine VideoRingOk_mk _ s.VideoPacketWrite s.VideoPacketWrite 0 rfl rfl rfl h2 h2
    (le_refl _) (by decide) ?_
  omega

/-- The clear to close keeps the ring relation and leaves a slot queued. -/
theorem VideoClearUptoClose_ring (s : VideoState) (h : VideoRingOk s)
    (hf : 1 ≤ s.VideoPacketsFilled) :
    VideoRingOk (VideoClearUptoClose s) ∧ 1 ≤ (VideoClearUptoClose s).VideoPacketsFilled := by
  obtain ⟨h1, h2, h3, h4, h5⟩ := VideoRingOk_elim s h
  unfold VideoClearUptoClose
  simp only
  split
  · rename_i f hfc
    have := VideoFindClose_lt _ _ _ _ _ hfc
    split
    · constructor
      · refine VideoRingOk_mk _ ((s.VideoPacketRead + f) % 192) s.VideoPacketWrite
          (s.VideoPacketsFilled - (f : Int)) rfl rfl rfl (by omega) h2 (by omega) (by omega) ?_
        omega
      · show 1 ≤ s.VideoPacketsFilled - (f : Int)
        omega
    · exact ⟨h, hf⟩
  · exact ⟨h, hf⟩

/-- A dequeue keeps the ring relation. -/
theorem VideoDecodeInput_ring (s : VideoState) (h : VideoRingOk s) :
    VideoRingOk (VideoDecodeInput s).1 := by
  have key : ∀ s1 : VideoState, VideoRingOk s1 → 1 ≤ s1.VideoPacketsFilled →
      ∀ s2 : VideoState, s2.VideoPacketsFilled = s1.VideoPacketsFilled →
        s2.VideoPacketRead = s1.VideoPacketRead → s2.VideoPacketWrite = s1.VideoPacketWrite →
        VideoRingOk (VideoAdvanceRead s2).1 := by
    intro s1 hs1 hf1 s2 e1 e2 e3
    obtain ⟨h1, h2, h3, h4, h5⟩ := VideoRingOk_elim s1 hs1
    refine VideoRingOk_mk _ ((s1.VideoPacketRead + 1) % 192) s1.VideoPacketWrite
      (s1.VideoPacketsFilled - 1) ?_ e3 ?_ (by omega) h2 (by omega) (by omega) ?_
    · show (s2.VideoPacketRead + 1) % VIDEO_PACKET_MAX = _
      rw [e2]
      rfl
    · show s2.VideoPacketsFilled - 1 = _
      rw [e1]
    · omega
  obtain ⟨h1, h2, h3, h4, h5⟩ := VideoRingOk_elim s h
  unfold VideoDecodeInput
  split
  · exact VideoClear_ring s h
  · split
    · exact h
    · split
      · exact h
      · rename_i h0
        simp only
        have hs1 : VideoRingOk (if s.VideoClearClose then VideoClearUptoClose s else s)
            ∧ 1 ≤ (if s.VideoClearClose then VideoClearUptoClose s else s).VideoPacketsFilled := by
          split
          · exact VideoClearUptoClose_ring s h (by omega)
          · exact ⟨h, by omega⟩
        generalize (if s.VideoClearClose then VideoClearUptoClose s else s) = s1 at hs1 ⊢
        split
        · split
          · exact key s1 hs1.1 hs1.2 _ rfl rfl rfl
          · exact key s1 hs1.1 hs1.2 _ rfl rfl rfl
        · split
          · exact key s1 hs1.1 hs1.2 _ rfl rfl rfl
          · exact key s1 hs1.1 hs1.2 _ rfl rfl rfl
        · split
          · exact key s1 hs1.1 hs1.2 _ rfl rfl rfl
          · exact key s1 hs1.1 hs1.2 _ rfl rfl rfl
        · exact key s1 hs1.1 hs1.2 _ rfl rfl rfl

/-- A poll keeps the ring relation. -/
theorem VideoPollInput_ring (s : VideoState) (h : VideoRingOk s) :
    VideoRingOk (VideoPollInput s).1 := by
  unfold VideoPollInput
  split
  · exact VideoClear_ring s h
  · split
    · exact h
    · exact h

/-- An append keeps the ring relation. -/
theorem VideoEnqueue_ring (padding : Nat) (s : VideoState) (pts : Int) (data : Ptr)
    (size : Nat) (h : VideoRingOk s) : VideoRingOk (VideoEnqueue padding s pts data size) :=
  h

/-- The store part of `PlayVideo` keeps the ring relation. -/
theorem PlayVideoStore_ring (padding : Nat) (s : VideoState) (data : Ptr) (size : Int)
    (h : VideoRingOk s) : VideoRingOk (PlayVideoStore padding s data size).1 := by
  unfold PlayVideoStore
  simp only
  repeat' split
  all_goals
    repeat
      first
      | exact h
      | refine VideoNextPacket_ring _ _ _ ?_
      | refine VideoEnqueue_ring _ _ _ _ _ ?_

/-- The packet part of `PlayVideo` keeps the ring relation. -/
theorem PlayVideoPacket_ring (padding : Nat) (s : VideoState) (data : Ptr) (size : Int)
    (audioUsed : Int) (h : VideoRingOk s) :
    VideoRingOk (PlayVideoPacket padding s data size audioUsed).1 := by
  unfold PlayVideoPacket
  repeat' split
  all_goals first | exact h | exact PlayVideoStore_ring _ _ _ _ h

/-- A call of `PlayVideo` keeps the ring relation. -/
theorem PlayVideo_ring (padding : Nat) (s : VideoState) (data : Ptr) (size : Int)
    (audioUsed : Int) (h : VideoRingOk s) :
    VideoRingOk (PlayVideo padding s data size audioUsed).1 := by
  unfold PlayVideo
  split
  · exact h
  · split
    · exact h
    · split
      · exact h
      · split
        · split
          · exact h
          · exact PlayVideoPacket_ring _ _ _ _ _ (VideoNextPacket_ring padding s CodecID.NONE h)
        · exact PlayVideoPacket_ring _ _ _ _ _ h

/-- Every reachable state satisfies the ring relation. -/
theorem VideoReachable_ring (padding : Nat) (s : VideoState) (h : VideoReachable padding s) :
    VideoRingOk s := by
  induction h with
  | init s buffers =>
    exact VideoRingOk_mk _ 0 0 0 rfl rfl rfl (by decide) (by decide) (le_refl _) (by decide)
      (by decide)
  | next s codec_id _ ih => exact VideoNextPacket_ring _ _ _ ih
  | enqueue s pts data size _ ih => exact ih
  | decode s _ ih => exact VideoDecodeInput_ring _ ih
  | poll s _ ih => exact VideoPollInput_ring _ ih
  | play s data size audioUsed _ ih => exact PlayVideo_ring _ _ _ _ _ ih
  | env s s2 _ _ hw hr hf ih =>
    unfold VideoRingOk
    rw [hf, hw, hr]
    exact ih

/-- C35: in every state reachable from `VideoPacketInit` by a sequential
interleaving of `VideoNextPacket`, `VideoDecodeInput` (with its clear up to
the close), the forced clear of `VideoPollInput` and `VideoDecodeInput`, and
also of appends, `PlayVideo` calls and flag changes, the fill counter
`VideoPacketsFilled` equals `(VideoPacketWrite - VideoPacketRead) mod 192` and
is at most 191; both cursors are slot numbers below 192. -/
theorem VideoPacketsFilled_is_cursor_distance (padding : Nat) (s : VideoState)
    (h : VideoReachable padding s) :
    s.VideoPacketsFilled = ((s.VideoPacketWrite : Int) - (s.VideoPacketRead : Int)) % 192
    ∧ s.VideoPacketsFilled ≤ 191
    ∧ s.VideoPacketRead < 192 ∧ s.VideoPacketWrite < 192 := by
  obtain ⟨h1, h2, h3, h4, h5⟩ := VideoRingOk_elim s (VideoReachable_ring padding s h)
  exact ⟨h5, h4, h1, h2⟩

/-- Witness for C35: three commits and one dequeue after the initialisation:
write cursor 3, read cursor 1, two slots filled. -/
theorem VideoPacketsFilled_is_cursor_distance_witness :
    VideoReachable 8 (VideoDecodeInput (exVideoFilled 3)).1
      ∧ (VideoDecodeInput (exVideoFilled 3)).1.VideoPacketWrite = 3
      ∧ (VideoDecodeInput (exVideoFilled 3)).1.VideoPacketRead = 1
      ∧ (VideoDecodeInput (exVideoFilled 3)).1.VideoPacketsFilled = 2
      ∧ ((VideoDecodeInput (exVideoFilled 3)).1.VideoPacketsFilled
          = (((VideoDecodeInput (exVideoFilled 3)).1.VideoPacketWrite : Int)
              - ((VideoDecodeInput (exVideoFilled 3)).1.VideoPacketRead : Int)) % 192
        ∧ (VideoDecodeInput (exVideoFilled 3)).1.VideoPacketsFilled ≤ 191
        ∧ (VideoDecodeInput (exVideoFilled 3)).1.VideoPacketRead < 192
        ∧ (VideoDecodeInput (exVideoFilled 3)).1.VideoPacketWrite < 192) :=
  ⟨VideoReachable.decode _ (exVideoFilled_reachable 3), by decide, by decide, by decide,
    VideoPacketsFilled_is_cursor_distance 8 _
      (VideoReachable.decode _ (exVideoFilled_reachable 3))⟩

set_option maxRecDepth 100000 in
/-- The index `b >> 4` of a byte is inside the four-entry table exactly when
the two top bits of the byte are clear. -/
theorem lpcm_index_range : ∀ b : Byte,
    (b.val >>> 4 < samplerates.length ↔ b.val < 0x40)
    ∧ (0x40 ≤ b.val → samplerates[b.val >>> 4]? = none) := by
  decide

/-- C36 fails on the code: on the LPCM path of `PlayAudio` (id `0xAx`, at
least seven payload bytes, codec not yet `CODEC_ID_PCM_DVD`) the index of the
sample-rate lookup is `p[5] >> 4`, the whole upper nibble of byte 5.  When one
of the two top bits of byte 5 is set (they are the bits-per-sample code, set
for 20 and 24 bit streams) the index is 4 or more and the read leaves the
four-entry table. -/
theorem PlayAudioLpcm_index_leaves_table (AudioCodecID : CodecID) (id : Nat) (p : Ptr)
    (n : Int) (hid : id &&& 0xF0 = 0xA0) (hn : 7 ≤ n) (hc : AudioCodecID ≠ CodecID.PCM_DVD)
    (h5 : 0x40 ≤ (p 5).val) :
    samplerates.length ≤ (p 5).val >>> 4
    ∧ PlayAudioLpcm AudioCodecID id p n = none := by
  obtain ⟨h1, h2⟩ := lpcm_index_range (p 5)
  constructor
  · by_contra hlt
    have := h1.1 (by omega)
    omega
  · unfold PlayAudioLpcm
    rw [if_pos hid, if_neg (by omega), if_pos hc]
    simp only [h2 h5]

/-- Witness for C36: the example payload with byte 5 = 0x41 (20 bits per
sample): the index is 4 and the lookup leaves the table; with byte 5 = 0x01
the index is 0 and the set-up gets 48000 Hz. -/
theorem PlayAudioLpcm_index_leaves_table_witness :
    (exLpcm20 5).val >>> 4 = 4 ∧ samplerates.length = 4
    ∧ PlayAudioLpcm CodecID.NONE 0xA0 exLpcm16 9 = some (LpcmOutcome.setup 16 48000 2)
    ∧ (samplerates.length ≤ (exLpcm20 5).val >>> 4
      ∧ PlayAudioLpcm CodecID.NONE 0xA0 exLpcm20 9 = none) :=
  ⟨by decide, by decide, by decide,
    PlayAudioLpcm_index_leaves_table CodecID.NONE 0xA0 exLpcm20 9 (by decide) (by decide)
      (by decide) (by decide)⟩

/-- Moving a pointer twice. -/
theorem Ptr.add_add (p : Ptr) (a b : Nat) : (p.add a).add b = p.add (a + b) := by
  funext i
  unfold Ptr.add
  rw [Nat.add_assoc]

/-- Spans that lie one after another end behind their start. -/
theorem spansFrom_le : ∀ (cuts : List (Nat × Nat)) (a e : Nat), spansFrom a cuts e → a ≤ e
  | [], a, e, h => Nat.le_of_eq h
  | c :: rest, a, e, h => by
    have := spansFrom_le rest (a + c.2) e h.2
    omega

/-- The bytes of spans that lie one after another, concatenated, are the bytes
from the first offset to the last end. -/
theorem spansFrom_bytes (data : Ptr) : ∀ (cuts : List (Nat × Nat)) (a e : Nat),
    spansFrom a cuts e →
    (cuts.map (fun c => (data.add c.1).bytes c.2)).flatten = (data.add a).bytes (e - a)
  | [], a, e, h => by
    have h1 : a = e := h
    subst h1
    simp [Ptr.bytes]
  | c :: rest, a, e, h => by
    obtain ⟨h1, h2⟩ := h
    have hle := spansFrom_le rest _ _ h2
    have ih := spansFrom_bytes data rest (a + c.2) e h2
    rw [List.map_cons, List.flatten_cons, ih, h1]
    have he : e - a = c.2 + (e - (a + c.2)) := by omega
    rw [he, Ptr.bytes_add, Ptr.add_add]

/-- The loop of `FixPacketForFFMpeg` from any of its states, with enough
passes left: the calls it adds are one call for the span from `tdata` with the
timestamps of `tmp`, and one call without timestamps for each further span;
the spans lie one after another up to the end of the packet, and each further
span begins at a picture start code. -/
theorem FixPacketLoop_spans (data : Ptr) : ∀ (fuel p n tdata tsize : Nat) (pts dts : Int)
    (first : Bool) (calls : List VideoCall),
    n ≤ fuel → tdata + tsize = p + n → (first = false → tdata < p) → tdata ≤ p →
    ∃ (len : Nat) (rest : List (Nat × Nat)),
      FixPacketLoop data fuel p n tdata tsize pts dts first calls
        = calls ++ decodeSpan data pts dts (tdata, len)
            :: rest.map (decodeSpan data AV_NOPTS_VALUE AV_NOPTS_VALUE)
      ∧ spansFrom tdata ((tdata, len) :: rest) (p + n)
      ∧ (rest ≠ [] → 1 ≤ len)
      ∧ (∀ c ∈ rest, PictureStartAt data c.1 ∧ 1 ≤ c.2) := by
  intro fuel
  induction fuel with
  | zero =>
    intro p n tdata tsize pts dts first calls hn hsum _ _
    refine ⟨tsize, [], ?_, ?_, ?_, ?_⟩
    · rw [FixPacketLoop]
      rfl
    · exact ⟨rfl, hsum⟩
    · intro h; exact absurd rfl h
    · intro c hc; cases hc
  | succ fuel ih =>
    intro p n tdata tsize pts dts first calls hn hsum hfirst hle
    rw [FixPacketLoop]
    split
    · rename_i hn4
      split
      · rename_i hsc
        split
        · -- the first picture header is skipped
          obtain ⟨len, rest, e1, e2, e3, e4⟩ :=
            ih (p + 4) (n - 4) tdata tsize pts dts false calls (by omega) (by omega)
              (fun _ => by omega) (by omega)
          refine ⟨len, rest, e1, ?_, e3, e4⟩
          have : p + 4 + (n - 4) = p + n := by omega
          rw [this] at e2
          exact e2
        · -- the packet is cut in front of this picture header
          rename_i hnf
          have hf : first = false := by
            cases first
            · rfl
            · exact absurd rfl hnf
          have hlt := hfirst hf
          obtain ⟨len, rest, e1, e2, e3, e4⟩ :=
            ih (p + 1) (n - 1) p n AV_NOPTS_VALUE AV_NOPTS_VALUE first
              (calls ++ [VideoCall.decode
                { data := (data.add tdata).bytes (p - tdata), pts := pts, dts := dts }])
              (by omega) (by omega) (fun _ => by omega) (by omega)
          refine ⟨p - tdata, (p, len) :: rest, ?_, ?_, ?_, ?_⟩
          · rw [e1, List.append_assoc]
            rfl
          · refine ⟨rfl, ?_⟩
            have h1 : tdata + (p - tdata) = p := by omega
            have h2 : p + 1 + (n - 1) = p + n := by omega
            show spansFrom (tdata + (p - tdata)) ((p, len) :: rest) (p + n)
            rw [h1]
            rw [h2] at e2
            exact e2
          · intro _
            omega
          · intro c hc
            rcases List.mem_cons.1 hc with hc | hc
            · subst hc
              refine ⟨hsc, ?_⟩
              show 1 ≤ len
              by_cases hr : rest = []
              · subst hr
                have h3 : p + len = p + 1 + (n - 1) := e2.2
                omega
              · exact e3 hr
            · exact e4 c hc
      · obtain ⟨len, rest, e1, e2, e3, e4⟩ :=
          ih (p + 1) (n - 1) tdata tsize pts dts first calls (by omega) (by omega)
            (fun h => by have := hfirst h; omega) (by omega)
        refine ⟨len, rest, e1, ?_, e3, e4⟩
        have : p + 1 + (n - 1) = p + n := by omega
        rw [this] at e2
        exact e2
    · refine ⟨tsize, [], rfl, ⟨rfl, hsum⟩, ?_, ?_⟩
      · intro h; exact absurd rfl h
      · intro c hc; cases hc

/-- C32: `FixPacketForFFMpeg` loses and duplicates nothing.  For every packet
of every size the function returns having made one `CodecVideoDecode` call for
a first span with the timestamps of the packet and one call without timestamps
for each further span; the spans lie one after another from offset 0 to the
end of the packet, so their bytes concatenated in call order are the bytes of
the packet; and every span after the first begins at an offset where the
packet has the picture start code 00 00 01 00. -/
theorem FixPacketForFFMpeg_splits_without_loss (calls : List VideoCall) (data : Ptr)
    (size : Nat) (pts dts : Int) :
    ∃ (len : Nat) (rest : List (Nat × Nat)),
      FixPacketForFFMpeg calls data size pts dts
        = calls ++ decodeSpan data pts dts (0, len)
            :: rest.map (decodeSpan data AV_NOPTS_VALUE AV_NOPTS_VALUE)
      ∧ spansFrom 0 ((0, len) :: rest) size
      ∧ (((0, len) :: rest).map (fun c => (data.add c.1).bytes c.2)).flatten = data.bytes size
      ∧ (∀ c ∈ rest, PictureStartAt data c.1) := by
  obtain ⟨len, rest, e1, e2, -, e4⟩ :=
    FixPacketLoop_spans data size 0 size 0 size pts dts true calls (Nat.le_refl _) rfl
      (fun h => by cases h) (Nat.le_refl _)
  rw [Nat.zero_add] at e2
  refine ⟨len, rest, e1, e2, ?_, fun c hc => (e4 c hc).1⟩
  rw [spansFrom_bytes data _ 0 size e2, Nat.sub_zero]
  apply Ptr.bytes_congr
  intro i _
  unfold Ptr.add
  rw [Nat.zero_add]

/-- Witness for C32: the example packet with picture start codes at offsets 0,
4 and 7 is cut at offsets 4 and 7; the second sub-packet is the three bytes
00 00 01. -/
theorem FixPacketForFFMpeg_splits_without_loss_witness :
    FixPacketForFFMpeg [] exPictures 16 900 800
      = [decodeSpan exPictures 900 800 (0, 4),
         decodeSpan exPictures AV_NOPTS_VALUE AV_NOPTS_VALUE (4, 3),
         decodeSpan exPictures AV_NOPTS_VALUE AV_NOPTS_VALUE (7, 9)]
    ∧ (exPictures.add 4).bytes 3 = [0x00, 0x00, 0x01]
    ∧ ∃ (len : Nat) (rest : List (Nat × Nat)),
      FixPacketForFFMpeg [] exPictures 16 900 800
        = [] ++ decodeSpan exPictures 900 800 (0, len)
            :: rest.map (decodeSpan exPictures AV_NOPTS_VALUE AV_NOPTS_VALUE)
      ∧ spansFrom 0 ((0, len) :: rest) 16
      ∧ (((0, len) :: rest).map (fun c => (exPictures.add c.1).bytes c.2)).flatten
          = exPictures.bytes 16
      ∧ (∀ c ∈ rest, PictureStartAt exPictures c.1) :=
  ⟨by decide, by decide, FixPacketForFFMpeg_splits_without_loss [] exPictures 16 900 800⟩

/-- The loop of `CodecReorderAudioFrame` over `m` whole frames, with enough
passes: it ends, the frames it visits are rewritten by the body, each from
the samples of the same frame, and the other samples stay. -/
theorem CodecReorderLoop_frames (body : (Nat → Int) → Nat → Nat → Int) (step : Nat)
    (src : Nat → Nat) (hstep : 0 < step)
    (hin : ∀ buf i k, k < step → body buf i (i + k) = buf (i + src k))
    (hout : ∀ buf i j, j < i ∨ i + step ≤ j → body buf i j = buf j) :
    ∀ (m fuel f : Nat) (buf : Nat → Int), m ≤ fuel →
    ∃ out, CodecReorderLoop body step ((step * (f + m) : Nat) : Int) fuel (step * f) buf
        = some out
      ∧ ∀ j, out j = if step * f ≤ j ∧ j < step * (f + m)
          then buf (step * (j / step) + src (j % step)) else buf j := by
  intro m
  induction m with
  | zero =>
    intro fuel f buf _
    refine ⟨buf, ?_, ?_⟩
    · cases fuel with
      | zero =>
        rw [CodecReorderLoop, if_neg]
        simp
      | succ fuel =>
        rw [CodecReorderLoop, if_neg]
        simp
    · intro j
      rw [if_neg]
      intro h
      have := h.2
      simp at this
      omega
  | succ m ih =>
    intro fuel f buf hfuel
    cases fuel with
    | zero => omega
    | succ fuel =>
      have hlt : ((step * f : Nat) : Int) < ((step * (f + (m + 1)) : Nat) : Int) := by
        have : step * f < step * (f + (m + 1)) :=
          Nat.mul_lt_mul_of_pos_left (by omega) hstep
        omega
      obtain ⟨out, h1, h2⟩ := ih fuel (f + 1) (body buf (step * f)) (by omega)
      have e1 : step * (f + 1) = step * f + step := by rw [Nat.mul_add, Nat.mul_one]
      have e2 : step * (f + 1 + m) = step * (f + (m + 1)) := by
        congr 1
        omega
      rw [e1, e2] at h1
      rw [e2] at h2
      refine ⟨out, ?_, ?_⟩
      · rw [CodecReorderLoop, if_pos hlt]
        exact h1
      · intro j
        rw [h2 j]
        have e3 : step * (f + (m + 1)) = step * f + step + step * m := by
          rw [Nat.mul_add, Nat.mul_add, Nat.mul_one]
          omega
        by_cases hj1 : step * (f + 1) ≤ j ∧ j < step * (f + (m + 1))
        · rw [if_pos hj1, if_pos ⟨by omega, hj1.2⟩]
          apply hout
          right
          have hq : f + 1 ≤ j / step := (Nat.le_div_iff_mul_le hstep).2 (by
            rw [Nat.mul_comm]; exact hj1.1)
          have : step * (f + 1) ≤ step * (j / step) := Nat.mul_le_mul_left _ hq
          omega
        · rw [if_neg hj1]
          by_cases hj2 : step * f ≤ j ∧ j < step * (f + (m + 1))
          · rw [if_pos hj2]
            have hk : j - step * f < step := by
              by_contra hge
              exact hj1 ⟨by omega, hj2.2⟩
            have hjk : j = step * f + (j - step * f) := by omega
            have hdiv : j / step = f := by
              rw [hjk, Nat.mul_add_div hstep, Nat.div_eq_of_lt hk, Nat.add_zero]
            have hmod : j % step = j - step * f := by
              rw [hjk, Nat.mul_add_mod, Nat.mod_eq_of_lt hk]
              omega
            rw [hdiv, hmod]
            have := hin buf (step * f) (j - step * f) hk
            rw [← hjk] at this
            exact this
          · rw [if_neg hj2]
            apply hout
            by_cases hlo : j < step * f
            · left; exact hlo
            · right
              have : ¬ j < step * (f + (m + 1)) := fun h => hj2 ⟨by omega, h⟩
              omega

/-- The 5-channel body moves the samples of its frame as documented. -/
theorem CodecReorderFrame5_in (buf : Nat → Int) (i k : Nat) (hk : k < 5) :
    CodecReorderFrame5 buf i (i + k) = buf (i + [0, 1, 3, 4, 2].getD k 0) := by
  unfold CodecReorderFrame5 setSample
  interval_cases k <;> simp

/-- The 5-channel body leaves the samples outside its frame alone. -/
theorem CodecReorderFrame5_out (buf : Nat → Int) (i j : Nat) (h : j < i ∨ i + 5 ≤ j) :
    CodecReorderFrame5 buf i j = buf j := by
  unfold CodecReorderFrame5 setSample
  rw [if_neg (by omega), if_neg (by omega), if_neg (by omega)]

/-- The 6-channel body moves the first six samples of its frame as documented
and keeps the two that follow. -/
theorem CodecReorderFrame6_in (buf : Nat → Int) (i k : Nat) (hk : k < 8) :
    CodecReorderFrame6 buf i (i + k) = buf (i + [0, 1, 4, 5, 2, 3, 6, 7].getD k 0) := by
  unfold CodecReorderFrame6 setSample
  interval_cases k <;> simp

/-- The 6-channel body leaves the samples outside its six alone. -/
theorem CodecReorderFrame6_out (buf : Nat → Int) (i j : Nat) (h : j < i ∨ i + 6 ≤ j) :
    CodecReorderFrame6 buf i j = buf j := by
  unfold CodecReorderFrame6 setSample
  rw [if_neg (by omega), if_neg (by omega), if_neg (by omega), if_neg (by omega)]

/-- Half of the byte size of `n` frames of `c` samples is `c * n` samples. -/
theorem frames_byte_size (c n : Nat) :
    (((2 * c * n : Nat) : Int)).tdiv 2 = ((c * (0 + n) : Nat) : Int) := by
  have h : (2 * c * n) / 2 = c * (0 + n) := by
    rw [Nat.zero_add, Nat.mul_assoc, Nat.mul_div_cancel_left _ (by decide : 0 < 2)]
  rw [← h]
  rfl

/-- Reading the result of the loop over `n` whole frames from sample 0. -/
theorem reordered_sample (out buf : Nat → Int) (step n : Nat) (src : Nat → Nat)
    (hstep : 0 < step)
    (h2 : ∀ j, out j = if step * 0 ≤ j ∧ j < step * (0 + n)
      then buf (step * (j / step) + src (j % step)) else buf j) :
    (∀ f k, f < n → k < step → out (step * f + k) = buf (step * f + src k))
    ∧ (∀ j, step * n ≤ j → out j = buf j) := by
  constructor
  · intro f k hf hk
    have hlt : step * f + k < step * (0 + n) := by
      have h1 : step * (f + 1) ≤ step * n := Nat.mul_le_mul_left _ hf
      rw [Nat.mul_add, Nat.mul_one] at h1
      rw [Nat.zero_add]
      omega
    rw [h2, if_pos ⟨by omega, hlt⟩, Nat.mul_add_div hstep, Nat.div_eq_of_lt hk, Nat.add_zero,
      Nat.mul_add_mod, Nat.mod_eq_of_lt hk]
  · intro j hj
    rw [h2, if_neg]
    intro h
    have := h.2
    rw [Nat.zero_add] at this
    omega

/-- C34: `CodecReorderAudioFrame` permutes each interleaved frame as
documented, for every buffer holding a whole number `n` of frames (`size` is
twice the number of samples) and with at least `n` loop passes allowed: with 5
channels each frame L R C Ls Rs becomes L R Ls Rs C, with 6 channels
L R C LFE Ls Rs becomes L R Ls Rs C LFE, with 8 channels the first six samples
of a frame are moved as for 6 and the last two stay; the samples behind the
frames stay; and for every other channel count the buffer is returned
unchanged, whatever the size. -/
theorem CodecReorderAudioFrame_reorders_as_documented (buf : Nat → Int) (n fuel : Nat)
    (hfuel : n ≤ fuel) :
    (∃ out, CodecReorderAudioFrame fuel buf ((2 * 5 * n : Nat) : Int) 5 = some out
      ∧ (∀ f, f < n → frameAt out 5 f = reorder5 (frameAt buf 5 f))
      ∧ (∀ j, 5 * n ≤ j → out j = buf j))
    ∧ (∃ out, CodecReorderAudioFrame fuel buf ((2 * 6 * n : Nat) : Int) 6 = some out
      ∧ (∀ f, f < n → frameAt out 6 f = reorder6 (frameAt buf 6 f))
      ∧ (∀ j, 6 * n ≤ j → out j = buf j))
    ∧ (∃ out, CodecReorderAudioFrame fuel buf ((2 * 8 * n : Nat) : Int) 8 = some out
      ∧ (∀ f, f < n → frameAt out 8 f = reorder8 (frameAt buf 8 f))
      ∧ (∀ j, 8 * n ≤ j → out j = buf j))
    ∧ (∀ (size channels : Int), channels ≠ 5 → channels ≠ 6 → channels ≠ 8 →
        CodecReorderAudioFrame fuel buf size channels = some buf) := by
  refine ⟨?_, ?_, ?_, ?_⟩
  · obtain ⟨out, h1, h2⟩ :=
      CodecReorderLoop_frames CodecReorderFrame5 5 (fun k => [0, 1, 3, 4, 2].getD k 0)
        (by decide) CodecReorderFrame5_in CodecReorderFrame5_out n fuel 0 buf hfuel
    obtain ⟨g1, g2⟩ := reordered_sample out buf 5 n (fun k => [0, 1, 3, 4, 2].getD k 0) (by decide) h2
    refine ⟨out, ?_, ?_, g2⟩
    · unfold CodecReorderAudioFrame
      rw [if_pos rfl, frames_byte_size]
      exact h1
    · intro f hf
      have hfr : ∀ g : Nat → Int, frameAt g 5 f
          = [g (5 * f + 0), g (5 * f + 1), g (5 * f + 2), g (5 * f + 3), g (5 * f + 4)] :=
        fun g => rfl
      rw [hfr, hfr, g1 f 0 hf (by decide), g1 f 1 hf (by decide), g1 f 2 hf (by decide),
        g1 f 3 hf (by decide), g1 f 4 hf (by decide)]
      rfl
  · obtain ⟨out, h1, h2⟩ :=
      CodecReorderLoop_frames CodecReorderFrame6 6 (fun k => [0, 1, 4, 5, 2, 3, 6, 7].getD k 0)
        (by decide) (fun b i k hk => CodecReorderFrame6_in b i k (by omega))
        CodecReorderFrame6_out n fuel 0 buf hfuel
    obtain ⟨g1, g2⟩ := reordered_sample out buf 6 n
      (fun k => [0, 1, 4, 5, 2, 3, 6, 7].getD k 0) (by decide) h2
    refine ⟨out, ?_, ?_, g2⟩
    · unfold CodecReorderAudioFrame
      rw [if_neg (by decide), if_pos rfl, frames_byte_size]
      exact h1
    · intro f hf
      have hfr : ∀ g : Nat → Int, frameAt g 6 f
          = [g (6 * f + 0), g (6 * f + 1), g (6 * f + 2), g (6 * f + 3), g (6 * f + 4),
             g (6 * f + 5)] :=
        fun g => rfl
      rw [hfr, hfr, g1 f 0 hf (by decide), g1 f 1 hf (by decide), g1 f 2 hf (by decide),
        g1 f 3 hf (by decide), g1 f 4 hf (by decide), g1 f 5 hf (by decide)]
      rfl
  · obtain ⟨out, h1, h2⟩ :=
      CodecReorderLoop_frames CodecReorderFrame6 8 (fun k => [0, 1, 4, 5, 2, 3, 6, 7].getD k 0)
        (by decide) CodecReorderFrame6_in
        (fun b i j h => CodecReorderFrame6_out b i j (by omega)) n fuel 0 buf hfuel
    obtain ⟨g1, g2⟩ := reordered_sample out buf 8 n
      (fun k => [0, 1, 4, 5, 2, 3, 6, 7].getD k 0) (by decide) h2
    refine ⟨out, ?_, ?_, g2⟩
    · unfold CodecReorderAudioFrame
      rw [if_neg (by decide), if_neg (by decide), if_pos rfl, frames_byte_size]
      exact h1
    · intro f hf
      have hfr : ∀ g : Nat → Int, frameAt g 8 f
          = [g (8 * f + 0), g (8 * f + 1), g (8 * f + 2), g (8 * f + 3), g (8 * f + 4),
             g (8 * f + 5), g (8 * f + 6), g (8 * f + 7)] :=
        fun g => rfl
      rw [hfr, hfr, g1 f 0 hf (by decide), g1 f 1 hf (by decide), g1 f 2 hf (by decide),
        g1 f 3 hf (by decide), g1 f 4 hf (by decide), g1 f 5 hf (by decide),
        g1 f 6 hf (by decide), g1 f 7 hf (by decide)]
      rfl
  · intro size channels h5 h6 h8
    unfold CodecReorderAudioFrame
    rw [if_neg h5, if_neg h6, if_neg h8]

/-- Witness for C34: two frames of six samples, 24 bytes: 1 2 3 4 5 6 becomes
1 2 5 6 3 4 and 11 12 13 14 15 16 becomes 11 12 15 16 13 14. -/
theorem CodecReorderAudioFrame_reorders_as_documented_witness :
    (CodecReorderAudioFrame 2 exSamples6 24 6).map (fun out => (List.range 12).map out)
      = some [1, 2, 5, 6, 3, 4, 11, 12, 15, 16, 13, 14]
    ∧ ∃ out, CodecReorderAudioFrame 2 exSamples6 ((2 * 6 * 2 : Nat) : Int) 6 = some out
      ∧ (∀ f, f < 2 → frameAt out 6 f = reorder6 (frameAt exSamples6 6 f))
      ∧ (∀ j, 6 * 2 ≤ j → out j = exSamples6 j) :=
  ⟨by decide,
    (CodecReorderAudioFrame_reorders_as_documented exSamples6 2 2 (by decide)).2.1⟩

/-- C11: for every 188-byte packet with the sync byte that `TsDemuxer`
processes: when the specification forwards it (error bit clear and control
bits 01, or control bits 11 with `p[4] <= 182`), `PesParse` is called on the
payload from the specified offset to the packet end (at least one byte) with
the payload-unit-start bit as start flag, and the loop goes on with the PES
demuxer `PesParse` returned; otherwise (error bit set, control bits 00 or 10,
or `p[4] >= 183`) the loop goes on to the next packet with the PES demuxer
untouched and without a `PesParse` call.  For the last packet of a buffer
(fewer than 376 bytes left) this is the result of the call: `TsDemuxer`
returns the bytes consumed up to the end of the packet, the packet counted,
with the PES demuxer as `PesParse` returned it for a forwarded packet and
untouched for a skipped one; it returns for a forwarded packet exactly when
`PesParse` does. -/
theorem TsDemuxer_forwards_by_header (fuel : Nat) (data : Ptr) (k : Nat) (s : TsLoop)
    (hsize : 188 ≤ s.size) (hsync : (data s.p).val = 0x47) :
    (TsDemuxerLoop fuel data (k + 1) s =
      match TsSpecForward (data.add s.p) with
      | none =>
        TsDemuxerLoop fuel data k
          { tsdx := { Packets := s.tsdx.Packets + 1 }, ctx := s.ctx
            p := s.p + 188, size := s.size - 188 }
      | some (off, start) =>
        match PesParse fuel s.ctx ((data.add s.p).add off) (188 - off) start with
        | Run.returned ctx1 =>
          TsDemuxerLoop fuel data k
            { tsdx := { Packets := s.tsdx.Packets + 1 }, ctx := ctx1
              p := s.p + 188, size := s.size - 188 }
        | Run.aborted => Run.aborted
        | Run.unfinished => Run.unfinished)
    ∧ (∀ off start, TsSpecForward (data.add s.p) = some (off, start) →
        4 ≤ off ∧ 1 ≤ 188 - off ∧ (start = true ↔ (data (s.p + 1)).val &&& 0x40 ≠ 0))
    ∧ (TsSpecForward (data.add s.p) = none ↔
        ((data (s.p + 1)).val &&& 0x80 ≠ 0 ∨ (data (s.p + 3)).val &&& 0x30 = 0x00
          ∨ (data (s.p + 3)).val &&& 0x30 = 0x20
          ∨ ((data (s.p + 3)).val &&& 0x30 = 0x30 ∧ 183 ≤ (data (s.p + 4)).val)))
    ∧ (s.size < 376 →
        TsDemuxerLoop fuel data (k + 1) s =
          match TsSpecForward (data.add s.p) with
          | none =>
            Run.returned
              { tsdx := { Packets := s.tsdx.Packets + 1 }, ctx := s.ctx
                ret := ((s.p + 188 : Nat) : Int) }
          | some (off, start) =>
            match PesParse fuel s.ctx ((data.add s.p).add off) (188 - off) start with
            | Run.returned ctx1 =>
              Run.returned
                { tsdx := { Packets := s.tsdx.Packets + 1 }, ctx := ctx1
                  ret := ((s.p + 188 : Nat) : Int) }
            | Run.aborted => Run.aborted
            | Run.unfinished => Run.unfinished) := by
  have hstep : TsDemuxerLoop fuel data (k + 1) s =
      match TsSpecForward (data.add s.p) with
      | none =>
        TsDemuxerLoop fuel data k
          { tsdx := { Packets := s.tsdx.Packets + 1 }, ctx := s.ctx
            p := s.p + 188, size := s.size - 188 }
      | some (off, start) =>
        match PesParse fuel s.ctx ((data.add s.p).add off) (188 - off) start with
        | Run.returned ctx1 =>
          TsDemuxerLoop fuel data k
            { tsdx := { Packets := s.tsdx.Packets + 1 }, ctx := ctx1
              p := s.p + 188, size := s.size - 188 }
        | Run.aborted => Run.aborted
        | Run.unfinished => Run.unfinished := by
    have hsel := TsPayloadStart_spec (data.add s.p)
    rw [TsDemuxerLoop, if_pos (by exact hsize)]
    simp only
    rw [if_neg (by show ¬ ((data (s.p + 0)).val ≠ TS_PACKET_SYNC); rw [Nat.add_zero, hsync]; decide)]
    rw [hsel]
    cases hfw : TsSpecForward (data.add s.p) with
    | none => rfl
    | some v =>
      obtain ⟨off, start⟩ := v
      obtain ⟨hst, -, -⟩ := TsSpecForward_flag _ off start hfw
      simp only [Option.map_some']
      rw [← hst]
      rfl
  refine ⟨hstep, ?_, ?_, ?_⟩
  rotate_left 2
  · intro hlast
    rw [hstep]
    cases TsSpecForward (data.add s.p) with
    | none =>
      simp only
      rw [TsDemuxerLoop_done fuel data k _ (by show s.size - 188 < 188; omega)]
    | some v =>
      obtain ⟨off, start⟩ := v
      simp only
      cases PesParse fuel s.ctx ((data.add s.p).add off) (188 - off) start with
      | returned ctx1 =>
        simp only
        rw [TsDemuxerLoop_done fuel data k _ (by show s.size - 188 < 188; omega)]
      | aborted => rfl
      | unfinished => rfl
  · intro off start h
    obtain ⟨hst, h4, h187⟩ := TsSpecForward_flag _ off start h
    refine ⟨h4, by omega, ?_⟩
    rw [hst]
    exact decide_eq_true_iff
  · obtain ⟨he, -⟩ := ts_byte1_bits (data (s.p + 1))
    have hb3 : ∀ b : Byte, (b.val &&& 0x30 = 0x00 ↔ b.val / 16 % 4 = 0)
        ∧ (b.val &&& 0x30 = 0x20 ↔ b.val / 16 % 4 = 2) := by
      set_option maxRecDepth 100000 in decide
    obtain ⟨h01, h11⟩ := ts_byte3_bits (data (s.p + 3))
    obtain ⟨h00, h10⟩ := hb3 (data (s.p + 3))
    unfold TsSpecForward
    show (if (data (s.p + 1)).val / 128 = 1 then none
      else if (data (s.p + 3)).val / 16 % 4 = 1 then _
      else if (data (s.p + 3)).val / 16 % 4 = 3 ∧ (data (s.p + 4)).val ≤ 182 then _
      else none) = none ↔ _
    constructor
    · intro h
      split at h
      · rename_i e; exact Or.inl (he.2 e)
      · split at h
        · cases h
        · split at h
          · cases h
          · rename_i e a1 a3
            have : (data (s.p + 3)).val / 16 % 4 < 4 := Nat.mod_lt _ (by decide)
            by_cases c0 : (data (s.p + 3)).val / 16 % 4 = 0
            · exact Or.inr (Or.inl (h00.2 c0))
            · by_cases c2 : (data (s.p + 3)).val / 16 % 4 = 2
              · exact Or.inr (Or.inr (Or.inl (h10.2 c2)))
              · have c3 : (data (s.p + 3)).val / 16 % 4 = 3 := by omega
                refine Or.inr (Or.inr (Or.inr ⟨h11.2 c3, ?_⟩))
                by_contra hlt
                exact a3 ⟨c3, by omega⟩
    · intro h
      rcases h with h | h | h | ⟨h, hl⟩
      · rw [if_pos (he.1 h)]
      · have c := h00.1 h
        split
        · rfl
        · rw [if_neg (by omega), if_neg (by omega)]
      · have c := h10.1 h
        split
        · rfl
        · rw [if_neg (by omega), if_neg (by omega)]
      · have c := h11.1 h
        split
        · rfl
        · rw [if_neg (by omega), if_neg (by omega)]

/-- Witness for C11: a buffer holding only the first of the example transport
packets.  The packet is forwarded from offset 4 with the start flag;
`TsDemuxer` returns 188 with one packet counted and the PES demuxer as
`PesParse` left it: the 14 header bytes taken, 170 payload bytes buffered. -/
theorem TsDemuxer_forwards_by_header_witness :
    TsSpecForward (exTsAc3.add 0) = some (4, true)
    ∧ ∃ ctx1, PesParse 6 exFreshCtx ((exTsAc3.add 0).add 4) (188 - 4) true
          = Run.returned ctx1
        ∧ ctx1.pesdx.State = PesState.PES_START ∧ ctx1.pesdx.HeaderIndex = 14
        ∧ ctx1.pesdx.Index = 170
        ∧ TsDemuxerLoop 6 exTsAc3 (0 + 1)
            { tsdx := { Packets := 0 }, ctx := exFreshCtx, p := 0, size := 188 }
          = Run.returned
              { tsdx := { Packets := 0 + 1 }, ctx := ctx1
                ret := ((0 + 188 : Nat) : Int) } :=
  ⟨by decide, _, rfl, rfl, rfl, rfl,
    (TsDemuxer_forwards_by_header 6 exTsAc3 0
      { tsdx := { Packets := 0 }, ctx := exFreshCtx, p := 0, size := 188 }
      (by decide) (by decide)).2.2.2 (by decide)⟩

/-- The repeat count `CodecAudioPassthroughHelper` computes is the one of the
specification. -/
theorem eac3_repeat_eq (frame : List Byte) :
    (if (Ptr.ofList frame 4).val &&& 0xc0 ≠ 0xc0 then
        eac3_repeat.getD (((Ptr.ofList frame 4).val &&& 0x30) >>> 4) 0
      else 1) = Eac3RepeatSpec frame := by
  unfold Eac3RepeatSpec
  show (if (frame.getD 4 0).val &&& 0xc0 ≠ 0xc0 then _ else _) = _
  split_ifs <;> first | rfl | contradiction

/-- The low byte of a stored 16-bit word. -/
theorem storeLe16_lo (spdif : Ptr) (k w i : Nat) (h : i = 2 * k) :
    storeLe16 spdif k w i = Fin.ofNat (w % 256) := by
  unfold storeLe16
  rw [if_pos h]

/-- The high byte of a stored 16-bit word. -/
theorem storeLe16_hi (spdif : Ptr) (k w i : Nat) (h : i = 2 * k + 1) :
    storeLe16 spdif k w i = Fin.ofNat (w / 256 % 256) := by
  unfold storeLe16
  rw [if_neg (by omega), if_pos h]

/-- Storing a 16-bit word leaves the other bytes alone. -/
theorem storeLe16_other (spdif : Ptr) (k w i : Nat) (h1 : i ≠ 2 * k) (h2 : i ≠ 2 * k + 1) :
    storeLe16 spdif k w i = spdif i := by
  unfold storeLe16
  rw [if_neg h1, if_neg h2]

/-- Bytes in front of the filled range are not touched by `memset`. -/
theorem memset_apply_lt (dst : Ptr) (idx : Nat) (val : Byte) (n i : Nat) (h : i < idx) :
    memset dst idx val n i = dst i := by
  unfold memset
  rw [if_neg (by omega)]

/-- The E-AC-3 branch of the helper while the burst is not complete: the
frame is taken into the burst buffer, nothing is enqueued. -/
theorem CodecAudioPassthroughHelper_eac3_accumulate (cp cd : Nat) (d : AudioDecoder)
    (sink : List (List Byte)) (avpkt : AVPacket)
    (hcp : cp &&& CodecEAC3 ≠ 0) (hc : d.codec_id = CodecID.EAC3)
    (hfit : d.SpdifIndex + (avpkt.data.length : Int) + 8 ≤ Eac3BurstSize d)
    (hin : 2 * (4 + d.SpdifIndex.toNat) + 2 * (avpkt.data.length / 2) ≤ SpdifBytes)
    (hcount : d.SpdifCount + 1 < Eac3RepeatSpec avpkt.data) :
    ∃ r, CodecAudioPassthroughHelper cp cd d sink avpkt = some r
      ∧ r.sink = sink ∧ r.ret = 1
      ∧ r.audio_decoder.codec_id = CodecID.EAC3
      ∧ r.audio_decoder.HwSampleRate = d.HwSampleRate
      ∧ r.audio_decoder.SpdifIndex = d.SpdifIndex + (avpkt.data.length : Int)
      ∧ r.audio_decoder.SpdifCount = d.SpdifCount + 1 := by
  unfold CodecAudioPassthroughHelper
  simp only
  rw [if_neg (by rw [hc]; simp), if_pos ⟨hcp, hc⟩, if_neg (by omega),
    if_neg (by rw [Int.toNat_ofNat]; omega), eac3_repeat_eq, if_pos hcount]
  exact ⟨_, rfl, rfl, rfl, hc, rfl, rfl, rfl⟩

/-- The E-AC-3 branch of the helper when the burst is complete: one burst is
enqueued, with the data-type word 0x15 and the length word 8 times the bytes
collected, cut to 16 bits, and the index and the counter start again at 0. -/
theorem CodecAudioPassthroughHelper_eac3_flush (cp cd : Nat) (d : AudioDecoder)
    (sink : List (List Byte)) (avpkt : AVPacket)
    (hcp : cp &&& CodecEAC3 ≠ 0) (hc : d.codec_id = CodecID.EAC3)
    (hfit : d.SpdifIndex + (avpkt.data.length : Int) + 8 ≤ Eac3BurstSize d)
    (hin : 2 * (4 + d.SpdifIndex.toNat) + 2 * (avpkt.data.length / 2) ≤ SpdifBytes)
    (hcount : ¬ d.SpdifCount + 1 < Eac3RepeatSpec avpkt.data) :
    ∃ r burst, CodecAudioPassthroughHelper cp cd d sink avpkt = some r
      ∧ r.sink = sink ++ [burst] ∧ r.ret = 1
      ∧ burst.length = (Eac3BurstSize d).toNat
      ∧ (burst.getD 4 0, burst.getD 5 0) = (0x15, 0x00)
      ∧ [burst.getD 6 0, burst.getD 7 0]
          = le16 ((8 * (d.SpdifIndex + (avpkt.data.length : Int))).toNat % 65536)
      ∧ r.audio_decoder.codec_id = CodecID.EAC3
      ∧ r.audio_decoder.HwSampleRate = d.HwSampleRate
      ∧ r.audio_decoder.SpdifIndex = 0
      ∧ r.audio_decoder.SpdifCount = 0 := by
  have hsz : 8 ≤ (Eac3BurstSize d).toNat := by
    unfold Eac3BurstSize
    split <;> decide
  have hsz2 : 8 ≤ Eac3BurstSize d := by
    unfold Eac3BurstSize
    split <;> decide
  unfold CodecAudioPassthroughHelper
  simp only
  rw [if_neg (by rw [hc]; simp), if_pos ⟨hcp, hc⟩, if_neg (by omega),
    if_neg (by rw [Int.toNat_ofNat]; omega), eac3_repeat_eq, if_neg hcount]
  refine ⟨_, _, rfl, rfl, rfl, Ptr.bytes_length _ _, ?_, ?_, hc, rfl, rfl, rfl⟩
  · simp only [Ptr.bytes_getD]
    rw [if_pos (by omega), if_pos (by omega),
      memset_apply_lt _ _ _ _ _ (by omega), memset_apply_lt _ _ _ _ _ (by omega),
      storeLe16_other _ 3 _ 4 (by decide) (by decide),
      storeLe16_other _ 3 _ 5 (by decide) (by decide),
      storeLe16_lo _ 2 _ 4 rfl, storeLe16_hi _ 2 _ 5 rfl]
    rfl
  · simp only [Ptr.bytes_getD]
    rw [if_pos (by omega), if_pos (by omega),
      memset_apply_lt _ _ _ _ _ (by omega), memset_apply_lt _ _ _ _ _ (by omega),
      storeLe16_lo _ 3 _ 6 rfl, storeLe16_hi _ 3 _ 7 rfl]
    unfold le16
    have e : ((d.SpdifIndex + (avpkt.data.length : Int)) * 8).toNat
        = (8 * (d.SpdifIndex + (avpkt.data.length : Int))).toNat := by
      rw [Int.mul_comm]
    rw [e]
    have h1 : (8 * (d.SpdifIndex + (avpkt.data.length : Int))).toNat % 65536 % 256
        = (8 * (d.SpdifIndex + (avpkt.data.length : Int))).toNat % 256 := by omega
    have h2 : (8 * (d.SpdifIndex + (avpkt.data.length : Int))).toNat % 65536 / 256 % 256
        = (8 * (d.SpdifIndex + (avpkt.data.length : Int))).toNat / 256 % 256 := by omega
    rw [h1, h2]

/-- The frame lengths of two packet lists add up. -/
theorem framesLength_append (a b : List AVPacket) :
    framesLength (a ++ b) = framesLength a + framesLength b := by
  unfold framesLength
  rw [List.map_append, List.sum_append]

/-- The sum of frame lengths is not negative. -/
theorem framesLength_nonneg : ∀ pkts : List AVPacket, 0 ≤ framesLength pkts
  | [] => le_refl _
  | avpkt :: rest => by
    have := framesLength_nonneg rest
    have e : framesLength (avpkt :: rest) = (avpkt.data.length : Int) + framesLength rest := by
      simp [framesLength]
    rw [e]
    omega

/-- A run over two packet lists is the run over the second after the run over
the first. -/
theorem CodecAudioPassthroughRun_append (cp cd : Nat) : ∀ (a b : List AVPacket)
    (d : AudioDecoder) (sink : List (List Byte)),
    CodecAudioPassthroughRun cp cd d sink (a ++ b) =
      match CodecAudioPassthroughRun cp cd d sink a with
      | none => none
      | some r => CodecAudioPassthroughRun cp cd r.1 r.2 b
  | [], b, d, sink => rfl
  | avpkt :: rest, b, d, sink => by
    show CodecAudioPassthroughRun cp cd d sink (avpkt :: (rest ++ b)) = _
    rw [CodecAudioPassthroughRun, CodecAudioPassthroughRun]
    split
    · rfl
    · exact CodecAudioPassthroughRun_append cp cd rest b _ _

/-- The burst size depends on the hardware sample rate only. -/
theorem Eac3BurstSize_congr (d d2 : AudioDecoder) (h : d2.HwSampleRate = d.HwSampleRate) :
    Eac3BurstSize d2 = Eac3BurstSize d := by
  unfold Eac3BurstSize
  rw [h]

/-- The E-AC-3 branch of the helper when the frame fits the burst but its copy
runs past the end of the `Spdif` array: the call has no defined result. -/
theorem CodecAudioPassthroughHelper_eac3_overrun (cp cd : Nat) (d : AudioDecoder)
    (sink : List (List Byte)) (avpkt : AVPacket)
    (hcp : cp &&& CodecEAC3 ≠ 0) (hc : d.codec_id = CodecID.EAC3)
    (hfit : d.SpdifIndex + (avpkt.data.length : Int) + 8 ≤ Eac3BurstSize d)
    (hover : SpdifBytes < 2 * (4 + d.SpdifIndex.toNat) + 2 * (avpkt.data.length / 2)) :
    CodecAudioPassthroughHelper cp cd d sink avpkt = none := by
  unfold CodecAudioPassthroughHelper
  simp only
  rw [if_neg (by rw [hc]; simp), if_pos ⟨hcp, hc⟩, if_neg (by omega),
    if_pos (by rw [Int.toNat_ofNat]; exact hover)]

/-- A run over E-AC-3 frames that do not complete the burst and whose copies
stay inside the `Spdif` array: nothing is enqueued, the index grows by the
frame lengths and the counter by the number of frames. -/
theorem CodecAudioPassthroughRun_eac3_accumulate (cp cd : Nat) (R : Int)
    (hcp : cp &&& CodecEAC3 ≠ 0) : ∀ (pkts : List AVPacket) (d : AudioDecoder)
    (sink : List (List Byte)),
    d.codec_id = CodecID.EAC3 → 0 ≤ d.SpdifIndex →
    (∀ avpkt ∈ pkts, Eac3RepeatSpec avpkt.data = R) →
    d.SpdifCount + (pkts.length : Int) < R →
    d.SpdifIndex + framesLength pkts + 8 ≤ Eac3BurstSize d →
    8 + 2 * (d.SpdifIndex + framesLength pkts) ≤ (SpdifBytes : Int) →
    ∃ d2, CodecAudioPassthroughRun cp cd d sink pkts = some (d2, sink)
      ∧ d2.codec_id = CodecID.EAC3 ∧ d2.HwSampleRate = d.HwSampleRate
      ∧ d2.SpdifIndex = d.SpdifIndex + framesLength pkts
      ∧ d2.SpdifCount = d.SpdifCount + (pkts.length : Int)
  | [], d, sink, hc, _, _, _, _, _ => by
    refine ⟨d, rfl, hc, rfl, ?_, ?_⟩
    · show d.SpdifIndex = d.SpdifIndex + 0
      omega
    · show d.SpdifCount = d.SpdifCount + ((0 : Nat) : Int)
      omega
  | avpkt :: rest, d, sink, hc, hidx, hrep, hcount, hfit, hin => by
    have e : framesLength (avpkt :: rest) = (avpkt.data.length : Int) + framesLength rest := by
      simp [framesLength]
    have hl : ((avpkt :: rest).length : Int) = (rest.length : Int) + 1 := by
      simp
    rw [e] at hfit hin
    rw [hl] at hcount
    have hnn := framesLength_nonneg rest
    have hR := hrep avpkt (List.mem_cons_self _ _)
    obtain ⟨r, hr, hs, -, h1, h2, h3, h4⟩ :=
      CodecAudioPassthroughHelper_eac3_accumulate cp cd d sink avpkt hcp hc (by omega)
        (by omega) (by rw [hR]; omega)
    obtain ⟨d2, g1, g2, g3, g4, g5⟩ :=
      CodecAudioPassthroughRun_eac3_accumulate cp cd R hcp rest r.audio_decoder r.sink h1
        (by rw [h3]; omega)
        (fun p hp => hrep p (List.mem_cons_of_mem _ hp)) (by rw [h4]; omega)
        (by rw [h3, Eac3BurstSize_congr _ _ h2]; omega) (by rw [h3]; omega)
    refine ⟨d2, ?_, g2, g3.trans h2, ?_, ?_⟩
    · rw [CodecAudioPassthroughRun, hr]
      simp only
      rw [g1, hs]
    · rw [g4, h3, e]
      omega
    · rw [g5, h4, hl]
      omega

/-- The E-AC-3 burst cadence while every copy stays inside the `Spdif` array
(8 plus twice the sum of the frame lengths at most 24576, which every run
that fits a burst of 6144 bytes satisfies): `R` frames with repeat count `R`
from `SpdifIndex = SpdifCount = 0`.  The first `k` calls, `k < R`, enqueue
nothing and leave `SpdifIndex` at the sum of the `k` frame lengths and
`SpdifCount` at `k`; call `R` enqueues one burst of 6144 bytes for a hardware
sample rate of 48000 and of 24576 bytes otherwise, with the data-type word
0x15 and the length word 8 times the sum of the frame lengths modulo 2^16,
and sets `SpdifIndex` and `SpdifCount` back to 0. -/
theorem CodecAudioPassthroughRun_eac3_cadence_inside_array (cp cd : Nat) (d : AudioDecoder)
    (sink : List (List Byte)) (pkts : List AVPacket) (R : Int)
    (hcp : cp &&& CodecEAC3 ≠ 0) (hc : d.codec_id = CodecID.EAC3)
    (hidx : d.SpdifIndex = 0) (hcnt : d.SpdifCount = 0)
    (hne : pkts ≠ []) (hlen : (pkts.length : Int) = R)
    (hrep : ∀ avpkt ∈ pkts, Eac3RepeatSpec avpkt.data = R)
    (hfit : framesLength pkts + 8 ≤ Eac3BurstSize d)
    (hin : 8 + 2 * framesLength pkts ≤ (SpdifBytes : Int)) :
    (∀ k, k < pkts.length →
      ∃ dk, CodecAudioPassthroughRun cp cd d sink (pkts.take k) = some (dk, sink)
        ∧ dk.SpdifIndex = framesLength (pkts.take k) ∧ dk.SpdifCount = (k : Int))
    ∧ ∃ d2 burst, CodecAudioPassthroughRun cp cd d sink pkts = some (d2, sink ++ [burst])
        ∧ burst.length = (if d.HwSampleRate = 48000 then 6144 else 24576)
        ∧ (burst.getD 4 0, burst.getD 5 0) = (0x15, 0x00)
        ∧ [burst.getD 6 0, burst.getD 7 0] = le16 ((8 * framesLength pkts).toNat % 65536)
        ∧ d2.SpdifIndex = 0 ∧ d2.SpdifCount = 0 := by
  constructor
  · intro k hk
    have hsplit : framesLength pkts
        = framesLength (pkts.take k) + framesLength (pkts.drop k) := by
      rw [← framesLength_append, List.take_append_drop]
    have hnn := framesLength_nonneg (pkts.drop k)
    have hlk : (pkts.take k).length = k := by
      rw [List.length_take]; omega
    obtain ⟨dk, g1, -, -, g4, g5⟩ :=
      CodecAudioPassthroughRun_eac3_accumulate cp cd R hcp (pkts.take k) d sink hc
        (by omega)
        (fun p hp => hrep p (List.mem_of_mem_take hp)) (by rw [hcnt, hlk]; omega)
        (by rw [hidx]; omega) (by rw [hidx]; omega)
    refine ⟨dk, g1, ?_, ?_⟩
    · rw [g4, hidx]; omega
    · rw [g5, hcnt, hlk]; omega
  · rcases List.eq_nil_or_concat pkts with h | ⟨init, last, h⟩
    · exact absurd h hne
    · rw [List.concat_eq_append] at h
      subst h
      have hl : ((init ++ [last]).length : Int) = (init.length : Int) + 1 := by simp
      have e : framesLength (init ++ [last])
          = framesLength init + (last.data.length : Int) := by
        rw [framesLength_append]
        simp [framesLength]
      have hnn := framesLength_nonneg init
      obtain ⟨d1, g1, g2, g3, g4, g5⟩ :=
        CodecAudioPassthroughRun_eac3_accumulate cp cd R hcp init d sink hc (by omega)
          (fun p hp => hrep p (List.mem_append_left _ hp)) (by rw [hcnt]; omega)
          (by rw [hidx]; omega) (by rw [hidx]; omega)
      have hR := hrep last (List.mem_append_right _ (List.mem_singleton_self _))
      obtain ⟨r, burst, hr, hs, -, b1, b2, b3, -, -, b6, b7⟩ :=
        CodecAudioPassthroughHelper_eac3_flush cp cd d1 sink last hcp g2
          (by rw [g4, hidx, Eac3BurstSize_congr _ _ g3]; omega)
          (by rw [g4, hidx]; omega) (by rw [hR, g5, hcnt]; omega)
      refine ⟨r.audio_decoder, burst, ?_, ?_, b2, ?_, b6, b7⟩
      · rw [CodecAudioPassthroughRun_append, g1]
        simp only
        rw [CodecAudioPassthroughRun, hr]
        simp only
        rw [CodecAudioPassthroughRun, hs]
      · rw [b1, Eac3BurstSize_congr _ _ g3]
        unfold Eac3BurstSize
        split <;> rfl
      · rw [b3, g4, hidx, e, Int.zero_add]

/-- C33 fails on the code: the premises of the cadence do not keep the copy
inside the `Spdif` array.  Let a decoder set up for E-AC-3 pass-through start
with `SpdifIndex = SpdifCount = 0` and get `R` frames that each carry the
repeat count `R` and together fit the burst, and let the frames before the
last stay inside the array.  The calls before the last enqueue nothing and
accumulate as claimed.  But the copy of a frame starts at byte
`8 + 2 * SpdifIndex`, not `8 + SpdifIndex`: when that start plus the length
of the last frame (cut to an even number) passes the 24576 bytes of the
array, call `R` writes over `SpdifIndex`, `SpdifCount` and what follows them,
and the run has no defined result: no burst is known to be enqueued and the
counters are not known to be 0. -/
theorem CodecAudioPassthroughRun_eac3_cadence_overruns (cp cd : Nat) (d : AudioDecoder)
    (sink : List (List Byte)) (init : List AVPacket) (last : AVPacket) (R : Int)
    (hcp : cp &&& CodecEAC3 ≠ 0) (hc : d.codec_id = CodecID.EAC3)
    (hidx : d.SpdifIndex = 0) (hcnt : d.SpdifCount = 0)
    (hlen : ((init ++ [last]).length : Int) = R)
    (hrep : ∀ avpkt ∈ init ++ [last], Eac3RepeatSpec avpkt.data = R)
    (hfit : framesLength (init ++ [last]) + 8 ≤ Eac3BurstSize d)
    (hin : 8 + 2 * framesLength init ≤ (SpdifBytes : Int))
    (hover : (SpdifBytes : Int)
      < 8 + 2 * framesLength init + 2 * ((last.data.length / 2 : Nat) : Int)) :
    (∃ d1, CodecAudioPassthroughRun cp cd d sink init = some (d1, sink)
      ∧ d1.SpdifIndex = framesLength init ∧ d1.SpdifCount = (init.length : Int))
    ∧ CodecAudioPassthroughRun cp cd d sink (init ++ [last]) = none := by
  have hl : ((init ++ [last]).length : Int) = (init.length : Int) + 1 := by simp
  have e : framesLength (init ++ [last])
      = framesLength init + (last.data.length : Int) := by
    rw [framesLength_append]
    simp [framesLength]
  have hnn := framesLength_nonneg init
  obtain ⟨d1, g1, g2, g3, g4, g5⟩ :=
    CodecAudioPassthroughRun_eac3_accumulate cp cd R hcp init d sink hc (by omega)
      (fun p hp => hrep p (List.mem_append_left _ hp)) (by rw [hcnt]; omega)
      (by rw [hidx]; omega) (by rw [hidx]; omega)
  refine ⟨⟨d1, g1, by rw [g4, hidx]; omega, by rw [g5, hcnt]; omega⟩, ?_⟩
  have hov := CodecAudioPassthroughHelper_eac3_overrun cp cd d1 sink last hcp g2
    (by rw [g4, hidx, Eac3BurstSize_congr _ _ g3]; omega)
    (by rw [g4, hidx]; omega)
  rw [CodecAudioPassthroughRun_append, g1]
  simp only
  rw [CodecAudioPassthroughRun, hov]

/-- Witness for C33: six frames of 2400 bytes with repeat count 6 on a newly
allocated decoder with a 192 kHz output.  The frames fit the burst of 24576
bytes (14400 + 8).  After five calls `SpdifIndex` is 12000 and `SpdifCount`
5; the copy of the sixth frame starts at byte 8 + 2 * 12000 = 24008 and would
end at byte 26408, behind the array. -/
theorem CodecAudioPassthroughRun_eac3_cadence_overruns_witness :
    Eac3BurstSize exEac3Fast = 24576 ∧ framesLength exEac3Long = 14400
    ∧ (∀ avpkt ∈ exEac3Long, Eac3RepeatSpec avpkt.data = 6)
    ∧ (∃ d1, CodecAudioPassthroughRun CodecEAC3 0 exEac3Fast []
          (List.replicate 5 exEac3LongFrame) = some (d1, [])
        ∧ d1.SpdifIndex = framesLength (List.replicate 5 exEac3LongFrame)
        ∧ d1.SpdifCount = ((List.replicate 5 exEac3LongFrame).length : Int))
    ∧ CodecAudioPassthroughRun CodecEAC3 0 exEac3Fast []
        (List.replicate 5 exEac3LongFrame ++ [exEac3LongFrame]) = none :=
  have hlenf : exEac3LongFrame.data.length = 2400 := by
    show ([0x0B, 0x77, 0x04, 0xAF, 0x00] ++ List.replicate 2395 (0 : Byte)).length = 2400
    rw [List.length_append, List.length_replicate]
    rfl
  have hfl5 : framesLength (List.replicate 5 exEac3LongFrame) = 12000 := by
    simp [framesLength, List.replicate, hlenf]
  have hfl6 : framesLength (List.replicate 5 exEac3LongFrame ++ [exEac3LongFrame])
      = 14400 := by
    simp [framesLength, List.replicate, hlenf]
  have hrep : ∀ avpkt ∈ List.replicate 5 exEac3LongFrame ++ [exEac3LongFrame],
      Eac3RepeatSpec avpkt.data = 6 := by
    intro avpkt h
    have : avpkt = exEac3LongFrame := by
      rcases List.mem_append.1 h with h | h
      · exact (List.mem_replicate.1 h).2
      · exact List.mem_singleton.1 h
    rw [this]
    rfl
  ⟨by decide, hfl6, hrep,
    CodecAudioPassthroughRun_eac3_cadence_overruns CodecEAC3 0 exEac3Fast []
      (List.replicate 5 exEac3LongFrame) exEac3LongFrame 6 (by decide) rfl rfl rfl
      (by decide) hrep (by rw [hfl6]; decide) (by rw [hfl5]; decide)
      (by rw [hfl5, hlenf]; decide)⟩

end SoftHdDevice
